import Mathlib

/-!
# hetzner-k3s: provisioning and bootstrap orchestrator

A shallow embedding of the orchestrator of `janosmiko/hetzner-k3s` (Go packages
`internal/k3s`, `internal/hetzner`, `internal/cluster`, `internal/config`) and
proofs about it.

Conventions of the embedding.

* Go strings are `String`; functions that inspect characters work on `s.data`.
* Go functions with a receiver mutate the client; here they are state
  transformers over `World` (cluster cache, provider store, call logs).
* A Go `error` result is an `Except Err α` value (or `Option Err` for functions
  returning only an error).  `logger.Fatal`, `panic` and `os.Exit` stop the
  process: `Outcome.halt`.
* The Cloud Resource Provider (hcloud API) is a name-indexed store per resource
  kind; every API call is appended to `World.log`, and `Env.apiFails` says which
  calls return an error.
* The Remote Executor (`ssh.Client.SSHCommand`) is an oracle `Env.ssh` indexed
  by the number of commands executed so far; every command is appended to
  `World.sshLog`.
-/

namespace HetznerK3s

/-! ## Strings and regular expressions -/

/-- RE2 class `\d`: an ASCII decimal digit. -/
def isDigit (c : Char) : Bool := 48 ≤ c.toNat && c.toNat ≤ 57

/-- Strip the literal `word` from the front of the text, if it is there. -/
def dropWord : List Char → List Char → Option (List Char)
  | [], t => some t
  | _ :: _, [] => none
  | a :: w, b :: t => if a = b then dropWord w t else none

/-- The pattern `word\d$` tried at the start of the text `t`: the literal, one
digit, and then the end of the text. -/
def matchHere (word t : List Char) : Bool :=
  match dropWord word t with
  | some [d] => isDigit d
  | _ => false

/-- Go `regexp.MustCompile(word + "\d$").MatchString(name)`: an unanchored search,
the pattern is tried at every offset of the name. -/
def matchWordDigitEnd (word name : String) : Bool :=
  name.data.tails.any (matchHere word.data)

/-- Go `unicode.IsSpace`. -/
def isSpace (c : Char) : Bool :=
  let n := c.toNat
  n == 9 || n == 10 || n == 11 || n == 12 || n == 13 || n == 32 || n == 0x85 || n == 0xA0
    || n == 0x1680 || (0x2000 ≤ n && n ≤ 0x200A) || n == 0x2028 || n == 0x2029
    || n == 0x202F || n == 0x205F || n == 0x3000

/-- Go `strings.TrimSpace` on the characters of a string. -/
def trimSpaceChars (s : List Char) : List Char :=
  ((s.dropWhile isSpace).reverse.dropWhile isSpace).reverse

/-- Go `strings.TrimSpace`. -/
def trimSpace (s : String) : String := ⟨trimSpaceChars s.data⟩

/-- Go `strings.Split(s, sep)` for a one-character separator: the pieces between
the separators, always at least one piece. -/
def splitChars (sep : Char) : List Char → List (List Char)
  | [] => [[]]
  | c :: cs =>
    if c = sep then [] :: splitChars sep cs
    else
      match splitChars sep cs with
      | [] => [[c]]
      | p :: ps => (c :: p) :: ps

/-- Go `s[len(s)-1]` on the pieces of `strings.Split(token, ":")`. -/
def lastPiece (sep : Char) (s : List Char) : List Char :=
  (splitChars sep s).getLastD []

/-- Go `net.IP.String()` of a possibly nil address. -/
def ipString : Option String → String
  | some ip => ip
  | none => "<nil>"

/-! ## Data model -/

/-- Go `error` values, kept as their message. -/
abbrev Err := String

/-- Go `net.IPNet`: an address and the length of its mask. -/
structure IPNet where
  ip : Nat
  ones : Nat
  bits : Nat
  deriving DecidableEq, Repr

inductive Direction where
  | «in» | out
  deriving DecidableEq, Repr

inductive Protocol where
  | tcp | udp | icmp
  deriving DecidableEq, Repr

/-- Type `hcloud.FirewallRule`. -/
structure FirewallRule where
  description : String
  direction : Direction
  sourceIPs : List IPNet
  protocol : Protocol
  port : Option String
  deriving DecidableEq, Repr

/-- Type `hcloud.Server` (the fields the orchestrator reads). -/
structure Server where
  id : Nat
  name : String
  publicIP : Option String
  privateNet : Option (List String)
  labels : List (String × String)
  serverType : String
  deriving DecidableEq, Repr

structure Subnet where
  ipRange : Option IPNet
  networkZone : String
  deriving DecidableEq, Repr

/-- Type `hcloud.Network`. -/
structure Network where
  id : Nat
  name : String
  ipRange : Option IPNet
  subnets : List Subnet
  deriving DecidableEq, Repr

/-- Type `hcloud.Firewall`. -/
structure Firewall where
  id : Nat
  name : String
  rules : List FirewallRule
  deriving DecidableEq, Repr

/-- Type `hcloud.SSHKey`. -/
structure SSHKey where
  id : Nat
  name : String
  publicKey : String
  deriving DecidableEq, Repr

/-- Type `hcloud.PlacementGroup`. -/
structure PlacementGroup where
  id : Nat
  name : String
  deriving DecidableEq, Repr

/-- A load balancer target: a label selector, or a target of another type. -/
inductive LBTarget where
  | labelSelector (selector : String)
  | other
  deriving DecidableEq, Repr

/-- Type `hcloud.LoadBalancer`. -/
structure LoadBalancer where
  id : Nat
  name : String
  publicIP : Option String
  targets : List LBTarget
  deriving DecidableEq, Repr

/-- Type `hcloud.Location`. -/
structure Location where
  name : String
  deriving DecidableEq, Repr

/-- Type `config.MasterConfig`. -/
structure MasterConfig where
  instanceType : String
  instanceCount : Nat
  deriving DecidableEq, Repr

/-- Type `config.WorkerConfig`. -/
structure WorkerConfig where
  name : String
  instanceType : String
  instanceCount : Nat
  location : String
  deriving DecidableEq, Repr

/-- Type `config.AutoscalerConfig`. -/
structure AutoscalerConfig where
  name : String
  instanceType : String
  instanceMin : Nat
  instanceMax : Nat
  location : String
  deriving DecidableEq, Repr

/-- Type `config.Config` (the ClusterSpec). -/
structure Config where
  hetznerToken : String := ""
  clusterName : String
  kubeconfigPath : String := ""
  k3sVersion : String := ""
  publicSSHKeyPath : String := ""
  privateSSHKeyPath : String := ""
  sshAllowedNetworks : List String := []
  apiAllowedNetworks : List String := []
  location : String := ""
  scheduleWorkloadsOnMasters : Bool := false
  masters : MasterConfig
  workerNodePools : List WorkerConfig := []
  autoscalingNodePools : List AutoscalerConfig := []
  clusterAutoscalerArgs : List String := []
  existingNetwork : String := ""
  networkIPRange : String := ""
  scheduleCSIControllerOnMaster : Bool := false
  image : String := ""
  deriving DecidableEq, Repr

/-- Type `cluster.Cluster` (the ClusterState): the cached handles and the
embedded configuration. -/
structure Cluster where
  k3sToken : String := ""
  userData : String := ""
  clusterNetworkIPRange : Option IPNet := none
  clusterNetworkZone : String := ""
  network : Option Network := none
  sshKey : Option SSHKey := none
  firewall : Option Firewall := none
  loadBalancer : Option LoadBalancer := none
  placementGroups : List PlacementGroup := []
  instances : List Server := []
  masterInstances : List Server := []
  workerInstances : List Server := []
  privateSSHKeyPassphrase : String := ""
  config : Config
  deriving DecidableEq, Repr

/-- Resource kinds of the Cloud Resource Provider. -/
inductive Kind where
  | loadBalancer | sshKey | server | placementGroup | network | firewall | location
  deriving DecidableEq, Repr

/-- Operations of the Cloud Resource Provider. -/
inductive Op where
  | get | list | create | delete | setRules | addSubnet | addTarget
  deriving DecidableEq, Repr

/-- One call to the Cloud Resource Provider. -/
structure Call where
  op : Op
  kind : Kind
  name : String
  deriving DecidableEq, Repr

/-- The resources held by the Cloud Resource Provider. -/
structure Provider where
  servers : List Server := []
  networks : List Network := []
  firewalls : List Firewall := []
  sshKeys : List SSHKey := []
  placementGroups : List PlacementGroup := []
  loadBalancers : List LoadBalancer := []
  locations : List Location := []
  nextID : Nat := 1
  deriving DecidableEq, Repr

/-- Result of `ssh.Client.SSHCommand`: the output and the error. -/
structure SSHResult where
  out : String
  err : Option Err
  deriving DecidableEq, Repr

/-- The commands the orchestrator runs in a local shell, by what they apply. -/
inductive Payload where
  /-- the secret of the cloud-controller-manager -/
  | ccmSecret
  /-- the manifest of the cloud-controller-manager -/
  | ccmManifest
  /-- the manifest of the system upgrade controller -/
  | upgradeController
  /-- the secret of the storage (CSI) driver -/
  | csiSecret
  /-- deleting the previous manifest of the storage driver -/
  | csiDriverDelete
  /-- the manifest of the storage driver -/
  | csiDriver
  /-- the patch that schedules the storage controller on the masters -/
  | csiControllerUpdate
  /-- the secret of the cluster autoscaler -/
  | autoscalerSecret
  /-- the manifest of the cluster autoscaler -/
  | autoscalerManifest
  deriving DecidableEq, Repr

/-- The library `hashicorp/go-version` as `sortVersions` uses it: `NewVersion`,
the order of `version.Collection`, and `Version.String`. -/
structure VersionLib (V : Type) where
  parse : String → Option V
  le : V → V → Bool
  render : V → String

/-- The collaborators the orchestrator cannot see into. -/
structure Env where
  /-- which provider calls return an error -/
  apiFails : Call → Bool
  /-- result of the `n`-th remote command, given the address and the command -/
  ssh : Nat → String → String → SSHResult
  /-- Go `net.ParseCIDR`, the network part of its result -/
  parseCIDR : String → Option IPNet
  /-- Go `os.ReadFile` -/
  readFile : String → Option String
  /-- whether `ssh.ParseAuthorizedKey` accepts the bytes -/
  validAuthorizedKey : String → Bool
  /-- public address the provider gives to the resource with this id -/
  addressOf : Nat → String
  /-- the cloud-init document rendered by `userData` from the configuration -/
  cloudInit : Config → String
  /-- Go `user.Current()`: the home directory of the user, if there is a user -/
  homeDir : Option String := some "/home/user"
  /-- Go `path.Join` of two elements -/
  pathJoin : String → String → String := fun dir rest => dir ++ "/" ++ rest
  /-- Go `os.Stat`: whether the path is a directory, or nothing on an error -/
  stat : String → Option Bool := fun _ => some false
  /-- Function `ssh.ParseSSHPasshprase`: the passphrase, or nothing on an error -/
  parsePassphrase : String → Option String := fun _ => some ""
  /-- Function `getPublicIP` (validation.go): the caller's address as a `/32` -/
  publicIP : Except Err IPNet := .ok { ip := 3405803777, ones := 32, bits := 32 }
  /-- Go `IPNet.Contains`, asked for the address of the second network -/
  contains : IPNet → IPNet → Bool := fun n a =>
    decide (n.bits = a.bits) &&
      decide (n.ip / 2 ^ (n.bits - n.ones) = a.ip / 2 ^ (n.bits - n.ones))
  /-- Method `Client.fetchReleases`: the names of the releases on GitHub -/
  releases : Except Err (List String) := .ok []
  /-- Method `Client.latestVersion`: the name of the latest release, or nothing
  on an error -/
  latestRelease : Option String := none
  /-- Go `regexp.Compile` -/
  regexpCompile : String → Option (String → Bool) := fun _ => none
  /-- Go `exec.LookPath("kubectl")`: whether `kubectl` is in the `PATH` -/
  kubectlInPath : Bool := true
  /-- Method `shell.Client.RunCommand`: which commands end with an error -/
  shellFails : Payload → Bool := fun _ => false
  /-- the version library; the carrier is the canonical text of a version -/
  versions : VersionLib String :=
    { parse := fun s =>
        match s.data with
        | 'v' :: rest => some ⟨rest⟩
        | _ => some s
      le := fun _ _ => true
      render := fun s => s }

/-- Everything a run of the orchestrator reads and writes. -/
structure World where
  env : Env
  cluster : Cluster
  provider : Provider
  /-- provider calls issued so far, oldest first -/
  log : List Call := []
  /-- remote commands issued so far (address, command), oldest first -/
  sshLog : List (String × String) := []
  /-- bytes that `crypto/rand` will deliver next -/
  entropy : List Nat := []
  /-- local shell commands run so far, oldest first -/
  shellLog : List Payload := []

/-- Why the process stopped. -/
inductive Halt where
  | fatal
  | panic
  deriving DecidableEq, Repr

/-- Result of a step: a value, or the process stopped. -/
inductive Outcome (α : Type) where
  | ok (a : α)
  | halt (h : Halt)
  deriving DecidableEq, Repr

/-- State transformers over the world. -/
def M (α : Type) : Type := World → Outcome α × World

/-- Sequencing: a stopped process runs nothing more. -/
def M.bind {α β : Type} (m : M α) (f : α → M β) : M β := fun w =>
  match m w with
  | (.ok a, w1) => f a w1
  | (.halt h, w1) => (.halt h, w1)

instance : Monad M where
  pure a := fun w => (.ok a, w)
  bind := M.bind

/-- Stop the process. -/
def halt {α : Type} (h : Halt) : M α := fun w => (.halt h, w)

/-- Read the cluster state. -/
def getCluster : M Cluster := fun w => (.ok w.cluster, w)

/-- Update the cluster state. -/
def modifyCluster (f : Cluster → Cluster) : M Unit := fun w =>
  (.ok (), { w with cluster := f w.cluster })

/-- Read the provider store. -/
def getProvider : M Provider := fun w => (.ok w.provider, w)

/-- Update the provider store. -/
def modifyProvider (f : Provider → Provider) : M Unit := fun w =>
  (.ok (), { w with provider := f w.provider })

/-- Read the collaborators. -/
def getEnv : M Env := fun w => (.ok w.env, w)

/-- Issue a provider call: it is logged, and the answer says whether it failed. -/
def api (c : Call) : M Bool := fun w =>
  (.ok (w.env.apiFails c), { w with log := w.log ++ [c] })

/-- Method `ssh.Client.SSHCommand`: run a command on a remote address. -/
def SSHCommand (address command : String) : M SSHResult := fun w =>
  (.ok (w.env.ssh w.sshLog.length address command),
    { w with sshLog := w.sshLog ++ [(address, command)] })

/-! ## Cloud Resource Provider: the hcloud client

Every call is logged first; when `Env.apiFails` marks it, it returns an error and
leaves the store untouched. -/

/-- The error a failed provider call returns. -/
def providerError : Err := "provider error"

/-- Run a provider call: log it, and perform it unless the provider fails it. -/
def apiCall {α : Type} (c : Call) (k : M α) : M (Except Err α) := do
  let failed ← api c
  if failed then pure (.error providerError)
  else do
    let a ← k
    pure (.ok a)

/-- Type `hcloud.ServerCreateOpts`. -/
structure ServerCreateOpts where
  name : String
  serverType : String
  sshKeys : List SSHKey
  networks : List Network
  firewalls : List Firewall
  placementGroup : PlacementGroup
  image : String
  location : Option Location
  userData : String
  labels : List (String × String)
  deriving DecidableEq, Repr

/-- Call `Client.Server.Get(ctx, name)`. -/
def serverGet (name : String) : M (Except Err (Option Server)) :=
  apiCall ⟨.get, .server, name⟩ do
    let p ← getProvider
    pure (p.servers.find? fun s => decide (s.name = name))

/-- Call `Client.Server.Create(ctx, opts)`. -/
def serverCreate (opts : ServerCreateOpts) : M (Except Err Server) :=
  apiCall ⟨.create, .server, opts.name⟩ do
    let p ← getProvider
    let env ← getEnv
    let server : Server :=
      { id := p.nextID, name := opts.name, publicIP := some (env.addressOf p.nextID),
        privateNet := none, labels := opts.labels, serverType := opts.serverType }
    modifyProvider fun p => { p with servers := p.servers ++ [server], nextID := p.nextID + 1 }
    pure server

/-- Call `Client.Server.Delete(ctx, server)`. -/
def serverDelete (server : Server) : M (Except Err Unit) :=
  apiCall ⟨.delete, .server, server.name⟩ do
    modifyProvider fun p => { p with servers := p.servers.filter fun s => decide (s.id ≠ server.id) }

/-- Call `Client.Server.List(ctx, opts)`, all pages of it. -/
def serverList : M (Except Err (List Server)) :=
  apiCall ⟨.list, .server, ""⟩ do
    let p ← getProvider
    pure p.servers

/-- Call `Client.PlacementGroup.Get(ctx, name)`. -/
def placementGroupGet (name : String) : M (Except Err (Option PlacementGroup)) :=
  apiCall ⟨.get, .placementGroup, name⟩ do
    let p ← getProvider
    pure (p.placementGroups.find? fun g => decide (g.name = name))

/-- Call `Client.PlacementGroup.Create(ctx, opts)`. -/
def placementGroupCreate (name : String) : M (Except Err PlacementGroup) :=
  apiCall ⟨.create, .placementGroup, name⟩ do
    let p ← getProvider
    let pg : PlacementGroup := { id := p.nextID, name := name }
    modifyProvider fun p =>
      { p with placementGroups := p.placementGroups ++ [pg], nextID := p.nextID + 1 }
    pure pg

/-- Call `Client.PlacementGroup.Delete(ctx, pg)`. -/
def placementGroupDelete (pg : PlacementGroup) : M (Except Err Unit) :=
  apiCall ⟨.delete, .placementGroup, pg.name⟩ do
    modifyProvider fun p =>
      { p with placementGroups := p.placementGroups.filter fun g => decide (g.id ≠ pg.id) }

/-- Call `Client.SSHKey.Get(ctx, name)`. -/
def sshKeyGet (name : String) : M (Except Err (Option SSHKey)) :=
  apiCall ⟨.get, .sshKey, name⟩ do
    let p ← getProvider
    pure (p.sshKeys.find? fun k => decide (k.name = name))

/-- Call `Client.SSHKey.Create(ctx, opts)`. -/
def sshKeyCreate (name publicKey : String) : M (Except Err SSHKey) :=
  apiCall ⟨.create, .sshKey, name⟩ do
    let p ← getProvider
    let key : SSHKey := { id := p.nextID, name := name, publicKey := publicKey }
    modifyProvider fun p => { p with sshKeys := p.sshKeys ++ [key], nextID := p.nextID + 1 }
    pure key

/-- Call `Client.SSHKey.Delete(ctx, key)`. -/
def sshKeyDelete (key : SSHKey) : M (Except Err Unit) :=
  apiCall ⟨.delete, .sshKey, key.name⟩ do
    modifyProvider fun p => { p with sshKeys := p.sshKeys.filter fun k => decide (k.id ≠ key.id) }

/-- Call `Client.Network.Get(ctx, name)`. -/
def networkGet (name : String) : M (Except Err (Option Network)) :=
  apiCall ⟨.get, .network, name⟩ do
    let p ← getProvider
    pure (p.networks.find? fun n => decide (n.name = name))

/-- Call `Client.Network.Create(ctx, opts)`. -/
def networkCreate (name : String) (ipRange : Option IPNet) : M (Except Err Network) :=
  apiCall ⟨.create, .network, name⟩ do
    let p ← getProvider
    let network : Network := { id := p.nextID, name := name, ipRange := ipRange, subnets := [] }
    modifyProvider fun p => { p with networks := p.networks ++ [network], nextID := p.nextID + 1 }
    pure network

/-- Call `Client.Network.AddSubnet(ctx, network, opts)`. -/
def networkAddSubnet (network : Network) (subnet : Subnet) : M (Except Err Unit) :=
  apiCall ⟨.addSubnet, .network, network.name⟩ do
    modifyProvider fun p =>
      { p with networks := p.networks.map fun n =>
          if n.id = network.id then { n with subnets := n.subnets ++ [subnet] } else n }

/-- Call `Client.Network.Delete(ctx, network)`. -/
def networkDelete (network : Network) : M (Except Err Unit) :=
  apiCall ⟨.delete, .network, network.name⟩ do
    modifyProvider fun p =>
      { p with networks := p.networks.filter fun n => decide (n.id ≠ network.id) }

/-- Call `Client.Firewall.Get(ctx, name)`. -/
def firewallGet (name : String) : M (Except Err (Option Firewall)) :=
  apiCall ⟨.get, .firewall, name⟩ do
    let p ← getProvider
    pure (p.firewalls.find? fun f => decide (f.name = name))

/-- Call `Client.Firewall.Create(ctx, opts)`. -/
def firewallCreate (name : String) (rules : List FirewallRule) : M (Except Err Firewall) :=
  apiCall ⟨.create, .firewall, name⟩ do
    let p ← getProvider
    let fw : Firewall := { id := p.nextID, name := name, rules := rules }
    modifyProvider fun p => { p with firewalls := p.firewalls ++ [fw], nextID := p.nextID + 1 }
    pure fw

/-- Call `Client.Firewall.SetRules(ctx, fw, opts)`. -/
def firewallSetRules (fw : Firewall) (rules : List FirewallRule) : M (Except Err Unit) :=
  apiCall ⟨.setRules, .firewall, fw.name⟩ do
    modifyProvider fun p =>
      { p with firewalls := p.firewalls.map fun f =>
          if f.id = fw.id then { f with rules := rules } else f }

/-- Call `Client.Firewall.Delete(ctx, fw)`. -/
def firewallDelete (fw : Firewall) : M (Except Err Unit) :=
  apiCall ⟨.delete, .firewall, fw.name⟩ do
    modifyProvider fun p =>
      { p with firewalls := p.firewalls.filter fun f => decide (f.id ≠ fw.id) }

/-- Call `Client.LoadBalancer.Get(ctx, name)`. -/
def loadBalancerGet (name : String) : M (Except Err (Option LoadBalancer)) :=
  apiCall ⟨.get, .loadBalancer, name⟩ do
    let p ← getProvider
    pure (p.loadBalancers.find? fun l => decide (l.name = name))

/-- Call `Client.LoadBalancer.Create(ctx, opts)` with one label-selector target.
The provider stores the balancer with its public address; the creation result does
not carry the address yet (see the comment in `Client.loadBalancer`). -/
def loadBalancerCreate (name selector : String) : M (Except Err LoadBalancer) :=
  apiCall ⟨.create, .loadBalancer, name⟩ do
    let p ← getProvider
    let env ← getEnv
    let lb : LoadBalancer :=
      { id := p.nextID, name := name, publicIP := some (env.addressOf p.nextID),
        targets := [.labelSelector selector] }
    modifyProvider fun p =>
      { p with loadBalancers := p.loadBalancers ++ [lb], nextID := p.nextID + 1 }
    pure { lb with publicIP := none }

/-- Call `Client.LoadBalancer.AddLabelSelectorTarget(ctx, lb, opts)`. -/
def loadBalancerAddLabelSelectorTarget (lb : LoadBalancer) (selector : String) :
    M (Except Err Unit) :=
  apiCall ⟨.addTarget, .loadBalancer, lb.name⟩ do
    modifyProvider fun p =>
      { p with loadBalancers := p.loadBalancers.map fun l =>
          if l.id = lb.id then { l with targets := l.targets ++ [.labelSelector selector] }
          else l }

/-- Call `Client.LoadBalancer.Delete(ctx, lb)`. -/
def loadBalancerDelete (lb : LoadBalancer) : M (Except Err Unit) :=
  apiCall ⟨.delete, .loadBalancer, lb.name⟩ do
    modifyProvider fun p =>
      { p with loadBalancers := p.loadBalancers.filter fun l => decide (l.id ≠ lb.id) }

/-- Call `Client.Location.Get(ctx, name)`. -/
def locationGet (name : String) : M (Except Err (Option Location)) :=
  apiCall ⟨.get, .location, name⟩ do
    let p ← getProvider
    pure (p.locations.find? fun l => decide (l.name = name))

/-- Call `Client.Location.List(ctx, opts)`. -/
def locationList : M (Except Err (List Location)) :=
  apiCall ⟨.list, .location, ""⟩ do
    let p ← getProvider
    pure p.locations

/-! ## Package `internal/hetzner`: the Resource Reconciler -/

/-- Go `strings.HasPrefix`. -/
def hasPrefix (s pre : String) : Bool := (dropWord pre.data s.data).isSome

/-- Method `Client.CreateServer` (server.go). -/
def CreateServer (opts : ServerCreateOpts) : M (Except Err Server) := do
  match ← serverGet opts.name with
  | .error e => pure (.error ("cannot get server: " ++ e))
  | .ok (some server) => pure (.ok server)
  | .ok none =>
    match ← serverCreate opts with
    | .error e => pure (.error ("cannot create server: " ++ e))
    | .ok server => pure (.ok server)

/-- Method `Client.DeleteServer` (server.go). -/
def DeleteServer (server : Server) : M (Option Err) := do
  match ← serverDelete server with
  | .error e => pure (some ("cannot delete server: " ++ e))
  | .ok _ => pure none

/-- Method `Client.GetServer` (server.go). -/
def GetServer (server : Server) : M (Except Err (Option Server)) := do
  match ← serverGet server.name with
  | .error e => pure (.error ("cannot get server: " ++ e))
  | .ok s => pure (.ok s)

/-- Method `Client.belongsToCluster` (server.go). -/
def belongsToCluster (server : Server) (clusterName : String) : Bool :=
  server.labels.any fun kv =>
    (decide (kv.1 = "hcloud/node-group") && hasPrefix kv.2 clusterName)
      || (decide (kv.1 = "cluster") && decide (kv.2 = clusterName))

/-- Method `Client.fetchServers` (hetzner.go): every page of the server listing. -/
def fetchServers : M (Except Err (List Server)) := do
  match ← serverList with
  | .error e => pure (.error ("cannot list servers: " ++ e))
  | .ok servers => pure (.ok servers)

/-- Method `Client.GetAllServers` (hetzner.go). -/
def GetAllServers : M (Except Err (List Server)) := do
  match ← fetchServers with
  | .error e => pure (.error ("cannot fetch servers: " ++ e))
  | .ok allServers =>
    let cluster ← getCluster
    pure (.ok (allServers.filter fun s => belongsToCluster s cluster.config.clusterName))

/-- Method `Client.GetLocations` (location.go). -/
def GetLocations : M (Except Err (List Location)) := do
  match ← locationList with
  | .error e => pure (.error ("cannot fetch locations: " ++ e))
  | .ok ls => pure (.ok ls)

/-- Method `Client.CreatePlacementGroup` (placementgroups.go). -/
def CreatePlacementGroup (pgName : String) : M (Except Err PlacementGroup) := do
  match ← placementGroupGet pgName with
  | .error e => pure (.error ("cannot get placement group: " ++ e))
  | .ok (some pg) => pure (.ok pg)
  | .ok none =>
    match ← placementGroupCreate pgName with
    | .error e => pure (.error ("cannot create placement group: " ++ e))
    | .ok pg => pure (.ok pg)

/-- Method `Client.DeletePlacementGroup` (placementgroups.go). -/
def DeletePlacementGroup (pg : PlacementGroup) : M (Option Err) := do
  match ← placementGroupDelete pg with
  | .error e => pure (some ("cannot delete placement group: " ++ e))
  | .ok _ => pure none

/-- Method `Client.CreateSSHKey` (sshkey.go). -/
def CreateSSHKey : M (Except Err SSHKey) := do
  let cluster ← getCluster
  let env ← getEnv
  match env.readFile cluster.config.publicSSHKeyPath with
  | none => pure (.error "cannot read file")
  | some sshkeybytes =>
    if !env.validAuthorizedKey sshkeybytes then pure (.error "cannot parse ssh public key")
    else
      match ← sshKeyGet cluster.config.clusterName with
      | .error e => pure (.error ("cannot get ssh public key: " ++ e))
      | .ok (some key) => pure (.ok key)
      | .ok none =>
        match ← sshKeyCreate cluster.config.clusterName sshkeybytes with
        | .error e => pure (.error ("cannot create ssh public key: " ++ e))
        | .ok key => pure (.ok key)

/-- Method `Client.DeleteSSHKey` (sshkey.go). -/
def DeleteSSHKey (key : SSHKey) : M (Option Err) := do
  match ← sshKeyDelete key with
  | .error e => pure (some ("cannot delete ssh public key: " ++ e))
  | .ok _ => pure none

/-- Function `iprange` (network.go). -/
def iprange (parseCIDR : String → Option IPNet) (cluster : Cluster) : Option IPNet :=
  match cluster.clusterNetworkIPRange with
  | none => parseCIDR cluster.config.networkIPRange
  | some r => some r

/-- Method `Client.addSubnet` (network.go). -/
def addSubnet (network : Network) : M (Option Err) := do
  let cluster ← getCluster
  if cluster.clusterNetworkIPRange = none then
    modifyCluster fun c => { c with clusterNetworkIPRange := network.ipRange }
  let cluster ← getCluster
  if network.subnets.any fun v => decide (v.ipRange = cluster.clusterNetworkIPRange) then
    pure none
  else
    match ← networkAddSubnet network
        { ipRange := cluster.clusterNetworkIPRange, networkZone := cluster.clusterNetworkZone } with
    | .error e => pure (some ("subnet cannot be attached: " ++ e))
    | .ok _ => pure none

/-- The name `CreateNetwork` looks the network up by: the existing network when
one is configured, else the cluster name. -/
def networkName (config : Config) : String :=
  if config.existingNetwork ≠ "" then config.existingNetwork else config.clusterName

/-- Method `Client.CreateNetwork` (network.go). -/
def CreateNetwork : M (Except Err Network) := do
  let cluster ← getCluster
  let env ← getEnv
  let networkName := networkName cluster.config
  match ← networkGet networkName with
  | .error e => pure (.error ("cannot get network: " ++ e))
  | .ok (some network) =>
    match ← addSubnet network with
    | some e => pure (.error ("cannot add subnet: " ++ e))
    | none => pure (.ok network)
  | .ok none =>
    match ← networkCreate networkName (iprange env.parseCIDR cluster) with
    | .error e => pure (.error ("cannot create network: " ++ e))
    | .ok network =>
      match ← addSubnet network with
      | some e => pure (.error ("cannot add subnet: " ++ e))
      | none => pure (.ok network)

/-- Method `Client.DeleteNetwork` (network.go). -/
def DeleteNetwork (network : Network) : M (Option Err) := do
  match ← networkDelete network with
  | .error e => pure (some ("cannot create network: " ++ e))
  | .ok _ => pure none

/-- The rule `Allow ICMP (ping)` of `createFirewallRules`. -/
def pingRule : FirewallRule :=
  { description := "Allow ICMP (ping)", direction := .in,
    sourceIPs := [{ ip := 0, ones := 0, bits := 32 }], protocol := .icmp, port := none }

/-- The rule for TCP between the nodes of the private network. -/
def internalTCPRule (range : IPNet) : FirewallRule :=
  { description := "Allow all TCP traffic between nodes on the private network",
    direction := .in, sourceIPs := [range], protocol := .tcp, port := some "any" }

/-- The rule for UDP between the nodes of the private network. -/
def internalUDPRule (range : IPNet) : FirewallRule :=
  { description := "Allow all UDP traffic between nodes on the private network",
    direction := .in, sourceIPs := [range], protocol := .udp, port := some "any" }

/-- The rule `customAPI` of `createFirewallRules`. -/
def customAPIRule (ipnet : IPNet) : FirewallRule :=
  { description := "Allow port 6443 (Kubernetes API server)", direction := .in,
    sourceIPs := [ipnet], protocol := .tcp, port := some "6443" }

/-- The rule `customSSH` of `createFirewallRules`. -/
def customSSHRule (ipnet : IPNet) : FirewallRule :=
  { description := "Allow port 22 (SSH)", direction := .in,
    sourceIPs := [ipnet], protocol := .tcp, port := some "22" }

/-- One of the two loops of `createFirewallRules`: append one rule per entry; the
dereference `*ipnet` of an entry that does not parse stops the process (`none`). -/
def appendCIDRRules (parseCIDR : String → Option IPNet) (mk : IPNet → FirewallRule) :
    List FirewallRule → List String → Option (List FirewallRule)
  | rules, [] => some rules
  | rules, v :: vs =>
    match parseCIDR v with
    | none => none
    | some ipnet => appendCIDRRules parseCIDR mk (rules ++ [mk ipnet]) vs

/-- Function `createFirewallRules` (firewall.go); `none` is a nil-pointer panic. -/
def createFirewallRules (parseCIDR : String → Option IPNet) (cluster : Cluster) :
    Option (List FirewallRule) :=
  match cluster.clusterNetworkIPRange with
  | none => none
  | some range =>
    let rules := [] ++ [pingRule] ++ [internalTCPRule range] ++ [internalUDPRule range]
    let withAPI :=
      if cluster.config.masters.instanceCount = 1 then
        appendCIDRRules parseCIDR customAPIRule rules cluster.config.apiAllowedNetworks
      else some rules
    match withAPI with
    | none => none
    | some rules => appendCIDRRules parseCIDR customSSHRule rules cluster.config.sshAllowedNetworks

/-- Method `Client.CreateFirewall` (firewall.go). -/
def CreateFirewall : M (Except Err Firewall) := do
  let cluster ← getCluster
  let env ← getEnv
  let firewallName := cluster.config.clusterName
  match ← firewallGet firewallName with
  | .error e => pure (.error ("cannot get firewall: " ++ e))
  | .ok (some fw) =>
    match createFirewallRules env.parseCIDR cluster with
    | none => halt .panic
    | some rules =>
      match ← firewallSetRules fw rules with
      | .error e => pure (.error ("cannot set firewall rules: " ++ e))
      | .ok _ => pure (.ok fw)
  | .ok none =>
    match createFirewallRules env.parseCIDR cluster with
    | none => halt .panic
    | some rules =>
      match ← firewallCreate firewallName rules with
      | .error e => pure (.error ("cannot create firewall: " ++ e))
      | .ok fw => pure (.ok fw)

/-- Method `Client.DeleteFirewall` (firewall.go). -/
def DeleteFirewall (fw : Firewall) : M (Option Err) := do
  match ← firewallDelete fw with
  | .error e => pure (some ("firewall cannot be deleted: " ++ e))
  | .ok _ => pure none

/-- The label selector of the load balancer: `cluster=<name>,role=master`. -/
def masterSelector (clusterName : String) : String :=
  "cluster=" ++ clusterName ++ ",role=master"

/-- Method `Client.loadbalancerAddLabelSelector` (loadbalancer.go). -/
def loadbalancerAddLabelSelector (lb : LoadBalancer) : M (Option Err) := do
  let cluster ← getCluster
  let labelSelector := masterSelector cluster.config.clusterName
  if lb.targets.any fun v => decide (v = .labelSelector labelSelector) then pure none
  else
    match ← loadBalancerAddLabelSelectorTarget lb labelSelector with
    | .error e => pure (some ("cannot add label selector to load balancer: " ++ e))
    | .ok _ => pure none

/-- Method `Client.CreateLoadBalancer` (loadbalancer.go).  The network and the
location only enter the creation payload. -/
def CreateLoadBalancer (_network : Network) (_location : Option Location) :
    M (Except Err LoadBalancer) := do
  let cluster ← getCluster
  let lbName := cluster.config.clusterName ++ "-api"
  match ← loadBalancerGet lbName with
  | .error e => pure (.error ("cannot get load balancer: " ++ e))
  | .ok (some lb) =>
    match ← loadbalancerAddLabelSelector lb with
    | some e => pure (.error e)
    | none => pure (.ok lb)
  | .ok none =>
    match ← loadBalancerCreate lbName (masterSelector cluster.config.clusterName) with
    | .error e => pure (.error ("cannot create load balancer: " ++ e))
    | .ok lb =>
      match ← loadbalancerAddLabelSelector lb with
      | some e => pure (.error e)
      | none => pure (.ok lb)

/-- Method `Client.DeleteLoadBalancer` (loadbalancer.go). -/
def DeleteLoadBalancer (lb : LoadBalancer) : M (Option Err) := do
  match ← loadBalancerDelete lb with
  | .error e => pure (some ("load balancer cannont be deleted: " ++ e))
  | .ok _ => pure none

/-! ## Package `internal/k3s`: the Cluster State Cache -/

/-- Method `Client.sshKey` (cluster.go). -/
def sshKey : M SSHKey := do
  let cluster ← getCluster
  match cluster.sshKey with
  | some key => pure key
  | none =>
    match ← CreateSSHKey with
    | .error _ => halt .fatal
    | .ok key =>
      modifyCluster fun c => { c with sshKey := some key }
      pure key

/-- Method `Client.network` (cluster.go). -/
def network : M Network := do
  let cluster ← getCluster
  match cluster.network with
  | some n => pure n
  | none =>
    match ← CreateNetwork with
    | .error _ => halt .fatal
    | .ok n =>
      modifyCluster fun c => { c with network := some n }
      pure n

/-- Method `Client.firewall` (cluster.go). -/
def firewall : M Firewall := do
  let cluster ← getCluster
  match cluster.firewall with
  | some fw => pure fw
  | none =>
    match ← CreateFirewall with
    | .error _ => halt .fatal
    | .ok fw =>
      modifyCluster fun c => { c with firewall := some fw }
      pure fw

/-- Method `Client.placementGroup` (cluster.go). -/
def placementGroup (name : String) : M PlacementGroup := do
  let cluster ← getCluster
  match cluster.placementGroups.find? fun pg => decide (pg.name = name) with
  | some pg => pure pg
  | none =>
    match ← CreatePlacementGroup name with
    | .error _ => halt .fatal
    | .ok pg =>
      modifyCluster fun c => { c with placementGroups := c.placementGroups ++ [pg] }
      pure pg

/-- The loop of `Client.placementGroups` over the worker pools. -/
def poolPlacementGroups (clusterName : String) :
    List PlacementGroup → List WorkerConfig → M (List PlacementGroup)
  | acc, [] => pure acc
  | acc, pool :: pools => do
    let pg ← placementGroup (clusterName ++ "-" ++ pool.name)
    poolPlacementGroups clusterName (acc ++ [pg]) pools

/-- Method `Client.placementGroups` (cluster.go). -/
def placementGroups : M (List PlacementGroup) := do
  let cluster ← getCluster
  if cluster.placementGroups ≠ [] then pure cluster.placementGroups
  else
    let first ← placementGroup cluster.config.clusterName
    let pgs ← poolPlacementGroups cluster.config.clusterName [first] cluster.config.workerNodePools
    modifyCluster fun c => { c with placementGroups := pgs }
    pure pgs

/-- Method `Client.loadBalancer` (cluster.go).  The call site passes the context,
the cluster and the network, and no location. -/
def loadBalancer : M LoadBalancer := do
  let cluster ← getCluster
  match cluster.loadBalancer.filter fun lb => lb.publicIP.isSome with
  | some lb => pure lb
  | none =>
    let net ← network
    match ← CreateLoadBalancer net none with
    | .error _ => halt .fatal
    | .ok lb =>
      modifyCluster fun c => { c with loadBalancer := some lb }
      pure lb

/-- Method `Client.allServers` (cluster.go). -/
def allServers : M (List Server) := do
  let cluster ← getCluster
  if cluster.instances.length > 0 then pure cluster.instances
  else
    match ← GetAllServers with
    | .error _ => halt .fatal
    | .ok servers =>
      modifyCluster fun c => { c with instances := servers }
      pure servers

/-- Method `Client.masters` (cluster.go): the servers whose name matches
`master\d$`. -/
def masters : M (List Server) := do
  let cluster ← getCluster
  if cluster.masterInstances.length > 0 then pure cluster.masterInstances
  else
    let servers ← allServers
    let masters := servers.filter fun server => matchWordDigitEnd "master" server.name
    modifyCluster fun c => { c with masterInstances := masters }
    pure masters

/-- Method `Client.workers` (cluster.go): the servers whose name matches
`worker\d$`. -/
def workers : M (List Server) := do
  let cluster ← getCluster
  if cluster.workerInstances.length > 0 then pure cluster.workerInstances
  else
    let servers ← allServers
    let workers := servers.filter fun server => matchWordDigitEnd "worker" server.name
    modifyCluster fun c => { c with workerInstances := workers }
    pure workers

/-- Method `Client.mastersSize` (cluster.go). -/
def mastersSize (cluster : Cluster) : Nat := cluster.config.masters.instanceCount

/-- Method `Client.firstMasterPublicIP` (cluster.go); indexing an empty master list
panics. -/
def firstMasterPublicIP : M String := do
  let cluster ← getCluster
  match cluster.masterInstances with
  | [] => halt .panic
  | first :: _ => pure (ipString first.publicIP)

/-- Method `Client.apiServerIP` (cluster.go). -/
def apiServerIP : M String := do
  let cluster ← getCluster
  if cluster.config.masters.instanceCount > 1 then
    let lb ← loadBalancer
    pure (ipString lb.publicIP)
  else firstMasterPublicIP

/-- Method `Client.mustLocation` (cluster.go). -/
def mustLocation (name : String) : M (Option Location) := do
  match ← locationGet name with
  | .error _ => halt .fatal
  | .ok location => pure location

/-- Method `Client.masterLocation` (cluster.go). -/
def masterLocation : M (Option Location) := do
  let cluster ← getCluster
  mustLocation cluster.config.location

/-- Method `Client.clusterNetworkIPRange` (cluster.go). -/
def clusterNetworkIPRange : M (Option IPNet) := do
  let cluster ← getCluster
  match cluster.clusterNetworkIPRange with
  | some r => pure (some r)
  | none =>
    let net ← network
    modifyCluster fun c => { c with clusterNetworkIPRange := net.ipRange }
    pure net.ipRange

/-- Method `Client.clusterNetworkZone` (cluster.go). -/
def clusterNetworkZone : M String := do
  let cluster ← getCluster
  if cluster.clusterNetworkZone ≠ "" then pure cluster.clusterNetworkZone
  else
    let zone :=
      if cluster.config.location = "ash" then "us-east"
      else if cluster.config.location = "hil" then "us-west"
      else "eu-central"
    modifyCluster fun c => { c with clusterNetworkZone := zone }
    pure zone

/-! ## Package `internal/k3s`: the Concurrent Provisioner -/

/-- Run a step for every element of a list, in order. -/
def forEach {α β : Type} (f : α → M β) : List α → M (List β)
  | [] => pure []
  | a :: as => do
    let b ← f a
    let bs ← forEach f as
    pure (b :: bs)

/-- Method `Client.userData` (cluster.go): the cloud-init document, rendered once. -/
def userData : M String := do
  let cluster ← getCluster
  if cluster.userData ≠ "" then pure cluster.userData
  else
    let env ← getEnv
    let doc := env.cloudInit cluster.config
    modifyCluster fun c => { c with userData := doc }
    pure doc

/-- One iteration of the loop of `Client.masterDefinitionsForCreate`. -/
def masterDefinition (i : Nat) : M ServerCreateOpts := do
  let cluster ← getCluster
  let key ← sshKey
  let net ← network
  let fw ← firewall
  let pg ← placementGroup cluster.config.clusterName
  let location ← masterLocation
  let doc ← userData
  pure
    { name := cluster.config.clusterName ++ "-" ++ cluster.config.masters.instanceType
        ++ "-master" ++ toString (i + 1)
      serverType := cluster.config.masters.instanceType
      sshKeys := [key], networks := [net], firewalls := [fw], placementGroup := pg
      image := cluster.config.image, location := location, userData := doc
      labels := [("cluster", cluster.config.clusterName), ("role", "master")] }

/-- Method `Client.masterDefinitionsForCreate` (cluster.go). -/
def masterDefinitionsForCreate : M (List ServerCreateOpts) := do
  let cluster ← getCluster
  forEach masterDefinition (List.range (mastersSize cluster))

/-- One iteration of the loop of `Client.workerNodePoolDefinitions`. -/
def workerDefinition (pool : WorkerConfig) (i : Nat) : M ServerCreateOpts := do
  let cluster ← getCluster
  let key ← sshKey
  let net ← network
  let fw ← firewall
  let pg ← placementGroup (cluster.config.clusterName ++ "-" ++ pool.name)
  let location ← mustLocation pool.location
  let doc ← userData
  pure
    { name := cluster.config.clusterName ++ "-" ++ pool.instanceType ++ "-pool-" ++ pool.name
        ++ "-worker" ++ toString (i + 1)
      serverType := cluster.config.masters.instanceType
      sshKeys := [key], networks := [net], firewalls := [fw], placementGroup := pg
      image := cluster.config.image, location := location, userData := doc
      labels := [("cluster", cluster.config.clusterName), ("role", "master")] }

/-- Method `Client.workerNodePoolDefinitions` (cluster.go); it works on a copy of
the pool, whose empty location becomes the name of the master location. -/
def workerNodePoolDefinitions (pool : WorkerConfig) : M (List ServerCreateOpts) := do
  let pool ←
    if pool.location = "" then do
      match ← masterLocation with
      | none => halt .panic
      | some l => pure { pool with location := l.name }
    else pure pool
  forEach (workerDefinition pool) (List.range pool.instanceCount)

/-- Method `Client.serverConfigs` (cluster.go). -/
def serverConfigs : M (List ServerCreateOpts) := do
  let cluster ← getCluster
  let masterDefs ← masterDefinitionsForCreate
  let workerDefs ← forEach workerNodePoolDefinitions cluster.config.workerNodePools
  pure (masterDefs ++ workerDefs.flatten)

/-- Modelled from the library `avast/retry-go`: `retry.Do(o, retry.Attempts(n))` runs
the step until it returns no error, at most `n` times. -/
def retryDo : Nat → M (Option Err) → M (Option Err)
  | 0, _ => pure (some "All attempts fail")
  | n + 1, o => do
    match ← o with
    | none => pure none
    | some _ => retryDo n o

/-- The closure `o` of `Client.waitForSSH`: one readiness probe. -/
def readyProbe (server : Server) : M (Option Err) := do
  let r ← SSHCommand (ipString server.publicIP) "cat /etc/ready"
  match r.err with
  | some e => pure (some ("command failed: " ++ e))
  | none =>
    if trimSpace r.out ≠ "true" then pure (some "server is not ready")
    else pure none

/-- Method `Client.waitForSSH` (cluster.go). -/
def waitForSSH (server : Server) : M (Option Err) := do
  match ← retryDo 15 (readyProbe server) with
  | some e => pure (some ("failed after 15 tries. error: " ++ e))
  | none => pure none

/-- The order in which tasks started together get to run: the scheduler picks,
step by step, one of the tasks still waiting; a schedule that ends early leaves
the rest in their starting order. -/
def completionOrder {α : Type} : List Nat → List α → List α
  | [], xs => xs
  | k :: ks, xs =>
    match xs[k % xs.length]? with
    | none => []
    | some x => x :: completionOrder ks (xs.eraseIdx (k % xs.length))

/-- The first fan-out of `createServers`: every creation task runs; the servers
are collected in completion order, and the group reports its first error. -/
def createAll : List ServerCreateOpts → M (List Server × Option Err)
  | [] => pure ([], none)
  | opts :: rest => do
    let r ← CreateServer opts
    let (servers, err) ← createAll rest
    match r with
    | .error e => pure (servers, some ("cannot create server: " ++ e))
    | .ok server => pure (server :: servers, err)

/-- The second fan-out of `createServers`: every readiness task runs, and the
group reports its first error. -/
def waitAll : List Server → M (Option Err)
  | [] => pure none
  | server :: rest => do
    let r ← waitForSSH server
    let err ← waitAll rest
    match r with
    | some e => pure (some e)
    | none => pure err

/-- Go `<` on strings: lexicographic on the bytes. -/
def charsLt : List Char → List Char → Bool
  | _, [] => false
  | [], _ :: _ => true
  | a :: as, b :: bs =>
    if a.toNat < b.toNat then true
    else if b.toNat < a.toNat then false
    else charsLt as bs

/-- The order `sort.Slice` puts the servers in: not `servers[j].Name < servers[i].Name`. -/
def nameLe (a b : Server) : Prop := charsLt b.name.data a.name.data = false

instance : DecidableRel nameLe := fun a b =>
  inferInstanceAs (Decidable (charsLt b.name.data a.name.data = false))

/-- Method `Client.createServers` (cluster.go).  The two schedules say in which
order the creation tasks and the readiness tasks of the two groups run. -/
def createServers (order probeOrder : List Nat) : M (Option Err) := do
  let configs ← serverConfigs
  let (servers, err) ← createAll (completionOrder order configs)
  match err with
  | some e => pure (some ("an error occurred: " ++ e))
  | none =>
    match ← waitAll (completionOrder probeOrder servers) with
    | some e => pure (some ("an error occurred: " ++ e))
    | none =>
      modifyCluster fun c => { c with instances := servers.insertionSort nameLe }
      let _ ← masters
      let _ ← workers
      pure none

/-- Method `Client.createResources` (cluster.go). -/
def createResources (order probeOrder : List Nat) : M (Option Err) := do
  match ← createServers order probeOrder with
  | some e => pure (some ("cannot create servers: " ++ e))
  | none =>
    let cluster ← getCluster
    if mastersSize cluster > 1 then
      let _ ← loadBalancer
      pure none
    else pure none

/-! ## Package `internal/k3s`: the Teardown Orchestrator -/

/-- Method `Client.validateToken` (validation.go). -/
def validateToken : M (Option Err) := do
  match ← GetLocations with
  | .error e => pure (some ("cannot validate token: " ++ e))
  | .ok _ => pure none

/-- Method `Client.validateCluster` (validation.go); `Cluster.Validate` returns nil. -/
def validateCluster : M (Option Err) := pure none

/-- Method `Client.validateDelete` (validation.go), which `validate("delete")` runs. -/
def validateDelete : M (Option Err) := do
  match ← validateToken with
  | some e => pure (some e)
  | none =>
    let _ ← clusterNetworkZone
    let _ ← clusterNetworkIPRange
    match ← validateCluster with
    | some e => pure (some e)
    | none => pure none

/-- Method `Client.deleteServers` (cluster.go). -/
def deleteServers : List Server → M (Option Err)
  | [] => pure none
  | server :: rest => do
    match ← DeleteServer server with
    | some e => pure (some ("cannot delete server: " ++ e))
    | none => deleteServers rest

/-- Method `Client.deletePlacementGroups` (cluster.go). -/
def deletePlacementGroups : List PlacementGroup → M (Option Err)
  | [] => pure none
  | pg :: rest => do
    match ← DeletePlacementGroup pg with
    | some e => pure (some ("cannot delete placement group: " ++ e))
    | none => deletePlacementGroups rest

/-- Method `Client.DeleteCluster` (cluster.go). -/
def DeleteCluster : M (Option Err) := do
  match ← validateDelete with
  | some e => pure (some e)
  | none =>
    let lb ← loadBalancer
    let _ ← DeleteLoadBalancer lb
    let key ← sshKey
    let _ ← DeleteSSHKey key
    let servers ← allServers
    let _ ← deleteServers servers
    let pgs ← placementGroups
    let _ ← deletePlacementGroups pgs
    let net ← network
    let _ ← DeleteNetwork net
    let fw ← firewall
    let _ ← DeleteFirewall fw
    pure none

/-! ## Package `internal/k3s`: the join token -/

/-- One lower-case hexadecimal digit. -/
def hexDigit (n : Nat) : Char :=
  if n < 10 then Char.ofNat (48 + n) else Char.ofNat (87 + n)

/-- Go `hex.EncodeToString`: two digits per byte. -/
def hexEncode : List Nat → List Char
  | [] => []
  | b :: bs => hexDigit (b % 256 / 16) :: hexDigit (b % 16) :: hexEncode bs

/-- Function `randomHex` (k3s.go): `rand.Read` fills `n` bytes (or the process
panics), and the first `n` characters of their hexadecimal encoding are kept. -/
def randomHex (n : Nat) : M String := fun w =>
  if w.entropy.length < n then (.halt .panic, w)
  else (.ok ⟨(hexEncode (w.entropy.take n)).take n⟩, { w with entropy := w.entropy.drop n })

/-- The command `k3sToken` runs on the first master. -/
def tokenCommand : String :=
  "\x7b TOKEN=$(< /var/lib/rancher/k3s/server/node-token); \x7d 2> /dev/null; echo $TOKEN"

/-- Method `Client.k3sToken` (k3s.go). -/
def k3sToken : M String := do
  let cluster ← getCluster
  if cluster.k3sToken ≠ "" then pure cluster.k3sToken
  else
    let ip ← firstMasterPublicIP
    let r ← SSHCommand ip tokenCommand
    match r.err with
    | some _ => halt .panic
    | none =>
      let trimmed := trimSpace r.out
      let token ← if trimmed = "" then randomHex 32 else pure ⟨lastPiece ':' trimmed.data⟩
      modifyCluster fun c => { c with k3sToken := token }
      pure token

/-! ## Package `internal/k3s`: the Bootstrap Coordinator

`deployK3s` is embedded over the trace of bootstrap commands it issues.  The
construction of a script (`masterScript`, `workerScript`) is opaque text, except
that it can stop the process (`k3sToken` panics, `loadBalancer` and `privateIP` are
fatal on a provider error); the Remote Executor decides whether a command
succeeds. -/

/-- A node receiving a bootstrap command: its position in `MasterInstances`, or in
the list `workers()` returns. -/
inductive Node where
  | master (i : Nat)
  | worker (j : Nat)
  deriving DecidableEq, Repr

/-- What deploying on a node comes to. -/
inductive CmdResult where
  /-- the command was sent and `SSHCommand` returned no error -/
  | ok
  /-- the command was sent and `SSHCommand` returned an error -/
  | failed
  /-- building the script stopped the process before the command was sent -/
  | aborted
  deriving DecidableEq, Repr

/-- What the coordinator does, as seen by the Remote Executor. -/
inductive Event where
  /-- `SSHCommand(server address, script)` is called for the node -/
  | issue (n : Node) (server : Server)
  /-- that call has returned, with or without an error -/
  | done (n : Node) (ok : Bool)
  /-- the process stops -/
  | abort (n : Node)
  deriving DecidableEq, Repr

/-- Methods `Client.deployK3sOnMaster` and `Client.deployK3sOnWorker` (k3s.go): the
events of deploying on one node. -/
def deployOn (res : Node → CmdResult) (n : Node) (server : Server) : List Event :=
  match res n with
  | .ok => [.issue n server, .done n true]
  | .failed => [.issue n server, .done n false]
  | .aborted => [.abort n]

/-- Let the `k`-th task of a group take its next step. -/
def popTask : Nat → List (List Event) → Option (Event × List (List Event))
  | _, [] => none
  | 0, [] :: _ => none
  | 0, (e :: es) :: rest => some (e, es :: rest)
  | k + 1, t :: rest =>
    match popTask k rest with
    | none => none
    | some (e, rest1) => some (e, t :: rest1)

/-- The steps a scheduler makes the tasks of an `errgroup.Group` take, and what is
left of the tasks: each number of the schedule picks the task that steps next (a
number that picks no runnable task is skipped). -/
def runSchedule : List Nat → List (List Event) → List Event × List (List Event)
  | [], tasks => ([], tasks)
  | k :: ks, tasks =>
    match popTask k tasks with
    | none => runSchedule ks tasks
    | some (e, tasks1) =>
      let r := runSchedule ks tasks1
      (e :: r.1, r.2)

/-- Call `errGroup.Wait()`: the tasks interleave as the schedule says and all run
to their end. -/
def interleave (sched : List Nat) (tasks : List (List Event)) : List Event :=
  let r := runSchedule sched tasks
  r.1 ++ r.2.flatten

/-- The events up to the point where the process stops, if it does. -/
def untilAbort : List Event → List Event
  | [] => []
  | .abort _ :: _ => []
  | e :: es => e :: untilAbort es

/-- Whether the process stops during these events. -/
def aborts (es : List Event) : Bool :=
  es.any fun e => match e with
    | .abort _ => true
    | _ => false

/-- Whether one of the tasks returned an error. -/
def anyFailed (es : List Event) : Bool :=
  es.any fun e => match e with
    | .done _ false => true
    | _ => false

/-- How `deployK3s` ends. -/
inductive Exit where
  /-- it returned nil -/
  | ok
  /-- it returned an error -/
  | error
  /-- the process stopped (panic or fatal) -/
  | halted
  deriving DecidableEq, Repr

/-- A run of `deployK3s`: the events and the way it ended. -/
structure Run where
  trace : List Event
  exit : Exit
  deriving DecidableEq, Repr

/-- The loop `for i := 1; i < c.mastersSize(); i++` of `deployK3s`: the tasks
started for `MasterInstances[i]`, `i = from, from+1, ...` (`count` of them), and
whether an index was out of range. -/
def startMasters (res : Node → CmdResult) (ms : List Server) :
    Nat → Nat → List (List Event) × Bool
  | _, 0 => ([], true)
  | i, count + 1 =>
    match ms[i]? with
    | none => ([], false)
    | some master =>
      let r := startMasters res ms (i + 1) count
      (deployOn res (.master i) master :: r.1, r.2)

/-- The loop `for _, worker := range c.workers()` of `deployK3s`. -/
def startWorkers (res : Node → CmdResult) : Nat → List Server → List (List Event)
  | _, [] => []
  | j, worker :: rest => deployOn res (.worker j) worker :: startWorkers res (j + 1) rest

/-- The last stage of `deployK3s`: the workers. -/
def deployWorkers (w : World) (res : Node → CmdResult) (sched : List Nat)
    (before : List Event) : Run :=
  match (workers w).1 with
  | .halt _ => { trace := before, exit := .halted }
  | .ok ws =>
    let es := interleave sched (startWorkers res 0 ws)
    if aborts es then { trace := before ++ untilAbort es, exit := .halted }
    else if anyFailed es then { trace := before ++ es, exit := .error }
    else { trace := before ++ es, exit := .ok }

/-- Method `Client.deployK3s` (k3s.go).  `kubeconfigOk` says whether
`saveKubeconfig` can read and write the credentials (it is fatal otherwise); the
two schedules drive the group of the remaining masters and the group of the
workers. -/
def deployK3s (w : World) (res : Node → CmdResult) (kubeconfigOk : Bool)
    (sched1 sched2 : List Nat) : Run :=
  match w.cluster.masterInstances with
  | [] => { trace := [], exit := .halted }
  | first :: _ =>
    let t0 := deployOn res (.master 0) first
    if aborts t0 then { trace := untilAbort t0, exit := .halted }
    else if anyFailed t0 then { trace := t0, exit := .error }
    else if !kubeconfigOk then { trace := t0, exit := .halted }
    else if mastersSize w.cluster > 1 then
      let started := startMasters res w.cluster.masterInstances 1 (mastersSize w.cluster - 1)
      if !started.2 then
        { trace := t0 ++ untilAbort (runSchedule sched1 started.1).1, exit := .halted }
      else
        let es := interleave sched1 started.1
        if aborts es then { trace := t0 ++ untilAbort es, exit := .halted }
        else if anyFailed es then { trace := t0 ++ es, exit := .error }
        else deployWorkers w res sched2 (t0 ++ es)
    else deployWorkers w res sched2 t0

/-- Whether the event is a bootstrap command sent to the node. -/
def isIssueFor (n : Node) : Event → Bool
  | .issue n1 _ => decide (n1 = n)
  | _ => false

/-- The node an event is about. -/
def Event.node : Event → Node
  | .issue n _ => n
  | .done n _ => n
  | .abort n => n

/-- The events of the group of the remaining masters when all its tasks run to
their end (no event when there is one master). -/
def masterStage (w : World) (res : Node → CmdResult) (sched1 : List Nat) : List Event :=
  if mastersSize w.cluster > 1 then
    interleave sched1
      (startMasters res w.cluster.masterInstances 1 (mastersSize w.cluster - 1)).1
  else []

/-- The events of the group of the workers when all its tasks run to their end. -/
def workerStage (ws : List Server) (res : Node → CmdResult) (sched2 : List Nat) : List Event :=
  interleave sched2 (startWorkers res 0 ws)

/-- How many creation calls for a resource kind there are among provider calls. -/
def creations (k : Kind) (calls : List Call) : Nat :=
  calls.countP fun c => decide (c.op = .create ∧ c.kind = k)

/-! ## Frame conditions -/

/-- The world `w1` comes after `w`: the collaborators, the configuration and the
local shell commands run so far are the same, and the provider calls logged in
between all satisfy `P`. -/
def Steps (P : Call → Prop) (w w1 : World) : Prop :=
  w1.env = w.env ∧ w1.cluster.config = w.cluster.config ∧ w1.shellLog = w.shellLog ∧
    ∃ calls, w1.log = w.log ++ calls ∧ ∀ c ∈ calls, P c

/-- From every world, running `m` only issues provider calls that satisfy `P`
(and keeps the collaborators and the configuration, and runs no local shell command). -/
@[irreducible]
def Emits {α : Type} (P : Call → Prop) (m : M α) : Prop :=
  ∀ w, Steps P w (m w).2

/-- From every world, running `m` issues at most `n` creation calls for the
resource kind `k`. -/
@[irreducible]
def CreatesAtMost {α : Type} (k : Kind) (n : Nat) (m : M α) : Prop :=
  ∀ w, ∃ calls, (m w).2.log = w.log ++ calls ∧ creations k calls ≤ n

/-- Running `m` never changes the cluster state (the cache and the
configuration). -/
@[irreducible]
def KeepsCluster {α : Type} (m : M α) : Prop :=
  ∀ w, (m w).2.cluster = w.cluster

/-- Calls that neither concern the load balancer nor delete anything. -/
def Call.quiet (c : Call) : Prop := c.kind ≠ .loadBalancer ∧ c.op ≠ .delete

/-- The calls after the first `n` of a log. -/
def callsSince (n : Nat) (log : List Call) : List Call := log.drop n

/-! ## Example clusters -/

/-- Collaborators that never fail: no provider errors, empty remote output. -/
def demoEnv : Env :=
  { apiFails := fun _ => false
    ssh := fun _ _ _ => { out := "", err := none }
    parseCIDR := fun s =>
      if s = "10.0.0.0/16" then some { ip := 167772160, ones := 16, bits := 32 }
      else if s = "0.0.0.0/0" then some { ip := 0, ones := 0, bits := 32 }
      else if s = "203.0.113.0/24" then some { ip := 3405803776, ones := 24, bits := 32 }
      else none
    readFile := fun path => if path = "/keys/id_rsa.pub" then some "ssh-ed25519 AAAA demo" else none
    validAuthorizedKey := fun _ => true
    addressOf := fun id => "192.0.2." ++ toString id
    cloudInit := fun _ => "#cloud-config" }

/-- A configuration named `demo` with `n` masters of type `cx21`. -/
def demoConfig (n : Nat) (pools : List WorkerConfig) : Config :=
  { clusterName := "demo", masters := { instanceType := "cx21", instanceCount := n },
    workerNodePools := pools, location := "fsn1", publicSSHKeyPath := "/keys/id_rsa.pub",
    sshAllowedNetworks := ["0.0.0.0/0"], apiAllowedNetworks := ["0.0.0.0/0"],
    networkIPRange := "10.0.0.0/16", k3sVersion := "v1.25.4+k3s1" }

/-- The master with ordinal `i`, named as `masterDefinitionsForCreate` names it. -/
def demoMaster (i : Nat) : Server :=
  { id := i, name := "demo-cx21-master" ++ toString i, publicIP := some ("192.0.2." ++ toString i),
    privateNet := none, labels := [("cluster", "demo"), ("role", "master")], serverType := "cx21" }

/-- The worker with ordinal `i` of pool `small`, named as `workerNodePoolDefinitions`
names it. -/
def demoWorker (i : Nat) : Server :=
  { id := 100 + i, name := "demo-cx31-pool-small-worker" ++ toString i,
    publicIP := some ("192.0.2." ++ toString (100 + i)), privateNet := none,
    labels := [("cluster", "demo"), ("role", "master")], serverType := "cx21" }

/-- A cluster of ten masters after provisioning: the server list is sorted by
name, so `master10` comes second. -/
def tenMasters : World :=
  { env := demoEnv
    cluster :=
      { config := demoConfig 10 []
        instances := [1, 10, 2, 3, 4, 5, 6, 7, 8, 9].map demoMaster }
    provider := { servers := (List.range' 1 10).map demoMaster, nextID := 200 } }

/-- A provisioned cluster of three masters and one pool of two workers. -/
def threeMastersTwoWorkers : World :=
  { env := demoEnv
    cluster :=
      { config := demoConfig 3
          [{ name := "small", instanceType := "cx31", instanceCount := 2, location := "" }]
        instances := [1, 2, 3].map demoMaster ++ [1, 2].map demoWorker
        masterInstances := [1, 2, 3].map demoMaster
        workerInstances := [1, 2].map demoWorker }
    provider :=
      { servers := [1, 2, 3].map demoMaster ++ [1, 2].map demoWorker, nextID := 200 } }

/-- A single-master cluster before anything is provisioned: the provider holds no
resource, and the range of the private network is resolved. -/
def freshCluster : World :=
  { env := demoEnv
    cluster :=
      { config := demoConfig 1 []
        clusterNetworkIPRange := some { ip := 167772160, ones := 16, bits := 32 }
        clusterNetworkZone := "eu-central" }
    provider := { locations := [{ name := "fsn1" }] } }

/-- The creation options of the first master of `freshCluster`. -/
def demoOpts : ServerCreateOpts :=
  { name := "demo-cx21-master1", serverType := "cx21", sshKeys := [], networks := [],
    firewalls := [], placementGroup := { id := 0, name := "demo" }, image := "ubuntu-20.04",
    location := some { name := "fsn1" }, userData := "#cloud-config",
    labels := [("cluster", "demo"), ("role", "master")] }

/-- Collaborators of a healthy run: like `demoEnv`, and every server answers the
readiness probe with the marker. -/
def readyEnv : Env :=
  { demoEnv with
    ssh := fun _ _ command =>
      if command = "cat /etc/ready" then { out := "true\n", err := none }
      else { out := "", err := none } }

/-- A single-master cluster before provisioning, with healthy collaborators. -/
def freshSingle : World := { freshCluster with env := readyEnv }

/-- A three-master cluster before provisioning, with healthy collaborators. -/
def freshTriple : World :=
  { freshCluster with
    env := readyEnv
    cluster := { freshCluster.cluster with config := demoConfig 3 [] } }

/-! ## Package `internal/k3s`: the release listing -/

/-- Method `Client.sortVersions` (releases.go): the names that parse, in ascending
order, each written back as `"v" + v.String()`. -/
def sortVersions {V : Type} (lib : VersionLib V) (unsorted : List String) : List String :=
  ((unsorted.filterMap lib.parse).insertionSort fun a b => lib.le a b = true).map
    fun v => "v" ++ lib.render v

/-- The loop of `Client.AvailableReleases` that collects the release names. -/
def releaseNames (filterRegexp : Option (String → Bool)) (releases : List String) : List String :=
  releases.filter fun name =>
    if name = "" then false
    else
      match filterRegexp with
      | some re => re name
      | none => true

/-- Method `Client.AvailableReleases` (releases.go).  `fetched` is what
`fetchReleases` answers and `compile` is `regexp.Compile`; indexing the slice
`sorted` out of range panics. -/
def AvailableReleases {V : Type} (lib : VersionLib V) (compile : String → Option (String → Bool))
    (fetched : Except Err (List String)) (filter : String) (latest : Bool) :
    Outcome (Except Err (List String)) :=
  match fetched with
  | .error e => .ok (.error ("cannot fetch releases: " ++ e))
  | .ok releases =>
    let compiled : Except Err (Option (String → Bool)) :=
      if filter ≠ "" then
        match compile filter with
        | none => .error "invalid regexp"
        | some re => .ok (some re)
      else .ok none
    match compiled with
    | .error e => .ok (.error e)
    | .ok filterRegexp =>
      let sorted := sortVersions lib (releaseNames filterRegexp releases)
      if latest then
        match sorted[sorted.length - 1]? with
        | none => .halt .panic
        | some v => .ok (.ok [v])
      else .ok (.ok sorted)

/-- The value of a run that did not stop. -/
def Outcome.get? {α : Type} : Outcome α → Option α
  | .ok a => some a
  | .halt _ => none

/-! ## Further example clusters -/

/-- Modelled from the provider's label selectors: a comma-separated list of
`key=value` requirements, all of which the labels must meet. -/
def selectorMatches (selector : String) (labels : List (String × String)) : Bool :=
  (splitChars ',' selector.data).all fun req =>
    match splitChars '=' req with
    | [k, v] => labels.any fun kv => decide (kv.1 = String.mk k) && decide (kv.2 = String.mk v)
    | _ => false

/-- A new run against the provider state that provisioning `freshSingle` left:
one master, no load balancer, nothing cached yet. -/
def provisionedSingle : World :=
  { freshSingle with provider := (createResources [] [] freshSingle).2.provider }

/-- The cluster `threeMastersTwoWorkers` with its two placement groups, at a
provider that refuses to delete the first master and the first placement group. -/
def stubbornProvider : World :=
  { threeMastersTwoWorkers with
    env :=
      { demoEnv with
        apiFails := fun c =>
          decide (c = ⟨.delete, .server, "demo-cx21-master1"⟩)
            || decide (c = ⟨.delete, .placementGroup, "demo"⟩) }
    provider :=
      { threeMastersTwoWorkers.provider with
        placementGroups := [{ id := 1, name := "demo" }, { id := 2, name := "demo-small" }]
        locations := [{ name := "fsn1" }] } }

/-- A single pool `small` of two workers of type `cx31`, beside one master of
type `cx21`, before provisioning. -/
def freshWithPool : World :=
  { freshSingle with
    cluster :=
      { freshSingle.cluster with
        config := demoConfig 1
          [{ name := "small", instanceType := "cx31", instanceCount := 2, location := "" }] } }

/-- A server of the autoscaled pool `big` of another cluster, `demo2`. -/
def foreignAutoscaled : Server :=
  { id := 7, name := "demo2-cx21-pool-big-as-1", publicIP := none, privateNet := none,
    labels := [("hcloud/node-group", "demo2-cx21-pool-big-as")], serverType := "cx21" }

/-- A ten-master cluster before provisioning, with healthy collaborators. -/
def freshTen : World :=
  { freshCluster with
    env := readyEnv
    cluster := { freshCluster.cluster with config := demoConfig 10 [] } }

/-- The cluster `threeMastersTwoWorkers` whose first master holds a join token:
the token read answers `K10abc::server:s3cr3t` and a line end. -/
def tokenOnDisk : World :=
  { threeMastersTwoWorkers with
    env :=
      { demoEnv with
        ssh := fun _ _ command =>
          if command = tokenCommand then { out := "K10abc::server:s3cr3t\n", err := none }
          else { out := "", err := none } } }

/-- The cluster `threeMastersTwoWorkers` before any token exists: the token read
answers nothing, and the random source has forty bytes to give. -/
def noTokenYet : World :=
  { threeMastersTwoWorkers with entropy := List.range 40 }

/-- The cluster `threeMastersTwoWorkers` when its first master cannot be reached:
the Remote Executor returns an error. -/
def unreachableMaster : World :=
  { noTokenYet with
    env := { demoEnv with ssh := fun _ _ _ => { out := "", err := some "dial tcp: i/o timeout" } } }

/-- Whether the probe attempt number `k` (from 0) that `waitForSSH` makes on the
server from the world `w` finds it ready: the Remote Executor returns no error
and the trimmed output is `true`. -/
def probeReady (w : World) (server : Server) (k : Nat) : Bool :=
  let r := w.env.ssh (w.sshLog.length + k) (ipString server.publicIP) "cat /etc/ready"
  r.err.isNone && decide (trimSpace r.out = "true")

/-! ## The order of the teardown -/

/-- The place of a resource kind in the order in which `DeleteCluster` deletes:
load balancer, SSH key, servers, placement groups, network, firewall. -/
def Kind.teardownRank : Kind → Nat
  | .loadBalancer => 0
  | .sshKey => 1
  | .server => 2
  | .placementGroup => 3
  | .network => 4
  | .firewall => 5
  | .location => 6

/-- The delete calls among provider calls, in the order they were issued. -/
def deletions (calls : List Call) : List Call :=
  calls.filter fun c => decide (c.op = .delete)

/-- No delete call for a later kind of the teardown order comes before a delete
call for an earlier kind. -/
def InTeardownOrder (calls : List Call) : Prop :=
  (deletions calls).Pairwise fun a b => a.kind.teardownRank ≤ b.kind.teardownRank

/-- From every world, the delete calls that running `m` issues are in teardown
order and are all for kinds of rank `lo` to `hi`. -/
@[irreducible]
def DeletesWithin {α : Type} (lo hi : Nat) (m : M α) : Prop :=
  ∀ w, ∃ calls, (m w).2.log = w.log ++ calls ∧ InTeardownOrder calls ∧
    ∀ c ∈ deletions calls, lo ≤ c.kind.teardownRank ∧ c.kind.teardownRank ≤ hi

/-- Whenever `m` returns, it returns no error, and its provider calls end with a
delete call for the network, calls that delete nothing (the firewall accessor),
and a delete call for the firewall. -/
def EndsWithFirewall (m : M (Option Err)) : Prop :=
  ∀ w r, (m w).1 = .ok r →
    r = none ∧
    ∃ net fw pre mid,
      (m w).2.log =
        w.log ++ pre ++ [⟨.delete, .network, net⟩] ++ mid ++ [⟨.delete, .firewall, fw⟩] ∧
      ∀ c ∈ mid, c.op ≠ .delete

/-- The cluster `threeMastersTwoWorkers` with its network and firewall, at a
provider that refuses to delete the network. -/
def networkStuck : World :=
  { threeMastersTwoWorkers with
    env :=
      { demoEnv with
        apiFails := fun c => decide (c = ⟨.delete, .network, "demo"⟩) }
    provider :=
      { threeMastersTwoWorkers.provider with
        networks :=
          [{ id := 50, name := "demo", ipRange := some { ip := 167772160, ones := 16, bits := 32 },
             subnets := [] }]
        firewalls := [{ id := 60, name := "demo", rules := [] }]
        locations := [{ name := "fsn1" }] } }

/-! ## Package `internal/k3s`: paths and preflight validation -/

/-- Go `strings.TrimPrefix`. -/
def trimPrefix (s pre : String) : String :=
  match dropWord pre.data s.data with
  | some rest => ⟨rest⟩
  | none => s

/-- Go `strings.Contains`. -/
def strContains (s sub : String) : Bool :=
  s.data.tails.any fun t => (dropWord sub.data t).isSome

/-- Function `resolvePath` (cluster.go), for the home directory `dir` of the
current user; `join` is `path.Join`. -/
def resolvePath (join : String → String → String) (dir filepath : String) : String :=
  if filepath = "~" then dir
  else if hasPrefix filepath "~/" then join dir (trimPrefix filepath "~/")
  else filepath

/-- Function `resolvePath` in a run: without a current user `usr.HomeDir`
dereferences nil. -/
def resolvePathM (filepath : String) : M String := do
  let env ← getEnv
  match env.homeDir with
  | none => halt .panic
  | some dir => pure (resolvePath env.pathJoin dir filepath)

/-- Method `Client.publicSSHKeyPath` (cluster.go): it stores the resolved path in
the configuration. -/
def publicSSHKeyPath : M String := do
  let cluster ← getCluster
  let p ← resolvePathM cluster.config.publicSSHKeyPath
  modifyCluster fun c => { c with config := { c.config with publicSSHKeyPath := p } }
  pure p

/-- Method `Client.privateSSHKeyPath` (cluster.go). -/
def privateSSHKeyPath : M String := do
  let cluster ← getCluster
  let p ← resolvePathM cluster.config.privateSSHKeyPath
  modifyCluster fun c => { c with config := { c.config with privateSSHKeyPath := p } }
  pure p

/-- Method `Client.kubeconfigPath` (cluster.go). -/
def kubeconfigPath : M String := do
  let cluster ← getCluster
  let p ← resolvePathM cluster.config.kubeconfigPath
  modifyCluster fun c => { c with config := { c.config with kubeconfigPath := p } }
  pure p

/-- Method `Client.clusterAutoscalerArgs` (cluster.go): it appends the default
threshold to the list of the configuration. -/
def clusterAutoscalerArgs : M (List String) := do
  let cluster ← getCluster
  let stderrThresholdIsDefined :=
    cluster.config.clusterAutoscalerArgs.any fun v => strContains v "--stderrthreshold"
  if !stderrThresholdIsDefined then
    modifyCluster fun c =>
      { c with config :=
          { c.config with
            clusterAutoscalerArgs := c.config.clusterAutoscalerArgs ++ ["--stderrthreshold=info"] } }
    let cluster ← getCluster
    pure cluster.config.clusterAutoscalerArgs
  else pure cluster.config.clusterAutoscalerArgs

/-- Function `isDirectory` (validation.go). -/
def isDirectory (path : String) : M (Except Err Bool) := do
  let resolved ← resolvePathM path
  let env ← getEnv
  match env.stat resolved with
  | none => pure (.error "cannot read path")
  | some isDir => pure (.ok isDir)

/-- Method `Client.validatePublicSSHKey` (validation.go). -/
def validatePublicSSHKey : M (Option Err) := do
  let path ← publicSSHKeyPath
  match ← isDirectory path with
  | .error e => pure (some ("cannot read public key path: " ++ e))
  | .ok true => pure (some "public key path is a directory")
  | .ok false => pure none

/-- Method `Client.validatePrivateSSHKeyAndPassphrase` (validation.go); when the
passphrase cannot be parsed it calls `os.Exit(1)`. -/
def validatePrivateSSHKeyAndPassphrase : M (Option Err) := do
  let path ← privateSSHKeyPath
  match ← isDirectory path with
  | .error e => pure (some ("cannot read private key path: " ++ e))
  | .ok true => pure (some "private key path is a directory")
  | .ok false =>
    let path ← privateSSHKeyPath
    let env ← getEnv
    match env.parsePassphrase path with
    | none => halt .fatal
    | some passphrase =>
      modifyCluster fun c => { c with privateSSHKeyPassphrase := passphrase }
      pure none

/-- The loop of `validateAllowedSSHNetworks` and `validateAllowedAPINetworks`:
whether an entry contains the current address, or the error of the first entry
that does not parse. -/
def allowedLoop (parseCIDR : String → Option IPNet) (contains : IPNet → IPNet → Bool)
    (currentAddress : IPNet) : List String → Bool → Except Err Bool
  | [], found => .ok found
  | network :: rest, found =>
    match parseCIDR network with
    | none => .error "cannot parse address"
    | some iprange =>
      allowedLoop parseCIDR contains currentAddress rest
        (if contains iprange currentAddress then true else found)

/-- Method `Client.validateAllowedSSHNetworks` (validation.go). -/
def validateAllowedSSHNetworks : M (Option Err) := do
  let env ← getEnv
  let cluster ← getCluster
  match env.publicIP with
  | .error e => pure (some e)
  | .ok currentAddress =>
    match allowedLoop env.parseCIDR env.contains currentAddress
        cluster.config.sshAllowedNetworks false with
    | .error e => pure (some e)
    | .ok false =>
      pure (some "your current ip is not included in any of the allowed ssh networks")
    | .ok true => pure none

/-- Method `Client.validateAllowedAPINetworks` (validation.go). -/
def validateAllowedAPINetworks : M (Option Err) := do
  let env ← getEnv
  let cluster ← getCluster
  match env.publicIP with
  | .error e => pure (some e)
  | .ok currentAddress =>
    match allowedLoop env.parseCIDR env.contains currentAddress
        cluster.config.apiAllowedNetworks false with
    | .error e => pure (some e)
    | .ok false =>
      pure (some "your current ip is not included in any of the allowed api networks")
    | .ok true => pure none

/-- Method `Client.k3sVersion` (k3s.go); `latestVersion` is fatal on an error. -/
def k3sVersion : M String := do
  let cluster ← getCluster
  if cluster.config.k3sVersion = "" then
    let env ← getEnv
    match env.latestRelease with
    | none => halt .fatal
    | some name => pure name
  else pure cluster.config.k3sVersion

/-- Method `Client.validateK3sVersion` (validation.go). -/
def validateK3sVersion : M (Option Err) := do
  let env ← getEnv
  match AvailableReleases env.versions env.regexpCompile env.releases "" false with
  | .halt h => halt h
  | .ok (.error e) => pure (some e)
  | .ok (.ok releases) =>
    let currentVersion ← k3sVersion
    if !releases.contains currentVersion then pure (some "k3s version does not exist")
    else pure none

/-- Method `Client.validateLocation` (validation.go). -/
def validateLocation (location : String) : M (Option Err) := do
  match ← GetLocations with
  | .error e => pure (some ("cannot fetch locations: " ++ e))
  | .ok locations =>
    if locations.any fun loc => decide (location = loc.name) then pure none
    else pure (some "invalid location")

/-- Method `Client.validateMasterLocation` (validation.go); `c.masterLocation().Name`
dereferences nil when the provider knows no such location. -/
def validateMasterLocation : M (Option Err) := do
  match ← masterLocation with
  | none => halt .panic
  | some location =>
    match ← validateLocation location.name with
    | some e => pure (some ("invalid location for master nodes: " ++ e))
    | none => pure none

/-- Method `Client.validateExistingNetwork` (validation.go): only the error of
`Network.Get` is looked at, not the network. -/
def validateExistingNetwork : M (Option Err) := do
  let cluster ← getCluster
  match ← networkGet cluster.config.existingNetwork with
  | .error e => pure (some ("cannot find existing network: " ++ e))
  | .ok _ => pure none

/-- Method `Client.validateCreate` (validation.go), which `validate("create")`
runs. -/
def validateCreate : M (Option Err) := do
  match ← validatePublicSSHKey with
  | some e => pure (some e)
  | none =>
  match ← validatePrivateSSHKeyAndPassphrase with
  | some e => pure (some e)
  | none =>
  match ← validateAllowedSSHNetworks with
  | some e => pure (some e)
  | none =>
  match ← validateAllowedAPINetworks with
  | some e => pure (some e)
  | none =>
  match ← validateToken with
  | some e => pure (some e)
  | none =>
  match ← validateK3sVersion with
  | some e => pure (some e)
  | none =>
    let _ ← clusterNetworkZone
    let _ ← clusterNetworkIPRange
    match ← validateCluster with
    | some e => pure (some e)
    | none =>
    match ← validateMasterLocation with
    | some e => pure (some e)
    | none =>
    match ← validateExistingNetwork with
    | some e => pure (some e)
    | none => pure none

/-- The checks of `validateCreate` that come before it resolves the range of the
private network: the key paths, the allowed networks, the token and the version. -/
def validateCreateBeforeNetwork : M (Option Err) := do
  match ← validatePublicSSHKey with
  | some e => pure (some e)
  | none =>
  match ← validatePrivateSSHKeyAndPassphrase with
  | some e => pure (some e)
  | none =>
  match ← validateAllowedSSHNetworks with
  | some e => pure (some e)
  | none =>
  match ← validateAllowedAPINetworks with
  | some e => pure (some e)
  | none =>
  match ← validateToken with
  | some e => pure (some e)
  | none =>
  match ← validateK3sVersion with
  | some e => pure (some e)
  | none => pure none

/-- Whether a provider call changes the state of the provider. -/
def Call.mutating (c : Call) : Bool :=
  match c.op with
  | .create | .setRules | .addSubnet | .addTarget | .delete => true
  | .get | .list => false

/-- A create run at a provider that does not know the configured location `hil`:
every check before the master location passes. -/
def unknownLocation : World :=
  { env :=
      { readyEnv with
        releases := .ok ["v1.25.4+k3s1"]
        publicIP := .ok { ip := 3405803777, ones := 32, bits := 32 } }
    cluster := { config := { demoConfig 1 [] with location := "hil", privateSSHKeyPath := "/keys/id_rsa" } }
    provider := { locations := [{ name := "fsn1" }] } }

/-- A create run that names the existing network `shared`, which the provider
does not have; every other check passes. -/
def missingExistingNetwork : World :=
  { env := { readyEnv with releases := .ok ["v1.25.4+k3s1"] }
    cluster :=
      { config :=
          { demoConfig 1 [] with existingNetwork := "shared", privateSSHKeyPath := "/keys/id_rsa" } }
    provider := { locations := [{ name := "fsn1" }] } }

/-- From every world, running `m` only adds provider calls that satisfy `P` to the
log (whatever it does to the cache and the configuration). -/
@[irreducible]
def Issues {α : Type} (P : Call → Prop) (m : M α) : Prop :=
  ∀ w, ∃ calls, (m w).2.log = w.log ++ calls ∧ ∀ c ∈ calls, P c

/-- What `validateCreate` goes on with when the checks of
`validateCreateBeforeNetwork` have passed: it resolves the zone and the range of
the private network, then checks the cluster, the master location and the existing
network. -/
def validateCreateAfterNetwork : M (Option Err) := do
  let _ ← clusterNetworkZone
  let _ ← clusterNetworkIPRange
  match ← validateCluster with
  | some e => pure (some e)
  | none =>
  match ← validateMasterLocation with
  | some e => pure (some e)
  | none =>
  match ← validateExistingNetwork with
  | some e => pure (some e)
  | none => pure none

/-- A run whose provider rejects the token: the listing of the locations fails. -/
def tokenRejected : World :=
  { unknownLocation with
    env :=
      { unknownLocation.env with
        apiFails := fun c => decide (c = ⟨.list, .location, ""⟩) } }

/-- Go `strings.ToUpper`, for ASCII text. -/
def toUpper (s : String) : String := s.map Char.toUpper

/-- One iteration of the loop of `Client.autoscalerNodePoolArgs` (hetzner.go): the
loop variable is a copy of the pool, whose empty location becomes the name of the
master location. -/
def autoscalerNodePoolArg (pool : AutoscalerConfig) : M String := do
  let cluster ← getCluster
  let pool ←
    if pool.location = "" then do
      match ← masterLocation with
      | none => halt .panic
      | some l => pure { pool with location := l.name }
    else pure pool
  pure ("--nodes=" ++ toString pool.instanceMin ++ ":" ++ toString pool.instanceMax ++ ":"
    ++ toUpper pool.instanceType ++ ":" ++ toUpper pool.location ++ ":"
    ++ cluster.config.clusterName ++ "-" ++ pool.instanceType ++ "-pool-" ++ pool.name ++ "-as")

/-- Method `Client.autoscalerNodePoolArgs` (hetzner.go). -/
def autoscalerNodePoolArgs : M (List String) := do
  let cluster ← getCluster
  forEach autoscalerNodePoolArg cluster.config.autoscalingNodePools

/-- A configuration as loaded with the default key paths, which start with `~/`. -/
def defaultPaths : World :=
  { freshSingle with
    cluster :=
      { freshSingle.cluster with
        config :=
          { demoConfig 1 [] with
            publicSSHKeyPath := "~/.ssh/id_rsa.pub", privateSSHKeyPath := "~/.ssh/id_rsa",
            kubeconfigPath := "~/kubeconfig" } } }

/-- Running `m` never changes the cached server lists (`Instances`,
`MasterInstances`, `WorkerInstances`). -/
@[irreducible]
def KeepsServers {α : Type} (m : M α) : Prop :=
  ∀ w, (m w).2.cluster.instances = w.cluster.instances ∧
    (m w).2.cluster.masterInstances = w.cluster.masterInstances ∧
    (m w).2.cluster.workerInstances = w.cluster.workerInstances

/-! ## Package `internal/k3s`: the bootstrap script of a master -/

/-- Method `Client.isFirstMaster` (cluster.go): `reflect.DeepEqual` with
`MasterInstances[0]`; indexing an empty list panics. -/
def isFirstMaster (server : Server) : M Bool := do
  let cluster ← getCluster
  match cluster.masterInstances with
  | [] => halt .panic
  | first :: _ => pure (decide (first = server))

/-- The value `masterScript` (k3s.go) gives to `server`, which the template puts
into the install command: `--cluster-init`, or the address to join. -/
def masterScriptServer (master : Server) : M String := do
  if ← isFirstMaster master then pure "--cluster-init"
  else
    let ip ← apiServerIP
    pure ("--server https://" ++ ip ++ ":6443")

/-! ## Package `internal/k3s`: the Addon Deployer and `CreateCluster` -/

/-- Method `shell.Client.RunCommand`: run the command in a local shell. -/
def RunCommand (command : Payload) : M (Option Err) := fun w =>
  (.ok (if w.env.shellFails command then some "exit status 1" else none),
    { w with shellLog := w.shellLog ++ [command] })

/-- Method `Client.checkKubectl` (cluster.go). -/
def checkKubectl : M (Option Err) := do
  let env ← getEnv
  if env.kubectlInPath then pure none
  else pure (some "cannot find kubectl in the PATH")

/-- The call `RunCommand(data, shell.WithEnv("KUBECONFIG="+c.kubeconfigPath()))`:
the text of the command is built first, then the path is resolved. -/
def runWithKubeconfig (data : M Payload) : M (Option Err) := do
  let command ← data
  let _ ← kubeconfigPath
  RunCommand command

/-- Method `Client.privateIP` (cluster.go); `GetServer` is fatal on an error, and a
server without private address makes the index panic. -/
def privateIP (server : Server) : M String := do
  match server.privateNet with
  | none =>
    match ← GetServer server with
    | .error _ => halt .fatal
    | .ok none => halt .panic
    | .ok (some newSrv) =>
      match newSrv.privateNet with
      | some (ip :: _) => pure ip
      | _ => halt .panic
  | some (ip :: _) => pure ip
  | some [] => halt .panic

/-- Method `Client.firstMasterPrivateIP` (cluster.go). -/
def firstMasterPrivateIP : M String := do
  let cluster ← getCluster
  match cluster.masterInstances with
  | [] => halt .panic
  | first :: _ => privateIP first

/-- Method `Client.workerScript` (k3s.go): the accessors its template data comes
from; the text itself is not modelled. -/
def workerScript : M Unit := do
  let _ ← k3sVersion
  let _ ← k3sToken
  let _ ← firstMasterPrivateIP
  pure ()

/-- Method `Client.autoscalerCloudInit` (cluster.go). -/
def autoscalerCloudInit : M Unit := do
  let _ ← userData
  workerScript

/-- Method `Client.hetznerClusterAutoscalerData` (hetzner.go): the accessors its
template data comes from. -/
def hetznerClusterAutoscalerData : M Payload := do
  let _ ← autoscalerNodePoolArgs
  let _ ← sshKey
  let _ ← network
  let _ ← firewall
  autoscalerCloudInit
  let _ ← clusterAutoscalerArgs
  pure .autoscalerManifest

/-- Method `Client.deployHetznerCloudControllerManager` (hetzner.go). -/
def deployHetznerCloudControllerManager : M (Option Err) := do
  match ← checkKubectl with
  | some e => pure (some e)
  | none =>
  match ← runWithKubeconfig (pure .ccmSecret) with
  | some e => pure (some ("cannot deploy hcloud cloud controller manager secret: " ++ e))
  | none =>
  match ← runWithKubeconfig (pure .ccmManifest) with
  | some e => pure (some ("cannot deploy hcloud cloud controller manager: " ++ e))
  | none => pure none

/-- Method `Client.deployK3sSystemUpgradeController` (hetzner.go). -/
def deployK3sSystemUpgradeController : M (Option Err) := do
  match ← checkKubectl with
  | some e => pure (some e)
  | none =>
  match ← runWithKubeconfig (pure .upgradeController) with
  | some e => pure (some ("cannot deploy system upgrade controller: " ++ e))
  | none => pure none

/-- Method `Client.deployHetznerCSIDriver` (hetzner.go). -/
def deployHetznerCSIDriver : M (Option Err) := do
  match ← checkKubectl with
  | some e => pure (some e)
  | none =>
  match ← runWithKubeconfig (pure .csiSecret) with
  | some e => pure (some ("cannot deploy hetzner csi driver secret: " ++ e))
  | none =>
  match ← runWithKubeconfig (pure .csiDriverDelete) with
  | some e => pure (some ("cannot deploy hetzner csi driver: " ++ e))
  | none =>
  match ← runWithKubeconfig (pure .csiDriver) with
  | some e => pure (some ("cannot deploy hetzner csi driver: " ++ e))
  | none =>
    let cluster ← getCluster
    if cluster.config.scheduleCSIControllerOnMaster then
      match ← runWithKubeconfig (pure .csiControllerUpdate) with
      | some e => pure (some ("cannot update hetzner csi controller: " ++ e))
      | none => pure none
    else pure none

/-- Method `Client.deployHetznerClusterAutoscaler` (hetzner.go). -/
def deployHetznerClusterAutoscaler : M (Option Err) := do
  match ← checkKubectl with
  | some e => pure (some e)
  | none =>
  match ← runWithKubeconfig (pure .autoscalerSecret) with
  | some e => pure (some ("cannot deploy hetzner autoscaler secret: " ++ e))
  | none =>
  match ← runWithKubeconfig hetznerClusterAutoscalerData with
  | some e => pure (some ("cannot deploy hetzner autoscalerr: " ++ e))
  | none => pure none

/-- The step `c.deployK3s()` of `CreateCluster`, over the trace model `deployK3s`:
its events are not kept, only the way it ends. -/
def deployK3sStep (res : Node → CmdResult) (kubeconfigOk : Bool) (sched1 sched2 : List Nat) :
    M (Option Err) := fun w =>
  match (deployK3s w res kubeconfigOk sched1 sched2).exit with
  | .ok => (.ok none, w)
  | .error => (.ok (some "an error occurred"), w)
  | .halted => (.halt .fatal, w)

/-- Method `Client.CreateCluster` (cluster.go).  The schedules say in which order
the concurrent tasks run, `res` how the bootstrap commands end. -/
def CreateCluster (order probeOrder : List Nat) (res : Node → CmdResult) (kubeconfigOk : Bool)
    (sched1 sched2 : List Nat) : M (Option Err) := do
  match ← validateCreate with
  | some e => pure (some e)
  | none =>
  match ← createResources order probeOrder with
  | some e => pure (some e)
  | none =>
  match ← deployK3sStep res kubeconfigOk sched1 sched2 with
  | some e => pure (some e)
  | none =>
  match ← deployHetznerCloudControllerManager with
  | some e => pure (some e)
  | none =>
  match ← deployHetznerCSIDriver with
  | some e => pure (some e)
  | none =>
  match ← deployK3sSystemUpgradeController with
  | some e => pure (some e)
  | none =>
    let cluster ← getCluster
    if cluster.config.autoscalingNodePools.length > 0 then
      match ← deployHetznerClusterAutoscaler with
      | some e => pure (some e)
      | none => pure none
    else pure none

/-- A create run in which everything succeeds: one master, no autoscaling pool,
the storage controller scheduled on the master. -/
def healthyCreate : World :=
  { env := { readyEnv with releases := .ok ["v1.25.4+k3s1"] }
    cluster :=
      { config :=
          { demoConfig 1 [] with
            privateSSHKeyPath := "/keys/id_rsa", kubeconfigPath := "./kubeconfig",
            scheduleCSIControllerOnMaster := true } }
    provider := { locations := [{ name := "fsn1" }] } }

/-- The world `w1` comes after `w` with the local shell commands `l` run in
between; the two fields of the configuration the Addon Deployer branches on are
unchanged. -/
def Applied (l : List Payload) (w w1 : World) : Prop :=
  w1.shellLog = w.shellLog ++ l ∧
    w1.cluster.config.scheduleCSIControllerOnMaster =
      w.cluster.config.scheduleCSIControllerOnMaster ∧
    w1.cluster.config.autoscalingNodePools = w.cluster.config.autoscalingNodePools

/-- From every world, running `m` runs no local shell command and keeps the two
fields of the configuration the Addon Deployer branches on. -/
@[irreducible]
def KeepsShell {α : Type} (m : M α) : Prop :=
  ∀ w, Applied [] w (m w).2

/-- A create run over a cluster whose master already exists at the provider, in
the private network; one autoscaling pool is configured, and the storage
controller is not scheduled on the master. -/
def healthyAutoscaled : World :=
  { healthyCreate with
    entropy := List.replicate 32 171
    cluster :=
      { config :=
          { healthyCreate.cluster.config with
            autoscalingNodePools :=
              [{ name := "auto", instanceType := "cx21", instanceMin := 1, instanceMax := 3,
                 location := "fsn1" }],
            scheduleCSIControllerOnMaster := false } }
    provider :=
      { healthyCreate.provider with
        servers := [{ demoMaster 1 with privateNet := some ["10.0.0.2"] }], nextID := 50 } }

/-! ## Package `internal/config`: validating the configuration

`validateVersion` compiles a pattern and asks `MatchString`.  The pattern starts
with `^` and ends with `$` and has no flag, so it matches a text iff the whole
text is in the language of what stands in between; that regular expression is
written out below, group by group.  `\d` is `[0-9]` in Go. -/

/-- A character class: one of the characters `cs`. -/
def oneOf (cs : List Char) : RegularExpression Char :=
  cs.foldr (fun c r => .plus (.char c) r) .zero

/-- The pattern `(?:R)?`. -/
def optional (r : RegularExpression Char) : RegularExpression Char :=
  .plus .epsilon r

/-- The characters of `\d`. -/
def digitChars : List Char := "0123456789".data

/-- The characters of `[1-9]`. -/
def positiveDigitChars : List Char := "123456789".data

/-- The characters of `[a-zA-Z-]`. -/
def letterChars : List Char :=
  "abcdefghijklmnopqrstuvwxyzABCDEFGHIJKLMNOPQRSTUVWXYZ-".data

/-- The characters of `[0-9a-zA-Z-]`. -/
def identChars : List Char := digitChars ++ letterChars

/-- The pattern `0|[1-9]\d*`. -/
def numericRegex : RegularExpression Char :=
  .plus (.char '0') (.comp (oneOf positiveDigitChars) (.star (oneOf digitChars)))

/-- The pattern `0|[1-9]\d*|\d*[a-zA-Z-][0-9a-zA-Z-]*`. -/
def prereleaseIdentRegex : RegularExpression Char :=
  .plus (.char '0')
    (.plus (.comp (oneOf positiveDigitChars) (.star (oneOf digitChars)))
      (.comp (.star (oneOf digitChars)) (.comp (oneOf letterChars) (.star (oneOf identChars)))))

/-- The pattern `[0-9a-zA-Z-]+`. -/
def buildIdentRegex : RegularExpression Char :=
  .comp (oneOf identChars) (.star (oneOf identChars))

/-- The pattern `R(?:\.R)*`. -/
def dotSeparated (r : RegularExpression Char) : RegularExpression Char :=
  .comp r (.star (.comp (.char '.') r))

/-- The pattern of `validateVersion` between `^` and `$`:
`v(N)\.(N)\.(N)(?:-(P(?:\.P)*))?(?:\+(B(?:\.B)*))?` with `N`, `P`, `B` the three
patterns above. -/
def semverRegex : RegularExpression Char :=
  .comp (.char 'v')
    (.comp numericRegex
      (.comp (.char '.')
        (.comp numericRegex
          (.comp (.char '.')
            (.comp numericRegex
              (.comp (optional (.comp (.char '-') (dotSeparated prereleaseIdentRegex)))
                (optional (.comp (.char '+') (dotSeparated buildIdentRegex)))))))))

/-- Function `validateVersion` (config.go), on the text of the field. -/
def validateVersion (semverString : String) : Bool :=
  semverRegex.rmatch semverString.data

/-- What `Config.Validate` takes from outside the repository: the built-in tag
`dns_rfc1035_label` of the validator library, and whether `net.ParseCIDR` returns
no error. -/
structure ValidatorLib where
  dnsRFC1035Label : String → Bool
  parseCIDR : String → Bool

/-- Function `validateCIDR` (config.go). -/
def validateCIDR (lib : ValidatorLib) (val : String) : Bool :=
  if val = "0.0.0.0/0" then true else lib.parseCIDR val

/-- The tag `oneof=nbg1 fsn1 hel1 ash hil`. -/
def oneofLocation (s : String) : Bool :=
  decide (s ∈ ["nbg1", "fsn1", "hel1", "ash", "hil"])

/-- The tags of `MasterConfig`. -/
def MasterConfig.valid (m : MasterConfig) : Bool :=
  decide (m.instanceType ≠ "") && decide (m.instanceCount > 0)

/-- The tags of `WorkerConfig`. -/
def WorkerConfig.valid (p : WorkerConfig) : Bool :=
  decide (p.name ≠ "") && decide (p.instanceType ≠ "") && decide (p.instanceCount > 0)
    && (decide (p.location = "") || oneofLocation p.location)

/-- The tags of `AutoscalerConfig`; the counts are natural numbers here, so
`gte=0` holds. -/
def AutoscalerConfig.valid (p : AutoscalerConfig) : Bool :=
  decide (p.name ≠ "") && decide (p.instanceType ≠ "")
    && decide (p.instanceMax > 0) && decide (p.instanceMax ≥ p.instanceMin)
    && (decide (p.location = "") || oneofLocation p.location)

/-- The tags of `Config`, field by field, with `semver` and `cidr` registered as
`validateVersion` and `validateCIDR`. -/
def Config.fieldsValid (lib : ValidatorLib) (c : Config) : Bool :=
  decide (c.hetznerToken ≠ "")
    && (decide (c.clusterName ≠ "") && lib.dnsRFC1035Label c.clusterName)
    && decide (c.kubeconfigPath ≠ "")
    && (decide (c.k3sVersion ≠ "") && validateVersion c.k3sVersion)
    && decide (c.publicSSHKeyPath ≠ "")
    && decide (c.privateSSHKeyPath ≠ "")
    && c.sshAllowedNetworks.all (fun n => decide (n ≠ "") && validateCIDR lib n)
    && c.apiAllowedNetworks.all (fun n => validateCIDR lib n)
    && (decide (c.location ≠ "") && oneofLocation c.location)
    && c.masters.valid
    && c.workerNodePools.all WorkerConfig.valid
    && c.autoscalingNodePools.all AutoscalerConfig.valid
    && (decide (c.networkIPRange = "") || validateCIDR lib c.networkIPRange)

/-- Method `Config.Validate` (config.go). -/
def Config.Validate (lib : ValidatorLib) (c : Config) : Option Err :=
  if c.fieldsValid lib then none else some "validation failed"

/-- A validator library for the examples: a label is a lowercase letter followed
by lowercase letters, digits and hyphens, not ending in a hyphen; only the two
ranges of the tests parse. -/
def demoValidator : ValidatorLib :=
  { dnsRFC1035Label := fun s =>
      match s.data with
      | [] => false
      | c :: cs =>
        c.isLower && cs.all (fun d => d.isLower || d.isDigit || d = '-')
          && decide ((c :: cs).getLast? ≠ some '-')
    parseCIDR := fun s => decide (s ∈ ["192.168.0.0/24", "10.0.0.0/16"]) }

/-- The configuration `valid minimal` of `TestConfig_Validate`, with the given
version. -/
def minimalConfig (version : String) : Config :=
  { hetznerToken := "test", clusterName := "test", kubeconfigPath := "test",
    k3sVersion := version, publicSSHKeyPath := "test", privateSSHKeyPath := "test",
    sshAllowedNetworks := ["192.168.0.0/24"], location := "nbg1",
    masters := { instanceType := "test", instanceCount := 1 } }

/-! ### The form of a version, in the words of the specification -/

/-- A numeric component without leading zeros: `0`, or a digit from 1 to 9
followed by digits. -/
def IsNumeral (cs : List Char) : Prop :=
  cs = ['0'] ∨ ∃ d ds, cs = d :: ds ∧ d.isDigit = true ∧ d ≠ '0' ∧ ∀ c ∈ ds, c.isDigit = true

/-- A character of an identifier: an ASCII letter, a digit or a hyphen. -/
def isIdentChar (c : Char) : Bool :=
  c.isAlpha || c.isDigit || c = '-'

/-- An identifier of a pre-release: not empty, of identifier characters, and
without leading zeros when it is all digits. -/
def IsPrereleaseIdent (cs : List Char) : Prop :=
  cs ≠ [] ∧ (∀ c ∈ cs, isIdentChar c = true) ∧ ((∀ c ∈ cs, c.isDigit = true) → IsNumeral cs)

/-- An identifier of a build: not empty, of identifier characters. -/
def IsBuildIdent (cs : List Char) : Prop :=
  cs ≠ [] ∧ ∀ c ∈ cs, isIdentChar c = true

/-- The identifiers written one after the other with dots in between. -/
def dotted (ids : List (List Char)) : List Char :=
  ['.'].intercalate ids

/-- A suffix that may be missing: nothing, or the mark followed by one or more
dot-separated identifiers. -/
def suffixText (mark : Char) : Option (List (List Char)) → List Char
  | none => []
  | some ids => mark :: dotted ids

/-- The form `v<MAJOR>.<MINOR>.<PATCH>` with an optional `-prerelease` and an
optional `+build`: three numeric components without leading zeros, and each
suffix, when present, one or more dot-separated identifiers. -/
def VersionForm (s : String) : Prop :=
  ∃ (major minor patch : List Char) (pre build : Option (List (List Char))),
    IsNumeral major ∧ IsNumeral minor ∧ IsNumeral patch ∧
    (∀ ids, pre = some ids → ids ≠ [] ∧ ∀ i ∈ ids, IsPrereleaseIdent i) ∧
    (∀ ids, build = some ids → ids ≠ [] ∧ ∀ i ∈ ids, IsBuildIdent i) ∧
    s.data = 'v' :: (major ++ '.' :: (minor ++ '.' :: (patch ++
      (suffixText '-' pre ++ suffixText '+' build))))

/-- The healthy create run at a provider whose lookup of the network named by
`existing_network` fails; no existing network is configured, so the name is
empty. -/
def existingNetworkLookupFails : World :=
  { healthyCreate with
    env := { healthyCreate.env with apiFails := fun c => decide (c = ⟨.get, .network, ""⟩) } }

/-- From every world, running `m` leaves the cached handle of the load balancer as
it is. -/
@[irreducible]
def KeepsBalancer {α : Type} (m : M α) : Prop :=
  ∀ w, (m w).2.cluster.loadBalancer = w.cluster.loadBalancer

/-! # Theorems -/

/-! ## C1: role classification -/

/-- C1 (code defect): a server named `demo-cx21-master10` is in the server list, yet
`masters()` returns only the nine masters with a one-digit ordinal: the pattern
`master\d$` does not match an ordinal of two digits. -/
theorem masters_misses_two_digit_ordinal :
    demoMaster 10 ∈ tenMasters.cluster.instances ∧
    (masters tenMasters).1 = .ok ([1, 2, 3, 4, 5, 6, 7, 8, 9].map demoMaster) ∧
    matchWordDigitEnd "master" (demoMaster 10).name = false := by
  decide

/-! ## C2: bootstrap ordering -/

theorem popTask_perm : ∀ (k : Nat) (ts : List (List Event)) (e : Event) (ts1 : List (List Event)),
    popTask k ts = some (e, ts1) → ts.flatten.Perm (e :: ts1.flatten)
  | _, [], e, ts1, h => by simp [popTask] at h
  | 0, [] :: _, e, ts1, h => by simp [popTask] at h
  | 0, (a :: es) :: rest, e, ts1, h => by
    simp only [popTask, Option.some.injEq, Prod.mk.injEq] at h
    obtain ⟨rfl, rfl⟩ := h
    simp
  | k + 1, t :: rest, e, ts1, h => by
    simp only [popTask] at h
    cases hp : popTask k rest with
    | none => simp [hp] at h
    | some p =>
      obtain ⟨e1, rest1⟩ := p
      simp only [hp, Option.some.injEq, Prod.mk.injEq] at h
      obtain ⟨rfl, rfl⟩ := h
      have ih := popTask_perm k rest e1 rest1 hp
      simp only [List.flatten_cons]
      exact (List.Perm.append_left t ih).trans List.perm_middle

theorem interleave_perm : ∀ (sched : List Nat) (ts : List (List Event)),
    (interleave sched ts).Perm ts.flatten
  | [], ts => by simp [interleave, runSchedule]
  | k :: ks, ts => by
    cases hp : popTask k ts with
    | none =>
      have ih := interleave_perm ks ts
      simpa [interleave, runSchedule, hp] using ih
    | some p =>
      obtain ⟨e, ts1⟩ := p
      have ih := interleave_perm ks ts1
      have h1 := popTask_perm k ts e ts1 hp
      simp only [interleave, runSchedule, hp, List.cons_append] at ih ⊢
      exact (List.Perm.cons e ih).trans h1.symm

theorem untilAbort_sublist : ∀ es : List Event, (untilAbort es).Sublist es
  | [] => by simp [untilAbort]
  | .abort _ :: es => by simp [untilAbort]
  | .issue n s :: es => by
    simpa [untilAbort] using untilAbort_sublist es
  | .done n b :: es => by
    simpa [untilAbort] using untilAbort_sublist es

theorem untilAbort_of_not_aborts : ∀ es : List Event, aborts es = false → untilAbort es = es
  | [], _ => by simp [untilAbort]
  | .abort _ :: es, h => by simp [aborts] at h
  | .issue n s :: es, h => by
    have h1 : aborts es = false := by simpa [aborts] using h
    simp [untilAbort, untilAbort_of_not_aborts es h1]
  | .done n b :: es, h => by
    have h1 : aborts es = false := by simpa [aborts] using h
    simp [untilAbort, untilAbort_of_not_aborts es h1]

theorem aborts_iff (es : List Event) : aborts es = true ↔ ∃ n, Event.abort n ∈ es := by
  unfold aborts
  rw [List.any_eq_true]
  constructor
  · rintro ⟨e, he, h⟩
    cases e <;> simp at h
    exact ⟨_, he⟩
  · rintro ⟨n, hn⟩
    exact ⟨_, hn, rfl⟩

theorem anyFailed_iff (es : List Event) :
    anyFailed es = true ↔ ∃ n, Event.done n false ∈ es := by
  unfold anyFailed
  rw [List.any_eq_true]
  constructor
  · rintro ⟨e, he, h⟩
    cases e with
    | issue n s => simp at h
    | abort n => simp at h
    | done n b =>
      cases b
      · exact ⟨_, he⟩
      · simp at h
  · rintro ⟨n, hn⟩
    exact ⟨_, hn, rfl⟩

/-- How many commands deploying on a node sends. -/
theorem countP_deployOn (res : Node → CmdResult) (n n1 : Node) (s : Server) :
    (deployOn res n1 s).countP (isIssueFor n) =
      if n1 = n ∧ res n1 ≠ .aborted then 1 else 0 := by
  unfold deployOn
  cases h : res n1 <;> by_cases hn : n1 = n <;> simp [isIssueFor, List.countP_cons, hn]

theorem node_of_mem_deployOn (res : Node → CmdResult) (n : Node) (s : Server) (e : Event)
    (h : e ∈ deployOn res n s) : e.node = n := by
  unfold deployOn at h
  cases hr : res n <;> simp only [hr, List.mem_cons, List.mem_singleton, List.not_mem_nil,
    or_false] at h
  · rcases h with h | h <;> simp [h, Event.node]
  · rcases h with h | h <;> simp [h, Event.node]
  · simp [h, Event.node]

theorem startMasters_ok (res : Node → CmdResult) (ms : List Server) :
    ∀ (c i : Nat), i + c ≤ ms.length → (startMasters res ms i c).2 = true
  | 0, _, _ => rfl
  | c + 1, i, h => by
    have hi : i < ms.length := by omega
    simp only [startMasters, List.getElem?_eq_getElem hi]
    exact startMasters_ok res ms c (i + 1) (by omega)

theorem mem_startMasters (res : Node → CmdResult) (ms : List Server) :
    ∀ (c i : Nat) (e : Event), e ∈ (startMasters res ms i c).1.flatten →
      ∃ k s, i ≤ k ∧ k < i + c ∧ e ∈ deployOn res (.master k) s
  | 0, _, e, h => by simp [startMasters] at h
  | c + 1, i, e, h => by
    simp only [startMasters] at h
    cases hg : ms[i]? with
    | none => simp [hg] at h
    | some master =>
      simp only [hg, List.flatten_cons, List.mem_append] at h
      rcases h with h | h
      · exact ⟨i, master, le_refl _, by omega, h⟩
      · obtain ⟨k, s, h1, h2, h3⟩ := mem_startMasters res ms c (i + 1) e h
        exact ⟨k, s, by omega, by omega, h3⟩

theorem startMasters_covers (res : Node → CmdResult) (ms : List Server) :
    ∀ (c i k : Nat), i + c ≤ ms.length → i ≤ k → k < i + c →
      ∃ s, ms[k]? = some s ∧ ∀ e ∈ deployOn res (.master k) s,
        e ∈ (startMasters res ms i c).1.flatten
  | 0, i, k, _, h1, h2 => by omega
  | c + 1, i, k, h, h1, h2 => by
    have hi : i < ms.length := by omega
    simp only [startMasters, List.getElem?_eq_getElem hi, List.flatten_cons, List.mem_append]
    by_cases hk : k = i
    · subst hk
      exact ⟨ms[k], List.getElem?_eq_getElem hi, fun e he => Or.inl he⟩
    · obtain ⟨s, hs, hall⟩ := startMasters_covers res ms c (i + 1) k (by omega) (by omega) (by omega)
      exact ⟨s, hs, fun e he => Or.inr (hall e he)⟩

theorem countP_startMasters (res : Node → CmdResult) (ms : List Server) (n : Node) :
    ∀ (c i : Nat), i + c ≤ ms.length →
      (startMasters res ms i c).1.flatten.countP (isIssueFor n) =
        match n with
        | .master k => if i ≤ k ∧ k < i + c ∧ res n ≠ .aborted then 1 else 0
        | .worker _ => 0
  | 0, i, _ => by
    cases n with
    | worker j => simp [startMasters]
    | master k =>
      simp only [startMasters, List.flatten_nil, List.countP_nil]
      rw [if_neg (by omega)]
  | c + 1, i, h => by
    have hi : i < ms.length := by omega
    simp only [startMasters, List.getElem?_eq_getElem hi, List.flatten_cons, List.countP_append,
      countP_deployOn, countP_startMasters res ms n c (i + 1) (by omega)]
    cases n with
    | worker j => simp
    | master k =>
      by_cases hk : k = i
      · subst hk
        by_cases hr : res (.master k) = .aborted <;> simp [hr]
      · have hne : ¬ (Node.master i = Node.master k) := by
          intro h0
          exact hk (Node.master.inj h0).symm
        by_cases hr : res (.master k) = .aborted
        · simp [hr, hne]
        · by_cases h1 : i + 1 ≤ k ∧ k < i + 1 + c
          · have h2 : i ≤ k ∧ k < i + (c + 1) := by omega
            simp [hne, hr, h1, h2]
          · have h2 : ¬ (i ≤ k ∧ k < i + (c + 1)) := by omega
            simp only [hne, false_and, if_false, zero_add]
            rw [if_neg (by tauto), if_neg (by tauto)]

theorem mem_startWorkers (res : Node → CmdResult) :
    ∀ (ws : List Server) (j : Nat) (e : Event), e ∈ (startWorkers res j ws).flatten →
      ∃ k s, j ≤ k ∧ k < j + ws.length ∧ e ∈ deployOn res (.worker k) s
  | [], _, e, h => by simp [startWorkers] at h
  | worker :: rest, j, e, h => by
    simp only [startWorkers, List.flatten_cons, List.mem_append] at h
    rcases h with h | h
    · exact ⟨j, worker, le_refl _, by simp, h⟩
    · obtain ⟨k, s, h1, h2, h3⟩ := mem_startWorkers res rest (j + 1) e h
      exact ⟨k, s, by omega, by simp only [List.length_cons]; omega, h3⟩

theorem countP_startWorkers (res : Node → CmdResult) (n : Node) :
    ∀ (ws : List Server) (j : Nat),
      (startWorkers res j ws).flatten.countP (isIssueFor n) =
        match n with
        | .worker k => if j ≤ k ∧ k < j + ws.length ∧ res n ≠ .aborted then 1 else 0
        | .master _ => 0
  | [], j => by
    cases n with
    | master k => simp [startWorkers]
    | worker k =>
      simp only [startWorkers, List.flatten_nil, List.countP_nil, List.length_nil]
      rw [if_neg (by omega)]
  | worker :: rest, j => by
    simp only [startWorkers, List.flatten_cons, List.countP_append, countP_deployOn,
      countP_startWorkers res n rest (j + 1), List.length_cons]
    cases n with
    | master k => simp
    | worker k =>
      by_cases hk : k = j
      · subst hk
        by_cases hr : res (.worker k) = .aborted <;> simp [hr]
      · have hne : ¬ (Node.worker j = Node.worker k) := by
          intro h0
          exact hk (Node.worker.inj h0).symm
        by_cases hr : res (.worker k) = .aborted
        · simp [hr, hne]
        · by_cases h1 : j + 1 ≤ k ∧ k < j + 1 + rest.length
          · have h2 : j ≤ k ∧ k < j + (rest.length + 1) := by omega
            simp [hne, hr, h1, h2]
          · have h2 : ¬ (j ≤ k ∧ k < j + (rest.length + 1)) := by omega
            simp only [hne, false_and, if_false, zero_add]
            rw [if_neg (by tauto), if_neg (by tauto)]

theorem deployWorkers_shape (w : World) (res : Node → CmdResult) (sched2 : List Nat)
    (before : List Event) (ws : List Server) (hw : (workers w).1 = .ok ws) :
    ∃ b, (deployWorkers w res sched2 before).trace = before ++ b ∧
      b.Sublist (workerStage ws res sched2) ∧
      (aborts (workerStage ws res sched2) = false →
        anyFailed (workerStage ws res sched2) = false →
        (deployWorkers w res sched2 before).exit = .ok ∧ b = workerStage ws res sched2) := by
  unfold deployWorkers
  simp only [hw]
  change ∃ b, (if aborts (workerStage ws res sched2) then _ else _ : Run).trace = _ ∧ _
  by_cases ha : aborts (workerStage ws res sched2) = true
  · refine ⟨untilAbort (workerStage ws res sched2), ?_, untilAbort_sublist _, ?_⟩
    · simp only [workerStage] at ha ⊢
      simp [ha]
    · intro h
      simp [ha] at h
  · by_cases hf : anyFailed (workerStage ws res sched2) = true
    · refine ⟨workerStage ws res sched2, ?_, List.Sublist.refl _, ?_⟩
      · simp only [workerStage] at ha hf ⊢
        simp [ha, hf]
      · intro _ h
        simp [hf] at h
    · refine ⟨workerStage ws res sched2, ?_, List.Sublist.refl _, ?_⟩
      · simp only [workerStage] at ha hf ⊢
        simp [ha, hf]
      · intro _ _
        simp only [workerStage] at ha hf ⊢
        simp [ha, hf]

theorem deployK3s_shape (w : World) (res : Node → CmdResult) (kubeconfigOk : Bool)
    (sched1 sched2 : List Nat) (ws : List Server) (first : Server) (rest : List Server)
    (hms : w.cluster.masterInstances = first :: rest)
    (hm : w.cluster.masterInstances.length = mastersSize w.cluster)
    (hw : (workers w).1 = .ok ws) (h0 : res (.master 0) = .ok) :
    ∃ a b, (deployK3s w res kubeconfigOk sched1 sched2).trace =
        [.issue (.master 0) first, .done (.master 0) true] ++ (a ++ b) ∧
      a.Sublist (masterStage w res sched1) ∧ b.Sublist (workerStage ws res sched2) ∧
      (b ≠ [] → a = masterStage w res sched1 ∧ aborts (masterStage w res sched1) = false ∧
        anyFailed (masterStage w res sched1) = false) ∧
      (kubeconfigOk = true → aborts (masterStage w res sched1) = false →
        anyFailed (masterStage w res sched1) = false →
        aborts (workerStage ws res sched2) = false →
        anyFailed (workerStage ws res sched2) = false →
        (deployK3s w res kubeconfigOk sched1 sched2).exit = .ok ∧
          a = masterStage w res sched1 ∧ b = workerStage ws res sched2) := by
  have ht0 : deployOn res (.master 0) first =
      [.issue (.master 0) first, .done (.master 0) true] := by
    simp [deployOn, h0]
  have ha0 : aborts [Event.issue (.master 0) first, .done (.master 0) true] = false := by
    simp [aborts]
  have hf0 : anyFailed [Event.issue (.master 0) first, .done (.master 0) true] = false := by
    simp [anyFailed]
  unfold deployK3s
  simp only [hms, ht0, ha0, hf0, Bool.false_eq_true, if_false]
  cases kubeconfigOk with
  | false =>
    refine ⟨[], [], by simp, List.nil_sublist _, List.nil_sublist _, by simp, by simp⟩
  | true =>
    simp only [Bool.not_true, Bool.false_eq_true, if_false]
    by_cases hgt : mastersSize w.cluster > 1
    · have hst : (startMasters res (first :: rest) 1 (mastersSize w.cluster - 1)).2 = true := by
        apply startMasters_ok
        rw [← hms, hm]
        omega
      have hstage : masterStage w res sched1 =
          interleave sched1 (startMasters res (first :: rest) 1 (mastersSize w.cluster - 1)).1 := by
        simp [masterStage, hgt, hms]
      simp only [hgt, if_true, hst, Bool.not_true, Bool.false_eq_true, if_false, ← hstage]
      by_cases ha : aborts (masterStage w res sched1) = true
      · simp only [ha, if_true]
        refine ⟨untilAbort (masterStage w res sched1), [], by simp, untilAbort_sublist _,
          List.nil_sublist _, by simp, ?_⟩
        intro _ h
        simp [ha] at h
      · by_cases hf : anyFailed (masterStage w res sched1) = true
        · have ha1 : aborts (masterStage w res sched1) = false := by simpa using ha
          simp only [ha1, hf, if_true, Bool.false_eq_true, if_false]
          refine ⟨masterStage w res sched1, [], by simp, List.Sublist.refl _,
            List.nil_sublist _, by simp, ?_⟩
          intro _ _ h
          simp [hf] at h
        · have ha1 : aborts (masterStage w res sched1) = false := by simpa using ha
          have hf1 : anyFailed (masterStage w res sched1) = false := by simpa using hf
          simp only [ha1, hf1, Bool.false_eq_true, if_false]
          obtain ⟨b, hb1, hb2, hb3⟩ := deployWorkers_shape w res sched2
            ([Event.issue (.master 0) first, .done (.master 0) true] ++ masterStage w res sched1)
            ws hw
          refine ⟨masterStage w res sched1, b, ?_, List.Sublist.refl _, hb2, ?_, ?_⟩
          · rw [hb1]
            simp
          · intro _
            simp [ha1, hf1]
          · intro _ _ _ h1 h2
            exact ⟨(hb3 h1 h2).1, rfl, (hb3 h1 h2).2⟩
    · have hstage : masterStage w res sched1 = [] := by
        simp [masterStage, hgt]
      simp only [hgt, if_false, hstage]
      obtain ⟨b, hb1, hb2, hb3⟩ := deployWorkers_shape w res sched2
        [Event.issue (.master 0) first, .done (.master 0) true] ws hw
      refine ⟨[], b, ?_, List.Sublist.refl _, hb2, ?_, ?_⟩
      · rw [hb1]
        simp
      · intro _
        simp [aborts, anyFailed]
      · intro _ _ _ h1 h2
        exact ⟨(hb3 h1 h2).1, rfl, (hb3 h1 h2).2⟩

theorem mem_masterStage (w : World) (res : Node → CmdResult) (sched1 : List Nat) (e : Event)
    (h : e ∈ masterStage w res sched1) :
    ∃ k s, 1 ≤ k ∧ k < mastersSize w.cluster ∧ e ∈ deployOn res (.master k) s := by
  unfold masterStage at h
  by_cases hgt : mastersSize w.cluster > 1
  · simp only [hgt, if_true] at h
    rw [(interleave_perm _ _).mem_iff] at h
    obtain ⟨k, s, h1, h2, h3⟩ := mem_startMasters res _ _ _ e h
    exact ⟨k, s, h1, by omega, h3⟩
  · simp [hgt] at h

theorem countP_masterStage (w : World) (res : Node → CmdResult) (sched1 : List Nat) (n : Node)
    (hm : w.cluster.masterInstances.length = mastersSize w.cluster) :
    (masterStage w res sched1).countP (isIssueFor n) =
      match n with
      | .master k => if 1 ≤ k ∧ k < mastersSize w.cluster ∧ res n ≠ .aborted then 1 else 0
      | .worker _ => 0 := by
  unfold masterStage
  by_cases hgt : mastersSize w.cluster > 1
  · simp only [hgt, if_true]
    rw [(interleave_perm _ _).countP_eq, countP_startMasters res _ n _ _ (by omega)]
    cases n with
    | worker j => rfl
    | master k =>
      simp only
      by_cases hk : 1 ≤ k ∧ k < mastersSize w.cluster
      · have hk2 : 1 ≤ k ∧ k < 1 + (mastersSize w.cluster - 1) := by omega
        simp [hk, hk2]
      · have hk2 : ¬ (1 ≤ k ∧ k < 1 + (mastersSize w.cluster - 1)) := by omega
        rw [if_neg (by tauto), if_neg (by tauto)]
  · cases n with
    | worker j => simp [hgt]
    | master k =>
      simp only [hgt, if_false, List.countP_nil]
      rw [if_neg (by omega)]

theorem masterStage_covers (w : World) (res : Node → CmdResult) (sched1 : List Nat) (k : Nat)
    (hm : w.cluster.masterInstances.length = mastersSize w.cluster)
    (h1 : 1 ≤ k) (h2 : k < mastersSize w.cluster) :
    ∃ s, w.cluster.masterInstances[k]? = some s ∧
      ∀ e ∈ deployOn res (.master k) s, e ∈ masterStage w res sched1 := by
  unfold masterStage
  have hgt : mastersSize w.cluster > 1 := by omega
  simp only [hgt, if_true]
  obtain ⟨s, hs, hall⟩ := startMasters_covers res w.cluster.masterInstances
    (mastersSize w.cluster - 1) 1 k (by omega) h1 (by omega)
  exact ⟨s, hs, fun e he => (interleave_perm _ _).mem_iff.mpr (hall e he)⟩

theorem masterStage_done (w : World) (res : Node → CmdResult) (sched1 : List Nat) (k : Nat)
    (hm : w.cluster.masterInstances.length = mastersSize w.cluster)
    (ha : aborts (masterStage w res sched1) = false)
    (hf : anyFailed (masterStage w res sched1) = false)
    (h1 : 1 ≤ k) (h2 : k < mastersSize w.cluster) :
    Event.done (.master k) true ∈ masterStage w res sched1 := by
  obtain ⟨s, _, hall⟩ := masterStage_covers w res sched1 k hm h1 h2
  cases hr : res (.master k) with
  | ok => exact hall _ (by simp [deployOn, hr])
  | failed =>
    have : anyFailed (masterStage w res sched1) = true :=
      (anyFailed_iff _).mpr ⟨_, hall (.done (.master k) false) (by simp [deployOn, hr])⟩
    simp [hf] at this
  | aborted =>
    have : aborts (masterStage w res sched1) = true :=
      (aborts_iff _).mpr ⟨_, hall (.abort (.master k)) (by simp [deployOn, hr])⟩
    simp [ha] at this

theorem masterStage_clean (w : World) (res : Node → CmdResult) (sched1 : List Nat)
    (hok : ∀ k, k < mastersSize w.cluster → res (.master k) = .ok) :
    aborts (masterStage w res sched1) = false ∧ anyFailed (masterStage w res sched1) = false := by
  constructor
  · by_contra h
    have h1 : aborts (masterStage w res sched1) = true := by simpa using h
    obtain ⟨n, hn⟩ := (aborts_iff _).mp h1
    obtain ⟨k, s, _, hk, he⟩ := mem_masterStage w res sched1 _ hn
    simp [deployOn, hok k hk] at he
  · by_contra h
    have h1 : anyFailed (masterStage w res sched1) = true := by simpa using h
    obtain ⟨n, hn⟩ := (anyFailed_iff _).mp h1
    obtain ⟨k, s, _, hk, he⟩ := mem_masterStage w res sched1 _ hn
    simp [deployOn, hok k hk] at he

theorem mem_workerStage (ws : List Server) (res : Node → CmdResult) (sched2 : List Nat)
    (e : Event) (h : e ∈ workerStage ws res sched2) :
    ∃ j s, j < ws.length ∧ e ∈ deployOn res (.worker j) s := by
  unfold workerStage at h
  rw [(interleave_perm _ _).mem_iff] at h
  obtain ⟨k, s, _, h2, h3⟩ := mem_startWorkers res ws 0 e h
  exact ⟨k, s, by omega, h3⟩

theorem countP_workerStage (ws : List Server) (res : Node → CmdResult) (sched2 : List Nat)
    (n : Node) :
    (workerStage ws res sched2).countP (isIssueFor n) =
      match n with
      | .worker j => if j < ws.length ∧ res n ≠ .aborted then 1 else 0
      | .master _ => 0 := by
  unfold workerStage
  rw [(interleave_perm _ _).countP_eq, countP_startWorkers res n ws 0]
  cases n with
  | master k => rfl
  | worker j => simp

theorem workerStage_clean (ws : List Server) (res : Node → CmdResult) (sched2 : List Nat)
    (hok : ∀ j, j < ws.length → res (.worker j) = .ok) :
    aborts (workerStage ws res sched2) = false ∧
      anyFailed (workerStage ws res sched2) = false := by
  constructor
  · by_contra h
    have h1 : aborts (workerStage ws res sched2) = true := by simpa using h
    obtain ⟨n, hn⟩ := (aborts_iff _).mp h1
    obtain ⟨j, s, hj, he⟩ := mem_workerStage ws res sched2 _ hn
    simp [deployOn, hok j hj] at he
  · by_contra h
    have h1 : anyFailed (workerStage ws res sched2) = true := by simpa using h
    obtain ⟨n, hn⟩ := (anyFailed_iff _).mp h1
    obtain ⟨j, s, hj, he⟩ := mem_workerStage ws res sched2 _ hn
    simp [deployOn, hok j hj] at he

theorem prefix_of_split {α : Type} (x : α) (A B pre post : List α) (hx : x ∉ A)
    (h : A ++ B = pre ++ x :: post) : ∃ mid, pre = A ++ mid ∧ B = mid ++ x :: post := by
  rw [List.append_eq_append_iff] at h
  rcases h with ⟨a1, h1, h2⟩ | ⟨c1, h1, h2⟩
  · exact ⟨a1, h1, h2⟩
  · cases c1 with
    | nil =>
      simp only [List.nil_append] at h2
      simp only [List.append_nil] at h1
      exact ⟨[], by simp [h1], by simp [h2]⟩
    | cons c cs =>
      simp only [List.cons_append, List.cons.injEq] at h2
      exfalso
      apply hx
      rw [h1, h2.1]
      simp

theorem startWorkers_covers (res : Node → CmdResult) :
    ∀ (ws : List Server) (j k : Nat) (s : Server), ws[k]? = some s →
      ∀ e ∈ deployOn res (.worker (j + k)) s, e ∈ (startWorkers res j ws).flatten
  | [], _, _, _, h => by simp at h
  | worker :: rest, j, 0, s, h => by
    simp only [List.getElem?_cons_zero, Option.some.injEq] at h
    subst h
    intro e he
    simp only [startWorkers, List.flatten_cons, List.mem_append]
    exact Or.inl he
  | worker :: rest, j, k + 1, s, h => by
    simp only [List.getElem?_cons_succ] at h
    intro e he
    simp only [startWorkers, List.flatten_cons, List.mem_append]
    right
    have := startWorkers_covers res rest (j + 1) k s h e
    rw [show j + 1 + k = j + (k + 1) by omega] at this
    exact this he

theorem countP_first (first : Server) (b : Bool) (n : Node) :
    [Event.issue (.master 0) first, .done (.master 0) b].countP (isIssueFor n) =
      if n = .master 0 then 1 else 0 := by
  by_cases h : n = .master 0
  · subst h
    simp [isIssueFor, List.countP_cons]
  · have h1 : ¬ (Node.master 0 = n) := fun h0 => h h0.symm
    simp [isIssueFor, List.countP_cons, h, h1]

/-- C2: bootstrap ordering of `deployK3s`, for a cluster state with `m ≥ 1` masters
(the cached master list has as many entries as the configuration counts) and the
workers `ws`, whatever the commands return and however the concurrent tasks
interleave.  (1) Unless building its script stops the process, the first master's
command is the first event, its completion the second, and no later event concerns
the first master.  (2) If it fails, nothing else is issued and `deployK3s` returns
an error.  (3) No node is ever sent more than one command.  (4) When every command
succeeds and the credentials are saved, `deployK3s` returns nil and every master
and every worker was sent exactly one command.  (5) Before any command to a
worker, the command of every master has completed successfully. -/
theorem deployK3s_bootstrap_order (w : World) (res : Node → CmdResult) (kubeconfigOk : Bool)
    (sched1 sched2 : List Nat) (ws : List Server)
    (hm : w.cluster.masterInstances.length = mastersSize w.cluster)
    (h1 : 1 ≤ mastersSize w.cluster)
    (hw : (workers w).1 = .ok ws) :
    (res (.master 0) ≠ .aborted →
      ∃ first b rest, w.cluster.masterInstances[0]? = some first ∧
        (deployK3s w res kubeconfigOk sched1 sched2).trace =
          .issue (.master 0) first :: .done (.master 0) b :: rest ∧
        (b = true ↔ res (.master 0) = .ok) ∧ ∀ e ∈ rest, e.node ≠ .master 0) ∧
    (res (.master 0) = .failed →
      ∃ first, (deployK3s w res kubeconfigOk sched1 sched2) =
        { trace := [.issue (.master 0) first, .done (.master 0) false], exit := .error }) ∧
    (∀ n, (deployK3s w res kubeconfigOk sched1 sched2).trace.countP (isIssueFor n) ≤ 1) ∧
    ((∀ i, i < mastersSize w.cluster → res (.master i) = .ok) →
      (∀ j, j < ws.length → res (.worker j) = .ok) → kubeconfigOk = true →
      (deployK3s w res kubeconfigOk sched1 sched2).exit = .ok ∧
      (∀ i, i < mastersSize w.cluster →
        (deployK3s w res kubeconfigOk sched1 sched2).trace.countP (isIssueFor (.master i)) = 1) ∧
      (∀ j, j < ws.length →
        (deployK3s w res kubeconfigOk sched1 sched2).trace.countP (isIssueFor (.worker j)) = 1) ∧
      (∀ i s, w.cluster.masterInstances[i]? = some s →
        Event.issue (.master i) s ∈ (deployK3s w res kubeconfigOk sched1 sched2).trace) ∧
      (∀ j s, ws[j]? = some s →
        Event.issue (.worker j) s ∈ (deployK3s w res kubeconfigOk sched1 sched2).trace)) ∧
    (∀ pre post j s,
      (deployK3s w res kubeconfigOk sched1 sched2).trace = pre ++ .issue (.worker j) s :: post →
      ∀ i, i < mastersSize w.cluster → Event.done (.master i) true ∈ pre) := by
  obtain ⟨first, rest, hms⟩ : ∃ first rest, w.cluster.masterInstances = first :: rest := by
    cases hc : w.cluster.masterInstances with
    | nil =>
      rw [hc] at hm
      simp at hm
      omega
    | cons a l => exact ⟨a, l, rfl⟩
  cases hr0 : res (.master 0) with
  | aborted =>
    have hrun : deployK3s w res kubeconfigOk sched1 sched2 = { trace := [], exit := .halted } := by
      simp [deployK3s, hms, deployOn, hr0, aborts, untilAbort]
    rw [hrun]
    refine ⟨by simp, by simp, by simp, ?_, ?_⟩
    · intro h
      have := h 0 (by omega)
      simp [hr0] at this
    · intro pre post j s h
      simp at h
  | failed =>
    have hrun : deployK3s w res kubeconfigOk sched1 sched2 =
        { trace := [.issue (.master 0) first, .done (.master 0) false], exit := .error } := by
      simp [deployK3s, hms, deployOn, hr0, aborts, anyFailed]
    rw [hrun]
    refine ⟨?_, ?_, ?_, ?_, ?_⟩
    · intro _
      exact ⟨first, false, [], by simp [hms], rfl, by simp, by simp⟩
    · intro _
      exact ⟨first, rfl⟩
    · intro n
      simp only [countP_first]
      split <;> omega
    · intro h
      have := h 0 (by omega)
      simp [hr0] at this
    · intro pre post j s h
      have h2 : [Event.issue (.master 0) first, Event.done (.master 0) false] =
          pre ++ .issue (.worker j) s :: post := h
      have hmem : Event.issue (.worker j) s ∈
          [Event.issue (.master 0) first, Event.done (.master 0) false] := by
        rw [h2]
        simp
      simp at hmem
  | ok =>
    obtain ⟨a, b, htr, hsa, hsb, hb, hall⟩ :=
      deployK3s_shape w res kubeconfigOk sched1 sched2 ws first rest hms hm hw hr0
    have hnodeA : ∀ e ∈ a, ∃ k, 1 ≤ k ∧ k < mastersSize w.cluster ∧ e.node = .master k := by
      intro e he
      obtain ⟨k, s, hk1, hk2, hk3⟩ := mem_masterStage w res sched1 e (hsa.subset he)
      exact ⟨k, hk1, hk2, node_of_mem_deployOn res _ s e hk3⟩
    have hnodeB : ∀ e ∈ b, ∃ j, e.node = .worker j := by
      intro e he
      obtain ⟨j, s, _, hj⟩ := mem_workerStage ws res sched2 e (hsb.subset he)
      exact ⟨j, node_of_mem_deployOn res _ s e hj⟩
    have hcount : ∀ n, (deployK3s w res kubeconfigOk sched1 sched2).trace.countP (isIssueFor n) =
        (if n = .master 0 then 1 else 0) + a.countP (isIssueFor n) + b.countP (isIssueFor n) := by
      intro n
      rw [htr, List.countP_append, List.countP_append, countP_first]
      omega
    refine ⟨?_, ?_, ?_, ?_, ?_⟩
    · intro _
      refine ⟨first, true, a ++ b, by simp [hms], by simpa using htr, by simp, ?_⟩
      intro e he
      rcases List.mem_append.mp he with h | h
      · obtain ⟨k, hk1, _, hk⟩ := hnodeA e h
        rw [hk]
        intro h0
        have := Node.master.inj h0
        omega
      · obtain ⟨j, hj⟩ := hnodeB e h
        rw [hj]
        simp
    · intro h
      simp at h
    · intro n
      rw [hcount n]
      have hA := hsa.countP_le (isIssueFor n)
      have hB := hsb.countP_le (isIssueFor n)
      rw [countP_masterStage w res sched1 n hm] at hA
      rw [countP_workerStage ws res sched2 n] at hB
      cases n with
      | master k =>
        simp only at hA hB
        by_cases hk : k = 0
        · subst hk
          simp only [show ¬ (1 ≤ 0 ∧ 0 < mastersSize w.cluster ∧ res (.master 0) ≠ .aborted) by
            omega, if_false] at hA
          simp only [if_true]
          omega
        · have hne : ¬ (Node.master k = Node.master 0) := fun h0 => hk (Node.master.inj h0)
          simp only [hne, if_false]
          split at hA <;> omega
      | worker j =>
        simp only at hA hB
        have hne : ¬ (Node.worker j = Node.master 0) := by simp
        simp only [hne, if_false]
        split at hB <;> omega
    · intro hokM hokW hkube
      have hcM := masterStage_clean w res sched1 hokM
      have hcW := workerStage_clean ws res sched2 hokW
      obtain ⟨hexit, ha, hbeq⟩ := hall hkube hcM.1 hcM.2 hcW.1 hcW.2
      refine ⟨hexit, ?_, ?_, ?_, ?_⟩
      · intro i hi
        rw [hcount, ha, hbeq, countP_masterStage w res sched1 _ hm, countP_workerStage]
        simp only
        by_cases h0 : i = 0
        · subst h0
          simp
        · have hne : ¬ (Node.master i = Node.master 0) := fun h => h0 (Node.master.inj h)
          have hr : res (.master i) ≠ .aborted := by simp [hokM i hi]
          have hc : 1 ≤ i ∧ i < mastersSize w.cluster ∧ res (.master i) ≠ .aborted :=
            ⟨by omega, hi, hr⟩
          rw [if_neg hne, if_pos hc]
      · intro j hj
        rw [hcount, ha, hbeq, countP_masterStage w res sched1 _ hm, countP_workerStage]
        have hr : res (.worker j) ≠ .aborted := by simp [hokW j hj]
        have hc : j < ws.length ∧ res (.worker j) ≠ .aborted := ⟨hj, hr⟩
        simp only
        rw [if_neg (by simp), if_pos hc]
      · intro i s hs
        rw [htr, ha]
        by_cases h0 : i = 0
        · subst h0
          rw [hms] at hs
          simp only [List.getElem?_cons_zero, Option.some.injEq] at hs
          subst hs
          simp
        · have hi : i < mastersSize w.cluster := by
            rw [← hm]
            exact (List.getElem?_eq_some_iff.mp hs).1
          obtain ⟨s1, hs1, hcov⟩ := masterStage_covers w res sched1 i hm (by omega) hi
          rw [hs] at hs1
          cases hs1
          have := hcov (.issue (.master i) s) (by simp [deployOn, hokM i hi])
          simp [this]
      · intro j s hs
        rw [htr, hbeq]
        have hj : j < ws.length := (List.getElem?_eq_some_iff.mp hs).1
        have hcov := startWorkers_covers res ws 0 j s hs (.issue (.worker j) s)
          (by simp [deployOn, hokW j hj])
        have hmem : Event.issue (.worker j) s ∈ workerStage ws res sched2 := by
          unfold workerStage
          exact (interleave_perm _ _).mem_iff.mpr hcov
        simp [hmem]
    · intro pre post j s hsplit
      rw [htr, ← List.append_assoc] at hsplit
      have hx : Event.issue (.worker j) s ∉
          [Event.issue (.master 0) first, Event.done (.master 0) true] ++ a := by
        intro hmem
        rcases List.mem_append.mp hmem with h | h
        · simp at h
        · obtain ⟨k, _, _, hk⟩ := hnodeA _ h
          simp [Event.node] at hk
      obtain ⟨mid, hpre, hbmid⟩ := prefix_of_split _ _ _ _ _ hx hsplit
      have hbne : b ≠ [] := by
        rw [hbmid]
        simp
      obtain ⟨ha, hna, hnf⟩ := hb hbne
      intro i hi
      rw [hpre]
      by_cases h0 : i = 0
      · subst h0
        simp
      · have := masterStage_done w res sched1 i hm hna hnf (by omega) hi
        rw [ha]
        simp [this]

/-- C2, at three masters and two workers where every command succeeds. -/
theorem deployK3s_bootstrap_order_witness :
    (deployK3s threeMastersTwoWorkers (fun _ => .ok) true [1, 0] [1]).exit = .ok ∧
    (∀ pre post j s,
      (deployK3s threeMastersTwoWorkers (fun _ => .ok) true [1, 0] [1]).trace =
        pre ++ .issue (.worker j) s :: post →
      ∀ i, i < 3 → Event.done (.master i) true ∈ pre) :=
  have h := deployK3s_bootstrap_order threeMastersTwoWorkers (fun _ => .ok) true [1, 0] [1]
    ([1, 2].map demoWorker) (by decide) (by decide) (by decide)
  ⟨(h.2.2.2.1 (fun _ _ => rfl) (fun _ _ => rfl) rfl).1, h.2.2.2.2⟩

/-! ## C3: idempotent reconciliation -/

theorem bind_apply {α β : Type} (m : M α) (f : α → M β) (w : World) :
    (m >>= f) w = match m w with
      | (.ok a, w1) => f a w1
      | (.halt h, w1) => (.halt h, w1) := rfl

theorem pure_apply {α : Type} (a : α) (w : World) : (pure a : M α) w = (.ok a, w) := rfl

theorem serverGet_apply (name : String) (w : World)
    (h : w.env.apiFails ⟨.get, .server, name⟩ = false) :
    serverGet name w =
      (.ok (.ok (w.provider.servers.find? fun s => decide (s.name = name))),
        { w with log := w.log ++ [⟨.get, .server, name⟩] }) := by
  simp [serverGet, apiCall, bind_apply, api, h, getProvider, pure_apply]

theorem serverCreate_apply (opts : ServerCreateOpts) (w : World)
    (h : w.env.apiFails ⟨.create, .server, opts.name⟩ = false) :
    serverCreate opts w =
      (.ok (.ok { id := w.provider.nextID, name := opts.name,
                  publicIP := some (w.env.addressOf w.provider.nextID), privateNet := none,
                  labels := opts.labels, serverType := opts.serverType }),
        { w with
          log := w.log ++ [⟨.create, .server, opts.name⟩]
          provider := { w.provider with
            servers := w.provider.servers ++
              [{ id := w.provider.nextID, name := opts.name,
                 publicIP := some (w.env.addressOf w.provider.nextID), privateNet := none,
                 labels := opts.labels, serverType := opts.serverType }]
            nextID := w.provider.nextID + 1 } }) := by
  simp [serverCreate, apiCall, bind_apply, api, h, getProvider, getEnv, modifyProvider, pure_apply]

theorem CreateServer_apply (w : World) (opts : ServerCreateOpts)
    (hok : ∀ c, w.env.apiFails c = false) :
    CreateServer opts w =
      match w.provider.servers.find? fun s => decide (s.name = opts.name) with
      | some s => (.ok (.ok s), { w with log := w.log ++ [⟨.get, .server, opts.name⟩] })
      | none =>
        (.ok (.ok { id := w.provider.nextID, name := opts.name,
                    publicIP := some (w.env.addressOf w.provider.nextID), privateNet := none,
                    labels := opts.labels, serverType := opts.serverType }),
          { w with
            log := w.log ++ [⟨.get, .server, opts.name⟩, ⟨.create, .server, opts.name⟩]
            provider := { w.provider with
              servers := w.provider.servers ++
                [{ id := w.provider.nextID, name := opts.name,
                   publicIP := some (w.env.addressOf w.provider.nextID), privateNet := none,
                   labels := opts.labels, serverType := opts.serverType }]
              nextID := w.provider.nextID + 1 } }) := by
  cases hf : w.provider.servers.find? fun s => decide (s.name = opts.name) <;>
    simp [CreateServer, bind_apply, serverGet_apply, serverCreate_apply, hok, hf, pure_apply]

theorem CreateServer_twice (w : World) (opts : ServerCreateOpts)
    (hok : ∀ c, w.env.apiFails c = false) :
    ∃ s calls, (CreateServer opts w).1 = .ok (.ok s) ∧
      (CreateServer opts (CreateServer opts w).2).1 = .ok (.ok s) ∧
      (CreateServer opts (CreateServer opts w).2).2.log = w.log ++ calls ∧
      creations .server calls =
        if (w.provider.servers.find? fun s => decide (s.name = opts.name)).isSome then 0 else 1 := by
  cases hf : w.provider.servers.find? fun s => decide (s.name = opts.name) with
  | some s =>
    refine ⟨s, [⟨.get, .server, opts.name⟩, ⟨.get, .server, opts.name⟩], ?_⟩
    simp [CreateServer_apply, hok, hf, creations]
  | none =>
    refine ⟨⟨w.provider.nextID, opts.name, some (w.env.addressOf w.provider.nextID), none,
        opts.labels, opts.serverType⟩,
      [⟨.get, .server, opts.name⟩, ⟨.create, .server, opts.name⟩,
        ⟨.get, .server, opts.name⟩], ?_⟩
    simp [CreateServer_apply, hok, hf, creations, List.find?_append]

theorem placementGroupGet_apply (name : String) (w : World)
    (h : w.env.apiFails ⟨.get, .placementGroup, name⟩ = false) :
    placementGroupGet name w =
      (.ok (.ok (w.provider.placementGroups.find? fun g => decide (g.name = name))),
        { w with log := w.log ++ [⟨.get, .placementGroup, name⟩] }) := by
  simp [placementGroupGet, apiCall, bind_apply, api, h, getProvider, pure_apply]

theorem placementGroupCreate_apply (name : String) (w : World)
    (h : w.env.apiFails ⟨.create, .placementGroup, name⟩ = false) :
    placementGroupCreate name w =
      (.ok (.ok { id := w.provider.nextID, name := name }),
        { w with
          log := w.log ++ [⟨.create, .placementGroup, name⟩]
          provider := { w.provider with
            placementGroups := w.provider.placementGroups ++
              [{ id := w.provider.nextID, name := name }]
            nextID := w.provider.nextID + 1 } }) := by
  simp [placementGroupCreate, apiCall, bind_apply, api, h, getProvider, modifyProvider, pure_apply]

theorem CreatePlacementGroup_apply (w : World) (name : String)
    (hok : ∀ c, w.env.apiFails c = false) :
    CreatePlacementGroup name w =
      match w.provider.placementGroups.find? fun g => decide (g.name = name) with
      | some pg => (.ok (.ok pg), { w with log := w.log ++ [⟨.get, .placementGroup, name⟩] })
      | none =>
        (.ok (.ok { id := w.provider.nextID, name := name }),
          { w with
            log := w.log ++ [⟨.get, .placementGroup, name⟩, ⟨.create, .placementGroup, name⟩]
            provider := { w.provider with
              placementGroups := w.provider.placementGroups ++
                [{ id := w.provider.nextID, name := name }]
              nextID := w.provider.nextID + 1 } }) := by
  cases hf : w.provider.placementGroups.find? fun g => decide (g.name = name) <;>
    simp [CreatePlacementGroup, bind_apply, placementGroupGet_apply, placementGroupCreate_apply,
      hok, hf, pure_apply]

theorem CreatePlacementGroup_twice (w : World) (name : String)
    (hok : ∀ c, w.env.apiFails c = false) :
    ∃ pg calls, (CreatePlacementGroup name w).1 = .ok (.ok pg) ∧
      (CreatePlacementGroup name (CreatePlacementGroup name w).2).1 = .ok (.ok pg) ∧
      (CreatePlacementGroup name (CreatePlacementGroup name w).2).2.log = w.log ++ calls ∧
      creations .placementGroup calls =
        if (w.provider.placementGroups.find? fun g => decide (g.name = name)).isSome
        then 0 else 1 := by
  cases hf : w.provider.placementGroups.find? fun g => decide (g.name = name) with
  | some pg =>
    refine ⟨pg, [⟨.get, .placementGroup, name⟩, ⟨.get, .placementGroup, name⟩], ?_⟩
    simp [CreatePlacementGroup_apply, hok, hf, creations]
  | none =>
    refine ⟨⟨w.provider.nextID, name⟩,
      [⟨.get, .placementGroup, name⟩, ⟨.create, .placementGroup, name⟩,
        ⟨.get, .placementGroup, name⟩], ?_⟩
    simp [CreatePlacementGroup_apply, hok, hf, creations, List.find?_append]

theorem sshKeyGet_apply (name : String) (w : World)
    (h : w.env.apiFails ⟨.get, .sshKey, name⟩ = false) :
    sshKeyGet name w =
      (.ok (.ok (w.provider.sshKeys.find? fun k => decide (k.name = name))),
        { w with log := w.log ++ [⟨.get, .sshKey, name⟩] }) := by
  simp [sshKeyGet, apiCall, bind_apply, api, h, getProvider, pure_apply]

theorem sshKeyCreate_apply (name key : String) (w : World)
    (h : w.env.apiFails ⟨.create, .sshKey, name⟩ = false) :
    sshKeyCreate name key w =
      (.ok (.ok { id := w.provider.nextID, name := name, publicKey := key }),
        { w with
          log := w.log ++ [⟨.create, .sshKey, name⟩]
          provider := { w.provider with
            sshKeys := w.provider.sshKeys ++
              [{ id := w.provider.nextID, name := name, publicKey := key }]
            nextID := w.provider.nextID + 1 } }) := by
  simp [sshKeyCreate, apiCall, bind_apply, api, h, getProvider, modifyProvider, pure_apply]

theorem CreateSSHKey_apply (w : World) (hok : ∀ c, w.env.apiFails c = false) :
    CreateSSHKey w =
      match w.env.readFile w.cluster.config.publicSSHKeyPath with
      | none => (.ok (.error "cannot read file"), w)
      | some bytes =>
        if w.env.validAuthorizedKey bytes = false then
          (.ok (.error "cannot parse ssh public key"), w)
        else
          match w.provider.sshKeys.find? fun k =>
              decide (k.name = w.cluster.config.clusterName) with
          | some key =>
            (.ok (.ok key),
              { w with log := w.log ++ [⟨.get, .sshKey, w.cluster.config.clusterName⟩] })
          | none =>
            (.ok (.ok { id := w.provider.nextID, name := w.cluster.config.clusterName,
                        publicKey := bytes }),
              { w with
                log := w.log ++ [⟨.get, .sshKey, w.cluster.config.clusterName⟩,
                  ⟨.create, .sshKey, w.cluster.config.clusterName⟩]
                provider := { w.provider with
                  sshKeys := w.provider.sshKeys ++
                    [{ id := w.provider.nextID, name := w.cluster.config.clusterName,
                       publicKey := bytes }]
                  nextID := w.provider.nextID + 1 } }) := by
  cases hfile : w.env.readFile w.cluster.config.publicSSHKeyPath with
  | none => simp [CreateSSHKey, bind_apply, getCluster, getEnv, hfile, pure_apply]
  | some bytes =>
    cases hvalid : w.env.validAuthorizedKey bytes with
    | false => simp [CreateSSHKey, bind_apply, getCluster, getEnv, hfile, hvalid, pure_apply]
    | true =>
      cases hf : w.provider.sshKeys.find? fun k =>
          decide (k.name = w.cluster.config.clusterName) <;>
        simp [CreateSSHKey, bind_apply, getCluster, getEnv, hfile, hvalid, sshKeyGet_apply,
          sshKeyCreate_apply, hok, hf, pure_apply]

theorem CreateSSHKey_twice (w : World) (bytes : String)
    (hok : ∀ c, w.env.apiFails c = false)
    (hfile : w.env.readFile w.cluster.config.publicSSHKeyPath = some bytes)
    (hvalid : w.env.validAuthorizedKey bytes = true) :
    ∃ key calls, (CreateSSHKey w).1 = .ok (.ok key) ∧
      (CreateSSHKey (CreateSSHKey w).2).1 = .ok (.ok key) ∧
      (CreateSSHKey (CreateSSHKey w).2).2.log = w.log ++ calls ∧
      creations .sshKey calls =
        if (w.provider.sshKeys.find? fun k =>
          decide (k.name = w.cluster.config.clusterName)).isSome then 0 else 1 := by
  cases hf : w.provider.sshKeys.find? fun k => decide (k.name = w.cluster.config.clusterName) with
  | some key =>
    refine ⟨key, [⟨.get, .sshKey, w.cluster.config.clusterName⟩,
      ⟨.get, .sshKey, w.cluster.config.clusterName⟩], ?_⟩
    simp [CreateSSHKey_apply, hok, hfile, hvalid, hf, creations]
  | none =>
    refine ⟨⟨w.provider.nextID, w.cluster.config.clusterName, bytes⟩,
      [⟨.get, .sshKey, w.cluster.config.clusterName⟩,
        ⟨.create, .sshKey, w.cluster.config.clusterName⟩,
        ⟨.get, .sshKey, w.cluster.config.clusterName⟩], ?_⟩
    simp [CreateSSHKey_apply, hok, hfile, hvalid, hf, creations, List.find?_append]

theorem find?_map_preserving {α : Type} (f : α → α) (p : α → Bool) (hp : ∀ a, p (f a) = p a) :
    ∀ l : List α, (l.map f).find? p = (l.find? p).map f
  | [] => rfl
  | a :: l => by
    simp only [List.map_cons, List.find?_cons, hp]
    cases p a
    · exact find?_map_preserving f p hp l
    · rfl

theorem firewallGet_apply (name : String) (w : World)
    (h : w.env.apiFails ⟨.get, .firewall, name⟩ = false) :
    firewallGet name w =
      (.ok (.ok (w.provider.firewalls.find? fun f => decide (f.name = name))),
        { w with log := w.log ++ [⟨.get, .firewall, name⟩] }) := by
  simp [firewallGet, apiCall, bind_apply, api, h, getProvider, pure_apply]

theorem firewallCreate_apply (name : String) (rules : List FirewallRule) (w : World)
    (h : w.env.apiFails ⟨.create, .firewall, name⟩ = false) :
    firewallCreate name rules w =
      (.ok (.ok { id := w.provider.nextID, name := name, rules := rules }),
        { w with
          log := w.log ++ [⟨.create, .firewall, name⟩]
          provider := { w.provider with
            firewalls := w.provider.firewalls ++
              [{ id := w.provider.nextID, name := name, rules := rules }]
            nextID := w.provider.nextID + 1 } }) := by
  simp [firewallCreate, apiCall, bind_apply, api, h, getProvider, modifyProvider, pure_apply]

theorem firewallSetRules_apply (fw : Firewall) (rules : List FirewallRule) (w : World)
    (h : w.env.apiFails ⟨.setRules, .firewall, fw.name⟩ = false) :
    firewallSetRules fw rules w =
      (.ok (.ok ()),
        { w with
          log := w.log ++ [⟨.setRules, .firewall, fw.name⟩]
          provider := { w.provider with
            firewalls := w.provider.firewalls.map fun f =>
              if f.id = fw.id then { f with rules := rules } else f } }) := by
  simp [firewallSetRules, apiCall, bind_apply, api, h, modifyProvider, pure_apply]

theorem CreateFirewall_apply (w : World) (hok : ∀ c, w.env.apiFails c = false) :
    CreateFirewall w =
      match createFirewallRules w.env.parseCIDR w.cluster with
      | none =>
        (.halt .panic,
          { w with log := w.log ++ [⟨.get, .firewall, w.cluster.config.clusterName⟩] })
      | some rules =>
        match w.provider.firewalls.find? fun f =>
            decide (f.name = w.cluster.config.clusterName) with
        | some fw =>
          (.ok (.ok fw),
            { w with
              log := w.log ++ [⟨.get, .firewall, w.cluster.config.clusterName⟩,
                ⟨.setRules, .firewall, fw.name⟩]
              provider := { w.provider with
                firewalls := w.provider.firewalls.map fun f =>
                  if f.id = fw.id then { f with rules := rules } else f } })
        | none =>
          (.ok (.ok { id := w.provider.nextID, name := w.cluster.config.clusterName,
                      rules := rules }),
            { w with
              log := w.log ++ [⟨.get, .firewall, w.cluster.config.clusterName⟩,
                ⟨.create, .firewall, w.cluster.config.clusterName⟩]
              provider := { w.provider with
                firewalls := w.provider.firewalls ++
                  [{ id := w.provider.nextID, name := w.cluster.config.clusterName,
                     rules := rules }]
                nextID := w.provider.nextID + 1 } }) := by
  cases hr : createFirewallRules w.env.parseCIDR w.cluster <;>
    cases hf : w.provider.firewalls.find? fun f =>
      decide (f.name = w.cluster.config.clusterName) <;>
    simp [CreateFirewall, bind_apply, getCluster, getEnv, hr, firewallGet_apply,
      firewallCreate_apply, firewallSetRules_apply, hok, hf, pure_apply, halt]

theorem CreateFirewall_twice (w : World) (rules : List FirewallRule)
    (hok : ∀ c, w.env.apiFails c = false)
    (hrules : createFirewallRules w.env.parseCIDR w.cluster = some rules) :
    ∃ fw1 fw2 calls, (CreateFirewall w).1 = .ok (.ok fw1) ∧
      (CreateFirewall (CreateFirewall w).2).1 = .ok (.ok fw2) ∧
      fw1.id = fw2.id ∧ fw1.name = fw2.name ∧
      (CreateFirewall (CreateFirewall w).2).2.log = w.log ++ calls ∧
      creations .firewall calls =
        if (w.provider.firewalls.find? fun f =>
          decide (f.name = w.cluster.config.clusterName)).isSome then 0 else 1 := by
  cases hf : w.provider.firewalls.find? fun f =>
      decide (f.name = w.cluster.config.clusterName) with
  | some fw =>
    have hmap : (w.provider.firewalls.map fun f =>
          if f.id = fw.id then { f with rules := rules } else f).find?
          (fun f => decide (f.name = w.cluster.config.clusterName)) =
        some { fw with rules := rules } := by
      rw [find?_map_preserving _ _ _ w.provider.firewalls, hf]
      · simp
      · intro a
        split <;> rfl
    refine ⟨fw, { fw with rules := rules },
      [⟨.get, .firewall, w.cluster.config.clusterName⟩, ⟨.setRules, .firewall, fw.name⟩,
        ⟨.get, .firewall, w.cluster.config.clusterName⟩, ⟨.setRules, .firewall, fw.name⟩], ?_⟩
    simp [CreateFirewall_apply, hok, hrules, hf, hmap, creations]
  | none =>
    refine ⟨⟨w.provider.nextID, w.cluster.config.clusterName, rules⟩,
      ⟨w.provider.nextID, w.cluster.config.clusterName, rules⟩,
      [⟨.get, .firewall, w.cluster.config.clusterName⟩,
        ⟨.create, .firewall, w.cluster.config.clusterName⟩,
        ⟨.get, .firewall, w.cluster.config.clusterName⟩,
        ⟨.setRules, .firewall, w.cluster.config.clusterName⟩], ?_⟩
    simp [CreateFirewall_apply, hok, hrules, hf, creations, List.find?_append]

theorem networkGet_apply (name : String) (w : World)
    (h : w.env.apiFails ⟨.get, .network, name⟩ = false) :
    networkGet name w =
      (.ok (.ok (w.provider.networks.find? fun n => decide (n.name = name))),
        { w with log := w.log ++ [⟨.get, .network, name⟩] }) := by
  simp [networkGet, apiCall, bind_apply, api, h, getProvider, pure_apply]

theorem networkCreate_apply (name : String) (r : Option IPNet) (w : World)
    (h : w.env.apiFails ⟨.create, .network, name⟩ = false) :
    networkCreate name r w =
      (.ok (.ok { id := w.provider.nextID, name := name, ipRange := r, subnets := [] }),
        { w with
          log := w.log ++ [⟨.create, .network, name⟩]
          provider := { w.provider with
            networks := w.provider.networks ++
              [{ id := w.provider.nextID, name := name, ipRange := r, subnets := [] }]
            nextID := w.provider.nextID + 1 } }) := by
  simp [networkCreate, apiCall, bind_apply, api, h, getProvider, modifyProvider, pure_apply]

theorem networkAddSubnet_apply (n : Network) (sn : Subnet) (w : World)
    (h : w.env.apiFails ⟨.addSubnet, .network, n.name⟩ = false) :
    networkAddSubnet n sn w =
      (.ok (.ok ()),
        { w with
          log := w.log ++ [⟨.addSubnet, .network, n.name⟩]
          provider := { w.provider with
            networks := w.provider.networks.map fun x =>
              if x.id = n.id then { x with subnets := x.subnets ++ [sn] } else x } }) := by
  simp [networkAddSubnet, apiCall, bind_apply, api, h, modifyProvider, pure_apply]

/-- What `addSubnet` does when the provider does not fail: no error, no creation
call, and the networks of the provider keep their ids and names. -/
theorem addSubnet_spec (n : Network) (w : World) (hok : ∀ c, w.env.apiFails c = false) :
    ∃ calls g, (addSubnet n w).1 = .ok none ∧ (addSubnet n w).2.log = w.log ++ calls ∧
      (∀ k, creations k calls = 0) ∧ (addSubnet n w).2.env = w.env ∧
      (addSubnet n w).2.cluster.config = w.cluster.config ∧
      (addSubnet n w).2.provider.networks = w.provider.networks.map g ∧
      ∀ a : Network, (g a).id = a.id ∧ (g a).name = a.name := by
  by_cases hr : w.cluster.clusterNetworkIPRange = none
  · by_cases hany : ∃ x ∈ n.subnets, x.ipRange = n.ipRange
    · refine ⟨[], id, ?_⟩
      simp [addSubnet, bind_apply, getCluster, hr, modifyCluster, hany, pure_apply, creations]
    · refine ⟨[⟨.addSubnet, .network, n.name⟩],
        (fun x => if x.id = n.id then
          { x with subnets := x.subnets ++ [⟨n.ipRange, w.cluster.clusterNetworkZone⟩] }
          else x), ?_⟩
      simp [addSubnet, bind_apply, getCluster, hr, modifyCluster, hany, pure_apply,
        networkAddSubnet_apply, hok, creations]
      intro a
      split <;> simp
  · by_cases hany : ∃ x ∈ n.subnets, x.ipRange = w.cluster.clusterNetworkIPRange
    · refine ⟨[], id, ?_⟩
      simp [addSubnet, bind_apply, getCluster, hr, hany, pure_apply, creations]
    · refine ⟨[⟨.addSubnet, .network, n.name⟩],
        (fun x => if x.id = n.id then
          { x with subnets := x.subnets ++
              [⟨w.cluster.clusterNetworkIPRange, w.cluster.clusterNetworkZone⟩] }
          else x), ?_⟩
      simp [addSubnet, bind_apply, getCluster, hr, hany, pure_apply, networkAddSubnet_apply,
        hok, creations]
      intro a
      split <;> simp

theorem creations_cons (k : Kind) (c : Call) (cs : List Call) :
    creations k (c :: cs) = (if c.op = .create ∧ c.kind = k then 1 else 0) + creations k cs := by
  unfold creations
  rw [List.countP_cons]
  by_cases h : c.op = .create ∧ c.kind = k
  · simp [h]
    omega
  · simp [h]

theorem bind_ok {α β : Type} (m : M α) (f : α → M β) (w : World) (a : α)
    (h : (m w).1 = .ok a) : (m >>= f) w = f a (m w).2 := by
  rw [bind_apply]
  generalize m w = r at h
  obtain ⟨o, w1⟩ := r
  simp only at h
  subst h
  rfl

theorem bind_halt {α β : Type} (m : M α) (f : α → M β) (w : World) (x : Halt)
    (h : (m w).1 = .halt x) : (m >>= f) w = (.halt x, (m w).2) := by
  rw [bind_apply]
  generalize m w = r at h
  obtain ⟨o, w1⟩ := r
  simp only at h
  subst h
  rfl

theorem CreateNetwork_found (w : World) (n0 : Network) (hok : ∀ c, w.env.apiFails c = false)
    (hf : (w.provider.networks.find? fun x =>
      decide (x.name = networkName w.cluster.config)) = some n0) :
    CreateNetwork w =
      (addSubnet n0 >>= fun r =>
        match r with
        | some e => pure (.error ("cannot add subnet: " ++ e))
        | none => pure (.ok n0))
        { w with log := w.log ++ [⟨.get, .network, networkName w.cluster.config⟩] } := by
  simp only [CreateNetwork, bind_apply, getCluster, getEnv, networkGet_apply _ w (hok _), hf]

theorem CreateNetwork_absent (w : World) (hok : ∀ c, w.env.apiFails c = false)
    (hf : (w.provider.networks.find? fun x =>
      decide (x.name = networkName w.cluster.config)) = none) :
    CreateNetwork w =
      (addSubnet { id := w.provider.nextID, name := networkName w.cluster.config,
                   ipRange := iprange w.env.parseCIDR w.cluster, subnets := [] } >>= fun r =>
        match r with
        | some e => pure (.error ("cannot add subnet: " ++ e))
        | none => pure (.ok { id := w.provider.nextID, name := networkName w.cluster.config,
                              ipRange := iprange w.env.parseCIDR w.cluster, subnets := [] }))
        { w with
          log := w.log ++ [⟨.get, .network, networkName w.cluster.config⟩,
            ⟨.create, .network, networkName w.cluster.config⟩]
          provider := { w.provider with
            networks := w.provider.networks ++
              [{ id := w.provider.nextID, name := networkName w.cluster.config,
                 ipRange := iprange w.env.parseCIDR w.cluster, subnets := [] }]
            nextID := w.provider.nextID + 1 } } := by
  simp [CreateNetwork, bind_apply, getCluster, getEnv, networkGet_apply, networkCreate_apply,
    hok, hf]

/-- What `CreateNetwork` does when the provider does not fail. -/
theorem CreateNetwork_spec (w : World) (hok : ∀ c, w.env.apiFails c = false) :
    ∃ (n : Network) (calls : List Call) (g : Network → Network),
      (CreateNetwork w).1 = .ok (.ok n) ∧
      (CreateNetwork w).2.log = w.log ++ calls ∧
      creations .network calls =
        (if (w.provider.networks.find? fun x =>
          decide (x.name = networkName w.cluster.config)).isSome then 0 else 1) ∧
      (CreateNetwork w).2.env = w.env ∧
      (CreateNetwork w).2.cluster.config = w.cluster.config ∧
      ((CreateNetwork w).2.provider.networks.find? fun x =>
        decide (x.name = networkName w.cluster.config)) = some (g n) ∧
      (g n).id = n.id ∧ (g n).name = n.name ∧
      ∀ n0, (w.provider.networks.find? fun x =>
        decide (x.name = networkName w.cluster.config)) = some n0 → n = n0 := by
  cases hf : w.provider.networks.find? fun x =>
      decide (x.name = networkName w.cluster.config) with
  | some n0 =>
    obtain ⟨calls, g, h1, h2, h3, h4, h5, h6, h7⟩ := addSubnet_spec n0
      { w with log := w.log ++ [⟨.get, .network, networkName w.cluster.config⟩] } hok
    refine ⟨n0, ⟨.get, .network, networkName w.cluster.config⟩ :: calls, g, ?_⟩
    rw [CreateNetwork_found w n0 hok hf, bind_ok _ _ _ _ h1]
    refine ⟨rfl, ?_, ?_, h4, h5, ?_, (h7 n0).1, (h7 n0).2, ?_⟩
    · simp [pure_apply, h2]
    · rw [creations_cons, h3]
      simp
    · simp only [pure_apply, h6]
      rw [find?_map_preserving g _ _ w.provider.networks]
      · simp [hf]
      · intro a
        simp [(h7 a).2]
    · intro n1 h
      simpa using h
  | none =>
    obtain ⟨calls, g, h1, h2, h3, h4, h5, h6, h7⟩ := addSubnet_spec
      { id := w.provider.nextID, name := networkName w.cluster.config,
        ipRange := iprange w.env.parseCIDR w.cluster, subnets := [] }
      { w with
        log := w.log ++ [⟨.get, .network, networkName w.cluster.config⟩,
          ⟨.create, .network, networkName w.cluster.config⟩]
        provider := { w.provider with
          networks := w.provider.networks ++
            [{ id := w.provider.nextID, name := networkName w.cluster.config,
               ipRange := iprange w.env.parseCIDR w.cluster, subnets := [] }]
          nextID := w.provider.nextID + 1 } } hok
    refine ⟨⟨w.provider.nextID, networkName w.cluster.config,
        iprange w.env.parseCIDR w.cluster, []⟩,
      ⟨.get, .network, networkName w.cluster.config⟩ ::
        ⟨.create, .network, networkName w.cluster.config⟩ :: calls, g, ?_⟩
    rw [CreateNetwork_absent w hok hf, bind_ok _ _ _ _ h1]
    refine ⟨rfl, ?_, ?_, h4, h5, ?_, (h7 _).1, (h7 _).2, ?_⟩
    · simp [pure_apply, h2]
    · rw [creations_cons, creations_cons, h3]
      simp
    · simp only [pure_apply, h6]
      rw [find?_map_preserving g _ _ _]
      · simp [List.find?_append, hf]
      · intro a
        simp [(h7 a).2]
    · intro n1 h
      simp at h

theorem creations_append (k : Kind) (a b : List Call) :
    creations k (a ++ b) = creations k a + creations k b := by
  simp [creations, List.countP_append]

theorem CreateNetwork_twice (w : World) (hok : ∀ c, w.env.apiFails c = false) :
    ∃ (n1 n2 : Network) (calls : List Call), (CreateNetwork w).1 = .ok (.ok n1) ∧
      (CreateNetwork (CreateNetwork w).2).1 = .ok (.ok n2) ∧
      n1.id = n2.id ∧ n1.name = n2.name ∧
      (CreateNetwork (CreateNetwork w).2).2.log = w.log ++ calls ∧
      creations .network calls =
        if (w.provider.networks.find? fun x =>
          decide (x.name = networkName w.cluster.config)).isSome then 0 else 1 := by
  obtain ⟨n, c1, g, h1, h2, h3, h4, h5, h6, h7, h8, _⟩ := CreateNetwork_spec w hok
  have hok1 : ∀ c, (CreateNetwork w).2.env.apiFails c = false := by
    rw [h4]
    exact hok
  obtain ⟨n2, c2, g2, k1, k2, k3, _, _, _, _, _, k9⟩ := CreateNetwork_spec (CreateNetwork w).2 hok1
  rw [h5] at k3 k9
  have hn2 : n2 = g n := k9 _ h6
  refine ⟨n, n2, c1 ++ c2, h1, k1, ?_, ?_, ?_, ?_⟩
  · rw [hn2, h7]
  · rw [hn2, h8]
  · rw [k2, h2, List.append_assoc]
  · rw [creations_append, h3, k3, h6]
    simp

/-- C3: idempotent reconciliation.  Against a provider that answers every call
(a name-indexed store), with a readable well-formed public key and computable
firewall rules, each of `CreateServer`, `CreatePlacementGroup`, `CreateSSHKey`,
`CreateNetwork` and `CreateFirewall`, called twice in sequence, returns the same
resource both times (the same record for servers, placement groups and keys; the
same id and name for the network and the firewall, whose snapshot the second call
reads back from the provider), and the two calls together issue one creation call
when no resource of that name existed before the first call and none otherwise. -/
theorem reconcile_twice_same_handle_one_creation (w : World) (opts : ServerCreateOpts)
    (pgName bytes : String) (rules : List FirewallRule)
    (hok : ∀ c, w.env.apiFails c = false)
    (hfile : w.env.readFile w.cluster.config.publicSSHKeyPath = some bytes)
    (hvalid : w.env.validAuthorizedKey bytes = true)
    (hrules : createFirewallRules w.env.parseCIDR w.cluster = some rules) :
    (∃ s calls, (CreateServer opts w).1 = .ok (.ok s) ∧
      (CreateServer opts (CreateServer opts w).2).1 = .ok (.ok s) ∧
      (CreateServer opts (CreateServer opts w).2).2.log = w.log ++ calls ∧
      creations .server calls =
        if (w.provider.servers.find? fun s => decide (s.name = opts.name)).isSome
        then 0 else 1) ∧
    (∃ pg calls, (CreatePlacementGroup pgName w).1 = .ok (.ok pg) ∧
      (CreatePlacementGroup pgName (CreatePlacementGroup pgName w).2).1 = .ok (.ok pg) ∧
      (CreatePlacementGroup pgName (CreatePlacementGroup pgName w).2).2.log = w.log ++ calls ∧
      creations .placementGroup calls =
        if (w.provider.placementGroups.find? fun g => decide (g.name = pgName)).isSome
        then 0 else 1) ∧
    (∃ key calls, (CreateSSHKey w).1 = .ok (.ok key) ∧
      (CreateSSHKey (CreateSSHKey w).2).1 = .ok (.ok key) ∧
      (CreateSSHKey (CreateSSHKey w).2).2.log = w.log ++ calls ∧
      creations .sshKey calls =
        if (w.provider.sshKeys.find? fun k =>
          decide (k.name = w.cluster.config.clusterName)).isSome then 0 else 1) ∧
    (∃ (n1 n2 : Network) (calls : List Call), (CreateNetwork w).1 = .ok (.ok n1) ∧
      (CreateNetwork (CreateNetwork w).2).1 = .ok (.ok n2) ∧
      n1.id = n2.id ∧ n1.name = n2.name ∧
      (CreateNetwork (CreateNetwork w).2).2.log = w.log ++ calls ∧
      creations .network calls =
        if (w.provider.networks.find? fun x =>
          decide (x.name = networkName w.cluster.config)).isSome then 0 else 1) ∧
    (∃ fw1 fw2 calls, (CreateFirewall w).1 = .ok (.ok fw1) ∧
      (CreateFirewall (CreateFirewall w).2).1 = .ok (.ok fw2) ∧
      fw1.id = fw2.id ∧ fw1.name = fw2.name ∧
      (CreateFirewall (CreateFirewall w).2).2.log = w.log ++ calls ∧
      creations .firewall calls =
        if (w.provider.firewalls.find? fun f =>
          decide (f.name = w.cluster.config.clusterName)).isSome then 0 else 1) :=
  ⟨CreateServer_twice w opts hok, CreatePlacementGroup_twice w pgName hok,
    CreateSSHKey_twice w bytes hok hfile hvalid, CreateNetwork_twice w hok,
    CreateFirewall_twice w rules hok hrules⟩

/-- C3, on a provider that holds no resource yet: two calls of `CreateServer`
return the same server and log one creation call. -/
theorem reconcile_twice_witness :
    ∃ s calls, (CreateServer demoOpts freshCluster).1 = .ok (.ok s) ∧
      (CreateServer demoOpts (CreateServer demoOpts freshCluster).2).1 = .ok (.ok s) ∧
      (CreateServer demoOpts (CreateServer demoOpts freshCluster).2).2.log =
        freshCluster.log ++ calls ∧
      creations .server calls =
        if (freshCluster.provider.servers.find? fun s =>
          decide (s.name = demoOpts.name)).isSome then 0 else 1 :=
  (reconcile_twice_same_handle_one_creation freshCluster demoOpts "demo"
    "ssh-ed25519 AAAA demo"
    [pingRule, internalTCPRule ⟨167772160, 16, 32⟩, internalUDPRule ⟨167772160, 16, 32⟩,
      customAPIRule ⟨0, 0, 32⟩, customSSHRule ⟨0, 0, 32⟩]
    (fun _ => rfl) (by decide) (by decide) (by decide)).1

/-! ## Frame conditions of the orchestrator -/

set_option linter.unusedTactic false
set_option linter.unreachableTactic false

theorem emits_iff {α : Type} (P : Call → Prop) (m : M α) :
    Emits P m ↔ ∀ w, Steps P w (m w).2 := by
  unfold Emits
  exact Iff.rfl

theorem Steps.refl (P : Call → Prop) (w : World) : Steps P w w :=
  ⟨rfl, rfl, rfl, [], by simp, by simp⟩

theorem Steps.trans {P : Call → Prop} {w w1 w2 : World} (h1 : Steps P w w1)
    (h2 : Steps P w1 w2) : Steps P w w2 := by
  obtain ⟨e1, c1, s1, l1, hl1, hp1⟩ := h1
  obtain ⟨e2, c2, s2, l2, hl2, hp2⟩ := h2
  refine ⟨e2.trans e1, c2.trans c1, s2.trans s1, l1 ++ l2, ?_, ?_⟩
  · rw [hl2, hl1, List.append_assoc]
  · intro c hc
    rcases List.mem_append.mp hc with h | h
    · exact hp1 c h
    · exact hp2 c h

theorem Steps.mono {P Q : Call → Prop} {w w1 : World} (h : Steps P w w1)
    (hPQ : ∀ c, P c → Q c) : Steps Q w w1 := by
  obtain ⟨e1, c1, s1, l1, hl1, hp1⟩ := h
  exact ⟨e1, c1, s1, l1, hl1, fun c hc => hPQ c (hp1 c hc)⟩

theorem emits_mono {α : Type} {P Q : Call → Prop} {m : M α} (h : Emits P m)
    (hPQ : ∀ c, P c → Q c) : Emits Q m :=
  (emits_iff Q m).mpr fun w => ((emits_iff P m).mp h w).mono hPQ

theorem emits_pure {α : Type} (P : Call → Prop) (a : α) : Emits P (pure a : M α) :=
  (emits_iff P _).mpr fun w => Steps.refl P w

theorem emits_bind {α β : Type} {P : Call → Prop} {m : M α} {f : α → M β}
    (hm : Emits P m) (hf : ∀ a, Emits P (f a)) : Emits P (m >>= f) := by
  rw [emits_iff] at hm ⊢
  intro w
  have h1 := hm w
  rw [bind_apply]
  generalize m w = r at h1
  obtain ⟨o, w1⟩ := r
  cases o with
  | ok a => exact h1.trans ((emits_iff P _).mp (hf a) w1)
  | halt x => exact h1

theorem emits_halt {α : Type} (P : Call → Prop) (x : Halt) : Emits P (halt x : M α) :=
  (emits_iff P _).mpr fun w => Steps.refl P w

theorem emits_getCluster (P : Call → Prop) : Emits P getCluster :=
  (emits_iff P _).mpr fun w => Steps.refl P w

theorem emits_getEnv (P : Call → Prop) : Emits P getEnv :=
  (emits_iff P _).mpr fun w => Steps.refl P w

theorem emits_getProvider (P : Call → Prop) : Emits P getProvider :=
  (emits_iff P _).mpr fun w => Steps.refl P w

theorem emits_modifyProvider (P : Call → Prop) (f : Provider → Provider) :
    Emits P (modifyProvider f) :=
  (emits_iff P _).mpr fun w => ⟨rfl, rfl, rfl, [], by simp [modifyProvider], by simp⟩

theorem emits_modifyCluster (P : Call → Prop) (f : Cluster → Cluster)
    (hf : ∀ c, (f c).config = c.config) : Emits P (modifyCluster f) :=
  (emits_iff P _).mpr fun w => ⟨rfl, hf w.cluster, rfl, [], by simp [modifyCluster], by simp⟩

theorem emits_api {P : Call → Prop} (c : Call) (h : P c) : Emits P (api c) :=
  (emits_iff P _).mpr fun w => ⟨rfl, rfl, rfl, [c], rfl, by simpa using h⟩

theorem emits_SSHCommand (P : Call → Prop) (address command : String) :
    Emits P (SSHCommand address command) :=
  (emits_iff P _).mpr fun w => ⟨rfl, rfl, rfl, [], by simp [SSHCommand], by simp⟩

theorem emits_apiCall {α : Type} {P : Call → Prop} (c : Call) (k : M α) (h : P c)
    (hk : Emits P k) : Emits P (apiCall c k) := by
  unfold apiCall
  refine emits_bind (emits_api c h) fun failed => ?_
  split
  · exact emits_pure P _
  · exact emits_bind hk fun a => emits_pure P _

theorem emits_serverGet {P : Call → Prop} (name : String) (h : P ⟨.get, .server, name⟩) :
    Emits P (serverGet name) := by
  unfold serverGet
  refine emits_apiCall _ _ h ?_
  repeat' first
    | exact emits_pure P _
    | exact emits_getProvider P
    | exact emits_getEnv P
    | exact emits_modifyProvider P _
    | apply emits_bind
    | intro _

theorem emits_serverCreate {P : Call → Prop} (opts : ServerCreateOpts)
    (h : P ⟨.create, .server, opts.name⟩) : Emits P (serverCreate opts) := by
  unfold serverCreate
  refine emits_apiCall _ _ h ?_
  repeat' first
    | exact emits_pure P _
    | exact emits_getProvider P
    | exact emits_getEnv P
    | exact emits_modifyProvider P _
    | apply emits_bind
    | intro _

theorem emits_serverDelete {P : Call → Prop} (server : Server) (h : P ⟨.delete, .server, server.name⟩) :
    Emits P (serverDelete server) := by
  unfold serverDelete
  refine emits_apiCall _ _ h ?_
  repeat' first
    | exact emits_pure P _
    | exact emits_getProvider P
    | exact emits_getEnv P
    | exact emits_modifyProvider P _
    | apply emits_bind
    | intro _

theorem emits_serverList {P : Call → Prop} (h : P ⟨.list, .server, ""⟩) :
    Emits P (serverList) := by
  unfold serverList
  refine emits_apiCall _ _ h ?_
  repeat' first
    | exact emits_pure P _
    | exact emits_getProvider P
    | exact emits_getEnv P
    | exact emits_modifyProvider P _
    | apply emits_bind
    | intro _

theorem emits_placementGroupGet {P : Call → Prop} (name : String) (h : P ⟨.get, .placementGroup, name⟩) :
    Emits P (placementGroupGet name) := by
  unfold placementGroupGet
  refine emits_apiCall _ _ h ?_
  repeat' first
    | exact emits_pure P _
    | exact emits_getProvider P
    | exact emits_getEnv P
    | exact emits_modifyProvider P _
    | apply emits_bind
    | intro _

theorem emits_placementGroupCreate {P : Call → Prop} (name : String) (h : P ⟨.create, .placementGroup, name⟩) :
    Emits P (placementGroupCreate name) := by
  unfold placementGroupCreate
  refine emits_apiCall _ _ h ?_
  repeat' first
    | exact emits_pure P _
    | exact emits_getProvider P
    | exact emits_getEnv P
    | exact emits_modifyProvider P _
    | apply emits_bind
    | intro _

theorem emits_placementGroupDelete {P : Call → Prop} (pg : PlacementGroup) (h : P ⟨.delete, .placementGroup, pg.name⟩) :
    Emits P (placementGroupDelete pg) := by
  unfold placementGroupDelete
  refine emits_apiCall _ _ h ?_
  repeat' first
    | exact emits_pure P _
    | exact emits_getProvider P
    | exact emits_getEnv P
    | exact emits_modifyProvider P _
    | apply emits_bind
    | intro _

theorem emits_sshKeyGet {P : Call → Prop} (name : String) (h : P ⟨.get, .sshKey, name⟩) :
    Emits P (sshKeyGet name) := by
  unfold sshKeyGet
  refine emits_apiCall _ _ h ?_
  repeat' first
    | exact emits_pure P _
    | exact emits_getProvider P
    | exact emits_getEnv P
    | exact emits_modifyProvider P _
    | apply emits_bind
    | intro _

theorem emits_sshKeyCreate {P : Call → Prop} (name key : String) (h : P ⟨.create, .sshKey, name⟩) :
    Emits P (sshKeyCreate name key) := by
  unfold sshKeyCreate
  refine emits_apiCall _ _ h ?_
  repeat' first
    | exact emits_pure P _
    | exact emits_getProvider P
    | exact emits_getEnv P
    | exact emits_modifyProvider P _
    | apply emits_bind
    | intro _

theorem emits_sshKeyDelete {P : Call → Prop} (key : SSHKey) (h : P ⟨.delete, .sshKey, key.name⟩) :
    Emits P (sshKeyDelete key) := by
  unfold sshKeyDelete
  refine emits_apiCall _ _ h ?_
  repeat' first
    | exact emits_pure P _
    | exact emits_getProvider P
    | exact emits_getEnv P
    | exact emits_modifyProvider P _
    | apply emits_bind
    | intro _

theorem emits_networkGet {P : Call → Prop} (name : String) (h : P ⟨.get, .network, name⟩) :
    Emits P (networkGet name) := by
  unfold networkGet
  refine emits_apiCall _ _ h ?_
  repeat' first
    | exact emits_pure P _
    | exact emits_getProvider P
    | exact emits_getEnv P
    | exact emits_modifyProvider P _
    | apply emits_bind
    | intro _

theorem emits_networkCreate {P : Call → Prop} (name : String) (r : Option IPNet) (h : P ⟨.create, .network, name⟩) :
    Emits P (networkCreate name r) := by
  unfold networkCreate
  refine emits_apiCall _ _ h ?_
  repeat' first
    | exact emits_pure P _
    | exact emits_getProvider P
    | exact emits_getEnv P
    | exact emits_modifyProvider P _
    | apply emits_bind
    | intro _

theorem emits_networkAddSubnet {P : Call → Prop} (n : Network) (sn : Subnet) (h : P ⟨.addSubnet, .network, n.name⟩) :
    Emits P (networkAddSubnet n sn) := by
  unfold networkAddSubnet
  refine emits_apiCall _ _ h ?_
  repeat' first
    | exact emits_pure P _
    | exact emits_getProvider P
    | exact emits_getEnv P
    | exact emits_modifyProvider P _
    | apply emits_bind
    | intro _

theorem emits_networkDelete {P : Call → Prop} (n : Network) (h : P ⟨.delete, .network, n.name⟩) :
    Emits P (networkDelete n) := by
  unfold networkDelete
  refine emits_apiCall _ _ h ?_
  repeat' first
    | exact emits_pure P _
    | exact emits_getProvider P
    | exact emits_getEnv P
    | exact emits_modifyProvider P _
    | apply emits_bind
    | intro _

theorem emits_firewallGet {P : Call → Prop} (name : String) (h : P ⟨.get, .firewall, name⟩) :
    Emits P (firewallGet name) := by
  unfold firewallGet
  refine emits_apiCall _ _ h ?_
  repeat' first
    | exact emits_pure P _
    | exact emits_getProvider P
    | exact emits_getEnv P
    | exact emits_modifyProvider P _
    | apply emits_bind
    | intro _

theorem emits_firewallCreate {P : Call → Prop} (name : String) (rules : List FirewallRule) (h : P ⟨.create, .firewall, name⟩) :
    Emits P (firewallCreate name rules) := by
  unfold firewallCreate
  refine emits_apiCall _ _ h ?_
  repeat' first
    | exact emits_pure P _
    | exact emits_getProvider P
    | exact emits_getEnv P
    | exact emits_modifyProvider P _
    | apply emits_bind
    | intro _

theorem emits_firewallSetRules {P : Call → Prop} (fw : Firewall) (rules : List FirewallRule) (h : P ⟨.setRules, .firewall, fw.name⟩) :
    Emits P (firewallSetRules fw rules) := by
  unfold firewallSetRules
  refine emits_apiCall _ _ h ?_
  repeat' first
    | exact emits_pure P _
    | exact emits_getProvider P
    | exact emits_getEnv P
    | exact emits_modifyProvider P _
    | apply emits_bind
    | intro _

theorem emits_firewallDelete {P : Call → Prop} (fw : Firewall) (h : P ⟨.delete, .firewall, fw.name⟩) :
    Emits P (firewallDelete fw) := by
  unfold firewallDelete
  refine emits_apiCall _ _ h ?_
  repeat' first
    | exact emits_pure P _
    | exact emits_getProvider P
    | exact emits_getEnv P
    | exact emits_modifyProvider P _
    | apply emits_bind
    | intro _

theorem emits_loadBalancerGet {P : Call → Prop} (name : String) (h : P ⟨.get, .loadBalancer, name⟩) :
    Emits P (loadBalancerGet name) := by
  unfold loadBalancerGet
  refine emits_apiCall _ _ h ?_
  repeat' first
    | exact emits_pure P _
    | exact emits_getProvider P
    | exact emits_getEnv P
    | exact emits_modifyProvider P _
    | apply emits_bind
    | intro _

theorem emits_loadBalancerCreate {P : Call → Prop} (name selector : String) (h : P ⟨.create, .loadBalancer, name⟩) :
    Emits P (loadBalancerCreate name selector) := by
  unfold loadBalancerCreate
  refine emits_apiCall _ _ h ?_
  repeat' first
    | exact emits_pure P _
    | exact emits_getProvider P
    | exact emits_getEnv P
    | exact emits_modifyProvider P _
    | apply emits_bind
    | intro _

theorem emits_loadBalancerAddLabelSelectorTarget {P : Call → Prop} (lb : LoadBalancer) (selector : String) (h : P ⟨.addTarget, .loadBalancer, lb.name⟩) :
    Emits P (loadBalancerAddLabelSelectorTarget lb selector) := by
  unfold loadBalancerAddLabelSelectorTarget
  refine emits_apiCall _ _ h ?_
  repeat' first
    | exact emits_pure P _
    | exact emits_getProvider P
    | exact emits_getEnv P
    | exact emits_modifyProvider P _
    | apply emits_bind
    | intro _

theorem emits_loadBalancerDelete {P : Call → Prop} (lb : LoadBalancer) (h : P ⟨.delete, .loadBalancer, lb.name⟩) :
    Emits P (loadBalancerDelete lb) := by
  unfold loadBalancerDelete
  refine emits_apiCall _ _ h ?_
  repeat' first
    | exact emits_pure P _
    | exact emits_getProvider P
    | exact emits_getEnv P
    | exact emits_modifyProvider P _
    | apply emits_bind
    | intro _

theorem emits_locationGet {P : Call → Prop} (name : String) (h : P ⟨.get, .location, name⟩) :
    Emits P (locationGet name) := by
  unfold locationGet
  refine emits_apiCall _ _ h ?_
  repeat' first
    | exact emits_pure P _
    | exact emits_getProvider P
    | exact emits_getEnv P
    | exact emits_modifyProvider P _
    | apply emits_bind
    | intro _

theorem emits_locationList {P : Call → Prop} (h : P ⟨.list, .location, ""⟩) :
    Emits P (locationList) := by
  unfold locationList
  refine emits_apiCall _ _ h ?_
  repeat' first
    | exact emits_pure P _
    | exact emits_getProvider P
    | exact emits_getEnv P
    | exact emits_modifyProvider P _
    | apply emits_bind
    | intro _

theorem emits_CreateServer {P : Call → Prop} (opts : ServerCreateOpts) (h : ∀ c, c.quiet → P c) :
    Emits P (CreateServer opts) := by
  unfold CreateServer
  repeat' first
    | exact emits_pure P _
    | exact emits_halt P _
    | exact emits_getCluster P
    | exact emits_getEnv P
    | exact emits_modifyCluster P _ (fun _ => rfl)
    | exact emits_serverGet _ (h _ (by simp [Call.quiet]))
    | exact emits_serverCreate _ (h _ (by simp [Call.quiet]))
    | apply emits_bind
    | split
    | intro _

theorem emits_GetServer {P : Call → Prop} (server : Server) (h : ∀ c, c.quiet → P c) :
    Emits P (GetServer server) := by
  unfold GetServer
  repeat' first
    | exact emits_pure P _
    | exact emits_halt P _
    | exact emits_getCluster P
    | exact emits_getEnv P
    | exact emits_modifyCluster P _ (fun _ => rfl)
    | exact emits_serverGet _ (h _ (by simp [Call.quiet]))
    | apply emits_bind
    | split
    | intro _

theorem emits_fetchServers {P : Call → Prop} (h : ∀ c, c.quiet → P c) :
    Emits P (fetchServers) := by
  unfold fetchServers
  repeat' first
    | exact emits_pure P _
    | exact emits_halt P _
    | exact emits_getCluster P
    | exact emits_getEnv P
    | exact emits_modifyCluster P _ (fun _ => rfl)
    | exact emits_serverList (h _ (by simp [Call.quiet]))
    | apply emits_bind
    | split
    | intro _

theorem emits_GetAllServers {P : Call → Prop} (h : ∀ c, c.quiet → P c) :
    Emits P (GetAllServers) := by
  unfold GetAllServers
  repeat' first
    | exact emits_pure P _
    | exact emits_halt P _
    | exact emits_getCluster P
    | exact emits_getEnv P
    | exact emits_modifyCluster P _ (fun _ => rfl)
    | exact emits_fetchServers h
    | apply emits_bind
    | split
    | intro _

theorem emits_GetLocations {P : Call → Prop} (h : ∀ c, c.quiet → P c) :
    Emits P (GetLocations) := by
  unfold GetLocations
  repeat' first
    | exact emits_pure P _
    | exact emits_halt P _
    | exact emits_getCluster P
    | exact emits_getEnv P
    | exact emits_modifyCluster P _ (fun _ => rfl)
    | exact emits_locationList (h _ (by simp [Call.quiet]))
    | apply emits_bind
    | split
    | intro _

theorem emits_CreatePlacementGroup {P : Call → Prop} (pgName : String) (h : ∀ c, c.quiet → P c) :
    Emits P (CreatePlacementGroup pgName) := by
  unfold CreatePlacementGroup
  repeat' first
    | exact emits_pure P _
    | exact emits_halt P _
    | exact emits_getCluster P
    | exact emits_getEnv P
    | exact emits_modifyCluster P _ (fun _ => rfl)
    | exact emits_placementGroupGet _ (h _ (by simp [Call.quiet]))
    | exact emits_placementGroupCreate _ (h _ (by simp [Call.quiet]))
    | apply emits_bind
    | split
    | intro _

theorem emits_CreateSSHKey {P : Call → Prop} (h : ∀ c, c.quiet → P c) :
    Emits P (CreateSSHKey) := by
  unfold CreateSSHKey
  repeat' first
    | exact emits_pure P _
    | exact emits_halt P _
    | exact emits_getCluster P
    | exact emits_getEnv P
    | exact emits_modifyCluster P _ (fun _ => rfl)
    | exact emits_sshKeyGet _ (h _ (by simp [Call.quiet]))
    | exact emits_sshKeyCreate _ _ (h _ (by simp [Call.quiet]))
    | apply emits_bind
    | split
    | intro _

theorem emits_addSubnet {P : Call → Prop} (n : Network) (h : ∀ c, c.quiet → P c) :
    Emits P (addSubnet n) := by
  unfold addSubnet
  repeat' first
    | exact emits_pure P _
    | exact emits_halt P _
    | exact emits_getCluster P
    | exact emits_getEnv P
    | exact emits_modifyCluster P _ (fun _ => rfl)
    | exact emits_networkAddSubnet _ _ (h _ (by simp [Call.quiet]))
    | apply emits_bind
    | split
    | intro _

theorem emits_CreateNetwork {P : Call → Prop} (h : ∀ c, c.quiet → P c) :
    Emits P (CreateNetwork) := by
  unfold CreateNetwork
  repeat' first
    | exact emits_pure P _
    | exact emits_halt P _
    | exact emits_getCluster P
    | exact emits_getEnv P
    | exact emits_modifyCluster P _ (fun _ => rfl)
    | exact emits_networkGet _ (h _ (by simp [Call.quiet]))
    | exact emits_networkCreate _ _ (h _ (by simp [Call.quiet]))
    | exact emits_addSubnet _ h
    | apply emits_bind
    | split
    | intro _

theorem emits_CreateFirewall {P : Call → Prop} (h : ∀ c, c.quiet → P c) :
    Emits P (CreateFirewall) := by
  unfold CreateFirewall
  repeat' first
    | exact emits_pure P _
    | exact emits_halt P _
    | exact emits_getCluster P
    | exact emits_getEnv P
    | exact emits_modifyCluster P _ (fun _ => rfl)
    | exact emits_firewallGet _ (h _ (by simp [Call.quiet]))
    | exact emits_firewallCreate _ _ (h _ (by simp [Call.quiet]))
    | exact emits_firewallSetRules _ _ (h _ (by simp [Call.quiet]))
    | apply emits_bind
    | split
    | intro _

theorem emits_sshKey {P : Call → Prop} (h : ∀ c, c.quiet → P c) :
    Emits P (sshKey) := by
  unfold sshKey
  repeat' first
    | exact emits_pure P _
    | exact emits_halt P _
    | exact emits_getCluster P
    | exact emits_getEnv P
    | exact emits_modifyCluster P _ (fun _ => rfl)
    | exact emits_CreateSSHKey h
    | apply emits_bind
    | split
    | intro _

theorem emits_network {P : Call → Prop} (h : ∀ c, c.quiet → P c) :
    Emits P (network) := by
  unfold network
  repeat' first
    | exact emits_pure P _
    | exact emits_halt P _
    | exact emits_getCluster P
    | exact emits_getEnv P
    | exact emits_modifyCluster P _ (fun _ => rfl)
    | exact emits_CreateNetwork h
    | apply emits_bind
    | split
    | intro _

theorem emits_firewall {P : Call → Prop} (h : ∀ c, c.quiet → P c) :
    Emits P (firewall) := by
  unfold firewall
  repeat' first
    | exact emits_pure P _
    | exact emits_halt P _
    | exact emits_getCluster P
    | exact emits_getEnv P
    | exact emits_modifyCluster P _ (fun _ => rfl)
    | exact emits_CreateFirewall h
    | apply emits_bind
    | split
    | intro _

theorem emits_placementGroup {P : Call → Prop} (name : String) (h : ∀ c, c.quiet → P c) :
    Emits P (placementGroup name) := by
  unfold placementGroup
  repeat' first
    | exact emits_pure P _
    | exact emits_halt P _
    | exact emits_getCluster P
    | exact emits_getEnv P
    | exact emits_modifyCluster P _ (fun _ => rfl)
    | exact emits_CreatePlacementGroup _ h
    | apply emits_bind
    | split
    | intro _

theorem emits_allServers {P : Call → Prop} (h : ∀ c, c.quiet → P c) :
    Emits P (allServers) := by
  unfold allServers
  repeat' first
    | exact emits_pure P _
    | exact emits_halt P _
    | exact emits_getCluster P
    | exact emits_getEnv P
    | exact emits_modifyCluster P _ (fun _ => rfl)
    | exact emits_GetAllServers h
    | apply emits_bind
    | split
    | intro _

theorem emits_masters {P : Call → Prop} (h : ∀ c, c.quiet → P c) :
    Emits P (masters) := by
  unfold masters
  repeat' first
    | exact emits_pure P _
    | exact emits_halt P _
    | exact emits_getCluster P
    | exact emits_getEnv P
    | exact emits_modifyCluster P _ (fun _ => rfl)
    | exact emits_allServers h
    | apply emits_bind
    | split
    | intro _

theorem emits_workers {P : Call → Prop} (h : ∀ c, c.quiet → P c) :
    Emits P (workers) := by
  unfold workers
  repeat' first
    | exact emits_pure P _
    | exact emits_halt P _
    | exact emits_getCluster P
    | exact emits_getEnv P
    | exact emits_modifyCluster P _ (fun _ => rfl)
    | exact emits_allServers h
    | apply emits_bind
    | split
    | intro _

theorem emits_firstMasterPublicIP {P : Call → Prop} (_ : ∀ c, c.quiet → P c) :
    Emits P (firstMasterPublicIP) := by
  unfold firstMasterPublicIP
  repeat' first
    | exact emits_pure P _
    | exact emits_halt P _
    | exact emits_getCluster P
    | exact emits_getEnv P
    | exact emits_modifyCluster P _ (fun _ => rfl)
    | apply emits_bind
    | split
    | intro _

theorem emits_mustLocation {P : Call → Prop} (name : String) (h : ∀ c, c.quiet → P c) :
    Emits P (mustLocation name) := by
  unfold mustLocation
  repeat' first
    | exact emits_pure P _
    | exact emits_halt P _
    | exact emits_getCluster P
    | exact emits_getEnv P
    | exact emits_modifyCluster P _ (fun _ => rfl)
    | exact emits_locationGet _ (h _ (by simp [Call.quiet]))
    | apply emits_bind
    | split
    | intro _

theorem emits_masterLocation {P : Call → Prop} (h : ∀ c, c.quiet → P c) :
    Emits P (masterLocation) := by
  unfold masterLocation
  repeat' first
    | exact emits_pure P _
    | exact emits_halt P _
    | exact emits_getCluster P
    | exact emits_getEnv P
    | exact emits_modifyCluster P _ (fun _ => rfl)
    | exact emits_mustLocation _ h
    | apply emits_bind
    | split
    | intro _

theorem emits_clusterNetworkIPRange {P : Call → Prop} (h : ∀ c, c.quiet → P c) :
    Emits P (clusterNetworkIPRange) := by
  unfold clusterNetworkIPRange
  repeat' first
    | exact emits_pure P _
    | exact emits_halt P _
    | exact emits_getCluster P
    | exact emits_getEnv P
    | exact emits_modifyCluster P _ (fun _ => rfl)
    | exact emits_network h
    | apply emits_bind
    | split
    | intro _

theorem emits_clusterNetworkZone {P : Call → Prop} (_ : ∀ c, c.quiet → P c) :
    Emits P (clusterNetworkZone) := by
  unfold clusterNetworkZone
  repeat' first
    | exact emits_pure P _
    | exact emits_halt P _
    | exact emits_getCluster P
    | exact emits_getEnv P
    | exact emits_modifyCluster P _ (fun _ => rfl)
    | apply emits_bind
    | split
    | intro _

theorem emits_userData {P : Call → Prop} (_ : ∀ c, c.quiet → P c) :
    Emits P (userData) := by
  unfold userData
  repeat' first
    | exact emits_pure P _
    | exact emits_halt P _
    | exact emits_getCluster P
    | exact emits_getEnv P
    | exact emits_modifyCluster P _ (fun _ => rfl)
    | apply emits_bind
    | split
    | intro _

theorem emits_masterDefinition {P : Call → Prop} (i : Nat) (h : ∀ c, c.quiet → P c) :
    Emits P (masterDefinition i) := by
  unfold masterDefinition
  repeat' first
    | exact emits_pure P _
    | exact emits_halt P _
    | exact emits_getCluster P
    | exact emits_getEnv P
    | exact emits_modifyCluster P _ (fun _ => rfl)
    | exact emits_sshKey h
    | exact emits_network h
    | exact emits_firewall h
    | exact emits_placementGroup _ h
    | exact emits_masterLocation h
    | exact emits_mustLocation _ h
    | exact emits_userData h
    | apply emits_bind
    | split
    | intro _

theorem emits_workerDefinition {P : Call → Prop} (pool : WorkerConfig) (i : Nat) (h : ∀ c, c.quiet → P c) :
    Emits P (workerDefinition pool i) := by
  unfold workerDefinition
  repeat' first
    | exact emits_pure P _
    | exact emits_halt P _
    | exact emits_getCluster P
    | exact emits_getEnv P
    | exact emits_modifyCluster P _ (fun _ => rfl)
    | exact emits_sshKey h
    | exact emits_network h
    | exact emits_firewall h
    | exact emits_placementGroup _ h
    | exact emits_masterLocation h
    | exact emits_mustLocation _ h
    | exact emits_userData h
    | apply emits_bind
    | split
    | intro _

theorem emits_readyProbe {P : Call → Prop} (server : Server) (_ : ∀ c, c.quiet → P c) :
    Emits P (readyProbe server) := by
  unfold readyProbe
  repeat' first
    | exact emits_pure P _
    | exact emits_halt P _
    | exact emits_getCluster P
    | exact emits_getEnv P
    | exact emits_modifyCluster P _ (fun _ => rfl)
    | exact emits_SSHCommand P _ _
    | apply emits_bind
    | split
    | intro _

theorem emits_validateToken {P : Call → Prop} (h : ∀ c, c.quiet → P c) :
    Emits P (validateToken) := by
  unfold validateToken
  repeat' first
    | exact emits_pure P _
    | exact emits_halt P _
    | exact emits_getCluster P
    | exact emits_getEnv P
    | exact emits_modifyCluster P _ (fun _ => rfl)
    | exact emits_GetLocations h
    | apply emits_bind
    | split
    | intro _

theorem emits_validateCluster {P : Call → Prop} (_ : ∀ c, c.quiet → P c) :
    Emits P (validateCluster) := by
  unfold validateCluster
  repeat' first
    | exact emits_pure P _
    | exact emits_halt P _
    | exact emits_getCluster P
    | exact emits_getEnv P
    | exact emits_modifyCluster P _ (fun _ => rfl)
    | apply emits_bind
    | split
    | intro _

theorem emits_validateDelete {P : Call → Prop} (h : ∀ c, c.quiet → P c) :
    Emits P (validateDelete) := by
  unfold validateDelete
  repeat' first
    | exact emits_pure P _
    | exact emits_halt P _
    | exact emits_getCluster P
    | exact emits_getEnv P
    | exact emits_modifyCluster P _ (fun _ => rfl)
    | exact emits_validateToken h
    | exact emits_validateCluster h
    | exact emits_clusterNetworkZone h
    | exact emits_clusterNetworkIPRange h
    | apply emits_bind
    | split
    | intro _

theorem emits_forEach {α β : Type} {P : Call → Prop} (f : α → M β) (hf : ∀ a, Emits P (f a)) :
    ∀ l : List α, Emits P (forEach f l)
  | [] => by
    unfold forEach
    exact emits_pure P _
  | a :: l => by
    unfold forEach
    exact emits_bind (hf a) fun b =>
      emits_bind (emits_forEach f hf l) fun bs => emits_pure P _

theorem emits_poolPlacementGroups {P : Call → Prop} (clusterName : String)
    (h : ∀ c, c.quiet → P c) :
    ∀ (pools : List WorkerConfig) (acc : List PlacementGroup),
      Emits P (poolPlacementGroups clusterName acc pools)
  | [], acc => by
    unfold poolPlacementGroups
    exact emits_pure P _
  | pool :: pools, acc => by
    unfold poolPlacementGroups
    exact emits_bind (emits_placementGroup _ h) fun pg =>
      emits_poolPlacementGroups clusterName h pools _

theorem emits_retryDo {P : Call → Prop} (o : M (Option Err)) (ho : Emits P o) :
    ∀ n : Nat, Emits P (retryDo n o)
  | 0 => by
    unfold retryDo
    exact emits_pure P _
  | n + 1 => by
    unfold retryDo
    refine emits_bind ho fun r => ?_
    split
    · exact emits_pure P _
    · exact emits_retryDo o ho n

theorem emits_createAll {P : Call → Prop} (h : ∀ c, c.quiet → P c) :
    ∀ l : List ServerCreateOpts, Emits P (createAll l)
  | [] => by
    unfold createAll
    exact emits_pure P _
  | opts :: rest => by
    unfold createAll
    refine emits_bind (emits_CreateServer opts h) fun r => ?_
    refine emits_bind (emits_createAll h rest) fun p => ?_
    repeat' first
      | exact emits_pure P _
      | split

theorem emits_waitForSSH {P : Call → Prop} (server : Server) (h : ∀ c, c.quiet → P c) :
    Emits P (waitForSSH server) := by
  unfold waitForSSH
  refine emits_bind (emits_retryDo _ (emits_readyProbe server h) 15) fun r => ?_
  split <;> exact emits_pure P _

theorem emits_waitAll {P : Call → Prop} (h : ∀ c, c.quiet → P c) :
    ∀ l : List Server, Emits P (waitAll l)
  | [] => by
    unfold waitAll
    exact emits_pure P _
  | server :: rest => by
    unfold waitAll
    refine emits_bind (emits_waitForSSH server h) fun r => ?_
    refine emits_bind (emits_waitAll h rest) fun e => ?_
    split <;> exact emits_pure P _

theorem emits_masterDefinitionsForCreate {P : Call → Prop} (h : ∀ c, c.quiet → P c) :
    Emits P masterDefinitionsForCreate := by
  unfold masterDefinitionsForCreate
  exact emits_bind (emits_getCluster P) fun c =>
    emits_forEach _ (fun i => emits_masterDefinition i h) _

theorem emits_workerNodePoolDefinitions {P : Call → Prop} (pool : WorkerConfig)
    (h : ∀ c, c.quiet → P c) : Emits P (workerNodePoolDefinitions pool) := by
  unfold workerNodePoolDefinitions
  repeat' first
    | exact emits_pure P _
    | exact emits_halt P _
    | exact emits_masterLocation h
    | exact emits_forEach _ (fun i => emits_workerDefinition _ i h) _
    | apply emits_bind
    | split
    | intro _

theorem emits_serverConfigs {P : Call → Prop} (h : ∀ c, c.quiet → P c) :
    Emits P serverConfigs := by
  unfold serverConfigs
  repeat' first
    | exact emits_pure P _
    | exact emits_getCluster P
    | exact emits_masterDefinitionsForCreate h
    | exact emits_forEach _ (fun pool => emits_workerNodePoolDefinitions pool h) _
    | apply emits_bind
    | intro _

theorem emits_createServers {P : Call → Prop} (order probeOrder : List Nat)
    (h : ∀ c, c.quiet → P c) : Emits P (createServers order probeOrder) := by
  unfold createServers
  repeat' first
    | exact emits_pure P _
    | exact emits_modifyCluster P _ (fun _ => rfl)
    | exact emits_serverConfigs h
    | exact emits_createAll h _
    | exact emits_waitAll h _
    | exact emits_masters h
    | exact emits_workers h
    | apply emits_bind
    | split
    | intro _

theorem emits_placementGroups {P : Call → Prop} (h : ∀ c, c.quiet → P c) :
    Emits P placementGroups := by
  unfold placementGroups
  repeat' first
    | exact emits_pure P _
    | exact emits_getCluster P
    | exact emits_modifyCluster P _ (fun _ => rfl)
    | exact emits_placementGroup _ h
    | exact emits_poolPlacementGroups _ h _ _
    | apply emits_bind
    | split
    | intro _

theorem emits_loadbalancerAddLabelSelector {P : Call → Prop} (lb : LoadBalancer)
    (h : P ⟨.addTarget, .loadBalancer, lb.name⟩) : Emits P (loadbalancerAddLabelSelector lb) := by
  unfold loadbalancerAddLabelSelector
  repeat' first
    | exact emits_pure P _
    | exact emits_getCluster P
    | exact emits_loadBalancerAddLabelSelectorTarget _ _ h
    | apply emits_bind
    | split
    | intro _
    | dsimp only

theorem emits_CreateLoadBalancer {P : Call → Prop} (net : Network) (loc : Option Location)
    (h : ∀ c, c.op ≠ .delete → P c) : Emits P (CreateLoadBalancer net loc) := by
  unfold CreateLoadBalancer
  repeat' first
    | exact emits_pure P _
    | exact emits_getCluster P
    | exact emits_loadBalancerGet _ (h _ (by simp))
    | exact emits_loadBalancerCreate _ _ (h _ (by simp))
    | exact emits_loadbalancerAddLabelSelector _ (h _ (by simp))
    | apply emits_bind
    | split
    | intro _

theorem emits_loadBalancer {P : Call → Prop} (h : ∀ c, c.op ≠ .delete → P c) :
    Emits P loadBalancer := by
  unfold loadBalancer
  repeat' first
    | exact emits_pure P _
    | exact emits_halt P _
    | exact emits_getCluster P
    | exact emits_modifyCluster P _ (fun _ => rfl)
    | exact emits_network (fun c hc => h c hc.2)
    | exact emits_CreateLoadBalancer _ _ h
    | apply emits_bind
    | split
    | intro _

theorem emits_apiServerIP {P : Call → Prop} (h : ∀ c, c.op ≠ .delete → P c) :
    Emits P apiServerIP := by
  unfold apiServerIP
  repeat' first
    | exact emits_pure P _
    | exact emits_getCluster P
    | exact emits_loadBalancer h
    | exact emits_firstMasterPublicIP (fun c hc => h c hc.2)
    | apply emits_bind
    | split
    | intro _

theorem emits_createResources {P : Call → Prop} (order probeOrder : List Nat)
    (h : ∀ c, c.op ≠ .delete → P c) : Emits P (createResources order probeOrder) := by
  unfold createResources
  repeat' first
    | exact emits_pure P _
    | exact emits_getCluster P
    | exact emits_loadBalancer h
    | exact emits_createServers _ _ (fun c hc => h c hc.2)
    | apply emits_bind
    | split
    | intro _

/-! ## Counting creation calls -/

theorem createsAtMost_iff {α : Type} (k : Kind) (n : Nat) (m : M α) :
    CreatesAtMost k n m ↔ ∀ w, ∃ calls, (m w).2.log = w.log ++ calls ∧ creations k calls ≤ n := by
  unfold CreatesAtMost
  exact Iff.rfl

theorem creations_eq_zero (k : Kind) (calls : List Call)
    (h : ∀ c ∈ calls, ¬ (c.op = .create ∧ c.kind = k)) : creations k calls = 0 := by
  unfold creations
  rw [List.countP_eq_zero]
  intro c hc
  simpa using h c hc

theorem createsAtMost_of_emits {α : Type} (k : Kind) (m : M α)
    (h : Emits (fun c => ¬ (c.op = .create ∧ c.kind = k)) m) : CreatesAtMost k 0 m := by
  rw [createsAtMost_iff]
  intro w
  obtain ⟨_, _, _, calls, hl, hp⟩ := (emits_iff _ m).mp h w
  exact ⟨calls, hl, by rw [creations_eq_zero k calls hp]⟩

theorem createsAtMost_mono {α : Type} {k : Kind} {n n1 : Nat} {m : M α}
    (h : CreatesAtMost k n m) (hn : n ≤ n1) : CreatesAtMost k n1 m := by
  rw [createsAtMost_iff] at h ⊢
  intro w
  obtain ⟨calls, hl, hc⟩ := h w
  exact ⟨calls, hl, by omega⟩

theorem createsAtMost_pure {α : Type} (k : Kind) (a : α) : CreatesAtMost k 0 (pure a : M α) := by
  rw [createsAtMost_iff]
  intro w
  exact ⟨[], by simp [pure_apply], by simp [creations]⟩

theorem createsAtMost_bind {α β : Type} {k : Kind} (a b : Nat) {n : Nat} {m : M α}
    {f : α → M β} (hn : a + b ≤ n)
    (hm : CreatesAtMost k a m) (hf : ∀ x, CreatesAtMost k b (f x)) :
    CreatesAtMost k n (m >>= f) := by
  rw [createsAtMost_iff] at hm ⊢
  intro w
  obtain ⟨c1, hl1, hc1⟩ := hm w
  rw [bind_apply]
  generalize m w = r at hl1
  obtain ⟨o, w1⟩ := r
  cases o with
  | ok x =>
    obtain ⟨c2, hl2, hc2⟩ := (createsAtMost_iff k b (f x)).mp (hf x) w1
    refine ⟨c1 ++ c2, ?_, ?_⟩
    · simp only at hl1 ⊢
      rw [hl2, hl1, List.append_assoc]
    · rw [creations_append]
      omega
  | halt x => exact ⟨c1, hl1, by omega⟩

theorem createsAtMost_loadBalancerCreate (name selector : String) :
    CreatesAtMost .loadBalancer 1 (loadBalancerCreate name selector) := by
  rw [createsAtMost_iff]
  intro w
  refine ⟨[⟨.create, .loadBalancer, name⟩], ?_, by simp [creations]⟩
  cases hf : w.env.apiFails ⟨.create, .loadBalancer, name⟩ <;>
    simp [loadBalancerCreate, apiCall, bind_apply, api, hf, getProvider, getEnv, modifyProvider,
      pure_apply]

theorem createsAtMost_CreateLoadBalancer (net : Network) (loc : Option Location) :
    CreatesAtMost .loadBalancer 1 (CreateLoadBalancer net loc) := by
  have hsel : ∀ lb, CreatesAtMost .loadBalancer 0 (loadbalancerAddLabelSelector lb) := fun lb =>
    createsAtMost_of_emits _ _ (emits_loadbalancerAddLabelSelector lb (by simp))
  have hget : ∀ name, CreatesAtMost .loadBalancer 0 (loadBalancerGet name) := fun name =>
    createsAtMost_of_emits _ _ (emits_loadBalancerGet name (by simp))
  have hpure : ∀ (x : Except Err LoadBalancer),
      CreatesAtMost .loadBalancer 0 (pure x : M (Except Err LoadBalancer)) := fun x =>
    createsAtMost_pure _ x
  have htail : ∀ lb : LoadBalancer, CreatesAtMost .loadBalancer 0
      (loadbalancerAddLabelSelector lb >>= fun r =>
        match r with
        | some e => (pure (Except.error e) : M (Except Err LoadBalancer))
        | none => pure (Except.ok lb)) := by
    intro lb
    refine createsAtMost_bind 0 0 (by omega) (hsel lb) fun r => ?_
    split <;> exact hpure _
  unfold CreateLoadBalancer
  refine createsAtMost_bind 0 1 (by omega)
    (createsAtMost_of_emits _ _ (emits_getCluster _)) fun cluster => ?_
  refine createsAtMost_bind 0 1 (by omega) (hget _) fun r => ?_
  split
  · exact createsAtMost_mono (hpure _) (by omega)
  · exact createsAtMost_mono (htail _) (by omega)
  · refine createsAtMost_bind 1 0 (by omega) (createsAtMost_loadBalancerCreate _ _) fun r2 => ?_
    split
    · exact hpure _
    · exact htail _

theorem createsAtMost_loadBalancer : CreatesAtMost .loadBalancer 1 loadBalancer := by
  have hq : ∀ c : Call, c.quiet → ¬ (c.op = .create ∧ c.kind = .loadBalancer) :=
    fun c hc h => hc.1 h.2
  unfold loadBalancer
  refine createsAtMost_bind 0 1 (by omega)
    (createsAtMost_of_emits _ _ (emits_getCluster _)) fun cluster => ?_
  split
  · exact createsAtMost_mono (createsAtMost_pure _ _) (by omega)
  · refine createsAtMost_bind 0 1 (by omega)
      (createsAtMost_of_emits _ _ (emits_network hq)) fun net => ?_
    refine createsAtMost_bind 1 0 (by omega) (createsAtMost_CreateLoadBalancer _ _) fun r => ?_
    split
    · exact createsAtMost_of_emits _ _ (emits_halt _ _)
    · exact createsAtMost_bind 0 0 (by omega)
        (createsAtMost_of_emits _ _ (emits_modifyCluster _ _ (fun _ => rfl)))
        fun _ => createsAtMost_pure _ _

theorem createsAtMost_createResources (order probeOrder : List Nat) :
    CreatesAtMost .loadBalancer 1 (createResources order probeOrder) := by
  have hq : ∀ c : Call, c.quiet → ¬ (c.op = .create ∧ c.kind = .loadBalancer) :=
    fun c hc h => hc.1 h.2
  unfold createResources
  refine createsAtMost_bind 0 1 (by omega)
    (createsAtMost_of_emits _ _ (emits_createServers _ _ hq)) fun r => ?_
  split
  · exact createsAtMost_mono (createsAtMost_pure _ _) (by omega)
  · refine createsAtMost_bind 0 1 (by omega)
      (createsAtMost_of_emits _ _ (emits_getCluster _)) fun cluster => ?_
    split
    · exact createsAtMost_bind 1 0 (by omega) createsAtMost_loadBalancer
        fun _ => createsAtMost_pure _ _
    · exact createsAtMost_mono (createsAtMost_pure _ _) (by omega)

/-- With one master `createResources` is `createServers`: every provider call it
issues is quiet (no load-balancer call), and the load-balancer cache is untouched
by its own tail. -/
theorem createResources_single_master (w : World) (order probeOrder : List Nat)
    (h1 : ¬ mastersSize w.cluster > 1) :
    Steps Call.quiet w (createResources order probeOrder w).2 := by
  have hs := (emits_iff _ _).mp (emits_createServers order probeOrder (fun c hc => hc)) w
  unfold createResources
  rw [bind_apply]
  generalize createServers order probeOrder w = r at hs
  obtain ⟨o, w1⟩ := r
  cases o with
  | halt x => exact hs
  | ok e =>
    cases e with
    | some e => exact hs
    | none =>
      have hc : ¬ mastersSize w1.cluster > 1 := by
        unfold mastersSize at h1 ⊢
        rw [hs.2.1]
        exact h1
      simp only [bind_apply, getCluster, hc, if_false, pure_apply]
      exact hs

theorem apiServerIP_single_master (w : World) (h1 : ¬ w.cluster.config.masters.instanceCount > 1) :
    apiServerIP w = firstMasterPublicIP w := by
  simp only [apiServerIP, bind_apply, getCluster, h1, if_false]

/-! ## C4: load balancer gating -/

theorem loadBalancerGet_apply (name : String) (w : World) :
    loadBalancerGet name w =
      (.ok (if w.env.apiFails ⟨.get, .loadBalancer, name⟩ = true then .error providerError
            else .ok (w.provider.loadBalancers.find? fun l => decide (l.name = name))),
        { w with log := w.log ++ [⟨.get, .loadBalancer, name⟩] }) := by
  cases h : w.env.apiFails ⟨.get, .loadBalancer, name⟩ <;>
    simp [loadBalancerGet, apiCall, bind_apply, api, h, getProvider, pure_apply]

theorem loadBalancerCreate_apply (name selector : String) (w : World) :
    loadBalancerCreate name selector w =
      if w.env.apiFails ⟨.create, .loadBalancer, name⟩ = true then
        (.ok (.error providerError),
          { w with log := w.log ++ [⟨.create, .loadBalancer, name⟩] })
      else
        (.ok (.ok { id := w.provider.nextID, name := name, publicIP := none,
                    targets := [.labelSelector selector] }),
          { w with
            log := w.log ++ [⟨.create, .loadBalancer, name⟩]
            provider := { w.provider with
              loadBalancers := w.provider.loadBalancers ++
                [{ id := w.provider.nextID, name := name,
                   publicIP := some (w.env.addressOf w.provider.nextID),
                   targets := [.labelSelector selector] }]
              nextID := w.provider.nextID + 1 } }) := by
  cases h : w.env.apiFails ⟨.create, .loadBalancer, name⟩ <;>
    simp [loadBalancerCreate, apiCall, bind_apply, api, h, getProvider, getEnv, modifyProvider,
      pure_apply]

theorem loadBalancerAddLabelSelectorTarget_apply (lb : LoadBalancer) (selector : String)
    (w : World) :
    loadBalancerAddLabelSelectorTarget lb selector w =
      if w.env.apiFails ⟨.addTarget, .loadBalancer, lb.name⟩ = true then
        (.ok (.error providerError),
          { w with log := w.log ++ [⟨.addTarget, .loadBalancer, lb.name⟩] })
      else
        (.ok (.ok ()),
          { w with
            log := w.log ++ [⟨.addTarget, .loadBalancer, lb.name⟩]
            provider := { w.provider with
              loadBalancers := w.provider.loadBalancers.map fun l =>
                if l.id = lb.id then
                  { l with targets := l.targets ++ [.labelSelector selector] }
                else l } }) := by
  cases h : w.env.apiFails ⟨.addTarget, .loadBalancer, lb.name⟩ <;>
    simp [loadBalancerAddLabelSelectorTarget, apiCall, bind_apply, api, h, modifyProvider,
      pure_apply]

theorem keepsCluster_iff {α : Type} (m : M α) :
    KeepsCluster m ↔ ∀ w, (m w).2.cluster = w.cluster := by
  unfold KeepsCluster
  exact Iff.rfl

theorem keepsCluster_pure {α : Type} (a : α) : KeepsCluster (pure a : M α) :=
  (keepsCluster_iff _).mpr fun _ => rfl

theorem keepsCluster_bind {α β : Type} {m : M α} {f : α → M β}
    (hm : KeepsCluster m) (hf : ∀ a, KeepsCluster (f a)) : KeepsCluster (m >>= f) := by
  rw [keepsCluster_iff] at hm ⊢
  intro w
  have h1 := hm w
  rw [bind_apply]
  generalize m w = r at h1
  obtain ⟨o, w1⟩ := r
  cases o with
  | ok a => exact ((keepsCluster_iff _).mp (hf a) w1).trans h1
  | halt x => exact h1

theorem keepsCluster_getCluster : KeepsCluster getCluster :=
  (keepsCluster_iff _).mpr fun _ => rfl

theorem keepsCluster_getEnv : KeepsCluster getEnv :=
  (keepsCluster_iff _).mpr fun _ => rfl

theorem keepsCluster_getProvider : KeepsCluster getProvider :=
  (keepsCluster_iff _).mpr fun _ => rfl

theorem keepsCluster_modifyProvider (f : Provider → Provider) :
    KeepsCluster (modifyProvider f) :=
  (keepsCluster_iff _).mpr fun _ => rfl

theorem keepsCluster_api (c : Call) : KeepsCluster (api c) :=
  (keepsCluster_iff _).mpr fun _ => rfl

theorem keepsCluster_apiCall {α : Type} (c : Call) (k : M α) (hk : KeepsCluster k) :
    KeepsCluster (apiCall c k) := by
  unfold apiCall
  refine keepsCluster_bind (keepsCluster_api c) fun failed => ?_
  split
  · exact keepsCluster_pure _
  · exact keepsCluster_bind hk fun a => keepsCluster_pure _

theorem keepsCluster_loadBalancerGet (name : String) : KeepsCluster (loadBalancerGet name) := by
  unfold loadBalancerGet
  refine keepsCluster_apiCall _ _ ?_
  repeat' first
    | exact keepsCluster_pure _
    | exact keepsCluster_getProvider
    | apply keepsCluster_bind
    | intro _

theorem keepsCluster_loadBalancerCreate (name selector : String) :
    KeepsCluster (loadBalancerCreate name selector) := by
  unfold loadBalancerCreate
  refine keepsCluster_apiCall _ _ ?_
  repeat' first
    | exact keepsCluster_pure _
    | exact keepsCluster_getProvider
    | exact keepsCluster_getEnv
    | exact keepsCluster_modifyProvider _
    | apply keepsCluster_bind
    | intro _

theorem keepsCluster_loadBalancerAddLabelSelectorTarget (lb : LoadBalancer) (selector : String) :
    KeepsCluster (loadBalancerAddLabelSelectorTarget lb selector) := by
  unfold loadBalancerAddLabelSelectorTarget
  refine keepsCluster_apiCall _ _ ?_
  exact keepsCluster_modifyProvider _

theorem keepsCluster_loadbalancerAddLabelSelector (lb : LoadBalancer) :
    KeepsCluster (loadbalancerAddLabelSelector lb) := by
  unfold loadbalancerAddLabelSelector
  repeat' first
    | exact keepsCluster_pure _
    | exact keepsCluster_getCluster
    | exact keepsCluster_loadBalancerAddLabelSelectorTarget _ _
    | apply keepsCluster_bind
    | split
    | intro _
    | dsimp only

theorem keepsCluster_CreateLoadBalancer (net : Network) (loc : Option Location) :
    KeepsCluster (CreateLoadBalancer net loc) := by
  unfold CreateLoadBalancer
  repeat' first
    | exact keepsCluster_pure _
    | exact keepsCluster_getCluster
    | exact keepsCluster_loadBalancerGet _
    | exact keepsCluster_loadBalancerCreate _ _
    | exact keepsCluster_loadbalancerAddLabelSelector _
    | apply keepsCluster_bind
    | split
    | intro _

theorem loadbalancerAddLabelSelector_apply (lb : LoadBalancer) (w : World) :
    loadbalancerAddLabelSelector lb w =
      if LBTarget.labelSelector (masterSelector w.cluster.config.clusterName) ∈ lb.targets then
        (.ok none, w)
      else if w.env.apiFails ⟨.addTarget, .loadBalancer, lb.name⟩ = true then
        (.ok (some ("cannot add label selector to load balancer: " ++ providerError)),
          { w with log := w.log ++ [⟨.addTarget, .loadBalancer, lb.name⟩] })
      else
        (.ok none,
          { w with
            log := w.log ++ [⟨.addTarget, .loadBalancer, lb.name⟩]
            provider := { w.provider with
              loadBalancers := w.provider.loadBalancers.map fun l =>
                if l.id = lb.id then
                  { l with targets := l.targets ++
                      [.labelSelector (masterSelector w.cluster.config.clusterName)] }
                else l } }) := by
  by_cases hany : LBTarget.labelSelector (masterSelector w.cluster.config.clusterName) ∈ lb.targets
  · simp [loadbalancerAddLabelSelector, bind_apply, getCluster, hany, pure_apply]
  · cases hf : w.env.apiFails ⟨.addTarget, .loadBalancer, lb.name⟩ <;>
      simp [loadbalancerAddLabelSelector, bind_apply, getCluster, hany, pure_apply,
        loadBalancerAddLabelSelectorTarget_apply, hf]

theorem CreateLoadBalancer_apply (net : Network) (loc : Option Location) (w : World) :
    CreateLoadBalancer net loc w =
      if w.env.apiFails ⟨.get, .loadBalancer, w.cluster.config.clusterName ++ "-api"⟩ = true then
        (.ok (.error ("cannot get load balancer: " ++ providerError)),
          { w with log := w.log ++
              [⟨.get, .loadBalancer, w.cluster.config.clusterName ++ "-api"⟩] })
      else
        match w.provider.loadBalancers.find? fun l =>
            decide (l.name = w.cluster.config.clusterName ++ "-api") with
        | some lb =>
          (loadbalancerAddLabelSelector lb >>= fun r =>
            match r with
            | some e => pure (.error e)
            | none => pure (.ok lb))
            { w with log := w.log ++
                [⟨.get, .loadBalancer, w.cluster.config.clusterName ++ "-api"⟩] }
        | none =>
          (loadBalancerCreate (w.cluster.config.clusterName ++ "-api")
              (masterSelector w.cluster.config.clusterName) >>= fun r =>
            match r with
            | .error e => pure (.error ("cannot create load balancer: " ++ e))
            | .ok lb =>
              loadbalancerAddLabelSelector lb >>= fun r =>
                match r with
                | some e => pure (.error e)
                | none => pure (.ok lb))
            { w with log := w.log ++
                [⟨.get, .loadBalancer, w.cluster.config.clusterName ++ "-api"⟩] } := by
  cases hf : w.env.apiFails ⟨.get, .loadBalancer, w.cluster.config.clusterName ++ "-api"⟩ with
  | true =>
    simp [CreateLoadBalancer, bind_apply, getCluster, loadBalancerGet_apply, hf, pure_apply]
  | false =>
    cases hfind : w.provider.loadBalancers.find? fun l =>
        decide (l.name = w.cluster.config.clusterName ++ "-api") <;>
      simp [CreateLoadBalancer, bind_apply, getCluster, loadBalancerGet_apply, hf, hfind]

/-- After `CreateLoadBalancer` has returned a balancer, a later call against the
same provider finds that balancer by name and issues only the lookup. -/
theorem CreateLoadBalancer_again (w w2 : World) (net net2 : Network)
    (loc loc2 : Option Location) (lb0 : LoadBalancer)
    (h : (CreateLoadBalancer net loc w).1 = .ok (.ok lb0))
    (hp : w2.provider = (CreateLoadBalancer net loc w).2.provider)
    (he : w2.env = w.env) (hc : w2.cluster.config = w.cluster.config) :
    ∃ lb, CreateLoadBalancer net2 loc2 w2 =
        (.ok (.ok lb), { w2 with log := w2.log ++
          [⟨.get, .loadBalancer, w.cluster.config.clusterName ++ "-api"⟩] }) ∧
      lb.id = lb0.id ∧ lb.name = lb0.name := by
  rw [CreateLoadBalancer_apply] at h hp
  rw [CreateLoadBalancer_apply, he, hc]
  cases hget : w.env.apiFails ⟨.get, .loadBalancer, w.cluster.config.clusterName ++ "-api"⟩ with
  | true => simp [hget] at h
  | false =>
    simp only [hget, Bool.false_eq_true, if_false] at h hp ⊢
    cases hfind : w.provider.loadBalancers.find? fun l =>
        decide (l.name = w.cluster.config.clusterName ++ "-api") with
    | some lbf =>
      simp only [hfind, bind_apply, loadbalancerAddLabelSelector_apply] at h hp
      by_cases hany : LBTarget.labelSelector (masterSelector w.cluster.config.clusterName) ∈
          lbf.targets
      · simp only [hany, if_true, pure_apply, Outcome.ok.injEq, Except.ok.injEq] at h hp
        subst h
        refine ⟨lbf, ?_, rfl, rfl⟩
        rw [hp, hfind]
        simp [bind_apply, loadbalancerAddLabelSelector_apply, hc, hany, pure_apply]
      · cases hadd : w.env.apiFails ⟨.addTarget, .loadBalancer, lbf.name⟩ with
        | true => simp [hany, hadd, pure_apply] at h
        | false =>
          simp only [hany, hadd, if_false, Bool.false_eq_true, pure_apply, Outcome.ok.injEq,
            Except.ok.injEq] at h hp
          subst h
          have hmap : (w.provider.loadBalancers.map fun l =>
                if l.id = lbf.id then
                  { l with targets := l.targets ++
                      [.labelSelector (masterSelector w.cluster.config.clusterName)] }
                else l).find? (fun l => decide (l.name = w.cluster.config.clusterName ++ "-api")) =
              some { lbf with targets := lbf.targets ++
                [.labelSelector (masterSelector w.cluster.config.clusterName)] } := by
            rw [find?_map_preserving _ _ _ w.provider.loadBalancers, hfind]
            · simp
            · intro a
              split <;> rfl
          refine ⟨{ lbf with targets := lbf.targets ++
            [.labelSelector (masterSelector w.cluster.config.clusterName)] }, ?_, rfl, rfl⟩
          rw [hp]
          simp only [hmap]
          simp [bind_apply, loadbalancerAddLabelSelector_apply, hc, pure_apply]
    | none =>
      simp only [hfind, bind_apply, loadBalancerCreate_apply] at h hp
      cases hcreate : w.env.apiFails
          ⟨.create, .loadBalancer, w.cluster.config.clusterName ++ "-api"⟩ with
      | true => simp [hcreate, pure_apply] at h
      | false =>
        simp only [hcreate, Bool.false_eq_true, if_false, bind_apply,
          loadbalancerAddLabelSelector_apply,
          List.mem_singleton, if_true, pure_apply, Outcome.ok.injEq, Except.ok.injEq] at h hp
        subst h
        refine ⟨{ id := w.provider.nextID, name := w.cluster.config.clusterName ++ "-api",
                  publicIP := some (w.env.addressOf w.provider.nextID),
                  targets := [.labelSelector (masterSelector w.cluster.config.clusterName)] },
          ?_, rfl, rfl⟩
        rw [hp]
        simp [List.find?_append, hfind, bind_apply, loadbalancerAddLabelSelector_apply, hc,
          pure_apply]

theorem network_apply (w : World) :
    network w =
      match w.cluster.network with
      | some n => (.ok n, w)
      | none =>
        (CreateNetwork >>= fun r =>
          match r with
          | .error _ => halt .fatal
          | .ok n => modifyCluster (fun c => { c with network := some n }) >>= fun _ => pure n) w := by
  cases h : w.cluster.network <;> simp [network, bind_apply, getCluster, h, pure_apply]

theorem network_ok_cached (w : World) (n : Network) (h : (network w).1 = .ok n) :
    (network w).2.cluster.network = some n := by
  rw [network_apply] at h ⊢
  cases hc : w.cluster.network with
  | some n0 =>
    simp only [hc, Outcome.ok.injEq] at h ⊢
    rw [h]
  | none =>
    simp only [hc] at h ⊢
    cases hr : (CreateNetwork w).1 with
    | halt x =>
      rw [bind_halt _ _ _ _ hr] at h
      simp at h
    | ok r =>
      rw [bind_ok _ _ _ _ hr] at h ⊢
      cases r with
      | error e => simp [halt] at h
      | ok n1 =>
        simp only [bind_apply, modifyCluster, pure_apply, Outcome.ok.injEq] at h ⊢
        rw [h]

theorem loadBalancer_apply (w : World) :
    loadBalancer w =
      match w.cluster.loadBalancer.filter fun lb => lb.publicIP.isSome with
      | some lb => (.ok lb, w)
      | none =>
        (network >>= fun net =>
          CreateLoadBalancer net none >>= fun r =>
            match r with
            | .error _ => halt .fatal
            | .ok lb =>
              modifyCluster (fun c => { c with loadBalancer := some lb }) >>= fun _ => pure lb) w := by
  cases h : w.cluster.loadBalancer.filter fun lb => lb.publicIP.isSome <;>
    simp [loadBalancer, bind_apply, getCluster, h, pure_apply]

theorem loadBalancer_cached (w : World) (lb : LoadBalancer)
    (hc : w.cluster.loadBalancer = some lb) (hip : lb.publicIP.isSome = true) :
    loadBalancer w = (.ok lb, w) := by
  rw [loadBalancer_apply, hc]
  simp [Option.filter, hip]

theorem loadBalancer_refetch (wn w2 : World) (net : Network) (lb : LoadBalancer)
    (hcl : (CreateLoadBalancer net none wn).1 = .ok (.ok lb))
    (hp : w2.provider = (CreateLoadBalancer net none wn).2.provider)
    (he : w2.env = wn.env) (hcfg : w2.cluster.config = wn.cluster.config)
    (hcache : w2.cluster.loadBalancer = some lb) (hnet : w2.cluster.network = some net)
    (hip : ¬ lb.publicIP.isSome = true) :
    ∃ lb2, (loadBalancer w2).1 = .ok lb2 ∧ lb2.id = lb.id ∧ lb2.name = lb.name ∧
      (loadBalancer w2).2.log =
        w2.log ++ [⟨.get, .loadBalancer, wn.cluster.config.clusterName ++ "-api"⟩] := by
  obtain ⟨lb2, hrun, hid, hname⟩ := CreateLoadBalancer_again wn w2 net net none none lb hcl hp he hcfg
  refine ⟨lb2, ?_, hid, hname, ?_⟩
  · rw [loadBalancer_apply, hcache]
    simp only [Option.filter, hip, Bool.false_eq_true, if_false]
    rw [bind_apply, network_apply, hnet]
    simp only [bind_apply, hrun, modifyCluster, pure_apply]
  · rw [loadBalancer_apply, hcache]
    simp only [Option.filter, hip, Bool.false_eq_true, if_false]
    rw [bind_apply, network_apply, hnet]
    simp only [bind_apply, hrun, modifyCluster, pure_apply]

/-- A second `loadBalancer()` after a successful one returns the same balancer and
issues at most the lookup by name. -/
theorem loadBalancer_again (w : World) (lb0 : LoadBalancer)
    (h : (loadBalancer w).1 = .ok lb0) :
    (loadBalancer w).2.cluster.loadBalancer = some lb0 ∧
    ∃ lb calls, (loadBalancer (loadBalancer w).2).1 = .ok lb ∧
      lb.id = lb0.id ∧ lb.name = lb0.name ∧
      (loadBalancer (loadBalancer w).2).2.log = (loadBalancer w).2.log ++ calls ∧
      ∀ c ∈ calls, c.op = .get := by
  cases hf : w.cluster.loadBalancer.filter fun lb => lb.publicIP.isSome with
  | some lb =>
    have hc : w.cluster.loadBalancer = some lb ∧ lb.publicIP.isSome = true := by
      cases hl : w.cluster.loadBalancer with
      | none => simp [hl, Option.filter] at hf
      | some x =>
        by_cases hx : x.publicIP.isSome = true
        · simp [hl, Option.filter, hx] at hf
          rw [← hf]
          exact ⟨rfl, hx⟩
        · simp [hl, Option.filter, hx] at hf
    have hrun := loadBalancer_cached w lb hc.1 hc.2
    rw [hrun] at h ⊢
    simp only [Outcome.ok.injEq] at h
    subst h
    refine ⟨hc.1, lb, [], ?_, rfl, rfl, ?_, ?_⟩
    · rw [hrun]
    · rw [hrun]
      simp
    · simp
  | none =>
    rw [loadBalancer_apply w] at h ⊢
    simp only [hf] at h ⊢
    cases hn : (network w).1 with
    | halt x =>
      rw [bind_halt _ _ _ _ hn] at h
      simp at h
    | ok net =>
      rw [bind_ok _ _ _ _ hn] at h ⊢
      cases hcl : (CreateLoadBalancer net none (network w).2).1 with
      | halt x =>
        rw [bind_halt _ _ _ _ hcl] at h
        simp at h
      | ok r =>
        rw [bind_ok _ _ _ _ hcl] at h ⊢
        cases r with
        | error e => simp [halt] at h
        | ok lb =>
          simp only [bind_apply, modifyCluster, pure_apply, Outcome.ok.injEq] at h ⊢
          subst h
          refine ⟨rfl, ?_⟩
          have hnet : (CreateLoadBalancer net none (network w).2).2.cluster.network = some net := by
            rw [(keepsCluster_iff _).mp (keepsCluster_CreateLoadBalancer net none)]
            exact network_ok_cached w net hn
          have hsteps := (emits_iff _ _).mp
            (emits_CreateLoadBalancer (P := fun _ => True) net none (fun _ _ => trivial))
            (network w).2
          by_cases hip : lb.publicIP.isSome = true
          · refine ⟨lb, [], ?_⟩
            rw [loadBalancer_cached _ lb rfl hip]
            simp
          · obtain ⟨lb2, k1, k2, k3, k4⟩ := loadBalancer_refetch (network w).2
              { (CreateLoadBalancer net none (network w).2).2 with
                cluster := { (CreateLoadBalancer net none (network w).2).2.cluster with
                  loadBalancer := some lb } }
              net lb hcl rfl hsteps.1 hsteps.2.1 rfl hnet hip
            exact ⟨lb2, _, k1, k2, k3, k4, by simp⟩

/-! ## C5: a single master needs no load balancer -/

/-- C5 (code defect): `DeleteCluster` asks `loadBalancer()` for the handle without
looking at the number of masters.  On a provisioned cluster of one master, which
has no load balancer, the teardown succeeds and has created one on its way. -/
theorem DeleteCluster_single_master_creates_load_balancer :
    mastersSize provisionedSingle.cluster = 1 ∧
    provisionedSingle.provider.loadBalancers = [] ∧
    (DeleteCluster provisionedSingle).1 = .ok none ∧
    creations .loadBalancer (DeleteCluster provisionedSingle).2.log = 1 := by
  decide!

/-! ## C12: a failed deletion inside a list -/

/-- C12 (code defect): `deleteServers` and `deletePlacementGroups` return at the
first failure.  At a provider that refuses to delete the first master and the
first placement group, `DeleteCluster` attempts no other server and no other
placement group: these are all its deletion calls. -/
theorem DeleteCluster_stops_list_at_first_failure :
    stubbornProvider.provider.servers.length = 5 ∧
    stubbornProvider.provider.placementGroups.length = 2 ∧
    (DeleteCluster stubbornProvider).1 = .ok none ∧
    (DeleteCluster stubbornProvider).2.log.filter (fun c => decide (c.op = .delete)) =
      [⟨.delete, .loadBalancer, "demo-api"⟩, ⟨.delete, .sshKey, "demo"⟩,
       ⟨.delete, .server, "demo-cx21-master1"⟩, ⟨.delete, .placementGroup, "demo"⟩,
       ⟨.delete, .network, "demo"⟩, ⟨.delete, .firewall, "demo"⟩] := by
  decide!

/-! ## C18: the cached server lists -/

/-- C18 (code defect): `allServers` takes a cached list for fetched only when it is
not empty.  For a cluster without servers the second call lists the servers of
the provider again. -/
theorem allServers_empty_list_fetched_again :
    (allServers freshSingle).1 = .ok [] ∧
    (allServers freshSingle).2.log = [⟨.list, .server, ""⟩] ∧
    (allServers (allServers freshSingle).2).2.log =
      [⟨.list, .server, ""⟩, ⟨.list, .server, ""⟩] := by
  decide!

/-! ## C25, C26: the definitions of the workers -/

/-- C25 (code defect): the definitions of the workers carry the label `role=master`
too, so the selector of the load balancer matches them. -/
theorem worker_definitions_match_master_selector :
    masterSelector "demo" = "cluster=demo,role=master" ∧
    ((workerNodePoolDefinitions
        { name := "small", instanceType := "cx31", instanceCount := 2, location := "" }
        freshWithPool).1.get?.map fun defs =>
          defs.map fun d => (d.name, d.labels, selectorMatches (masterSelector "demo") d.labels)) =
      some [("demo-cx31-pool-small-worker1", [("cluster", "demo"), ("role", "master")], true),
            ("demo-cx31-pool-small-worker2", [("cluster", "demo"), ("role", "master")], true)] := by
  decide!

/-- C26 (code defect): the definitions of the pool `small`, of instance type
`cx31`, request the server type of the masters, `cx21`. -/
theorem worker_definitions_request_master_type :
    ((workerNodePoolDefinitions
        { name := "small", instanceType := "cx31", instanceCount := 2, location := "" }
        freshWithPool).1.get?.map fun defs => defs.map fun d => (d.name, d.serverType)) =
      some [("demo-cx31-pool-small-worker1", "cx21"),
            ("demo-cx31-pool-small-worker2", "cx21")] := by
  decide!

/-! ## C27: cluster membership -/

/-- C27 (code defect): a server of the autoscaled pool of cluster `demo2` belongs to
cluster `demo` for `belongsToCluster`, which compares the node group by prefix,
and the server list of `demo`, which `GetAllServers` filters, holds it. -/
theorem belongsToCluster_accepts_longer_cluster_name :
    foreignAutoscaled.labels = [("hcloud/node-group", "demo2-cx21-pool-big-as")] ∧
    belongsToCluster foreignAutoscaled "demo" = true ∧
    (allServers
      { freshSingle with provider := { freshSingle.provider with servers := [foreignAutoscaled] } }).1
      = .ok [foreignAutoscaled] := by
  decide!

/-! ## C28: indexing the masters -/

/-- C28 (code defect): with ten masters `createServers` succeeds and caches nine of
them (the pattern `master\d$` of `masters()` misses `master10`), and `deployK3s`,
which indexes the cached list up to the configured count, stops. -/
theorem deployK3s_ten_masters_index_out_of_range :
    mastersSize freshTen.cluster = 10 ∧
    (createServers [] [] freshTen).1 = .ok none ∧
    (createServers [] [] freshTen).2.cluster.instances.length = 10 ∧
    (createServers [] [] freshTen).2.cluster.masterInstances.length = 9 ∧
    (deployK3s (createServers [] [] freshTen).2 (fun _ => .ok) true [] []).exit = .halted := by
  decide!

/-! ## C30: the latest release -/

/-- C30 (code defect): with no release to sort, `AvailableReleases` with
`latest = true` indexes the empty slice `sorted` at `len(sorted)-1` and panics. -/
theorem AvailableReleases_latest_of_none_panics {V : Type} (lib : VersionLib V)
    (compile : String → Option (String → Bool)) :
    sortVersions lib (releaseNames none []) = [] ∧
    AvailableReleases lib compile (.ok []) "" true = .halt .panic := by
  constructor <;> rfl

/-! ## C6: the firewall rules -/

theorem appendCIDRRules_of_parsed (parseCIDR : String → Option IPNet) (mk : IPNet → FirewallRule) :
    ∀ (vs : List String) (nets : List IPNet) (rules : List FirewallRule),
      vs.map parseCIDR = nets.map some →
      appendCIDRRules parseCIDR mk rules vs = some (rules ++ nets.map mk)
  | [], nets, rules, h => by
    cases nets with
    | nil => simp [appendCIDRRules]
    | cons n ns => simp at h
  | v :: vs, nets, rules, h => by
    cases nets with
    | nil => simp at h
    | cons n ns =>
      simp only [List.map_cons, List.cons.injEq] at h
      simp only [appendCIDRRules, h.1, List.map_cons]
      rw [appendCIDRRules_of_parsed parseCIDR mk vs ns _ h.2]
      simp

/-- C6: with the private range resolved and all the allowed networks parsed,
`createFirewallRules` returns the ping rule, the TCP and the UDP rule of the
private range, then (exactly when there is one master) one port-6443 rule per
allowed-API network, then one port-22 rule per allowed-SSH network, in the
configured order; hence its length, and a port-6443 rule is there iff the cluster
has one master and an allowed-API network. -/
theorem createFirewallRules_rule_set (parseCIDR : String → Option IPNet) (cluster : Cluster)
    (range : IPNet) (apis sshs : List IPNet)
    (hrange : cluster.clusterNetworkIPRange = some range)
    (hapi : cluster.config.apiAllowedNetworks.map parseCIDR = apis.map some)
    (hssh : cluster.config.sshAllowedNetworks.map parseCIDR = sshs.map some) :
    ∃ rules, createFirewallRules parseCIDR cluster = some rules ∧
      rules =
        [{ description := "Allow ICMP (ping)", direction := .in,
           sourceIPs := [{ ip := 0, ones := 0, bits := 32 }], protocol := .icmp, port := none },
         { description := "Allow all TCP traffic between nodes on the private network",
           direction := .in, sourceIPs := [range], protocol := .tcp, port := some "any" },
         { description := "Allow all UDP traffic between nodes on the private network",
           direction := .in, sourceIPs := [range], protocol := .udp, port := some "any" }]
        ++ (if cluster.config.masters.instanceCount = 1 then
              apis.map fun n =>
                { description := "Allow port 6443 (Kubernetes API server)", direction := .in,
                  sourceIPs := [n], protocol := .tcp, port := some "6443" }
            else [])
        ++ sshs.map (fun n =>
              { description := "Allow port 22 (SSH)", direction := .in,
                sourceIPs := [n], protocol := .tcp, port := some "22" }) ∧
      rules.length =
        3 + (if cluster.config.masters.instanceCount = 1
              then cluster.config.apiAllowedNetworks.length else 0)
          + cluster.config.sshAllowedNetworks.length ∧
      ((∃ r ∈ rules, r.port = some "6443") ↔
        (cluster.config.masters.instanceCount = 1 ∧ cluster.config.apiAllowedNetworks ≠ [])) := by
  have hla : apis.length = cluster.config.apiAllowedNetworks.length := by
    have := congrArg List.length hapi
    simpa using this.symm
  have hls : sshs.length = cluster.config.sshAllowedNetworks.length := by
    have := congrArg List.length hssh
    simpa using this.symm
  have hne : cluster.config.apiAllowedNetworks ≠ [] ↔ apis ≠ [] := by
    rw [← List.length_pos, ← List.length_pos, hla]
  by_cases h1 : cluster.config.masters.instanceCount = 1
  · refine ⟨_, ?_, rfl, ?_, ?_⟩
    · simp only [createFirewallRules, hrange, h1, if_true]
      rw [appendCIDRRules_of_parsed parseCIDR customAPIRule _ apis _ hapi]
      simp only []
      rw [appendCIDRRules_of_parsed parseCIDR customSSHRule _ sshs _ hssh]
      simp only [pingRule, internalTCPRule, internalUDPRule, List.nil_append, List.cons_append,
        List.append_assoc]
      rfl
    · simp [h1, hla, hls]; omega
    · rw [hne]
      simp only [h1, if_true, true_and]
      constructor
      · rintro ⟨r, hr, hp⟩
        intro he
        subst he
        simp at hr
        rcases hr with rfl | rfl | rfl | ⟨n, _, rfl⟩ <;> simp at hp
      · intro hn
        obtain ⟨n, ns, rfl⟩ := List.exists_cons_of_ne_nil hn
        refine ⟨customAPIRule n, ?_, rfl⟩
        simp [customAPIRule]
  · refine ⟨_, ?_, rfl, ?_, ?_⟩
    · simp only [createFirewallRules, hrange, h1, if_false]
      rw [appendCIDRRules_of_parsed parseCIDR customSSHRule _ sshs _ hssh]
      simp only [pingRule, internalTCPRule, internalUDPRule, List.nil_append, List.cons_append,
        List.append_assoc]
      rfl
    · simp [h1, hls]; omega
    · simp only [h1, if_false, false_and, iff_false]
      rintro ⟨r, hr, hp⟩
      simp at hr
      rcases hr with rfl | rfl | rfl | ⟨n, _, rfl⟩ <;> simp at hp

theorem createFirewallRules_rule_set_witness :
    ∃ rules, createFirewallRules demoEnv.parseCIDR
        { freshCluster.cluster with
          config := { demoConfig 1 [] with apiAllowedNetworks := ["203.0.113.0/24", "0.0.0.0/0"] } }
        = some rules ∧ rules.length = 6 := by
  obtain ⟨rules, h, -, hl, -⟩ := createFirewallRules_rule_set demoEnv.parseCIDR
    { freshCluster.cluster with
      config := { demoConfig 1 [] with apiAllowedNetworks := ["203.0.113.0/24", "0.0.0.0/0"] } }
    { ip := 167772160, ones := 16, bits := 32 }
    [{ ip := 3405803776, ones := 24, bits := 32 }, { ip := 0, ones := 0, bits := 32 }]
    [{ ip := 0, ones := 0, bits := 32 }] rfl (by decide) (by decide)
  exact ⟨rules, h, hl⟩

/-! ## C7: the join token of an existing first master -/

theorem splitChars_ne_nil (sep : Char) : ∀ s : List Char, splitChars sep s ≠ []
  | [] => by simp [splitChars]
  | c :: cs => by
    have ih := splitChars_ne_nil sep cs
    simp only [splitChars]
    split
    · simp
    · split <;> simp

theorem splitChars_pieces (sep : Char) :
    ∀ (s : List Char), ∀ p ∈ splitChars sep s, sep ∉ p
  | [], p, hp => by
    simp [splitChars] at hp
    simp [hp]
  | c :: cs, p, hp => by
    have ih := splitChars_pieces sep cs
    simp only [splitChars] at hp
    split at hp
    · rcases List.mem_cons.1 hp with rfl | h
      · simp
      · exact ih p h
    · rename_i hc
      split at hp
      · rename_i hnil
        exact absurd hnil (splitChars_ne_nil sep cs)
      · rename_i q qs hq
        rcases List.mem_cons.1 hp with rfl | h
        · have := ih q (by rw [hq]; simp)
          simp only [List.mem_cons, not_or]
          exact ⟨fun h => hc h.symm, this⟩
        · exact ih p (by rw [hq]; simp [h])

theorem splitChars_of_not_mem (sep : Char) :
    ∀ (s : List Char), sep ∉ s → splitChars sep s = [s]
  | [], _ => rfl
  | c :: cs, h => by
    simp only [List.mem_cons, not_or] at h
    have hc : ¬ c = sep := fun e => h.1 e.symm
    simp [splitChars, hc, splitChars_of_not_mem sep cs h.2]

theorem splitChars_two_of_mem (sep : Char) :
    ∀ (s : List Char), sep ∈ s → ∃ p q qs, splitChars sep s = p :: q :: qs
  | [], h => by simp at h
  | c :: cs, h => by
    by_cases hc : c = sep
    · obtain ⟨q, qs, hq⟩ := List.exists_cons_of_ne_nil (splitChars_ne_nil sep cs)
      exact ⟨[], q, qs, by simp [splitChars, hc, hq]⟩
    · have hcs : sep ∈ cs := by
        rcases List.mem_cons.1 h with e | e
        · exact absurd e.symm hc
        · exact e
      obtain ⟨p, q, qs, hq⟩ := splitChars_two_of_mem sep cs hcs
      exact ⟨c :: p, q, qs, by simp [splitChars, hc, hq]⟩

theorem lastPiece_not_mem (sep : Char) (s : List Char) : sep ∉ lastPiece sep s := by
  obtain ⟨q, qs, hq⟩ := List.exists_cons_of_ne_nil (splitChars_ne_nil sep s)
  apply splitChars_pieces sep s
  simp only [lastPiece, hq, List.getLastD_cons]
  rw [← hq]
  have : (q :: qs).getLast (by simp) ∈ q :: qs := List.getLast_mem _
  rw [List.getLast_eq_getLastD] at this
  rw [hq]; exact this

theorem lastPiece_of_not_mem (sep : Char) (s : List Char) (h : sep ∉ s) :
    lastPiece sep s = s := by
  simp [lastPiece, splitChars_of_not_mem sep s h]

theorem lastPiece_of_mem (sep : Char) :
    ∀ (s : List Char), sep ∈ s → ∃ pre, s = pre ++ sep :: lastPiece sep s
  | [], h => by simp at h
  | c :: cs, h => by
    by_cases hc : c = sep
    · subst hc
      obtain ⟨q, qs, hq⟩ := List.exists_cons_of_ne_nil (splitChars_ne_nil c cs)
      have hl : lastPiece c (c :: cs) = lastPiece c cs := by
        simp [lastPiece, splitChars, hq]
      rw [hl]
      by_cases hcs : c ∈ cs
      · obtain ⟨pre, hpre⟩ := lastPiece_of_mem c cs hcs
        exact ⟨c :: pre, by rw [List.cons_append, ← hpre]⟩
      · exact ⟨[], by rw [lastPiece_of_not_mem c cs hcs]; rfl⟩
    · have hcs : sep ∈ cs := by
        rcases List.mem_cons.1 h with e | e
        · exact absurd e.symm hc
        · exact e
      obtain ⟨p, q, qs, hq⟩ := splitChars_two_of_mem sep cs hcs
      have hl : lastPiece sep (c :: cs) = lastPiece sep cs := by
        simp [lastPiece, splitChars, hc, hq]
      rw [hl]
      obtain ⟨pre, hpre⟩ := lastPiece_of_mem sep cs hcs
      exact ⟨c :: pre, by rw [List.cons_append, ← hpre]⟩

theorem lastPiece_suffix (sep : Char) (s : List Char) : lastPiece sep s <:+ s := by
  by_cases h : sep ∈ s
  · obtain ⟨pre, hpre⟩ := lastPiece_of_mem sep s h
    exact ⟨pre ++ [sep], by simp [← hpre]⟩
  · rw [lastPiece_of_not_mem sep s h]


/-! ## C7: the token theorem -/

theorem k3sToken_apply (w : World) (first : Server) (rest : List Server)
    (hc : w.cluster.k3sToken = "") (hm : w.cluster.masterInstances = first :: rest) :
    k3sToken w =
      match (w.env.ssh w.sshLog.length (ipString first.publicIP) tokenCommand).err with
      | some _ =>
        (.halt .panic, { w with sshLog := w.sshLog ++ [(ipString first.publicIP, tokenCommand)] })
      | none =>
        let trimmed :=
          trimSpace (w.env.ssh w.sshLog.length (ipString first.publicIP) tokenCommand).out
        let w1 := { w with sshLog := w.sshLog ++ [(ipString first.publicIP, tokenCommand)] }
        if trimmed = "" then
          (randomHex 32 >>= fun token => do
            modifyCluster fun c => { c with k3sToken := token }
            pure token) w1
        else
          (.ok ⟨lastPiece ':' trimmed.data⟩,
            { w1 with cluster := { w1.cluster with k3sToken := ⟨lastPiece ':' trimmed.data⟩ } }) := by
  simp only [k3sToken, bind_apply, getCluster, hc, firstMasterPublicIP, hm, pure_apply,
    SSHCommand, ne_eq, not_true_eq_false, if_false]
  cases he : (w.env.ssh w.sshLog.length (ipString first.publicIP) tokenCommand).err with
  | some e => simp [halt]
  | none =>
    simp only []
    by_cases ht :
        trimSpace (w.env.ssh w.sshLog.length (ipString first.publicIP) tokenCommand).out = ""
    · simp only [ht, if_true, bind_apply]
      rfl
    · simp only [ht, if_false, bind_apply, pure_apply, modifyCluster]
      rw [hm]

/-- C7: with no token cached, when the token read on the first master returns
without error an output whose trimmed value `t` is not empty, `k3sToken` returns
the part of `t` after its last `:` (`t` itself when it has none): the result has
no `:`, is a suffix of `t`, and is the cached token afterwards. -/
theorem k3sToken_of_existing_master (w : World) (first : Server) (rest : List Server) (t : String)
    (hc : w.cluster.k3sToken = "") (hm : w.cluster.masterInstances = first :: rest)
    (herr : (w.env.ssh w.sshLog.length (ipString first.publicIP) tokenCommand).err = none)
    (ht : trimSpace (w.env.ssh w.sshLog.length (ipString first.publicIP) tokenCommand).out = t)
    (hne : t ≠ "") :
    ∃ token : String,
      (k3sToken w).1 = .ok token ∧
      (k3sToken w).2.cluster.k3sToken = token ∧
      ':' ∉ token.data ∧
      token.data <:+ t.data ∧
      (':' ∉ t.data → token = t) ∧
      (':' ∈ t.data → ∃ pre, t.data = pre ++ ':' :: token.data) := by
  refine ⟨⟨lastPiece ':' t.data⟩, ?_, ?_, lastPiece_not_mem _ _, lastPiece_suffix _ _, ?_,
    lastPiece_of_mem _ _⟩
  · rw [k3sToken_apply w first rest hc hm]
    simp only [herr, ht, hne, if_false]
  · rw [k3sToken_apply w first rest hc hm]
    simp only [herr, ht, hne, if_false]
  · intro h
    rw [lastPiece_of_not_mem _ _ h]

/-- C7 at a first master whose token file holds `K10abc::server:s3cr3t`. -/
theorem k3sToken_of_existing_master_witness :
    ∃ token : String,
      (k3sToken tokenOnDisk).1 = .ok token ∧
      (k3sToken tokenOnDisk).2.cluster.k3sToken = token ∧
      ':' ∉ token.data ∧
      token.data <:+ "K10abc::server:s3cr3t".data ∧
      (':' ∉ "K10abc::server:s3cr3t".data → token = "K10abc::server:s3cr3t") ∧
      (':' ∈ "K10abc::server:s3cr3t".data →
        ∃ pre, "K10abc::server:s3cr3t".data = pre ++ ':' :: token.data) :=
  k3sToken_of_existing_master tokenOnDisk (demoMaster 1) [demoMaster 2, demoMaster 3]
    "K10abc::server:s3cr3t" (by decide) (by decide) (by decide) (by decide) (by decide)

/-! ## C8: the token without a reachable first master -/

theorem hexEncode_length : ∀ bs : List Nat, (hexEncode bs).length = 2 * bs.length
  | [] => rfl
  | b :: bs => by simp [hexEncode, hexEncode_length bs]; omega

/-- C8 (counterexample): when the Remote Executor returns an error for the token
read, `k3sToken` panics: it returns no token. -/
theorem k3sToken_panics_when_unreachable :
    unreachableMaster.cluster.k3sToken = "" ∧
    (unreachableMaster.env.ssh 0 "192.0.2.1" tokenCommand).err = some "dial tcp: i/o timeout" ∧
    32 ≤ unreachableMaster.entropy.length ∧
    (k3sToken unreachableMaster).1 = .halt .panic := by
  decide

/-- C8 (amended): with no token cached, `k3sToken` panics when the token read on
the first master returns an error; when the read returns without error an output
that is empty once trimmed, and the random source gives 32 bytes, `k3sToken`
returns a token of 32 characters, the first 32 hexadecimal digits of those bytes,
and caches it. -/
theorem k3sToken_fresh_or_panic (w : World) (first : Server) (rest : List Server)
    (hc : w.cluster.k3sToken = "") (hm : w.cluster.masterInstances = first :: rest) :
    (∀ e, (w.env.ssh w.sshLog.length (ipString first.publicIP) tokenCommand).err = some e →
      (k3sToken w).1 = .halt .panic) ∧
    ((w.env.ssh w.sshLog.length (ipString first.publicIP) tokenCommand).err = none →
      trimSpace (w.env.ssh w.sshLog.length (ipString first.publicIP) tokenCommand).out = "" →
      32 ≤ w.entropy.length →
      ∃ token : String,
        (k3sToken w).1 = .ok token ∧ token.length = 32 ∧
        token.data = (hexEncode (w.entropy.take 32)).take 32 ∧
        (k3sToken w).2.cluster.k3sToken = token ∧
        (k3sToken w).2.entropy = w.entropy.drop 32) := by
  constructor
  · intro e he
    rw [k3sToken_apply w first rest hc hm]
    simp only [he]
  · intro he ht hn
    have hlt : ¬ w.entropy.length < 32 := by omega
    refine ⟨⟨(hexEncode (w.entropy.take 32)).take 32⟩, ?_, ?_, rfl, ?_, ?_⟩
    · rw [k3sToken_apply w first rest hc hm]
      simp only [he, ht, if_true, bind_apply, randomHex, hlt, if_false, modifyCluster, pure_apply]
    · simp only [String.length, List.length_take, hexEncode_length]
      omega
    · rw [k3sToken_apply w first rest hc hm]
      simp only [he, ht, if_true, bind_apply, randomHex, hlt, if_false, modifyCluster, pure_apply]
    · rw [k3sToken_apply w first rest hc hm]
      simp only [he, ht, if_true, bind_apply, randomHex, hlt, if_false, modifyCluster, pure_apply]

/-- C8 (amended) at a first master without a token file. -/
theorem k3sToken_fresh_or_panic_witness :
    (noTokenYet.env.ssh noTokenYet.sshLog.length
        (ipString (demoMaster 1).publicIP) tokenCommand).err = none ∧
    trimSpace (noTokenYet.env.ssh noTokenYet.sshLog.length
        (ipString (demoMaster 1).publicIP) tokenCommand).out = "" ∧
    32 ≤ noTokenYet.entropy.length ∧
    (∀ e, (noTokenYet.env.ssh noTokenYet.sshLog.length
        (ipString (demoMaster 1).publicIP) tokenCommand).err = some e →
      (k3sToken noTokenYet).1 = .halt .panic) ∧
    ((noTokenYet.env.ssh noTokenYet.sshLog.length
        (ipString (demoMaster 1).publicIP) tokenCommand).err = none →
      trimSpace (noTokenYet.env.ssh noTokenYet.sshLog.length
        (ipString (demoMaster 1).publicIP) tokenCommand).out = "" →
      32 ≤ noTokenYet.entropy.length →
      ∃ token : String,
        (k3sToken noTokenYet).1 = .ok token ∧ token.length = 32 ∧
        token.data = (hexEncode (noTokenYet.entropy.take 32)).take 32 ∧
        (k3sToken noTokenYet).2.cluster.k3sToken = token ∧
        (k3sToken noTokenYet).2.entropy = noTokenYet.entropy.drop 32) :=
  ⟨by decide, by decide, by decide,
    k3sToken_fresh_or_panic noTokenYet (demoMaster 1) [demoMaster 2, demoMaster 3]
      (by decide) (by decide)⟩

/-! ## C9: readiness probing -/

theorem readyProbe_apply (server : Server) (w : World) :
    ∃ r, readyProbe server w =
      (.ok r, { w with sshLog := w.sshLog ++ [(ipString server.publicIP, "cat /etc/ready")] }) ∧
      (r = none ↔ probeReady w server 0 = true) := by
  simp only [readyProbe, bind_apply, SSHCommand, probeReady, Nat.add_zero]
  cases he : (w.env.ssh w.sshLog.length (ipString server.publicIP) "cat /etc/ready").err with
  | some e => exact ⟨_, rfl, by simp⟩
  | none =>
    by_cases ht :
        trimSpace (w.env.ssh w.sshLog.length (ipString server.publicIP) "cat /etc/ready").out
          = "true"
    · exact ⟨none, by simp [ht, pure_apply], by simp [ht]⟩
    · exact ⟨some "server is not ready", by simp [ht, pure_apply], by simp [ht]⟩

theorem probeReady_succ (server : Server) (w : World) (x : String × String) (k : Nat) :
    probeReady { w with sshLog := w.sshLog ++ [x] } server k = probeReady w server (k + 1) := by
  simp only [probeReady, List.length_append, List.length_singleton]
  rw [show w.sshLog.length + 1 + k = w.sshLog.length + (k + 1) by omega]

theorem retryDo_never_ready (server : Server) : ∀ (n : Nat) (w : World),
    (∀ k < n, probeReady w server k = false) →
    retryDo n (readyProbe server) w =
      (.ok (some "All attempts fail"),
        { w with sshLog :=
            w.sshLog ++ List.replicate n (ipString server.publicIP, "cat /etc/ready") })
  | 0, w, _ => by simp [retryDo, pure_apply]
  | n + 1, w, h => by
    obtain ⟨r, hr, hiff⟩ := readyProbe_apply server w
    have h0 := h 0 (by omega)
    cases r with
    | none => simp [h0] at hiff
    | some e =>
      simp only [retryDo, bind_apply, hr]
      rw [retryDo_never_ready server n _ (fun k hk => by
        rw [probeReady_succ]; exact h (k + 1) (by omega))]
      simp [List.replicate_succ]

theorem retryDo_first_ready (server : Server) : ∀ (n : Nat) (w : World) (k : Nat),
    k < n → probeReady w server k = true → (∀ j < k, probeReady w server j = false) →
    retryDo n (readyProbe server) w =
      (.ok none,
        { w with sshLog :=
            w.sshLog ++ List.replicate (k + 1) (ipString server.publicIP, "cat /etc/ready") })
  | 0, w, k, hk, _, _ => by omega
  | n + 1, w, k, hk, hready, hbefore => by
    obtain ⟨r, hr, hiff⟩ := readyProbe_apply server w
    cases k with
    | zero =>
      have : r = none := hiff.2 hready
      subst this
      simp [retryDo, bind_apply, hr, pure_apply]
    | succ k =>
      have h0 := hbefore 0 (by omega)
      cases r with
      | none => simp [h0] at hiff
      | some e =>
        simp only [retryDo, bind_apply, hr]
        rw [retryDo_first_ready server n _ k (by omega) (by rw [probeReady_succ]; exact hready)
          (fun j hj => by rw [probeReady_succ]; exact hbefore (j + 1) (by omega))]
        simp [List.replicate_succ]

/-- C9: `waitForSSH` returns success exactly when one of the first 15 probe
attempts finds the server ready (no transport error and trimmed output `true`);
it stops at the first such attempt, having probed that many times; when none of
the 15 attempts finds it ready it has probed exactly 15 times and returns an
error.  It never stops the process. -/
theorem waitForSSH_retries (server : Server) (w : World) :
    ((waitForSSH server w).1 = .ok none ↔ ∃ k < 15, probeReady w server k = true) ∧
    (∀ k < 15, probeReady w server k = true → (∀ j < k, probeReady w server j = false) →
      (waitForSSH server w).1 = .ok none ∧
      (waitForSSH server w).2.sshLog =
        w.sshLog ++ List.replicate (k + 1) (ipString server.publicIP, "cat /etc/ready")) ∧
    ((∀ k < 15, probeReady w server k = false) →
      (∃ e, (waitForSSH server w).1 = .ok (some e)) ∧
      (waitForSSH server w).2.sshLog =
        w.sshLog ++ List.replicate 15 (ipString server.publicIP, "cat /etc/ready")) := by
  have hfirst : ∀ k < 15, probeReady w server k = true →
      (∀ j < k, probeReady w server j = false) →
      (waitForSSH server w).1 = .ok none ∧
      (waitForSSH server w).2.sshLog =
        w.sshLog ++ List.replicate (k + 1) (ipString server.publicIP, "cat /etc/ready") := by
    intro k hk hready hbefore
    simp only [waitForSSH, bind_apply, retryDo_first_ready server 15 w k hk hready hbefore,
      pure_apply, and_self]
  have hnever : (∀ k < 15, probeReady w server k = false) →
      (∃ e, (waitForSSH server w).1 = .ok (some e)) ∧
      (waitForSSH server w).2.sshLog =
        w.sshLog ++ List.replicate 15 (ipString server.publicIP, "cat /etc/ready") := by
    intro h
    simp only [waitForSSH, bind_apply, retryDo_never_ready server 15 w h, pure_apply]
    exact ⟨⟨_, rfl⟩, trivial⟩
  refine ⟨⟨?_, ?_⟩, hfirst, hnever⟩
  · intro hok
    by_contra hno
    have h : ∀ k < 15, probeReady w server k = false := by
      intro k hk
      cases hp : probeReady w server k with
      | false => rfl
      | true => exact absurd ⟨k, hk, hp⟩ hno
    obtain ⟨⟨e, he⟩, -⟩ := hnever h
    rw [he] at hok
    simp at hok
  · rintro ⟨k, hk, hready⟩
    have hex : ∃ k, k < 15 ∧ probeReady w server k = true := ⟨k, hk, hready⟩
    have hmin : ∀ j, j < Nat.find hex → ¬ (j < 15 ∧ probeReady w server j = true) :=
      fun j hj => Nat.find_min hex hj
    obtain ⟨hlt, hr⟩ := Nat.find_spec hex
    refine (hfirst (Nat.find hex) hlt hr ?_).1
    intro j hj
    cases hp : probeReady w server j with
    | false => rfl
    | true => exact absurd ⟨by omega, hp⟩ (hmin j hj)

/-! ## C10: the order of the teardown -/

theorem deletesWithin_iff {α : Type} (lo hi : Nat) (m : M α) :
    DeletesWithin lo hi m ↔
      ∀ w, ∃ calls, (m w).2.log = w.log ++ calls ∧ InTeardownOrder calls ∧
        ∀ c ∈ deletions calls, lo ≤ c.kind.teardownRank ∧ c.kind.teardownRank ≤ hi := by
  unfold DeletesWithin
  exact Iff.rfl

theorem deletions_append (l1 l2 : List Call) :
    deletions (l1 ++ l2) = deletions l1 ++ deletions l2 := by
  simp [deletions]

theorem deletesWithin_of_kind {α : Type} {m : M α} (k : Kind)
    (h : Emits (fun c => c.op = .delete → c.kind = k) m) :
    DeletesWithin k.teardownRank k.teardownRank m := by
  rw [deletesWithin_iff]
  intro w
  obtain ⟨-, -, -, calls, hl, hp⟩ := (emits_iff _ _).mp h w
  have hk : ∀ c ∈ deletions calls, c.kind = k := by
    intro c hc
    simp only [deletions, List.mem_filter, decide_eq_true_eq] at hc
    exact hp c hc.1 hc.2
  refine ⟨calls, hl, ?_, ?_⟩
  · apply List.pairwise_of_forall_mem_list
    intro a ha b hb
    rw [hk a ha, hk b hb]
  · intro c hc
    rw [hk c hc]
    exact ⟨le_refl _, le_refl _⟩

theorem deletesWithin_of_quiet {α : Type} {m : M α} (lo hi : Nat)
    (h : Emits (fun c => c.op ≠ .delete) m) : DeletesWithin lo hi m := by
  rw [deletesWithin_iff]
  intro w
  obtain ⟨-, -, -, calls, hl, hp⟩ := (emits_iff _ _).mp h w
  have hnil : deletions calls = [] := by
    simp only [deletions, List.filter_eq_nil_iff, decide_eq_true_eq]
    exact hp
  refine ⟨calls, hl, ?_, ?_⟩
  · simp [InTeardownOrder, hnil]
  · simp [hnil]

theorem deletesWithin_mono {α : Type} {m : M α} {lo hi lo1 hi1 : Nat}
    (h : DeletesWithin lo hi m) (h1 : lo1 ≤ lo) (h2 : hi ≤ hi1) : DeletesWithin lo1 hi1 m := by
  rw [deletesWithin_iff] at h ⊢
  intro w
  obtain ⟨calls, hl, ho, hb⟩ := h w
  exact ⟨calls, hl, ho, fun c hc => ⟨by have := hb c hc; omega, by have := hb c hc; omega⟩⟩

theorem deletesWithin_pure {α : Type} (lo hi : Nat) (a : α) :
    DeletesWithin lo hi (pure a : M α) :=
  deletesWithin_of_quiet lo hi (emits_pure _ a)

theorem deletesWithin_bind {α β : Type} {m : M α} {f : α → M β} (lo mid hi : Nat)
    (h1 : lo ≤ mid) (h2 : mid ≤ hi)
    (hm : DeletesWithin lo mid m) (hf : ∀ a, DeletesWithin mid hi (f a)) :
    DeletesWithin lo hi (m >>= f) := by
  rw [deletesWithin_iff] at hm ⊢
  intro w
  obtain ⟨calls1, hl1, ho1, hb1⟩ := hm w
  rw [bind_apply]
  generalize m w = r at hl1
  obtain ⟨o, w1⟩ := r
  cases o with
  | halt x =>
    exact ⟨calls1, hl1, ho1, fun c hc => ⟨(hb1 c hc).1, le_trans (hb1 c hc).2 h2⟩⟩
  | ok a =>
    obtain ⟨calls2, hl2, ho2, hb2⟩ := (deletesWithin_iff _ _ _).mp (hf a) w1
    simp only at hl1
    refine ⟨calls1 ++ calls2, ?_, ?_, ?_⟩
    · show (f a w1).2.log = _
      rw [hl2, hl1, List.append_assoc]
    · unfold InTeardownOrder at ho1 ho2 ⊢
      rw [deletions_append, List.pairwise_append]
      exact ⟨ho1, ho2, fun a ha b hb => le_trans (hb1 a ha).2 (hb2 b hb).1⟩
    · intro c hc
      rw [deletions_append, List.mem_append] at hc
      rcases hc with hc | hc
      · exact ⟨(hb1 c hc).1, le_trans (hb1 c hc).2 h2⟩
      · exact ⟨le_trans h1 (hb2 c hc).1, (hb2 c hc).2⟩

theorem emits_DeleteServer {P : Call → Prop} (server : Server)
    (h : P ⟨.delete, .server, server.name⟩) : Emits P (DeleteServer server) := by
  unfold DeleteServer
  repeat' first
    | exact emits_pure P _
    | exact emits_serverDelete _ h
    | apply emits_bind
    | split
    | intro _

theorem emits_DeletePlacementGroup {P : Call → Prop} (pg : PlacementGroup)
    (h : P ⟨.delete, .placementGroup, pg.name⟩) : Emits P (DeletePlacementGroup pg) := by
  unfold DeletePlacementGroup
  repeat' first
    | exact emits_pure P _
    | exact emits_placementGroupDelete _ h
    | apply emits_bind
    | split
    | intro _

theorem emits_DeleteSSHKey {P : Call → Prop} (key : SSHKey)
    (h : P ⟨.delete, .sshKey, key.name⟩) : Emits P (DeleteSSHKey key) := by
  unfold DeleteSSHKey
  repeat' first
    | exact emits_pure P _
    | exact emits_sshKeyDelete _ h
    | apply emits_bind
    | split
    | intro _

theorem emits_DeleteNetwork {P : Call → Prop} (n : Network)
    (h : P ⟨.delete, .network, n.name⟩) : Emits P (DeleteNetwork n) := by
  unfold DeleteNetwork
  repeat' first
    | exact emits_pure P _
    | exact emits_networkDelete _ h
    | apply emits_bind
    | split
    | intro _

theorem emits_DeleteFirewall {P : Call → Prop} (fw : Firewall)
    (h : P ⟨.delete, .firewall, fw.name⟩) : Emits P (DeleteFirewall fw) := by
  unfold DeleteFirewall
  repeat' first
    | exact emits_pure P _
    | exact emits_firewallDelete _ h
    | apply emits_bind
    | split
    | intro _

theorem emits_DeleteLoadBalancer {P : Call → Prop} (lb : LoadBalancer)
    (h : P ⟨.delete, .loadBalancer, lb.name⟩) : Emits P (DeleteLoadBalancer lb) := by
  unfold DeleteLoadBalancer
  repeat' first
    | exact emits_pure P _
    | exact emits_loadBalancerDelete _ h
    | apply emits_bind
    | split
    | intro _

theorem emits_deleteServers {P : Call → Prop} (h : ∀ name, P ⟨.delete, .server, name⟩) :
    ∀ servers : List Server, Emits P (deleteServers servers)
  | [] => by
    unfold deleteServers
    exact emits_pure P _
  | s :: rest => by
    unfold deleteServers
    refine emits_bind (emits_DeleteServer s (h _)) fun r => ?_
    split
    · exact emits_pure P _
    · exact emits_deleteServers h rest

theorem emits_deletePlacementGroups {P : Call → Prop}
    (h : ∀ name, P ⟨.delete, .placementGroup, name⟩) :
    ∀ pgs : List PlacementGroup, Emits P (deletePlacementGroups pgs)
  | [] => by
    unfold deletePlacementGroups
    exact emits_pure P _
  | pg :: rest => by
    unfold deletePlacementGroups
    refine emits_bind (emits_DeletePlacementGroup pg (h _)) fun r => ?_
    split
    · exact emits_pure P _
    · exact emits_deletePlacementGroups h rest

/-- C10: the delete calls `DeleteCluster` issues, validation passed or not, are
in the order load balancer, SSH key, servers, placement groups, network,
firewall: no delete call for a later kind comes before one for an earlier kind,
and no other kind is deleted. -/
theorem DeleteCluster_teardown_order (w : World) :
    ∃ calls, (DeleteCluster w).2.log = w.log ++ calls ∧
      (deletions calls).Pairwise (fun a b => a.kind.teardownRank ≤ b.kind.teardownRank) ∧
      ∀ c ∈ deletions calls, c.kind ∈
        [Kind.loadBalancer, Kind.sshKey, Kind.server, Kind.placementGroup, Kind.network,
          Kind.firewall] := by
  have hq : ∀ c : Call, c.quiet → c.op ≠ .delete := fun c hc => hc.2
  have h : DeletesWithin 0 5 DeleteCluster := by
    unfold DeleteCluster
    refine deletesWithin_bind 0 0 5 (by omega) (by omega)
      (deletesWithin_of_quiet 0 0 (emits_validateDelete hq)) fun r => ?_
    split
    · exact deletesWithin_pure 0 5 _
    refine deletesWithin_bind 0 0 5 (by omega) (by omega)
      (deletesWithin_of_quiet 0 0 (emits_loadBalancer fun c hc => hc)) fun lb => ?_
    refine deletesWithin_bind 0 0 5 (by omega) (by omega)
      (deletesWithin_of_kind .loadBalancer (emits_DeleteLoadBalancer lb fun _ => rfl)) fun _ => ?_
    refine deletesWithin_bind 0 1 5 (by omega) (by omega)
      (deletesWithin_of_quiet 0 1 (emits_sshKey hq)) fun key => ?_
    refine deletesWithin_bind 1 1 5 (by omega) (by omega)
      (deletesWithin_of_kind .sshKey (emits_DeleteSSHKey key fun _ => rfl)) fun _ => ?_
    refine deletesWithin_bind 1 2 5 (by omega) (by omega)
      (deletesWithin_of_quiet 1 2 (emits_allServers hq)) fun servers => ?_
    refine deletesWithin_bind 2 2 5 (by omega) (by omega)
      (deletesWithin_of_kind .server (emits_deleteServers (fun _ _ => rfl) servers)) fun _ => ?_
    refine deletesWithin_bind 2 3 5 (by omega) (by omega)
      (deletesWithin_of_quiet 2 3 (emits_placementGroups hq)) fun pgs => ?_
    refine deletesWithin_bind 3 3 5 (by omega) (by omega)
      (deletesWithin_of_kind .placementGroup (emits_deletePlacementGroups (fun _ _ => rfl) pgs))
      fun _ => ?_
    refine deletesWithin_bind 3 4 5 (by omega) (by omega)
      (deletesWithin_of_quiet 3 4 (emits_network hq)) fun net => ?_
    refine deletesWithin_bind 4 4 5 (by omega) (by omega)
      (deletesWithin_of_kind .network (emits_DeleteNetwork net fun _ => rfl)) fun _ => ?_
    refine deletesWithin_bind 4 5 5 (by omega) (by omega)
      (deletesWithin_of_quiet 4 5 (emits_firewall hq)) fun fw => ?_
    refine deletesWithin_bind 5 5 5 (by omega) (by omega)
      (deletesWithin_of_kind .firewall (emits_DeleteFirewall fw fun _ => rfl)) fun _ => ?_
    exact deletesWithin_pure 5 5 _
  obtain ⟨calls, hl, ho, hb⟩ := (deletesWithin_iff _ _ _).mp h w
  refine ⟨calls, hl, ho, fun c hc => ?_⟩
  have := (hb c hc).2
  cases hk : c.kind <;> simp [hk, Kind.teardownRank] at this ⊢

/-! ## C11: the teardown goes on after a failed network deletion -/

theorem DeleteNetwork_log (net : Network) (w : World) :
    (∃ e, (DeleteNetwork net w).1 = .ok e) ∧
    (DeleteNetwork net w).2.log = w.log ++ [⟨.delete, .network, net.name⟩] := by
  simp only [DeleteNetwork, networkDelete, apiCall, api, bind_apply]
  cases w.env.apiFails ⟨.delete, .network, net.name⟩ <;>
    simp [pure_apply, bind_apply, modifyProvider]

theorem DeleteFirewall_log (fw : Firewall) (w : World) :
    (∃ e, (DeleteFirewall fw w).1 = .ok e) ∧
    (DeleteFirewall fw w).2.log = w.log ++ [⟨.delete, .firewall, fw.name⟩] := by
  simp only [DeleteFirewall, firewallDelete, apiCall, api, bind_apply]
  cases w.env.apiFails ⟨.delete, .firewall, fw.name⟩ <;>
    simp [pure_apply, bind_apply, modifyProvider]

theorem endsWithFirewall_bind {α : Type} {m : M α} {f : α → M (Option Err)}
    (hm : Emits (fun _ => True) m) (hf : ∀ a, EndsWithFirewall (f a)) :
    EndsWithFirewall (m >>= f) := by
  intro w r hr
  obtain ⟨-, -, -, calls, hl, -⟩ := (emits_iff _ _).mp hm w
  cases ha : (m w).1 with
  | halt x =>
    rw [bind_halt _ _ _ _ ha] at hr
    simp at hr
  | ok a =>
    rw [bind_ok _ _ _ _ ha] at hr ⊢
    obtain ⟨hnone, net, fw, pre, mid, hlog, hmid⟩ := hf a _ r hr
    refine ⟨hnone, net, fw, calls ++ pre, mid, ?_, hmid⟩
    rw [hlog, hl]
    simp only [List.append_assoc]

theorem endsWithFirewall_tail (net : Network) :
    EndsWithFirewall (do
      let _ ← DeleteNetwork net
      let fw ← firewall
      let _ ← DeleteFirewall fw
      pure none) := by
  intro w r hr
  obtain ⟨⟨e1, h1⟩, hl1⟩ := DeleteNetwork_log net w
  rw [bind_ok _ _ _ _ h1] at hr ⊢
  have hfw := (emits_iff _ _).mp
    (emits_firewall (P := fun c => c.op ≠ .delete) fun c hc => hc.2) (DeleteNetwork net w).2
  obtain ⟨-, -, -, calls2, hl2, hp2⟩ := hfw
  cases h2 : (firewall (DeleteNetwork net w).2).1 with
  | halt x =>
    rw [bind_halt _ _ _ _ h2] at hr
    simp at hr
  | ok fw =>
    rw [bind_ok _ _ _ _ h2] at hr ⊢
    obtain ⟨⟨e3, h3⟩, hl3⟩ := DeleteFirewall_log fw (firewall (DeleteNetwork net w).2).2
    rw [bind_ok _ _ _ _ h3] at hr ⊢
    simp only [pure_apply, Outcome.ok.injEq] at hr ⊢
    refine ⟨hr.symm, net.name, fw.name, [], calls2, ?_, hp2⟩
    rw [hl3, hl2, hl1]
    simp only [List.append_assoc, List.append_nil]

/-- C11: when validation has passed, `DeleteCluster` never returns an error; and
in every run that no fatal accessor error stops, whether the network deletion call
fails or not, the calls end with the delete call for the network, the calls of
the firewall accessor (none of them a deletion), and the delete call for the
firewall. -/
theorem DeleteCluster_goes_on_after_network (w : World) (r : Option Err)
    (hv : (validateDelete w).1 = .ok none) (hr : (DeleteCluster w).1 = .ok r) :
    r = none ∧
    ∃ net fw pre mid,
      (DeleteCluster w).2.log =
        w.log ++ pre ++ [⟨.delete, .network, net⟩] ++ mid ++ [⟨.delete, .firewall, fw⟩] ∧
      ∀ c ∈ mid, c.op ≠ .delete := by
  have hq : ∀ c : Call, c.quiet → True := fun _ _ => trivial
  obtain ⟨-, -, -, calls0, hl0, -⟩ :=
    (emits_iff _ _).mp (emits_validateDelete (P := fun _ => True) hq) w
  unfold DeleteCluster at hr ⊢
  rw [bind_ok _ _ _ _ hv] at hr ⊢
  simp only at hr ⊢
  have hrest : EndsWithFirewall (do
      let lb ← loadBalancer
      let _ ← DeleteLoadBalancer lb
      let key ← sshKey
      let _ ← DeleteSSHKey key
      let servers ← allServers
      let _ ← deleteServers servers
      let pgs ← placementGroups
      let _ ← deletePlacementGroups pgs
      let net ← network
      let _ ← DeleteNetwork net
      let fw ← firewall
      let _ ← DeleteFirewall fw
      pure none) := by
    refine endsWithFirewall_bind (emits_loadBalancer fun _ _ => trivial) fun lb => ?_
    refine endsWithFirewall_bind (emits_DeleteLoadBalancer lb trivial) fun _ => ?_
    refine endsWithFirewall_bind (emits_sshKey hq) fun key => ?_
    refine endsWithFirewall_bind (emits_DeleteSSHKey key trivial) fun _ => ?_
    refine endsWithFirewall_bind (emits_allServers hq) fun servers => ?_
    refine endsWithFirewall_bind (emits_deleteServers (fun _ => trivial) servers) fun _ => ?_
    refine endsWithFirewall_bind (emits_placementGroups hq) fun pgs => ?_
    refine endsWithFirewall_bind (emits_deletePlacementGroups (fun _ => trivial) pgs) fun _ => ?_
    refine endsWithFirewall_bind (emits_network hq) fun net => ?_
    exact endsWithFirewall_tail net
  obtain ⟨hnone, net, fw, pre, mid, hlog, hmid⟩ := hrest _ r hr
  refine ⟨hnone, net, fw, calls0 ++ pre, mid, ?_, hmid⟩
  rw [hlog, hl0]
  simp only [List.append_assoc]

/-- C11 at `networkStuck`, whose provider refuses to delete the network: the
teardown returns no error, and the firewall deletion comes after the network
deletion. -/
theorem DeleteCluster_goes_on_after_network_witness :
    networkStuck.env.apiFails ⟨.delete, .network, "demo"⟩ = true ∧
    (DeleteCluster networkStuck).1 = .ok none ∧
    ∃ net fw pre mid,
      (DeleteCluster networkStuck).2.log =
        networkStuck.log ++ pre ++ [⟨.delete, .network, net⟩] ++ mid
          ++ [⟨.delete, .firewall, fw⟩] ∧
      ∀ c ∈ mid, c.op ≠ .delete :=
  ⟨by decide, by decide!,
    (DeleteCluster_goes_on_after_network networkStuck none (by decide!) (by decide!)).2⟩

/-! ## C17: memoised handles -/

theorem keepsCluster_placementGroupGet (name : String) : KeepsCluster (placementGroupGet name) := by
  unfold placementGroupGet
  refine keepsCluster_apiCall _ _ ?_
  repeat' first
    | exact keepsCluster_pure _
    | exact keepsCluster_getProvider
    | apply keepsCluster_bind
    | intro _

theorem keepsCluster_placementGroupCreate (name : String) :
    KeepsCluster (placementGroupCreate name) := by
  unfold placementGroupCreate
  refine keepsCluster_apiCall _ _ ?_
  repeat' first
    | exact keepsCluster_pure _
    | exact keepsCluster_getProvider
    | exact keepsCluster_modifyProvider _
    | apply keepsCluster_bind
    | intro _

theorem keepsCluster_CreatePlacementGroup (name : String) :
    KeepsCluster (CreatePlacementGroup name) := by
  unfold CreatePlacementGroup
  repeat' first
    | exact keepsCluster_pure _
    | exact keepsCluster_placementGroupGet _
    | exact keepsCluster_placementGroupCreate _
    | apply keepsCluster_bind
    | split
    | intro _

theorem CreatePlacementGroup_name (name : String) (w : World) (pg : PlacementGroup)
    (h : (CreatePlacementGroup name w).1 = .ok (.ok pg)) : pg.name = name := by
  unfold CreatePlacementGroup at h
  cases hg : w.env.apiFails ⟨.get, .placementGroup, name⟩ with
  | true =>
    simp [placementGroupGet, apiCall, bind_apply, api, hg, pure_apply] at h
  | false =>
    rw [bind_apply, placementGroupGet_apply name w hg] at h
    cases hf : w.provider.placementGroups.find? fun g => decide (g.name = name) with
    | some g =>
      simp only [hf, pure_apply, Outcome.ok.injEq, Except.ok.injEq] at h
      have := List.find?_some hf
      simp only [decide_eq_true_eq] at this
      rw [← h]; exact this
    | none =>
      simp only [hf] at h
      cases hc : w.env.apiFails ⟨.create, .placementGroup, name⟩ with
      | true =>
        simp [placementGroupCreate, apiCall, bind_apply, api, hc, pure_apply] at h
      | false =>
        rw [bind_apply, placementGroupCreate_apply name _ (by simpa using hc)] at h
        simp only [pure_apply, Outcome.ok.injEq, Except.ok.injEq] at h
        rw [← h]

theorem placementGroup_apply (name : String) (w : World) :
    placementGroup name w =
      match w.cluster.placementGroups.find? fun pg => decide (pg.name = name) with
      | some pg => (.ok pg, w)
      | none =>
        (CreatePlacementGroup name >>= fun r =>
          match r with
          | .error _ => halt .fatal
          | .ok pg =>
            modifyCluster (fun c => { c with placementGroups := c.placementGroups ++ [pg] })
              >>= fun _ => pure pg) w := by
  cases h : w.cluster.placementGroups.find? fun pg => decide (pg.name = name) with
  | some pg => simp [placementGroup, bind_apply, getCluster, h, pure_apply]
  | none =>
    simp [placementGroup, bind_apply, getCluster, h, pure_apply]
    all_goals rfl

theorem placementGroup_ok_cached (name : String) (w : World) (pg : PlacementGroup)
    (h : (placementGroup name w).1 = .ok pg) :
    ((placementGroup name w).2.cluster.placementGroups.find? fun g => decide (g.name = name))
      = some pg := by
  rw [placementGroup_apply] at h ⊢
  cases hc : w.cluster.placementGroups.find? fun pg => decide (pg.name = name) with
  | some g =>
    simp only [hc, Outcome.ok.injEq] at h ⊢
    rw [← h]
  | none =>
    simp only [hc] at h ⊢
    have hk := (keepsCluster_iff _).mp (keepsCluster_CreatePlacementGroup name) w
    cases hr : (CreatePlacementGroup name w).1 with
    | halt x =>
      rw [bind_halt _ _ _ _ hr] at h
      simp at h
    | ok r =>
      rw [bind_ok _ _ _ _ hr] at h ⊢
      cases r with
      | error e => simp [halt] at h
      | ok g =>
        have hname := CreatePlacementGroup_name name w g hr
        simp only [bind_apply, modifyCluster, pure_apply, Outcome.ok.injEq] at h ⊢
        rw [hk, List.find?_append, hc, ← h]
        simp [hname]

theorem firewall_apply (w : World) :
    firewall w =
      match w.cluster.firewall with
      | some fw => (.ok fw, w)
      | none =>
        (CreateFirewall >>= fun r =>
          match r with
          | .error _ => halt .fatal
          | .ok fw => modifyCluster (fun c => { c with firewall := some fw }) >>= fun _ => pure fw) w := by
  cases h : w.cluster.firewall with
  | some fw => simp [firewall, bind_apply, getCluster, h, pure_apply]
  | none =>
    simp [firewall, bind_apply, getCluster, h, pure_apply]
    all_goals rfl

theorem firewall_ok_cached (w : World) (fw : Firewall) (h : (firewall w).1 = .ok fw) :
    (firewall w).2.cluster.firewall = some fw := by
  rw [firewall_apply] at h ⊢
  cases hc : w.cluster.firewall with
  | some n0 =>
    simp only [hc, Outcome.ok.injEq] at h ⊢
    rw [h]
  | none =>
    simp only [hc] at h ⊢
    cases hr : (CreateFirewall w).1 with
    | halt x =>
      rw [bind_halt _ _ _ _ hr] at h
      simp at h
    | ok r =>
      rw [bind_ok _ _ _ _ hr] at h ⊢
      cases r with
      | error e => simp [halt] at h
      | ok n1 =>
        simp only [bind_apply, modifyCluster, pure_apply, Outcome.ok.injEq] at h ⊢
        rw [h]

theorem sshKey_apply (w : World) :
    sshKey w =
      match w.cluster.sshKey with
      | some key => (.ok key, w)
      | none =>
        (CreateSSHKey >>= fun r =>
          match r with
          | .error _ => halt .fatal
          | .ok key => modifyCluster (fun c => { c with sshKey := some key }) >>= fun _ => pure key) w := by
  cases h : w.cluster.sshKey with
  | some key => simp [sshKey, bind_apply, getCluster, h, pure_apply]
  | none =>
    simp [sshKey, bind_apply, getCluster, h, pure_apply]
    all_goals rfl

theorem sshKey_ok_cached (w : World) (key : SSHKey) (h : (sshKey w).1 = .ok key) :
    (sshKey w).2.cluster.sshKey = some key := by
  rw [sshKey_apply] at h ⊢
  cases hc : w.cluster.sshKey with
  | some n0 =>
    simp only [hc, Outcome.ok.injEq] at h ⊢
    rw [h]
  | none =>
    simp only [hc] at h ⊢
    cases hr : (CreateSSHKey w).1 with
    | halt x =>
      rw [bind_halt _ _ _ _ hr] at h
      simp at h
    | ok r =>
      rw [bind_ok _ _ _ _ hr] at h ⊢
      cases r with
      | error e => simp [halt] at h
      | ok n1 =>
        simp only [bind_apply, modifyCluster, pure_apply, Outcome.ok.injEq] at h ⊢
        rw [h]

/-- C17: after `network()`, `firewall()`, `sshKey()` or `placementGroup(name)` has
returned a handle, the cache holds that handle; and from every world whose cache
holds a handle, the accessor returns that handle and leaves the world as it is:
no provider call, and no further cache entry for the placement-group name. -/
theorem accessors_memoised (w : World) (name : String) :
    (∀ n, (network w).1 = .ok n → (network w).2.cluster.network = some n) ∧
    (∀ n, w.cluster.network = some n → network w = (.ok n, w)) ∧
    (∀ fw, (firewall w).1 = .ok fw → (firewall w).2.cluster.firewall = some fw) ∧
    (∀ fw, w.cluster.firewall = some fw → firewall w = (.ok fw, w)) ∧
    (∀ key, (sshKey w).1 = .ok key → (sshKey w).2.cluster.sshKey = some key) ∧
    (∀ key, w.cluster.sshKey = some key → sshKey w = (.ok key, w)) ∧
    (∀ pg, (placementGroup name w).1 = .ok pg →
      ((placementGroup name w).2.cluster.placementGroups.find? fun g => decide (g.name = name))
        = some pg) ∧
    (∀ pg, (w.cluster.placementGroups.find? fun g => decide (g.name = name)) = some pg →
      placementGroup name w = (.ok pg, w)) := by
  refine ⟨network_ok_cached w, ?_, firewall_ok_cached w, ?_, sshKey_ok_cached w, ?_,
    placementGroup_ok_cached name w, ?_⟩
  · intro n h
    rw [network_apply, h]
  · intro fw h
    rw [firewall_apply, h]
  · intro key h
    rw [sshKey_apply, h]
  · intro pg h
    rw [placementGroup_apply, h]

/-- C17 at `freshSingle`: the first `network()` returns a handle, the second one
returns the same handle and leaves the world, the call log included, as it is. -/
theorem accessors_memoised_witness :
    ∃ n, (network freshSingle).1 = .ok n ∧
      network (network freshSingle).2 = (.ok n, (network freshSingle).2) := by
  have hsome : (network freshSingle).1.get?.isSome = true := by decide!
  cases h : (network freshSingle).1 with
  | halt x =>
    rw [h] at hsome
    simp [Outcome.get?] at hsome
  | ok n =>
    exact ⟨n, rfl, (accessors_memoised (network freshSingle).2 "demo").2.1 n
      ((accessors_memoised freshSingle "demo").1 n h)⟩

/-! ## C14: preflight and mutation -/

theorem validateCreate_split (w : World) :
    validateCreate w =
      (validateCreateBeforeNetwork >>= fun r =>
        match r with
        | some e => pure (some e)
        | none => validateCreateAfterNetwork) w := by
  unfold validateCreate validateCreateBeforeNetwork validateCreateAfterNetwork
  simp only [bind_apply]
  generalize validatePublicSSHKey w = r0
  obtain ⟨o0, w0⟩ := r0
  cases o0 with
  | halt x => rfl
  | ok a0 =>
    cases a0 with
    | some e => rfl
    | none =>
      simp only [bind_apply]
      generalize validatePrivateSSHKeyAndPassphrase w0 = r1
      obtain ⟨o1, w1⟩ := r1
      cases o1 with
      | halt x => rfl
      | ok a1 =>
        cases a1 with
        | some e => rfl
        | none =>
          simp only [bind_apply]
          generalize validateAllowedSSHNetworks w1 = r2
          obtain ⟨o2, w2⟩ := r2
          cases o2 with
          | halt x => rfl
          | ok a2 =>
            cases a2 with
            | some e => rfl
            | none =>
              simp only [bind_apply]
              generalize validateAllowedAPINetworks w2 = r3
              obtain ⟨o3, w3⟩ := r3
              cases o3 with
              | halt x => rfl
              | ok a3 =>
                cases a3 with
                | some e => rfl
                | none =>
                  simp only [bind_apply]
                  generalize validateToken w3 = r4
                  obtain ⟨o4, w4⟩ := r4
                  cases o4 with
                  | halt x => rfl
                  | ok a4 =>
                    cases a4 with
                    | some e => rfl
                    | none =>
                      simp only [bind_apply]
                      generalize validateK3sVersion w4 = r5
                      obtain ⟨o5, w5⟩ := r5
                      cases o5 with
                      | halt x => rfl
                      | ok a5 =>
                        cases a5 with
                        | some e => rfl
                        | none =>
                          simp only [bind_apply]
                          all_goals rfl

theorem issues_iff {α : Type} (P : Call → Prop) (m : M α) :
    Issues P m ↔ ∀ w, ∃ calls, (m w).2.log = w.log ++ calls ∧ ∀ c ∈ calls, P c := by
  unfold Issues
  exact Iff.rfl

theorem issues_of_emits {α : Type} {P : Call → Prop} {m : M α} (h : Emits P m) : Issues P m := by
  rw [issues_iff]
  intro w
  obtain ⟨-, -, -, calls, hl, hp⟩ := (emits_iff _ _).mp h w
  exact ⟨calls, hl, hp⟩

theorem issues_pure {α : Type} (P : Call → Prop) (a : α) : Issues P (pure a : M α) :=
  issues_of_emits (emits_pure P a)

theorem issues_halt {α : Type} (P : Call → Prop) (x : Halt) : Issues P (halt x : M α) :=
  issues_of_emits (emits_halt P x)

theorem issues_getCluster (P : Call → Prop) : Issues P getCluster :=
  issues_of_emits (emits_getCluster P)

theorem issues_getEnv (P : Call → Prop) : Issues P getEnv :=
  issues_of_emits (emits_getEnv P)

theorem issues_modifyCluster (P : Call → Prop) (f : Cluster → Cluster) :
    Issues P (modifyCluster f) := by
  rw [issues_iff]
  intro w
  exact ⟨[], by simp [modifyCluster], by simp⟩

theorem issues_bind {α β : Type} {P : Call → Prop} {m : M α} {f : α → M β}
    (hm : Issues P m) (hf : ∀ a, Issues P (f a)) : Issues P (m >>= f) := by
  rw [issues_iff] at hm ⊢
  intro w
  obtain ⟨calls1, hl1, hp1⟩ := hm w
  rw [bind_apply]
  generalize m w = r at hl1
  obtain ⟨o, w1⟩ := r
  cases o with
  | halt x => exact ⟨calls1, hl1, hp1⟩
  | ok a =>
    obtain ⟨calls2, hl2, hp2⟩ := (issues_iff _ _).mp (hf a) w1
    simp only at hl1
    refine ⟨calls1 ++ calls2, ?_, ?_⟩
    · show (f a w1).2.log = _
      rw [hl2, hl1, List.append_assoc]
    · intro c hc
      rcases List.mem_append.1 hc with h | h
      · exact hp1 c h
      · exact hp2 c h

theorem issues_resolvePathM (P : Call → Prop) (path : String) : Issues P (resolvePathM path) := by
  unfold resolvePathM
  repeat' first
    | exact issues_pure P _
    | exact issues_halt P _
    | exact issues_getEnv P
    | apply issues_bind
    | split
    | intro _

theorem issues_publicSSHKeyPath (P : Call → Prop) : Issues P publicSSHKeyPath := by
  unfold publicSSHKeyPath
  repeat' first
    | exact issues_pure P _
    | exact issues_getCluster P
    | exact issues_modifyCluster P _
    | exact issues_resolvePathM P _
    | apply issues_bind
    | intro _

theorem issues_privateSSHKeyPath (P : Call → Prop) : Issues P privateSSHKeyPath := by
  unfold privateSSHKeyPath
  repeat' first
    | exact issues_pure P _
    | exact issues_getCluster P
    | exact issues_modifyCluster P _
    | exact issues_resolvePathM P _
    | apply issues_bind
    | intro _

theorem issues_isDirectory (P : Call → Prop) (path : String) : Issues P (isDirectory path) := by
  unfold isDirectory
  repeat' first
    | exact issues_pure P _
    | exact issues_getEnv P
    | exact issues_resolvePathM P _
    | apply issues_bind
    | split
    | intro _

theorem issues_validatePublicSSHKey (P : Call → Prop) : Issues P validatePublicSSHKey := by
  unfold validatePublicSSHKey
  repeat' first
    | exact issues_pure P _
    | exact issues_publicSSHKeyPath P
    | exact issues_isDirectory P _
    | apply issues_bind
    | split
    | intro _

theorem issues_validatePrivateSSHKeyAndPassphrase (P : Call → Prop) :
    Issues P validatePrivateSSHKeyAndPassphrase := by
  unfold validatePrivateSSHKeyAndPassphrase
  repeat' first
    | exact issues_pure P _
    | exact issues_halt P _
    | exact issues_getEnv P
    | exact issues_modifyCluster P _
    | exact issues_privateSSHKeyPath P
    | exact issues_isDirectory P _
    | apply issues_bind
    | split
    | intro _

theorem issues_validateAllowedSSHNetworks (P : Call → Prop) :
    Issues P validateAllowedSSHNetworks := by
  unfold validateAllowedSSHNetworks
  repeat' first
    | exact issues_pure P _
    | exact issues_getEnv P
    | exact issues_getCluster P
    | apply issues_bind
    | split
    | intro _

theorem issues_validateAllowedAPINetworks (P : Call → Prop) :
    Issues P validateAllowedAPINetworks := by
  unfold validateAllowedAPINetworks
  repeat' first
    | exact issues_pure P _
    | exact issues_getEnv P
    | exact issues_getCluster P
    | apply issues_bind
    | split
    | intro _

theorem issues_validateToken {P : Call → Prop} (h : P ⟨.list, .location, ""⟩) :
    Issues P validateToken := by
  unfold validateToken GetLocations
  repeat' first
    | exact issues_pure P _
    | exact issues_of_emits (emits_locationList h)
    | apply issues_bind
    | split
    | intro _

theorem issues_k3sVersion (P : Call → Prop) : Issues P k3sVersion := by
  unfold k3sVersion
  repeat' first
    | exact issues_pure P _
    | exact issues_halt P _
    | exact issues_getEnv P
    | exact issues_getCluster P
    | apply issues_bind
    | split
    | intro _

theorem issues_validateK3sVersion (P : Call → Prop) : Issues P validateK3sVersion := by
  unfold validateK3sVersion
  repeat' first
    | exact issues_pure P _
    | exact issues_halt P _
    | exact issues_getEnv P
    | exact issues_k3sVersion P
    | apply issues_bind
    | split
    | intro _

theorem issues_validateCreateBeforeNetwork {P : Call → Prop} (h : P ⟨.list, .location, ""⟩) :
    Issues P validateCreateBeforeNetwork := by
  unfold validateCreateBeforeNetwork
  repeat' first
    | exact issues_pure P _
    | exact issues_validatePublicSSHKey P
    | exact issues_validatePrivateSSHKeyAndPassphrase P
    | exact issues_validateAllowedSSHNetworks P
    | exact issues_validateAllowedAPINetworks P
    | exact issues_validateToken h
    | exact issues_validateK3sVersion P
    | apply issues_bind
    | split
    | intro _

theorem validateToken_log (w : World) :
    (validateToken w).2.log = w.log ++ [⟨.list, .location, ""⟩] := by
  simp only [validateToken, GetLocations, locationList, apiCall, api, bind_apply]
  cases w.env.apiFails ⟨.list, .location, ""⟩ <;>
    simp [pure_apply, bind_apply, getProvider]

theorem validateDelete_failure (w : World) (e : Err)
    (h : (validateDelete w).1 = .ok (some e)) :
    (validateDelete w).2.log = w.log ++ [⟨.list, .location, ""⟩] := by
  unfold validateDelete at h ⊢
  cases ht : (validateToken w).1 with
  | halt x =>
    rw [bind_halt _ _ _ _ ht] at h
    simp at h
  | ok r =>
    rw [bind_ok _ _ _ _ ht] at h ⊢
    cases r with
    | some e1 => simpa [pure_apply] using validateToken_log w
    | none =>
      exfalso
      simp only at h
      cases hz : (clusterNetworkZone (validateToken w).2).1 with
      | halt x =>
        rw [bind_halt _ _ _ _ hz] at h
        simp at h
      | ok z =>
        rw [bind_ok _ _ _ _ hz] at h
        cases hr : (clusterNetworkIPRange (clusterNetworkZone (validateToken w).2).2).1 with
        | halt x =>
          rw [bind_halt _ _ _ _ hr] at h
          simp at h
        | ok r =>
          rw [bind_ok _ _ _ _ hr] at h
          simp [validateCluster, bind_apply, pure_apply] at h

/-- C14 (counterexample): two create runs.  At a provider whose lookup of the
existing network fails, every earlier check passes and `validateCreate` returns
the failure of `validateExistingNetwork` after `clusterNetworkIPRange()` has
created the private network and added its subnet.  At a provider that does not
know the configured location, the run stops in `validateMasterLocation`, after the
same two calls. -/
theorem validateCreate_mutates_before_last_checks :
    ((validateCreate existingNetworkLookupFails).1 =
        .ok (some "cannot find existing network: provider error") ∧
      (validateCreate existingNetworkLookupFails).2.log.filter (fun c => c.mutating) =
        [⟨.create, .network, "demo"⟩, ⟨.addSubnet, .network, "demo"⟩]) ∧
    ((validateCreateBeforeNetwork unknownLocation).1 = .ok none ∧
      (validateCreateBeforeNetwork unknownLocation).2.log = [⟨.list, .location, ""⟩] ∧
      (validateCreate unknownLocation).1 = .halt .panic ∧
      (validateCreate unknownLocation).2.log.filter (fun c => c.mutating) =
        [⟨.create, .network, "demo"⟩, ⟨.addSubnet, .network, "demo"⟩]) := by
  decide!

/-- C14 (amended): a failure that `validateDelete` returns comes after the listing
of the locations and nothing else; the checks of `validateCreate` that come before
it resolves the range of the private network (key paths, allowed networks, token,
version) issue no mutating provider call, and a failure of one of them is what
`validateCreate` returns, in the same state.  The later checks of `validateCreate`
run after `clusterNetworkIPRange()`, which may create the network. -/
theorem validate_failure_before_network (w : World) (e : Err) :
    ((validateDelete w).1 = .ok (some e) →
      (validateDelete w).2.log = w.log ++ [⟨.list, .location, ""⟩]) ∧
    ((validateCreateBeforeNetwork w).1 = .ok (some e) →
      validateCreate w = validateCreateBeforeNetwork w) ∧
    ((validateCreateBeforeNetwork w).1 = .ok none →
      validateCreate w = validateCreateAfterNetwork (validateCreateBeforeNetwork w).2) ∧
    ∃ calls, (validateCreateBeforeNetwork w).2.log = w.log ++ calls ∧
      ∀ c ∈ calls, c.mutating = false := by
  refine ⟨validateDelete_failure w e, ?_, ?_,
    (issues_iff _ _).mp (issues_validateCreateBeforeNetwork (P := fun c => c.mutating = false) rfl) w⟩
  · intro h
    rw [validateCreate_split, bind_ok _ _ _ _ h]
    simp only [pure_apply]
    rw [← h]
  · intro h
    rw [validateCreate_split, bind_ok _ _ _ _ h]

/-- C14 (amended) at a provider that rejects the token: both preflights return the
failure, and the listing of the locations is the only provider call. -/
theorem validate_failure_before_network_witness :
    (validateDelete tokenRejected).2.log = [⟨.list, .location, ""⟩] ∧
    validateCreate tokenRejected = validateCreateBeforeNetwork tokenRejected :=
  ⟨(validate_failure_before_network tokenRejected
      "cannot validate token: cannot fetch locations: provider error").1 (by decide!),
    (validate_failure_before_network tokenRejected
      "cannot validate token: cannot fetch locations: provider error").2.1 (by decide!)⟩

/-! ## C15: the existing network -/

/-- C15 (code defect): the configuration names the existing network `shared`, the
provider has no network of that name, and `validateCreate` returns no error:
`validateExistingNetwork` looks at the error of `Network.Get` only, which is nil
for an absent network.  (By then `clusterNetworkIPRange()` has even created a
network of that name.) -/
theorem validateCreate_accepts_missing_existing_network :
    missingExistingNetwork.cluster.config.existingNetwork = "shared" ∧
    (missingExistingNetwork.provider.networks.find? fun n => decide (n.name = "shared")) = none ∧
    (validateExistingNetwork missingExistingNetwork).1 = .ok none ∧
    (validateCreate missingExistingNetwork).1 = .ok none ∧
    (validateCreate missingExistingNetwork).2.log.filter (fun c => c.mutating) =
      [⟨.create, .network, "shared"⟩, ⟨.addSubnet, .network, "shared"⟩] := by
  decide!

/-! ## C16: the allowed networks -/

theorem allowedLoop_ok_true (parseCIDR : String → Option IPNet) (contains : IPNet → IPNet → Bool)
    (cur : IPNet) : ∀ (l : List String) (found : Bool),
    allowedLoop parseCIDR contains cur l found = .ok true ↔
      (∀ s ∈ l, (parseCIDR s).isSome = true) ∧
        (found = true ∨ ∃ s ∈ l, ∃ n, parseCIDR s = some n ∧ contains n cur = true)
  | [], found => by simp [allowedLoop]
  | s :: l, found => by
    cases hp : parseCIDR s with
    | none => simp [allowedLoop, hp]
    | some n =>
      simp only [allowedLoop, hp, allowedLoop_ok_true parseCIDR contains cur l]
      cases hc : contains n cur <;> cases found <;> simp [hp, hc]

theorem validateAllowedSSHNetworks_apply (w : World) (cur : IPNet)
    (hip : w.env.publicIP = .ok cur) :
    validateAllowedSSHNetworks w =
      (.ok (match allowedLoop w.env.parseCIDR w.env.contains cur
              w.cluster.config.sshAllowedNetworks false with
            | .error e => some e
            | .ok false =>
              some "your current ip is not included in any of the allowed ssh networks"
            | .ok true => none), w) := by
  simp only [validateAllowedSSHNetworks, bind_apply, getEnv, getCluster, hip]
  split <;> simp_all [pure_apply]

theorem validateAllowedAPINetworks_apply (w : World) (cur : IPNet)
    (hip : w.env.publicIP = .ok cur) :
    validateAllowedAPINetworks w =
      (.ok (match allowedLoop w.env.parseCIDR w.env.contains cur
              w.cluster.config.apiAllowedNetworks false with
            | .error e => some e
            | .ok false =>
              some "your current ip is not included in any of the allowed api networks"
            | .ok true => none), w) := by
  simp only [validateAllowedAPINetworks, bind_apply, getEnv, getCluster, hip]
  split <;> simp_all [pure_apply]

/-- C16: given the current public address of the caller, `validateAllowedSSHNetworks`
returns no error exactly when every allowed-SSH entry parses as a CIDR and one of
them contains that address, and `validateAllowedAPINetworks` the same for the
allowed-API entries; both return an error for an empty list; neither stops the
process or changes the state. -/
theorem validateAllowedNetworks_iff (w : World) (cur : IPNet) (hip : w.env.publicIP = .ok cur) :
    ((validateAllowedSSHNetworks w).1 = .ok none ↔
      (∀ s ∈ w.cluster.config.sshAllowedNetworks, (w.env.parseCIDR s).isSome = true) ∧
        ∃ s ∈ w.cluster.config.sshAllowedNetworks,
          ∃ n, w.env.parseCIDR s = some n ∧ w.env.contains n cur = true) ∧
    ((validateAllowedAPINetworks w).1 = .ok none ↔
      (∀ s ∈ w.cluster.config.apiAllowedNetworks, (w.env.parseCIDR s).isSome = true) ∧
        ∃ s ∈ w.cluster.config.apiAllowedNetworks,
          ∃ n, w.env.parseCIDR s = some n ∧ w.env.contains n cur = true) ∧
    (∃ r, validateAllowedSSHNetworks w = (.ok r, w)) ∧
    (∃ r, validateAllowedAPINetworks w = (.ok r, w)) ∧
    (w.cluster.config.sshAllowedNetworks = [] →
      ∃ e, (validateAllowedSSHNetworks w).1 = .ok (some e)) ∧
    (w.cluster.config.apiAllowedNetworks = [] →
      ∃ e, (validateAllowedAPINetworks w).1 = .ok (some e)) := by
  have hs := allowedLoop_ok_true w.env.parseCIDR w.env.contains cur
    w.cluster.config.sshAllowedNetworks false
  have ha := allowedLoop_ok_true w.env.parseCIDR w.env.contains cur
    w.cluster.config.apiAllowedNetworks false
  simp only [Bool.false_eq_true, false_or] at hs ha
  rw [validateAllowedSSHNetworks_apply w cur hip, validateAllowedAPINetworks_apply w cur hip]
  refine ⟨?_, ?_, ⟨_, rfl⟩, ⟨_, rfl⟩, ?_, ?_⟩
  · rw [← hs]
    simp only [Outcome.ok.injEq]
    split <;> simp_all
  · rw [← ha]
    simp only [Outcome.ok.injEq]
    split <;> simp_all
  · intro h
    simp [h, allowedLoop]
  · intro h
    simp [h, allowedLoop]

/-- C16 at the demo configuration, whose allowed networks are `0.0.0.0/0`. -/
theorem validateAllowedNetworks_iff_witness :
    (validateAllowedSSHNetworks freshSingle).1 = .ok none ∧
    (validateAllowedAPINetworks freshSingle).1 = .ok none :=
  ⟨(validateAllowedNetworks_iff freshSingle { ip := 3405803777, ones := 32, bits := 32 } rfl).1.2
      ⟨by decide, "0.0.0.0/0", by decide, { ip := 0, ones := 0, bits := 32 }, by decide, by decide⟩,
    (validateAllowedNetworks_iff freshSingle { ip := 3405803777, ones := 32, bits := 32 } rfl).2.1.2
      ⟨by decide, "0.0.0.0/0", by decide, { ip := 0, ones := 0, bits := 32 }, by decide, by decide⟩⟩

/-! ## C19: resolving a path -/

/-- C19: for the home directory `dir`, `resolvePath` turns `~` into `dir` and
`~/rest` into `path.Join(dir, rest)`, and returns every other path (neither `~`
nor starting with `~/`) unchanged. -/
theorem resolvePath_cases (join : String → String → String) (dir : String) :
    resolvePath join dir "~" = dir ∧
    (∀ rest : String, resolvePath join dir ("~/" ++ rest) = join dir rest) ∧
    (∀ path : String, path ≠ "~" → hasPrefix path "~/" = false →
      resolvePath join dir path = path) ∧
    resolvePath join dir "./kubeconfig" = "./kubeconfig" ∧
    resolvePath join dir "~user/x" = "~user/x" ∧
    resolvePath join dir "a/~/b" = "a/~/b" := by
  have hother : ∀ path : String, path ≠ "~" → hasPrefix path "~/" = false →
      resolvePath join dir path = path := by
    intro path h1 h2
    simp [resolvePath, h1, h2]
  refine ⟨by simp [resolvePath], ?_, hother, hother _ (by decide) (by decide),
    hother _ (by decide) (by decide), hother _ (by decide) (by decide)⟩
  · intro rest
    have hne : ("~/" ++ rest) ≠ "~" := by
      intro h
      have := congrArg String.data h
      rw [String.data_append] at this
      simp at this
    have hd2 : dropWord ['~', '/'] ('~' :: '/' :: rest.data) = some rest.data := by
      simp [dropWord]
    simp [resolvePath, hne, hasPrefix, trimPrefix, hd2]

/-- C19 at the relative path `../kube/config`, which is returned as it is. -/
theorem resolvePath_cases_witness :
    resolvePath (fun d r => d ++ "/" ++ r) "/home/user" "../kube/config" = "../kube/config" :=
  (resolvePath_cases (fun d r => d ++ "/" ++ r) "/home/user").2.2.1 "../kube/config"
    (by decide) (by decide)

/-! ## C21: what the accessors do to the configuration -/

theorem emits_autoscalerNodePoolArg {P : Call → Prop} (pool : AutoscalerConfig)
    (h : ∀ c, c.quiet → P c) : Emits P (autoscalerNodePoolArg pool) := by
  unfold autoscalerNodePoolArg
  repeat' first
    | exact emits_pure P _
    | exact emits_halt P _
    | exact emits_getCluster P
    | exact emits_masterLocation h
    | apply emits_bind
    | split
    | intro _

theorem emits_autoscalerNodePoolArgs {P : Call → Prop} (h : ∀ c, c.quiet → P c) :
    Emits P autoscalerNodePoolArgs := by
  unfold autoscalerNodePoolArgs
  exact emits_bind (emits_getCluster P) fun _ =>
    emits_forEach _ (fun pool => emits_autoscalerNodePoolArg pool h) _

theorem resolvePathM_apply (path : String) (w : World) :
    resolvePathM path w =
      match w.env.homeDir with
      | none => (.halt .panic, w)
      | some dir => (.ok (resolvePath w.env.pathJoin dir path), w) := by
  cases h : w.env.homeDir <;> simp [resolvePathM, bind_apply, getEnv, h, halt, pure_apply]

/-- C21 (counterexample): the key path is loaded as `~/.ssh/id_rsa.pub`; after
`publicSSHKeyPath()` the configuration holds `/home/user/.ssh/id_rsa.pub`.  The
autoscaler arguments are loaded empty; after `clusterAutoscalerArgs()` the
configuration holds `--stderrthreshold=info`. -/
theorem accessors_rewrite_configuration :
    defaultPaths.cluster.config.publicSSHKeyPath = "~/.ssh/id_rsa.pub" ∧
    (publicSSHKeyPath defaultPaths).1 = .ok "/home/user/.ssh/id_rsa.pub" ∧
    (publicSSHKeyPath defaultPaths).2.cluster.config.publicSSHKeyPath =
      "/home/user/.ssh/id_rsa.pub" ∧
    defaultPaths.cluster.config.clusterAutoscalerArgs = [] ∧
    (clusterAutoscalerArgs defaultPaths).2.cluster.config.clusterAutoscalerArgs =
      ["--stderrthreshold=info"] := by
  decide!

/-- C21 (amended): `publicSSHKeyPath`, `privateSSHKeyPath` and `kubeconfigPath`
replace their path in the configuration by the resolved path and change no other
field; `clusterAutoscalerArgs` appends `--stderrthreshold=info` to the configured
list when no entry mentions the threshold, and changes no other field;
`serverConfigs` and `autoscalerNodePoolArgs`, which work on copies of the pools,
leave the configuration as it is. -/
theorem configuration_changes (w : World) (dir : String) (hdir : w.env.homeDir = some dir) :
    (publicSSHKeyPath w).2.cluster.config =
      { w.cluster.config with
        publicSSHKeyPath := resolvePath w.env.pathJoin dir w.cluster.config.publicSSHKeyPath } ∧
    (privateSSHKeyPath w).2.cluster.config =
      { w.cluster.config with
        privateSSHKeyPath := resolvePath w.env.pathJoin dir w.cluster.config.privateSSHKeyPath } ∧
    (kubeconfigPath w).2.cluster.config =
      { w.cluster.config with
        kubeconfigPath := resolvePath w.env.pathJoin dir w.cluster.config.kubeconfigPath } ∧
    (clusterAutoscalerArgs w).2.cluster.config =
      { w.cluster.config with
        clusterAutoscalerArgs :=
          if w.cluster.config.clusterAutoscalerArgs.any fun v => strContains v "--stderrthreshold"
          then w.cluster.config.clusterAutoscalerArgs
          else w.cluster.config.clusterAutoscalerArgs ++ ["--stderrthreshold=info"] } ∧
    (serverConfigs w).2.cluster.config = w.cluster.config ∧
    (autoscalerNodePoolArgs w).2.cluster.config = w.cluster.config := by
  refine ⟨?_, ?_, ?_, ?_, ?_, ?_⟩
  · simp [publicSSHKeyPath, bind_apply, getCluster, resolvePathM_apply, hdir, modifyCluster,
      pure_apply]
  · simp [privateSSHKeyPath, bind_apply, getCluster, resolvePathM_apply, hdir, modifyCluster,
      pure_apply]
  · simp [kubeconfigPath, bind_apply, getCluster, resolvePathM_apply, hdir, modifyCluster,
      pure_apply]
  · cases hb : w.cluster.config.clusterAutoscalerArgs.any fun v =>
        strContains v "--stderrthreshold" with
    | true =>
      simp only [clusterAutoscalerArgs, bind_apply, getCluster, hb, Bool.not_true,
        Bool.false_eq_true, if_false, if_true, pure_apply]
    | false =>
      simp only [clusterAutoscalerArgs, bind_apply, getCluster, hb, Bool.not_false,
        Bool.false_eq_true, if_false, if_true, pure_apply, modifyCluster]
  · exact ((emits_iff _ _).mp (emits_serverConfigs (P := fun _ => True) fun _ _ => trivial) w).2.1
  · exact ((emits_iff _ _).mp
      (emits_autoscalerNodePoolArgs (P := fun _ => True) fun _ _ => trivial) w).2.1

/-- C21 (amended) at the configuration with the default key paths. -/
theorem configuration_changes_witness :
    (publicSSHKeyPath defaultPaths).2.cluster.config =
      { defaultPaths.cluster.config with
        publicSSHKeyPath :=
          resolvePath defaultPaths.env.pathJoin "/home/user"
            defaultPaths.cluster.config.publicSSHKeyPath } :=
  (configuration_changes defaultPaths "/home/user" rfl).1

/-! ## C22: the names of the server definitions -/

theorem bind_ok_inv {α β : Type} (m : M α) (f : α → M β) (w : World) (b : β)
    (h : ((m >>= f) w).1 = .ok b) :
    ∃ a, (m w).1 = .ok a ∧ (m >>= f) w = f a (m w).2 := by
  cases ha : (m w).1 with
  | halt x =>
    rw [bind_halt _ _ _ _ ha] at h
    simp at h
  | ok a => exact ⟨a, rfl, bind_ok _ _ _ _ ha⟩

theorem config_kept {α : Type} {m : M α} (h : Emits (fun _ => True) m) (w : World) :
    (m w).2.cluster.config = w.cluster.config :=
  ((emits_iff _ _).mp h w).2.1

theorem forEach_map {α β γ : Type} (f : α → M β) (g : β → γ) (h : Config → α → γ)
    (hf : ∀ a w r, (f a w).1 = .ok r → g r = h w.cluster.config a)
    (hc : ∀ a w, (f a w).2.cluster.config = w.cluster.config) :
    ∀ (l : List α) (w : World) (rs : List β),
      (forEach f l w).1 = .ok rs → rs.map g = l.map (h w.cluster.config)
  | [], w, rs, hr => by
    simp only [forEach, pure_apply, Outcome.ok.injEq] at hr
    subst hr
    rfl
  | a :: l, w, rs, hr => by
    unfold forEach at hr
    obtain ⟨b, hb, e1⟩ := bind_ok_inv _ _ _ _ hr
    rw [e1] at hr
    obtain ⟨bs, hbs, e2⟩ := bind_ok_inv _ _ _ _ hr
    rw [e2] at hr
    simp only [pure_apply, Outcome.ok.injEq] at hr
    subst hr
    have ih := forEach_map f g h hf hc l _ bs hbs
    rw [hc] at ih
    simp only [List.map_cons, hf a w b hb, ih]

theorem masterDefinition_name (i : Nat) (w : World) (r : ServerCreateOpts)
    (h : (masterDefinition i w).1 = .ok r) :
    r.name = w.cluster.config.clusterName ++ "-" ++ w.cluster.config.masters.instanceType
      ++ "-master" ++ toString (i + 1) := by
  simp only [masterDefinition, bind_apply, getCluster, pure_apply] at h
  repeat' split at h
  all_goals first
    | (simp only [Outcome.ok.injEq] at h; rw [← h])
    | simp at h

theorem workerDefinition_name (pool : WorkerConfig) (i : Nat) (w : World) (r : ServerCreateOpts)
    (h : (workerDefinition pool i w).1 = .ok r) :
    r.name = w.cluster.config.clusterName ++ "-" ++ pool.instanceType ++ "-pool-" ++ pool.name
      ++ "-worker" ++ toString (i + 1) := by
  simp only [workerDefinition, bind_apply, getCluster, pure_apply] at h
  repeat' split at h
  all_goals first
    | (simp only [Outcome.ok.injEq] at h; rw [← h])
    | simp at h

/-- The names `masterDefinitionsForCreate` gives to the masters. -/
theorem masterDefinitions_names (w : World) (defs : List ServerCreateOpts)
    (h : (masterDefinitionsForCreate w).1 = .ok defs) :
    defs.map (fun d => d.name) =
      (List.range w.cluster.config.masters.instanceCount).map fun i =>
        w.cluster.config.clusterName ++ "-" ++ w.cluster.config.masters.instanceType
          ++ "-master" ++ toString (i + 1) := by
  simp only [masterDefinitionsForCreate, bind_apply, getCluster, mastersSize] at h
  exact forEach_map masterDefinition (fun d => d.name)
    (fun cfg i => cfg.clusterName ++ "-" ++ cfg.masters.instanceType ++ "-master"
      ++ toString (i + 1))
    masterDefinition_name
    (fun i w => config_kept (emits_masterDefinition i fun _ _ => trivial) w) _ w defs h

/-- The names `workerNodePoolDefinitions` gives to the workers of a pool. -/
theorem workerDefinitions_names (pool : WorkerConfig) (w : World) (defs : List ServerCreateOpts)
    (h : (workerNodePoolDefinitions pool w).1 = .ok defs) :
    defs.map (fun d => d.name) =
      (List.range pool.instanceCount).map fun i =>
        w.cluster.config.clusterName ++ "-" ++ pool.instanceType ++ "-pool-" ++ pool.name
          ++ "-worker" ++ toString (i + 1) := by
  have hmap := forEach_map (workerDefinition pool) (fun d => d.name)
    (fun cfg i => cfg.clusterName ++ "-" ++ pool.instanceType ++ "-pool-" ++ pool.name
      ++ "-worker" ++ toString (i + 1))
    (workerDefinition_name pool)
    (fun i w => config_kept (emits_workerDefinition pool i fun _ _ => trivial) w)
  unfold workerNodePoolDefinitions at h
  by_cases hloc : pool.location = ""
  · simp only [hloc, if_true] at h
    obtain ⟨a, ha, e⟩ := bind_ok_inv _ _ _ _ h
    rw [e] at h
    have hcfg : (masterLocation w).2.cluster.config = w.cluster.config :=
      config_kept (emits_masterLocation fun _ _ => trivial) w
    cases a with
    | none => simp [bind_apply, halt] at h
    | some l =>
      simp only [bind_apply, pure_apply] at h
      have := forEach_map (workerDefinition { pool with location := l.name }) (fun d => d.name)
        (fun cfg i => cfg.clusterName ++ "-" ++ pool.instanceType ++ "-pool-" ++ pool.name
          ++ "-worker" ++ toString (i + 1))
        (workerDefinition_name { pool with location := l.name })
        (fun i w => config_kept (emits_workerDefinition _ i fun _ _ => trivial) w) _ _ defs h
      rw [hcfg] at this
      exact this
  · simp only [hloc, if_false, bind_apply, pure_apply] at h
    exact hmap _ w defs h

/-- C22: the definitions that `masterDefinitionsForCreate` returns are as many as
the configured masters and are named `{clusterName}-{masterInstanceType}-master{i}`,
`i = 1, 2, ...` in order; the definitions that `workerNodePoolDefinitions` returns
for a pool are as many as the pool's instances and are named
`{clusterName}-{poolInstanceType}-pool-{poolName}-worker{i}`; and `serverConfigs`
returns the definitions of the masters followed by those of each pool, in the order
of the pools. -/
theorem server_definitions_names (w : World) :
    (∀ defs, (masterDefinitionsForCreate w).1 = .ok defs →
      defs.length = w.cluster.config.masters.instanceCount ∧
      defs.map (fun d => d.name) =
        (List.range w.cluster.config.masters.instanceCount).map fun i =>
          w.cluster.config.clusterName ++ "-" ++ w.cluster.config.masters.instanceType
            ++ "-master" ++ toString (i + 1)) ∧
    (∀ pool defs, (workerNodePoolDefinitions pool w).1 = .ok defs →
      defs.length = pool.instanceCount ∧
      defs.map (fun d => d.name) =
        (List.range pool.instanceCount).map fun i =>
          w.cluster.config.clusterName ++ "-" ++ pool.instanceType ++ "-pool-" ++ pool.name
            ++ "-worker" ++ toString (i + 1)) ∧
    (∀ defs, (serverConfigs w).1 = .ok defs →
      defs.map (fun d => d.name) =
        ((List.range w.cluster.config.masters.instanceCount).map fun i =>
          w.cluster.config.clusterName ++ "-" ++ w.cluster.config.masters.instanceType
            ++ "-master" ++ toString (i + 1))
        ++ (w.cluster.config.workerNodePools.map fun pool =>
          (List.range pool.instanceCount).map fun i =>
            w.cluster.config.clusterName ++ "-" ++ pool.instanceType ++ "-pool-" ++ pool.name
              ++ "-worker" ++ toString (i + 1)).flatten) := by
  refine ⟨?_, ?_, ?_⟩
  · intro defs h
    have hn := masterDefinitions_names w defs h
    refine ⟨?_, hn⟩
    have := congrArg List.length hn
    simpa using this
  · intro pool defs h
    have hn := workerDefinitions_names pool w defs h
    refine ⟨?_, hn⟩
    have := congrArg List.length hn
    simpa using this
  · intro defs h
    unfold serverConfigs at h
    rw [bind_ok _ _ _ _ (rfl : (getCluster w).1 = .ok w.cluster)] at h
    simp only [getCluster] at h
    obtain ⟨ms, hms, e⟩ := bind_ok_inv _ _ _ _ h
    rw [e] at h
    obtain ⟨wss, hwss, e⟩ := bind_ok_inv _ _ _ _ h
    rw [e] at h
    simp only [pure_apply, Outcome.ok.injEq] at h
    subst h
    have hcfg : (masterDefinitionsForCreate w).2.cluster.config = w.cluster.config :=
      config_kept (emits_masterDefinitionsForCreate fun _ _ => trivial) w
    have hw := forEach_map workerNodePoolDefinitions (fun defs => defs.map fun d => d.name)
      (fun cfg pool => (List.range pool.instanceCount).map fun i =>
        cfg.clusterName ++ "-" ++ pool.instanceType ++ "-pool-" ++ pool.name
          ++ "-worker" ++ toString (i + 1))
      (fun pool w defs h => workerDefinitions_names pool w defs h)
      (fun pool w => config_kept (emits_workerNodePoolDefinitions pool fun _ _ => trivial) w)
      _ _ wss hwss
    rw [hcfg] at hw
    rw [List.map_append, masterDefinitions_names w ms hms, List.map_flatten, hw]

/-- C22 at a cluster of one master and a pool of two workers. -/
theorem server_definitions_names_witness :
    ∃ defs, (serverConfigs freshWithPool).1 = .ok defs ∧
      defs.map (fun d => d.name) =
        ["demo-cx21-master1", "demo-cx31-pool-small-worker1", "demo-cx31-pool-small-worker2"] := by
  have hsome : (serverConfigs freshWithPool).1.get?.isSome = true := by decide!
  cases h : (serverConfigs freshWithPool).1 with
  | halt x =>
    rw [h] at hsome
    simp [Outcome.get?] at hsome
  | ok defs =>
    refine ⟨defs, rfl, ?_⟩
    rw [(server_definitions_names freshWithPool).2.2 defs h]
    decide

/-! ## The cached server lists are kept -/

theorem keepsServers_iff {α : Type} (m : M α) :
    KeepsServers m ↔ ∀ w, (m w).2.cluster.instances = w.cluster.instances ∧
      (m w).2.cluster.masterInstances = w.cluster.masterInstances ∧
      (m w).2.cluster.workerInstances = w.cluster.workerInstances := by
  unfold KeepsServers
  exact Iff.rfl

theorem keepsServers_pure {α : Type} (a : α) : KeepsServers (pure a : M α) :=
  (keepsServers_iff _).mpr fun _ => ⟨rfl, rfl, rfl⟩

theorem keepsServers_halt {α : Type} (x : Halt) : KeepsServers (halt x : M α) :=
  (keepsServers_iff _).mpr fun _ => ⟨rfl, rfl, rfl⟩

theorem keepsServers_getCluster : KeepsServers getCluster :=
  (keepsServers_iff _).mpr fun _ => ⟨rfl, rfl, rfl⟩

theorem keepsServers_getEnv : KeepsServers getEnv :=
  (keepsServers_iff _).mpr fun _ => ⟨rfl, rfl, rfl⟩

theorem keepsServers_getProvider : KeepsServers getProvider :=
  (keepsServers_iff _).mpr fun _ => ⟨rfl, rfl, rfl⟩

theorem keepsServers_modifyProvider (f : Provider → Provider) :
    KeepsServers (modifyProvider f) :=
  (keepsServers_iff _).mpr fun _ => ⟨rfl, rfl, rfl⟩

theorem keepsServers_modifyCluster (f : Cluster → Cluster)
    (hf : ∀ c, (f c).instances = c.instances ∧ (f c).masterInstances = c.masterInstances ∧
      (f c).workerInstances = c.workerInstances) :
    KeepsServers (modifyCluster f) :=
  (keepsServers_iff _).mpr fun w => hf w.cluster

theorem keepsServers_api (c : Call) : KeepsServers (api c) :=
  (keepsServers_iff _).mpr fun _ => ⟨rfl, rfl, rfl⟩

theorem keepsServers_SSHCommand (address command : String) :
    KeepsServers (SSHCommand address command) :=
  (keepsServers_iff _).mpr fun _ => ⟨rfl, rfl, rfl⟩

theorem keepsServers_bind {α β : Type} {m : M α} {f : α → M β}
    (hm : KeepsServers m) (hf : ∀ a, KeepsServers (f a)) : KeepsServers (m >>= f) := by
  rw [keepsServers_iff] at hm ⊢
  intro w
  have h1 := hm w
  rw [bind_apply]
  generalize m w = r at h1
  obtain ⟨o, w1⟩ := r
  cases o with
  | halt x => exact h1
  | ok a =>
    have h2 := (keepsServers_iff _).mp (hf a) w1
    exact ⟨h2.1.trans h1.1, h2.2.1.trans h1.2.1, h2.2.2.trans h1.2.2⟩

theorem keepsServers_apiCall {α : Type} (c : Call) (k : M α) (hk : KeepsServers k) :
    KeepsServers (apiCall c k) := by
  unfold apiCall
  refine keepsServers_bind (keepsServers_api c) fun failed => ?_
  split
  · exact keepsServers_pure _
  · exact keepsServers_bind hk fun a => keepsServers_pure _

theorem keepsServers_forEach {α β : Type} (f : α → M β) (hf : ∀ a, KeepsServers (f a)) :
    ∀ l : List α, KeepsServers (forEach f l)
  | [] => by
    unfold forEach
    exact keepsServers_pure _
  | a :: l => by
    unfold forEach
    exact keepsServers_bind (hf a) fun b =>
      keepsServers_bind (keepsServers_forEach f hf l) fun bs => keepsServers_pure _

theorem keepsServers_retryDo (o : M (Option Err)) (ho : KeepsServers o) :
    ∀ n : Nat, KeepsServers (retryDo n o)
  | 0 => by
    unfold retryDo
    exact keepsServers_pure _
  | n + 1 => by
    unfold retryDo
    refine keepsServers_bind ho fun r => ?_
    split
    · exact keepsServers_pure _
    · exact keepsServers_retryDo o ho n

theorem keepsServers_serverGet (name : String) : KeepsServers (serverGet name) := by
  unfold serverGet
  refine keepsServers_apiCall _ _ ?_
  repeat' first
    | exact keepsServers_pure _
    | exact keepsServers_halt _
    | exact keepsServers_getCluster
    | exact keepsServers_getEnv
    | exact keepsServers_getProvider
    | exact keepsServers_modifyProvider _
    | exact keepsServers_modifyCluster _ (fun _ => ⟨rfl, rfl, rfl⟩)
    | exact keepsServers_SSHCommand _ _
    | apply keepsServers_bind
    | split
    | intro _
    | dsimp only

theorem keepsServers_serverCreate (opts : ServerCreateOpts) : KeepsServers (serverCreate opts) := by
  unfold serverCreate
  refine keepsServers_apiCall _ _ ?_
  repeat' first
    | exact keepsServers_pure _
    | exact keepsServers_halt _
    | exact keepsServers_getCluster
    | exact keepsServers_getEnv
    | exact keepsServers_getProvider
    | exact keepsServers_modifyProvider _
    | exact keepsServers_modifyCluster _ (fun _ => ⟨rfl, rfl, rfl⟩)
    | exact keepsServers_SSHCommand _ _
    | apply keepsServers_bind
    | split
    | intro _
    | dsimp only

theorem keepsServers_sshKeyGet (name : String) : KeepsServers (sshKeyGet name) := by
  unfold sshKeyGet
  refine keepsServers_apiCall _ _ ?_
  repeat' first
    | exact keepsServers_pure _
    | exact keepsServers_halt _
    | exact keepsServers_getCluster
    | exact keepsServers_getEnv
    | exact keepsServers_getProvider
    | exact keepsServers_modifyProvider _
    | exact keepsServers_modifyCluster _ (fun _ => ⟨rfl, rfl, rfl⟩)
    | exact keepsServers_SSHCommand _ _
    | apply keepsServers_bind
    | split
    | intro _
    | dsimp only

theorem keepsServers_sshKeyCreate (name publicKey : String) : KeepsServers (sshKeyCreate name publicKey) := by
  unfold sshKeyCreate
  refine keepsServers_apiCall _ _ ?_
  repeat' first
    | exact keepsServers_pure _
    | exact keepsServers_halt _
    | exact keepsServers_getCluster
    | exact keepsServers_getEnv
    | exact keepsServers_getProvider
    | exact keepsServers_modifyProvider _
    | exact keepsServers_modifyCluster _ (fun _ => ⟨rfl, rfl, rfl⟩)
    | exact keepsServers_SSHCommand _ _
    | apply keepsServers_bind
    | split
    | intro _
    | dsimp only

theorem keepsServers_networkGet (name : String) : KeepsServers (networkGet name) := by
  unfold networkGet
  refine keepsServers_apiCall _ _ ?_
  repeat' first
    | exact keepsServers_pure _
    | exact keepsServers_halt _
    | exact keepsServers_getCluster
    | exact keepsServers_getEnv
    | exact keepsServers_getProvider
    | exact keepsServers_modifyProvider _
    | exact keepsServers_modifyCluster _ (fun _ => ⟨rfl, rfl, rfl⟩)
    | exact keepsServers_SSHCommand _ _
    | apply keepsServers_bind
    | split
    | intro _
    | dsimp only

theorem keepsServers_networkCreate (name : String) (ipRange : Option IPNet) : KeepsServers (networkCreate name ipRange) := by
  unfold networkCreate
  refine keepsServers_apiCall _ _ ?_
  repeat' first
    | exact keepsServers_pure _
    | exact keepsServers_halt _
    | exact keepsServers_getCluster
    | exact keepsServers_getEnv
    | exact keepsServers_getProvider
    | exact keepsServers_modifyProvider _
    | exact keepsServers_modifyCluster _ (fun _ => ⟨rfl, rfl, rfl⟩)
    | exact keepsServers_SSHCommand _ _
    | apply keepsServers_bind
    | split
    | intro _
    | dsimp only

theorem keepsServers_networkAddSubnet (n : Network) (s : Subnet) : KeepsServers (networkAddSubnet n s) := by
  unfold networkAddSubnet
  refine keepsServers_apiCall _ _ ?_
  repeat' first
    | exact keepsServers_pure _
    | exact keepsServers_halt _
    | exact keepsServers_getCluster
    | exact keepsServers_getEnv
    | exact keepsServers_getProvider
    | exact keepsServers_modifyProvider _
    | exact keepsServers_modifyCluster _ (fun _ => ⟨rfl, rfl, rfl⟩)
    | exact keepsServers_SSHCommand _ _
    | apply keepsServers_bind
    | split
    | intro _
    | dsimp only

theorem keepsServers_firewallGet (name : String) : KeepsServers (firewallGet name) := by
  unfold firewallGet
  refine keepsServers_apiCall _ _ ?_
  repeat' first
    | exact keepsServers_pure _
    | exact keepsServers_halt _
    | exact keepsServers_getCluster
    | exact keepsServers_getEnv
    | exact keepsServers_getProvider
    | exact keepsServers_modifyProvider _
    | exact keepsServers_modifyCluster _ (fun _ => ⟨rfl, rfl, rfl⟩)
    | exact keepsServers_SSHCommand _ _
    | apply keepsServers_bind
    | split
    | intro _
    | dsimp only

theorem keepsServers_firewallCreate (name : String) (rules : List FirewallRule) : KeepsServers (firewallCreate name rules) := by
  unfold firewallCreate
  refine keepsServers_apiCall _ _ ?_
  repeat' first
    | exact keepsServers_pure _
    | exact keepsServers_halt _
    | exact keepsServers_getCluster
    | exact keepsServers_getEnv
    | exact keepsServers_getProvider
    | exact keepsServers_modifyProvider _
    | exact keepsServers_modifyCluster _ (fun _ => ⟨rfl, rfl, rfl⟩)
    | exact keepsServers_SSHCommand _ _
    | apply keepsServers_bind
    | split
    | intro _
    | dsimp only

theorem keepsServers_firewallSetRules (fw : Firewall) (rules : List FirewallRule) : KeepsServers (firewallSetRules fw rules) := by
  unfold firewallSetRules
  refine keepsServers_apiCall _ _ ?_
  repeat' first
    | exact keepsServers_pure _
    | exact keepsServers_halt _
    | exact keepsServers_getCluster
    | exact keepsServers_getEnv
    | exact keepsServers_getProvider
    | exact keepsServers_modifyProvider _
    | exact keepsServers_modifyCluster _ (fun _ => ⟨rfl, rfl, rfl⟩)
    | exact keepsServers_SSHCommand _ _
    | apply keepsServers_bind
    | split
    | intro _
    | dsimp only

theorem keepsServers_placementGroupGet (name : String) : KeepsServers (placementGroupGet name) := by
  unfold placementGroupGet
  refine keepsServers_apiCall _ _ ?_
  repeat' first
    | exact keepsServers_pure _
    | exact keepsServers_halt _
    | exact keepsServers_getCluster
    | exact keepsServers_getEnv
    | exact keepsServers_getProvider
    | exact keepsServers_modifyProvider _
    | exact keepsServers_modifyCluster _ (fun _ => ⟨rfl, rfl, rfl⟩)
    | exact keepsServers_SSHCommand _ _
    | apply keepsServers_bind
    | split
    | intro _
    | dsimp only

theorem keepsServers_placementGroupCreate (name : String) : KeepsServers (placementGroupCreate name) := by
  unfold placementGroupCreate
  refine keepsServers_apiCall _ _ ?_
  repeat' first
    | exact keepsServers_pure _
    | exact keepsServers_halt _
    | exact keepsServers_getCluster
    | exact keepsServers_getEnv
    | exact keepsServers_getProvider
    | exact keepsServers_modifyProvider _
    | exact keepsServers_modifyCluster _ (fun _ => ⟨rfl, rfl, rfl⟩)
    | exact keepsServers_SSHCommand _ _
    | apply keepsServers_bind
    | split
    | intro _
    | dsimp only

theorem keepsServers_locationGet (name : String) : KeepsServers (locationGet name) := by
  unfold locationGet
  refine keepsServers_apiCall _ _ ?_
  repeat' first
    | exact keepsServers_pure _
    | exact keepsServers_halt _
    | exact keepsServers_getCluster
    | exact keepsServers_getEnv
    | exact keepsServers_getProvider
    | exact keepsServers_modifyProvider _
    | exact keepsServers_modifyCluster _ (fun _ => ⟨rfl, rfl, rfl⟩)
    | exact keepsServers_SSHCommand _ _
    | apply keepsServers_bind
    | split
    | intro _
    | dsimp only

theorem keepsServers_CreateServer (opts : ServerCreateOpts) : KeepsServers (CreateServer opts) := by
  unfold CreateServer
  repeat' first
    | exact keepsServers_pure _
    | exact keepsServers_halt _
    | exact keepsServers_getCluster
    | exact keepsServers_getEnv
    | exact keepsServers_getProvider
    | exact keepsServers_modifyProvider _
    | exact keepsServers_modifyCluster _ (fun _ => ⟨rfl, rfl, rfl⟩)
    | exact keepsServers_SSHCommand _ _
    | exact keepsServers_serverGet _
    | exact keepsServers_serverCreate _
    | apply keepsServers_bind
    | split
    | intro _
    | dsimp only

theorem keepsServers_CreateSSHKey : KeepsServers CreateSSHKey := by
  unfold CreateSSHKey
  repeat' first
    | exact keepsServers_pure _
    | exact keepsServers_halt _
    | exact keepsServers_getCluster
    | exact keepsServers_getEnv
    | exact keepsServers_getProvider
    | exact keepsServers_modifyProvider _
    | exact keepsServers_modifyCluster _ (fun _ => ⟨rfl, rfl, rfl⟩)
    | exact keepsServers_SSHCommand _ _
    | exact keepsServers_sshKeyGet _
    | exact keepsServers_sshKeyCreate _ _
    | apply keepsServers_bind
    | split
    | intro _
    | dsimp only

theorem keepsServers_addSubnet (n : Network) : KeepsServers (addSubnet n) := by
  unfold addSubnet
  repeat' first
    | exact keepsServers_pure _
    | exact keepsServers_halt _
    | exact keepsServers_getCluster
    | exact keepsServers_getEnv
    | exact keepsServers_getProvider
    | exact keepsServers_modifyProvider _
    | exact keepsServers_modifyCluster _ (fun _ => ⟨rfl, rfl, rfl⟩)
    | exact keepsServers_SSHCommand _ _
    | exact keepsServers_networkAddSubnet _ _
    | apply keepsServers_bind
    | split
    | intro _
    | dsimp only

theorem keepsServers_CreateNetwork : KeepsServers CreateNetwork := by
  unfold CreateNetwork
  repeat' first
    | exact keepsServers_pure _
    | exact keepsServers_halt _
    | exact keepsServers_getCluster
    | exact keepsServers_getEnv
    | exact keepsServers_getProvider
    | exact keepsServers_modifyProvider _
    | exact keepsServers_modifyCluster _ (fun _ => ⟨rfl, rfl, rfl⟩)
    | exact keepsServers_SSHCommand _ _
    | exact keepsServers_networkGet _
    | exact keepsServers_networkCreate _ _
    | exact keepsServers_addSubnet _
    | apply keepsServers_bind
    | split
    | intro _
    | dsimp only

theorem keepsServers_CreateFirewall : KeepsServers CreateFirewall := by
  unfold CreateFirewall
  repeat' first
    | exact keepsServers_pure _
    | exact keepsServers_halt _
    | exact keepsServers_getCluster
    | exact keepsServers_getEnv
    | exact keepsServers_getProvider
    | exact keepsServers_modifyProvider _
    | exact keepsServers_modifyCluster _ (fun _ => ⟨rfl, rfl, rfl⟩)
    | exact keepsServers_SSHCommand _ _
    | exact keepsServers_firewallGet _
    | exact keepsServers_firewallCreate _ _
    | exact keepsServers_firewallSetRules _ _
    | apply keepsServers_bind
    | split
    | intro _
    | dsimp only

theorem keepsServers_CreatePlacementGroup (name : String) : KeepsServers (CreatePlacementGroup name) := by
  unfold CreatePlacementGroup
  repeat' first
    | exact keepsServers_pure _
    | exact keepsServers_halt _
    | exact keepsServers_getCluster
    | exact keepsServers_getEnv
    | exact keepsServers_getProvider
    | exact keepsServers_modifyProvider _
    | exact keepsServers_modifyCluster _ (fun _ => ⟨rfl, rfl, rfl⟩)
    | exact keepsServers_SSHCommand _ _
    | exact keepsServers_placementGroupGet _
    | exact keepsServers_placementGroupCreate _
    | apply keepsServers_bind
    | split
    | intro _
    | dsimp only

theorem keepsServers_sshKey : KeepsServers sshKey := by
  unfold sshKey
  repeat' first
    | exact keepsServers_pure _
    | exact keepsServers_halt _
    | exact keepsServers_getCluster
    | exact keepsServers_getEnv
    | exact keepsServers_getProvider
    | exact keepsServers_modifyProvider _
    | exact keepsServers_modifyCluster _ (fun _ => ⟨rfl, rfl, rfl⟩)
    | exact keepsServers_SSHCommand _ _
    | exact keepsServers_CreateSSHKey
    | apply keepsServers_bind
    | split
    | intro _
    | dsimp only

theorem keepsServers_network : KeepsServers network := by
  unfold network
  repeat' first
    | exact keepsServers_pure _
    | exact keepsServers_halt _
    | exact keepsServers_getCluster
    | exact keepsServers_getEnv
    | exact keepsServers_getProvider
    | exact keepsServers_modifyProvider _
    | exact keepsServers_modifyCluster _ (fun _ => ⟨rfl, rfl, rfl⟩)
    | exact keepsServers_SSHCommand _ _
    | exact keepsServers_CreateNetwork
    | apply keepsServers_bind
    | split
    | intro _
    | dsimp only

theorem keepsServers_firewall : KeepsServers firewall := by
  unfold firewall
  repeat' first
    | exact keepsServers_pure _
    | exact keepsServers_halt _
    | exact keepsServers_getCluster
    | exact keepsServers_getEnv
    | exact keepsServers_getProvider
    | exact keepsServers_modifyProvider _
    | exact keepsServers_modifyCluster _ (fun _ => ⟨rfl, rfl, rfl⟩)
    | exact keepsServers_SSHCommand _ _
    | exact keepsServers_CreateFirewall
    | apply keepsServers_bind
    | split
    | intro _
    | dsimp only

theorem keepsServers_placementGroup (name : String) : KeepsServers (placementGroup name) := by
  unfold placementGroup
  repeat' first
    | exact keepsServers_pure _
    | exact keepsServers_halt _
    | exact keepsServers_getCluster
    | exact keepsServers_getEnv
    | exact keepsServers_getProvider
    | exact keepsServers_modifyProvider _
    | exact keepsServers_modifyCluster _ (fun _ => ⟨rfl, rfl, rfl⟩)
    | exact keepsServers_SSHCommand _ _
    | exact keepsServers_CreatePlacementGroup _
    | apply keepsServers_bind
    | split
    | intro _
    | dsimp only

theorem keepsServers_mustLocation (name : String) : KeepsServers (mustLocation name) := by
  unfold mustLocation
  repeat' first
    | exact keepsServers_pure _
    | exact keepsServers_halt _
    | exact keepsServers_getCluster
    | exact keepsServers_getEnv
    | exact keepsServers_getProvider
    | exact keepsServers_modifyProvider _
    | exact keepsServers_modifyCluster _ (fun _ => ⟨rfl, rfl, rfl⟩)
    | exact keepsServers_SSHCommand _ _
    | exact keepsServers_locationGet _
    | apply keepsServers_bind
    | split
    | intro _
    | dsimp only

theorem keepsServers_masterLocation : KeepsServers masterLocation := by
  unfold masterLocation
  repeat' first
    | exact keepsServers_pure _
    | exact keepsServers_halt _
    | exact keepsServers_getCluster
    | exact keepsServers_getEnv
    | exact keepsServers_getProvider
    | exact keepsServers_modifyProvider _
    | exact keepsServers_modifyCluster _ (fun _ => ⟨rfl, rfl, rfl⟩)
    | exact keepsServers_SSHCommand _ _
    | exact keepsServers_mustLocation _
    | apply keepsServers_bind
    | split
    | intro _
    | dsimp only

theorem keepsServers_userData : KeepsServers userData := by
  unfold userData
  repeat' first
    | exact keepsServers_pure _
    | exact keepsServers_halt _
    | exact keepsServers_getCluster
    | exact keepsServers_getEnv
    | exact keepsServers_getProvider
    | exact keepsServers_modifyProvider _
    | exact keepsServers_modifyCluster _ (fun _ => ⟨rfl, rfl, rfl⟩)
    | exact keepsServers_SSHCommand _ _
    | apply keepsServers_bind
    | split
    | intro _
    | dsimp only

theorem keepsServers_masterDefinition (i : Nat) : KeepsServers (masterDefinition i) := by
  unfold masterDefinition
  repeat' first
    | exact keepsServers_pure _
    | exact keepsServers_halt _
    | exact keepsServers_getCluster
    | exact keepsServers_getEnv
    | exact keepsServers_getProvider
    | exact keepsServers_modifyProvider _
    | exact keepsServers_modifyCluster _ (fun _ => ⟨rfl, rfl, rfl⟩)
    | exact keepsServers_SSHCommand _ _
    | exact keepsServers_sshKey
    | exact keepsServers_network
    | exact keepsServers_firewall
    | exact keepsServers_placementGroup _
    | exact keepsServers_masterLocation
    | exact keepsServers_userData
    | apply keepsServers_bind
    | split
    | intro _
    | dsimp only

theorem keepsServers_workerDefinition (pool : WorkerConfig) (i : Nat) : KeepsServers (workerDefinition pool i) := by
  unfold workerDefinition
  repeat' first
    | exact keepsServers_pure _
    | exact keepsServers_halt _
    | exact keepsServers_getCluster
    | exact keepsServers_getEnv
    | exact keepsServers_getProvider
    | exact keepsServers_modifyProvider _
    | exact keepsServers_modifyCluster _ (fun _ => ⟨rfl, rfl, rfl⟩)
    | exact keepsServers_SSHCommand _ _
    | exact keepsServers_sshKey
    | exact keepsServers_network
    | exact keepsServers_firewall
    | exact keepsServers_placementGroup _
    | exact keepsServers_mustLocation _
    | exact keepsServers_userData
    | apply keepsServers_bind
    | split
    | intro _
    | dsimp only

theorem keepsServers_readyProbe (server : Server) : KeepsServers (readyProbe server) := by
  unfold readyProbe
  repeat' first
    | exact keepsServers_pure _
    | exact keepsServers_halt _
    | exact keepsServers_getCluster
    | exact keepsServers_getEnv
    | exact keepsServers_getProvider
    | exact keepsServers_modifyProvider _
    | exact keepsServers_modifyCluster _ (fun _ => ⟨rfl, rfl, rfl⟩)
    | exact keepsServers_SSHCommand _ _
    | apply keepsServers_bind
    | split
    | intro _
    | dsimp only


theorem keepsServers_masterDefinitionsForCreate : KeepsServers masterDefinitionsForCreate := by
  unfold masterDefinitionsForCreate
  exact keepsServers_bind keepsServers_getCluster fun c =>
    keepsServers_forEach _ keepsServers_masterDefinition _

theorem keepsServers_workerNodePoolDefinitions (pool : WorkerConfig) :
    KeepsServers (workerNodePoolDefinitions pool) := by
  unfold workerNodePoolDefinitions
  repeat' first
    | exact keepsServers_pure _
    | exact keepsServers_halt _
    | exact keepsServers_masterLocation
    | exact keepsServers_forEach _ (keepsServers_workerDefinition _) _
    | apply keepsServers_bind
    | split
    | intro _

theorem keepsServers_serverConfigs : KeepsServers serverConfigs := by
  unfold serverConfigs
  repeat' first
    | exact keepsServers_pure _
    | exact keepsServers_getCluster
    | exact keepsServers_masterDefinitionsForCreate
    | exact keepsServers_forEach _ keepsServers_workerNodePoolDefinitions _
    | apply keepsServers_bind
    | intro _

theorem keepsServers_createAll : ∀ l : List ServerCreateOpts, KeepsServers (createAll l)
  | [] => by
    unfold createAll
    exact keepsServers_pure _
  | opts :: rest => by
    unfold createAll
    refine keepsServers_bind (keepsServers_CreateServer opts) fun r => ?_
    refine keepsServers_bind (keepsServers_createAll rest) fun p => ?_
    repeat' first
      | exact keepsServers_pure _
      | split

theorem keepsServers_waitForSSH (server : Server) : KeepsServers (waitForSSH server) := by
  unfold waitForSSH
  refine keepsServers_bind (keepsServers_retryDo _ (keepsServers_readyProbe server) 15) fun r => ?_
  split <;> exact keepsServers_pure _

theorem keepsServers_waitAll : ∀ l : List Server, KeepsServers (waitAll l)
  | [] => by
    unfold waitAll
    exact keepsServers_pure _
  | server :: rest => by
    unfold waitAll
    refine keepsServers_bind (keepsServers_waitForSSH server) fun r => ?_
    refine keepsServers_bind (keepsServers_waitAll rest) fun e => ?_
    split <;> exact keepsServers_pure _

/-! ## C23: the order of names, completion orders, created servers -/

theorem charsLt_irrefl : ∀ a : List Char, charsLt a a = false
  | [] => rfl
  | x :: xs => by simp [charsLt, charsLt_irrefl xs]

theorem charsLt_asymm : ∀ a b : List Char, charsLt a b = true → charsLt b a = false
  | _, [], h => by simp [charsLt] at h
  | [], _ :: _, _ => by simp [charsLt]
  | x :: xs, y :: ys, h => by
    simp only [charsLt] at h ⊢
    split_ifs at h ⊢
    all_goals first
      | omega
      | rfl
      | exact charsLt_asymm xs ys h

theorem charsLt_cotrans : ∀ a b c : List Char, charsLt a c = true →
    charsLt a b = true ∨ charsLt b c = true
  | _, _, [], h => by simp [charsLt] at h
  | [], [], _ :: _, _ => by simp [charsLt]
  | [], _ :: _, _ :: _, _ => by simp [charsLt]
  | _ :: _, [], _ :: _, _ => by simp [charsLt]
  | x :: xs, y :: ys, z :: zs, h => by
    simp only [charsLt] at h ⊢
    have ih := charsLt_cotrans xs ys zs
    split_ifs at h ⊢
    all_goals first
      | omega
      | simp
      | exact ih h

theorem nameLe_total (a b : Server) : nameLe a b ∨ nameLe b a := by
  unfold nameLe
  cases h : charsLt b.name.data a.name.data with
  | false => exact Or.inl rfl
  | true => exact Or.inr (charsLt_asymm _ _ h)

theorem nameLe_trans (a b c : Server) (h1 : nameLe a b) (h2 : nameLe b c) : nameLe a c := by
  unfold nameLe at *
  cases h : charsLt c.name.data a.name.data with
  | false => rfl
  | true =>
    rcases charsLt_cotrans _ b.name.data _ h with h3 | h3
    · rw [h2] at h3; exact absurd h3 (by simp)
    · rw [h1] at h3; exact absurd h3 (by simp)

theorem insertionSort_nameLe_sorted (l : List Server) :
    (l.insertionSort nameLe).Pairwise nameLe := by
  haveI : IsTotal Server nameLe := ⟨nameLe_total⟩
  haveI : IsTrans Server nameLe := ⟨nameLe_trans⟩
  exact List.sorted_insertionSort nameLe l

theorem eraseIdx_perm {α : Type} : ∀ (xs : List α) (i : Nat) (x : α),
    xs[i]? = some x → (x :: xs.eraseIdx i).Perm xs
  | [], i, x, h => by simp at h
  | y :: ys, 0, x, h => by
    simp at h
    subst h
    simp
  | y :: ys, i + 1, x, h => by
    simp only [List.getElem?_cons_succ] at h
    have ih := eraseIdx_perm ys i x h
    simp only [List.eraseIdx_cons_succ]
    exact (List.Perm.swap y x _).trans (ih.cons y)

theorem completionOrder_perm {α : Type} : ∀ (ks : List Nat) (xs : List α),
    (completionOrder ks xs).Perm xs
  | [], xs => by simp [completionOrder]
  | k :: ks, xs => by
    unfold completionOrder
    cases h : xs[k % xs.length]? with
    | none =>
      cases xs with
      | nil => simp
      | cons y ys =>
        rw [List.getElem?_eq_none_iff] at h
        have : k % (y :: ys).length < (y :: ys).length := Nat.mod_lt _ (by simp)
        omega
    | some x =>
      simp only
      exact ((completionOrder_perm ks _).cons x).trans (eraseIdx_perm xs _ x h)

theorem CreateServer_name (opts : ServerCreateOpts) (w : World) (server : Server)
    (h : (CreateServer opts w).1 = .ok (.ok server)) : server.name = opts.name := by
  unfold CreateServer at h
  cases hg : w.env.apiFails ⟨.get, .server, opts.name⟩ with
  | true =>
    simp [serverGet, apiCall, bind_apply, api, hg, pure_apply] at h
  | false =>
    rw [bind_apply, serverGet_apply opts.name w hg] at h
    cases hf : w.provider.servers.find? fun s => decide (s.name = opts.name) with
    | some s =>
      simp only [hf, pure_apply, Outcome.ok.injEq, Except.ok.injEq] at h
      have := List.find?_some hf
      simp only [decide_eq_true_eq] at this
      rw [← h]; exact this
    | none =>
      simp only [hf] at h
      cases hc : w.env.apiFails ⟨.create, .server, opts.name⟩ with
      | true =>
        simp [serverCreate, apiCall, bind_apply, api, hc, pure_apply] at h
      | false =>
        rw [bind_apply, serverCreate_apply opts _ (by simpa using hc)] at h
        simp only [pure_apply, Outcome.ok.injEq, Except.ok.injEq] at h
        rw [← h]

theorem createAll_ok : ∀ (l : List ServerCreateOpts) (w : World) (servers : List Server),
    (createAll l w).1 = .ok (servers, none) →
    servers.map (fun s => s.name) = l.map (fun d => d.name)
  | [], w, servers, h => by
    simp only [createAll, pure_apply, Outcome.ok.injEq, Prod.mk.injEq] at h
    rw [← h.1]
    rfl
  | opts :: rest, w, servers, h => by
    unfold createAll at h
    obtain ⟨r, hr, e⟩ := bind_ok_inv _ _ _ _ h
    rw [e] at h
    obtain ⟨p, hp, e⟩ := bind_ok_inv _ _ _ _ h
    rw [e] at h
    obtain ⟨ss, err⟩ := p
    cases r with
    | error e1 => simp [pure_apply] at h
    | ok server =>
      simp only [pure_apply, Outcome.ok.injEq, Prod.mk.injEq] at h
      obtain ⟨h1, h2⟩ := h
      subst h1 h2
      have ih := createAll_ok rest _ ss hp
      simp only [List.map_cons, ih, CreateServer_name opts w server hr]

/-! ## C23: the sorted server list -/

theorem masters_apply (w : World) (h : w.cluster.instances ≠ []) :
    masters w =
      (.ok (if w.cluster.masterInstances.length > 0 then w.cluster.masterInstances
            else w.cluster.instances.filter fun s => matchWordDigitEnd "master" s.name),
        { w with cluster :=
            { w.cluster with
              masterInstances :=
                if w.cluster.masterInstances.length > 0 then w.cluster.masterInstances
                else w.cluster.instances.filter fun s => matchWordDigitEnd "master" s.name } }) := by
  have hpos : w.cluster.instances.length > 0 := List.length_pos.2 h
  by_cases hm : w.cluster.masterInstances.length > 0
  · simp only [masters, bind_apply, getCluster, hm, if_true, pure_apply]
  · simp only [masters, bind_apply, getCluster, hm, if_false, allServers, hpos, if_true, pure_apply,
      modifyCluster]

theorem workers_apply (w : World) (h : w.cluster.instances ≠ []) :
    workers w =
      (.ok (if w.cluster.workerInstances.length > 0 then w.cluster.workerInstances
            else w.cluster.instances.filter fun s => matchWordDigitEnd "worker" s.name),
        { w with cluster :=
            { w.cluster with
              workerInstances :=
                if w.cluster.workerInstances.length > 0 then w.cluster.workerInstances
                else w.cluster.instances.filter fun s => matchWordDigitEnd "worker" s.name } }) := by
  have hpos : w.cluster.instances.length > 0 := List.length_pos.2 h
  by_cases hm : w.cluster.workerInstances.length > 0
  · simp only [workers, bind_apply, getCluster, hm, if_true, pure_apply]
  · simp only [workers, bind_apply, getCluster, hm, if_false, allServers, hpos, if_true, pure_apply,
      modifyCluster]

theorem afterSort_apply (w2 : World) (s : List Server) (hs : s ≠ []) :
    ((do
        modifyCluster fun c => { c with instances := s }
        let _ ← masters
        let _ ← workers
        pure none : M (Option Err)) w2).2.cluster.instances = s ∧
    ((do
        modifyCluster fun c => { c with instances := s }
        let _ ← masters
        let _ ← workers
        pure none : M (Option Err)) w2).2.cluster.masterInstances =
      if w2.cluster.masterInstances.length > 0 then w2.cluster.masterInstances
      else s.filter fun x => matchWordDigitEnd "master" x.name := by
  constructor
  · rw [bind_apply]
    simp only [modifyCluster]
    rw [bind_apply, masters_apply _ hs]
    simp only
    rw [bind_apply, workers_apply _ hs]
    rfl
  · rw [bind_apply]
    simp only [modifyCluster]
    rw [bind_apply, masters_apply _ hs]
    simp only
    rw [bind_apply, workers_apply _ hs]
    rfl

/-- What a successful `createServers` leaves: the definitions, the handles in
completion order, and the final cache. -/
theorem createServers_ok (w : World) (order probeOrder : List Nat)
    (hn : 1 ≤ mastersSize w.cluster)
    (hok : (createServers order probeOrder w).1 = .ok none) :
    ∃ (configs : List ServerCreateOpts) (handles : List Server),
      (serverConfigs w).1 = .ok configs ∧
      (createAll (completionOrder order configs) (serverConfigs w).2).1 = .ok (handles, none) ∧
      handles ≠ [] ∧
      (createServers order probeOrder w).2.cluster.instances = handles.insertionSort nameLe ∧
      (createServers order probeOrder w).2.cluster.masterInstances =
        if w.cluster.masterInstances.length > 0 then w.cluster.masterInstances
        else (handles.insertionSort nameLe).filter fun s => matchWordDigitEnd "master" s.name := by
  unfold createServers at hok ⊢
  obtain ⟨configs, hcfg, e⟩ := bind_ok_inv _ _ _ _ hok
  rw [e] at hok ⊢
  obtain ⟨p, hp, e⟩ := bind_ok_inv _ _ _ _ hok
  rw [e] at hok ⊢
  obtain ⟨handles, err⟩ := p
  have k1 := (keepsServers_iff _).mp keepsServers_serverConfigs w
  have k2 := (keepsServers_iff _).mp (keepsServers_createAll (completionOrder order configs))
    (serverConfigs w).2
  cases err with
  | some e1 => simp [pure_apply] at hok
  | none =>
    simp only at hok ⊢
    obtain ⟨r, hr, e⟩ := bind_ok_inv _ _ _ _ hok
    rw [e] at hok ⊢
    have k3 := (keepsServers_iff _).mp (keepsServers_waitAll (completionOrder probeOrder handles))
      (createAll (completionOrder order configs) (serverConfigs w).2).2
    cases r with
    | some e1 => simp [pure_apply] at hok
    | none =>
      simp only at hok ⊢
      have hnames := createAll_ok _ _ handles hp
      have hlen : handles.length = configs.length := by
        have h1 := congrArg List.length hnames
        simp only [List.length_map] at h1
        rw [h1, (completionOrder_perm order configs).length_eq]
      have hcl : configs.length ≠ 0 := by
        have h2 := (server_definitions_names w).2.2 configs hcfg
        have h3 := congrArg List.length h2
        simp only [List.length_map, List.length_append, List.length_range] at h3
        unfold mastersSize at hn
        omega
      have hne : handles ≠ [] := by
        intro h0
        rw [h0] at hlen
        simp at hlen
        omega
      have hsort : handles.insertionSort nameLe ≠ [] := by
        intro h0
        have := (List.perm_insertionSort nameLe handles).length_eq
        rw [h0] at this
        simp at this
        exact hne (List.length_eq_zero.mp this.symm)
      have hfin := afterSort_apply
        (waitAll (completionOrder probeOrder handles)
          (createAll (completionOrder order configs) (serverConfigs w).2).2).2
        (handles.insertionSort nameLe) hsort
      refine ⟨configs, handles, hcfg, hp, hne, hfin.1, ?_⟩
      rw [hfin.2, k3.2.1, k2.2.1, k1.2.1]

/-- C23: when `createServers` returns success (with at least one master configured),
the cached list `Instances` is sorted in ascending order of the server name and is
a permutation of the handles the Reconciler returned, which are one per entry of
`serverConfigs` with the name of that entry, whatever the order in which the
creation tasks and the readiness tasks completed. -/
theorem createServers_instances_sorted (w : World) (order probeOrder : List Nat)
    (hn : 1 ≤ mastersSize w.cluster)
    (hok : (createServers order probeOrder w).1 = .ok none) :
    ∃ (configs : List ServerCreateOpts) (handles : List Server),
      (serverConfigs w).1 = .ok configs ∧
      (createAll (completionOrder order configs) (serverConfigs w).2).1 = .ok (handles, none) ∧
      handles.length = configs.length ∧
      (handles.map fun s => s.name).Perm (configs.map fun d => d.name) ∧
      (createServers order probeOrder w).2.cluster.instances.Perm handles ∧
      (createServers order probeOrder w).2.cluster.instances.Pairwise
        (fun a b => charsLt b.name.data a.name.data = false) := by
  obtain ⟨configs, handles, hcfg, hp, -, hinst, -⟩ := createServers_ok w order probeOrder hn hok
  have hnames := createAll_ok _ _ handles hp
  refine ⟨configs, handles, hcfg, hp, ?_, ?_, ?_, ?_⟩
  · have h1 := congrArg List.length hnames
    simp only [List.length_map] at h1
    rw [h1, (completionOrder_perm order configs).length_eq]
  · rw [hnames]
    exact (completionOrder_perm order configs).map _
  · rw [hinst]
    exact List.perm_insertionSort nameLe handles
  · rw [hinst]
    exact insertionSort_nameLe_sorted handles

/-- C23 on a fresh cluster of three masters, with the creation tasks completing in
the order third, first, second. -/
theorem createServers_instances_sorted_witness :
    ∃ (configs : List ServerCreateOpts) (handles : List Server),
      (serverConfigs freshTriple).1 = .ok configs ∧
      (createAll (completionOrder [2, 0] configs) (serverConfigs freshTriple).2).1
        = .ok (handles, none) ∧
      handles.length = configs.length ∧
      (handles.map fun s => s.name).Perm (configs.map fun d => d.name) ∧
      (createServers [2, 0] [1] freshTriple).2.cluster.instances.Perm handles ∧
      (createServers [2, 0] [1] freshTriple).2.cluster.instances.Pairwise
        (fun a b => charsLt b.name.data a.name.data = false) :=
  createServers_instances_sorted freshTriple [2, 0] [1] (by decide) (by decide!)

/-! ## C29: names, digits and the pattern -/

theorem isDigit_digitChar (k : Nat) (h : k < 10) : isDigit (Nat.digitChar k) = true := by
  interval_cases k <;> decide

theorem toDigitsCore_shape : ∀ (fuel n : Nat) (ds : List Char), 1 ≤ n → n < fuel →
    ∃ m rest, 1 ≤ m ∧ m ≤ 9 ∧ (∀ c ∈ rest, isDigit c = true) ∧
      Nat.toDigitsCore 10 fuel n ds = Nat.digitChar m :: (rest ++ ds)
  | 0, n, ds, _, h => by omega
  | fuel + 1, n, ds, h1, h2 => by
    unfold Nat.toDigitsCore
    by_cases hz : n / 10 = 0
    · simp only [hz, if_true]
      have hlt : n < 10 := by omega
      exact ⟨n, [], h1, by omega, by simp, by rw [Nat.mod_eq_of_lt hlt]; rfl⟩
    · simp only [hz, if_false]
      obtain ⟨m, rest, hm1, hm2, hr, he⟩ := toDigitsCore_shape fuel (n / 10)
        (Nat.digitChar (n % 10) :: ds) (by omega) (by omega)
      refine ⟨m, rest ++ [Nat.digitChar (n % 10)], hm1, hm2, ?_, ?_⟩
      · intro c hc
        rcases List.mem_append.1 hc with h | h
        · exact hr c h
        · simp only [List.mem_singleton] at h
          rw [h]
          exact isDigit_digitChar _ (Nat.mod_lt _ (by omega))
      · rw [he]
        simp

/-- The decimal text of a positive number: a first digit from 1 to 9, then digits. -/
theorem toString_shape (k : Nat) (h : 1 ≤ k) :
    ∃ m rest, 1 ≤ m ∧ m ≤ 9 ∧ (∀ c ∈ rest, isDigit c = true) ∧
      (toString k).data = Nat.digitChar m :: rest := by
  obtain ⟨m, rest, h1, h2, hr, he⟩ := toDigitsCore_shape (k + 1) k [] h (by omega)
  refine ⟨m, rest, h1, h2, hr, ?_⟩
  show (Nat.repr k).data = _
  simp only [Nat.repr, Nat.toDigits, List.asString, he, List.append_nil]

theorem charsLt_append_left : ∀ (p a b : List Char), charsLt (p ++ a) (p ++ b) = charsLt a b
  | [], a, b => rfl
  | x :: p, a, b => by
    simp only [List.cons_append, charsLt, Nat.lt_irrefl, if_false]
    exact charsLt_append_left p a b

theorem charsLt_antisymm : ∀ (a b : List Char), charsLt a b = false → charsLt b a = false →
    a = b
  | [], [], _, _ => rfl
  | [], _ :: _, h, _ => by simp [charsLt] at h
  | _ :: _, [], _, h => by simp [charsLt] at h
  | x :: xs, y :: ys, h1, h2 => by
    simp only [charsLt] at h1 h2
    have hxy : x.toNat = y.toNat := by
      by_contra hne
      split_ifs at h1 h2
      omega
    have hx : x = y := Char.ext (UInt32.ext (by simpa [Char.toNat] using hxy))
    subst hx
    simp only [Nat.lt_irrefl, if_false] at h1 h2
    rw [charsLt_antisymm xs ys h1 h2]

theorem dropWord_eq_some : ∀ (w t r : List Char), dropWord w t = some r ↔ t = w ++ r
  | [], t, r => by simp [dropWord, eq_comm]
  | a :: w, [], r => by simp [dropWord]
  | a :: w, b :: t, r => by
    simp only [dropWord, List.cons_append, List.cons.injEq]
    by_cases h : a = b
    · simp [h, dropWord_eq_some w t r]
    · simp [h]
      intro hb
      exact absurd hb.symm h

theorem matchHere_iff (word t : List Char) :
    matchHere word t = true ↔ ∃ d, t = word ++ [d] ∧ isDigit d = true := by
  unfold matchHere
  constructor
  · intro h
    split at h
    · rename_i d hd
      exact ⟨d, (dropWord_eq_some _ _ _).1 hd, h⟩
    · simp at h
  · rintro ⟨d, rfl, hd⟩
    rw [(dropWord_eq_some word (word ++ [d]) [d]).2 rfl]
    exact hd

theorem matchWordDigitEnd_iff (word name : String) :
    matchWordDigitEnd word name = true ↔
      ∃ pre d, name.data = pre ++ (word.data ++ [d]) ∧ isDigit d = true := by
  unfold matchWordDigitEnd
  simp only [List.any_eq_true, List.mem_tails, matchHere_iff]
  constructor
  · rintro ⟨t, ⟨pre, hpre⟩, d, rfl, hd⟩
    exact ⟨pre, d, hpre.symm, hd⟩
  · rintro ⟨pre, d, h, hd⟩
    exact ⟨word.data ++ [d], ⟨pre, h.symm⟩, d, rfl, hd⟩

/-- A name that ends in `-worker` and a positive number does not match
`master\d$`. -/
theorem worker_name_not_master (x : String) (k : Nat) (h : 1 ≤ k) :
    matchWordDigitEnd "master" (x ++ "-worker" ++ toString k) = false := by
  cases hm : matchWordDigitEnd "master" (x ++ "-worker" ++ toString k) with
  | false => rfl
  | true =>
    exfalso
    obtain ⟨pre, d, he, -⟩ := (matchWordDigitEnd_iff _ _).1 hm
    obtain ⟨m, rest, -, -, hr, hk⟩ := toString_shape k h
    simp only [String.data_append, hk] at he
    have hrev := congrArg List.reverse he
    simp only [List.reverse_append, List.reverse_cons, List.reverse_nil, List.nil_append,
      List.append_assoc, List.singleton_append, List.cons_append] at hrev
    cases hrr : rest.reverse with
    | nil =>
      rw [hrr] at hrev
      simp at hrev
    | cons c r =>
      rw [hrr] at hrev
      have hc : isDigit c = true := hr c (by
        rw [← List.mem_reverse, hrr]
        simp)
      cases r with
      | nil => simp at hrev
      | cons c2 r2 =>
        have hc2 : isDigit c2 = true := hr c2 (by
          rw [← List.mem_reverse, hrr]
          simp)
        simp at hrev
        have h2 := hrev.2.1
        rw [h2] at hc2
        revert hc2
        decide

/-- The name of the first master matches `master\d$`. -/
theorem master_one_matches (x : String) :
    matchWordDigitEnd "master" (x ++ "-master" ++ toString 1) = true := by
  rw [matchWordDigitEnd_iff]
  refine ⟨x.data ++ ['-'], '1', ?_, by decide⟩
  simp only [String.data_append]
  have : (toString 1).data = ['1'] := by decide
  rw [this]
  simp

/-- No master name comes before the name of the first master. -/
theorem master_name_ge_first (x : String) (k : Nat) (h : 1 ≤ k) :
    charsLt (x ++ "-master" ++ toString k).data (x ++ "-master" ++ toString 1).data = false := by
  obtain ⟨m, rest, hm1, hm9, -, hk⟩ := toString_shape k h
  have h1 : (toString 1).data = ['1'] := by decide
  simp only [String.data_append, hk, h1, List.append_assoc, charsLt_append_left]
  interval_cases m <;> cases rest <;> simp [charsLt, Nat.digitChar]

/-! ## C29: the first master -/

/-- C29: after `createServers` has succeeded in a run that had no master list
cached, for every number of masters from 1 on, all worker pools and all completion
orders, `MasterInstances[0]` is the server named
`{clusterName}-{masterInstanceType}-master1`. -/
theorem first_master_is_ordinal_one (w : World) (order probeOrder : List Nat)
    (hn : 1 ≤ mastersSize w.cluster) (hfresh : w.cluster.masterInstances = [])
    (hok : (createServers order probeOrder w).1 = .ok none) :
    ∃ first rest,
      (createServers order probeOrder w).2.cluster.masterInstances = first :: rest ∧
      first.name = w.cluster.config.clusterName ++ "-" ++ w.cluster.config.masters.instanceType
        ++ "-master1" := by
  obtain ⟨configs, handles, hcfg, hp, -, -, hmi⟩ := createServers_ok w order probeOrder hn hok
  simp only [hfresh, List.length_nil, gt_iff_lt, Nat.lt_irrefl, if_false] at hmi
  have hnames := createAll_ok _ _ handles hp
  have hconf := (server_definitions_names w).2.2 configs hcfg
  have hone : (toString 1 : String) = "1" := by decide
  have hname1 : w.cluster.config.clusterName ++ "-" ++ w.cluster.config.masters.instanceType
      ++ "-master1" = w.cluster.config.clusterName ++ "-" ++ w.cluster.config.masters.instanceType
      ++ "-master" ++ toString 1 := by
    rw [hone, String.append_assoc _ "-master" "1"]
    rfl
  rw [hname1]
  -- every handle carries the name of a definition
  have hmem : ∀ s ∈ handles, s.name ∈ configs.map fun d => d.name := by
    intro s hs
    have h1 : s.name ∈ handles.map fun s => s.name := List.mem_map_of_mem _ hs
    rw [hnames] at h1
    exact ((completionOrder_perm order configs).map _).mem_iff.1 h1
  -- the definition of the first master has a handle
  have hex : ∃ s1 ∈ handles, s1.name = w.cluster.config.clusterName ++ "-"
      ++ w.cluster.config.masters.instanceType ++ "-master" ++ toString 1 := by
    have h1 : (w.cluster.config.clusterName ++ "-" ++ w.cluster.config.masters.instanceType
        ++ "-master" ++ toString 1) ∈ configs.map fun d => d.name := by
      rw [hconf]
      apply List.mem_append_left
      rw [List.mem_map]
      exact ⟨0, by rw [List.mem_range]; unfold mastersSize at hn; omega, rfl⟩
    have h2 := ((completionOrder_perm order configs).map (fun d => d.name)).mem_iff.2 h1
    rw [← hnames, List.mem_map] at h2
    obtain ⟨s1, hs1, hn1⟩ := h2
    exact ⟨s1, hs1, hn1⟩
  obtain ⟨s1, hs1, hn1⟩ := hex
  have hperm := List.perm_insertionSort nameLe handles
  have hs1L : s1 ∈ (handles.insertionSort nameLe).filter
      fun s => matchWordDigitEnd "master" s.name := by
    rw [List.mem_filter]
    refine ⟨hperm.mem_iff.2 hs1, ?_⟩
    rw [hn1]
    exact master_one_matches _
  have hsorted : ((handles.insertionSort nameLe).filter
      fun s => matchWordDigitEnd "master" s.name).Pairwise nameLe :=
    (insertionSort_nameLe_sorted handles).sublist (List.filter_sublist _)
  rw [hmi]
  cases hL : (handles.insertionSort nameLe).filter
      fun s => matchWordDigitEnd "master" s.name with
  | nil =>
    rw [hL] at hs1L
    simp at hs1L
  | cons first rest =>
    refine ⟨first, rest, rfl, ?_⟩
    rw [hL] at hs1L hsorted
    have hfirstL : first ∈ (handles.insertionSort nameLe).filter
        fun s => matchWordDigitEnd "master" s.name := by
      rw [hL]
      simp
    rw [List.mem_filter] at hfirstL
    obtain ⟨hfs, hfp⟩ := hfirstL
    have hfn := hmem first (hperm.mem_iff.1 hfs)
    -- the first master is not before `first`
    have hle1 : charsLt s1.name.data first.name.data = false := by
      rcases List.mem_cons.1 hs1L with h | h
      · rw [h]
        exact charsLt_irrefl _
      · exact (List.pairwise_cons.1 hsorted).1 s1 h
    -- `first` is not before the first master
    have hle2 : charsLt first.name.data s1.name.data = false := by
      rw [hconf, List.mem_append] at hfn
      rcases hfn with h | h
      · rw [List.mem_map] at h
        obtain ⟨i, -, hi⟩ := h
        rw [← hi, hn1]
        exact master_name_ge_first _ (i + 1) (by omega)
      · rw [List.mem_flatten] at h
        obtain ⟨l, hl, hin⟩ := h
        rw [List.mem_map] at hl
        obtain ⟨pool, -, rfl⟩ := hl
        rw [List.mem_map] at hin
        obtain ⟨i, -, hi⟩ := hin
        rw [← hi, worker_name_not_master _ (i + 1) (by omega)] at hfp
        simp at hfp
    have := charsLt_antisymm _ _ hle2 hle1
    rw [← hn1]
    exact String.ext this

/-- C29 on a fresh cluster of ten masters, where `master10` sorts second. -/
theorem first_master_is_ordinal_one_witness :
    ∃ first rest,
      (createServers [] [] freshTen).2.cluster.masterInstances = first :: rest ∧
      first.name = freshTen.cluster.config.clusterName ++ "-"
        ++ freshTen.cluster.config.masters.instanceType ++ "-master1" :=
  first_master_is_ordinal_one freshTen [] [] (by decide) (by decide) (by decide!)

/-! ## C24: cluster-init -/

theorem isFirstMaster_apply (w : World) (first : Server) (rest : List Server) (m : Server)
    (hm : w.cluster.masterInstances = first :: rest) :
    isFirstMaster m w = (.ok (decide (first = m)), w) := by
  simp only [isFirstMaster, bind_apply, getCluster, hm, pure_apply]

theorem join_flag_ne_cluster_init (ip : String) :
    "--server https://" ++ ip ++ ":6443" ≠ "--cluster-init" := by
  intro h
  have := congrArg String.data h
  simp only [String.data_append] at this
  simp at this

/-- C24: when the cached masters are pairwise distinct, `masterScript` selects
`--cluster-init` for `MasterInstances[0]` and for no other master; for every other
master it selects `--server https://<apiServerIP>:6443`, and with more than one
master configured `apiServerIP` is the public address of the load balancer that
`loadBalancer()` returns. -/
theorem cluster_init_only_first (w : World) (first : Server) (rest : List Server)
    (hm : w.cluster.masterInstances = first :: rest) (hd : (first :: rest).Nodup) :
    masterScriptServer first w = (.ok "--cluster-init", w) ∧
    (∀ m ∈ first :: rest,
      ((masterScriptServer m w).1 = .ok "--cluster-init" ↔ m = first)) ∧
    (∀ m ∈ rest,
      masterScriptServer m w =
        (apiServerIP >>= fun ip => pure ("--server https://" ++ ip ++ ":6443")) w) ∧
    (w.cluster.config.masters.instanceCount > 1 →
      apiServerIP w = (loadBalancer >>= fun lb => pure (ipString lb.publicIP)) w) := by
  have hfirst : masterScriptServer first w = (.ok "--cluster-init", w) := by
    simp only [masterScriptServer, bind_apply, isFirstMaster_apply w first rest first hm,
      decide_True, if_true, pure_apply]
  have hother : ∀ m, m ≠ first →
      masterScriptServer m w =
        (apiServerIP >>= fun ip => pure ("--server https://" ++ ip ++ ":6443")) w := by
    intro m hne
    have hdec : decide (first = m) = false := by
      simp only [decide_eq_false_iff_not]
      exact fun h => hne h.symm
    simp only [masterScriptServer, bind_apply, isFirstMaster_apply w first rest m hm, hdec,
      Bool.false_eq_true, if_false]
  have hnotin : first ∉ rest := (List.nodup_cons.1 hd).1
  refine ⟨hfirst, ?_, ?_, ?_⟩
  · intro m _
    constructor
    · intro h
      by_contra hne
      rw [hother m hne] at h
      cases ha : (apiServerIP w).1 with
      | halt x =>
        rw [bind_halt _ _ _ _ ha] at h
        simp at h
      | ok ip =>
        rw [bind_ok _ _ _ _ ha] at h
        simp only [pure_apply, Outcome.ok.injEq] at h
        exact join_flag_ne_cluster_init ip h
    · intro h
      rw [h, hfirst]
  · intro m hmem
    exact hother m (fun h => hnotin (h ▸ hmem))
  · intro hgt
    simp only [apiServerIP, bind_apply, getCluster, hgt, if_true]

/-- C24 on the cluster of three masters and two workers. -/
theorem cluster_init_only_first_witness :
    masterScriptServer (demoMaster 1) threeMastersTwoWorkers
      = (.ok "--cluster-init", threeMastersTwoWorkers) ∧
    ((masterScriptServer (demoMaster 2) threeMastersTwoWorkers).1 = .ok "--cluster-init" ↔
      demoMaster 2 = demoMaster 1) :=
  ⟨(cluster_init_only_first threeMastersTwoWorkers (demoMaster 1) [demoMaster 2, demoMaster 3]
      (by decide) (by decide)).1,
    (cluster_init_only_first threeMastersTwoWorkers (demoMaster 1) [demoMaster 2, demoMaster 3]
      (by decide) (by decide)).2.1 (demoMaster 2) (by decide)⟩

/-! ## C13: what leaves the shell log alone -/

theorem keepsShell_iff {α : Type} (m : M α) :
    KeepsShell m ↔ ∀ w, Applied [] w (m w).2 := by
  unfold KeepsShell
  exact Iff.rfl

theorem applied_refl (w : World) : Applied [] w w :=
  ⟨by simp, rfl, rfl⟩

theorem applied_trans {l1 l2 : List Payload} {w w1 w2 : World} (h1 : Applied l1 w w1)
    (h2 : Applied l2 w1 w2) : Applied (l1 ++ l2) w w2 := by
  obtain ⟨a1, b1, c1⟩ := h1
  obtain ⟨a2, b2, c2⟩ := h2
  exact ⟨by rw [a2, a1, List.append_assoc], b2.trans b1, c2.trans c1⟩

theorem keepsShell_of_emits {α : Type} {m : M α} (h : Emits (fun _ => True) m) :
    KeepsShell m := by
  rw [keepsShell_iff]
  intro w
  obtain ⟨-, hc, hs, -⟩ := (emits_iff _ _).mp h w
  exact ⟨by rw [hs, List.append_nil], by rw [hc], by rw [hc]⟩

theorem keepsShell_pure {α : Type} (a : α) : KeepsShell (pure a : M α) :=
  (keepsShell_iff _).mpr fun w => applied_refl w

theorem keepsShell_halt {α : Type} (x : Halt) : KeepsShell (halt x : M α) :=
  (keepsShell_iff _).mpr fun w => applied_refl w

theorem keepsShell_getCluster : KeepsShell getCluster :=
  (keepsShell_iff _).mpr fun w => applied_refl w

theorem keepsShell_getEnv : KeepsShell getEnv :=
  (keepsShell_iff _).mpr fun w => applied_refl w

theorem keepsShell_modifyCluster (f : Cluster → Cluster)
    (hf : ∀ c, (f c).config.scheduleCSIControllerOnMaster = c.config.scheduleCSIControllerOnMaster ∧
      (f c).config.autoscalingNodePools = c.config.autoscalingNodePools) :
    KeepsShell (modifyCluster f) :=
  (keepsShell_iff _).mpr fun w => ⟨by simp [modifyCluster], (hf w.cluster).1, (hf w.cluster).2⟩

theorem keepsShell_randomHex (n : Nat) : KeepsShell (randomHex n) := by
  rw [keepsShell_iff]
  intro w
  unfold randomHex
  split
  · exact applied_refl w
  · exact ⟨by simp, rfl, rfl⟩

theorem keepsShell_bind {α β : Type} {m : M α} {f : α → M β}
    (hm : KeepsShell m) (hf : ∀ a, KeepsShell (f a)) : KeepsShell (m >>= f) := by
  rw [keepsShell_iff] at hm ⊢
  intro w
  have h1 := hm w
  rw [bind_apply]
  generalize m w = r at h1
  obtain ⟨o, w1⟩ := r
  cases o with
  | halt x => exact h1
  | ok a => exact applied_trans h1 ((keepsShell_iff _).mp (hf a) w1)

theorem keepsShell_validateToken : KeepsShell validateToken :=
  keepsShell_of_emits (emits_validateToken (fun _ _ => trivial))

theorem keepsShell_clusterNetworkZone : KeepsShell clusterNetworkZone :=
  keepsShell_of_emits (emits_clusterNetworkZone (fun _ _ => trivial))

theorem keepsShell_clusterNetworkIPRange : KeepsShell clusterNetworkIPRange :=
  keepsShell_of_emits (emits_clusterNetworkIPRange (fun _ _ => trivial))

theorem keepsShell_validateCluster : KeepsShell validateCluster :=
  keepsShell_of_emits (emits_validateCluster (fun _ _ => trivial))

theorem keepsShell_masterLocation : KeepsShell masterLocation :=
  keepsShell_of_emits (emits_masterLocation (fun _ _ => trivial))

theorem keepsShell_GetLocations : KeepsShell GetLocations :=
  keepsShell_of_emits (emits_GetLocations (fun _ _ => trivial))

theorem keepsShell_networkGet (name : String) : KeepsShell (networkGet name) :=
  keepsShell_of_emits (emits_networkGet name trivial)

theorem keepsShell_createResources (order probeOrder : List Nat) : KeepsShell (createResources order probeOrder) :=
  keepsShell_of_emits (emits_createResources order probeOrder (fun _ _ => trivial))

theorem keepsShell_firstMasterPublicIP : KeepsShell firstMasterPublicIP :=
  keepsShell_of_emits (emits_firstMasterPublicIP (fun _ _ => trivial))

theorem keepsShell_SSHCommand (address command : String) : KeepsShell (SSHCommand address command) :=
  keepsShell_of_emits (emits_SSHCommand _ address command)

theorem keepsShell_sshKey : KeepsShell sshKey :=
  keepsShell_of_emits (emits_sshKey (fun _ _ => trivial))

theorem keepsShell_network : KeepsShell network :=
  keepsShell_of_emits (emits_network (fun _ _ => trivial))

theorem keepsShell_firewall : KeepsShell firewall :=
  keepsShell_of_emits (emits_firewall (fun _ _ => trivial))

theorem keepsShell_userData : KeepsShell userData :=
  keepsShell_of_emits (emits_userData (fun _ _ => trivial))

theorem keepsShell_autoscalerNodePoolArgs : KeepsShell autoscalerNodePoolArgs :=
  keepsShell_of_emits (emits_autoscalerNodePoolArgs (fun _ _ => trivial))

theorem keepsShell_GetServer (server : Server) : KeepsShell (GetServer server) :=
  keepsShell_of_emits (emits_GetServer server (fun _ _ => trivial))

theorem keepsShell_resolvePathM (filepath : String) : KeepsShell (resolvePathM filepath) := by
  unfold resolvePathM
  repeat' first
    | exact keepsShell_pure _
    | exact keepsShell_halt _
    | exact keepsShell_getEnv
    | apply keepsShell_bind
    | split
    | intro _

theorem keepsShell_publicSSHKeyPath : KeepsShell publicSSHKeyPath := by
  unfold publicSSHKeyPath
  repeat' first
    | exact keepsShell_pure _
    | exact keepsShell_getCluster
    | exact keepsShell_modifyCluster _ (fun _ => ⟨rfl, rfl⟩)
    | exact keepsShell_resolvePathM _
    | apply keepsShell_bind
    | intro _

theorem keepsShell_privateSSHKeyPath : KeepsShell privateSSHKeyPath := by
  unfold privateSSHKeyPath
  repeat' first
    | exact keepsShell_pure _
    | exact keepsShell_getCluster
    | exact keepsShell_modifyCluster _ (fun _ => ⟨rfl, rfl⟩)
    | exact keepsShell_resolvePathM _
    | apply keepsShell_bind
    | intro _

theorem keepsShell_kubeconfigPath : KeepsShell kubeconfigPath := by
  unfold kubeconfigPath
  repeat' first
    | exact keepsShell_pure _
    | exact keepsShell_getCluster
    | exact keepsShell_modifyCluster _ (fun _ => ⟨rfl, rfl⟩)
    | exact keepsShell_resolvePathM _
    | apply keepsShell_bind
    | intro _

theorem keepsShell_clusterAutoscalerArgs : KeepsShell clusterAutoscalerArgs := by
  unfold clusterAutoscalerArgs
  repeat' first
    | exact keepsShell_pure _
    | exact keepsShell_getCluster
    | exact keepsShell_modifyCluster _ (fun _ => ⟨rfl, rfl⟩)
    | apply keepsShell_bind
    | split
    | intro _
    | dsimp only

theorem keepsShell_isDirectory (path : String) : KeepsShell (isDirectory path) := by
  unfold isDirectory
  repeat' first
    | exact keepsShell_pure _
    | exact keepsShell_getEnv
    | exact keepsShell_resolvePathM _
    | apply keepsShell_bind
    | split
    | intro _

theorem keepsShell_validatePublicSSHKey : KeepsShell validatePublicSSHKey := by
  unfold validatePublicSSHKey
  repeat' first
    | exact keepsShell_pure _
    | exact keepsShell_publicSSHKeyPath
    | exact keepsShell_isDirectory _
    | apply keepsShell_bind
    | split
    | intro _

theorem keepsShell_validatePrivateSSHKeyAndPassphrase : KeepsShell validatePrivateSSHKeyAndPassphrase := by
  unfold validatePrivateSSHKeyAndPassphrase
  repeat' first
    | exact keepsShell_pure _
    | exact keepsShell_halt _
    | exact keepsShell_getEnv
    | exact keepsShell_modifyCluster _ (fun _ => ⟨rfl, rfl⟩)
    | exact keepsShell_privateSSHKeyPath
    | exact keepsShell_isDirectory _
    | apply keepsShell_bind
    | split
    | intro _

theorem keepsShell_validateAllowedSSHNetworks : KeepsShell validateAllowedSSHNetworks := by
  unfold validateAllowedSSHNetworks
  repeat' first
    | exact keepsShell_pure _
    | exact keepsShell_getCluster
    | exact keepsShell_getEnv
    | apply keepsShell_bind
    | split
    | intro _

theorem keepsShell_validateAllowedAPINetworks : KeepsShell validateAllowedAPINetworks := by
  unfold validateAllowedAPINetworks
  repeat' first
    | exact keepsShell_pure _
    | exact keepsShell_getCluster
    | exact keepsShell_getEnv
    | apply keepsShell_bind
    | split
    | intro _

theorem keepsShell_k3sVersion : KeepsShell k3sVersion := by
  unfold k3sVersion
  repeat' first
    | exact keepsShell_pure _
    | exact keepsShell_halt _
    | exact keepsShell_getCluster
    | exact keepsShell_getEnv
    | apply keepsShell_bind
    | split
    | intro _

theorem keepsShell_validateK3sVersion : KeepsShell validateK3sVersion := by
  unfold validateK3sVersion
  repeat' first
    | exact keepsShell_pure _
    | exact keepsShell_halt _
    | exact keepsShell_getEnv
    | exact keepsShell_k3sVersion
    | apply keepsShell_bind
    | split
    | intro _

theorem keepsShell_validateLocation (location : String) : KeepsShell (validateLocation location) := by
  unfold validateLocation
  repeat' first
    | exact keepsShell_pure _
    | exact keepsShell_GetLocations
    | apply keepsShell_bind
    | split
    | intro _

theorem keepsShell_validateMasterLocation : KeepsShell validateMasterLocation := by
  unfold validateMasterLocation
  repeat' first
    | exact keepsShell_pure _
    | exact keepsShell_halt _
    | exact keepsShell_masterLocation
    | exact keepsShell_validateLocation _
    | apply keepsShell_bind
    | split
    | intro _

theorem keepsShell_validateExistingNetwork : KeepsShell validateExistingNetwork := by
  unfold validateExistingNetwork
  repeat' first
    | exact keepsShell_pure _
    | exact keepsShell_getCluster
    | exact keepsShell_networkGet _
    | exact keepsShell_network
    | apply keepsShell_bind
    | split
    | intro _

theorem keepsShell_validateCreate : KeepsShell validateCreate := by
  unfold validateCreate
  repeat' first
    | exact keepsShell_pure _
    | exact keepsShell_validateToken
    | exact keepsShell_clusterNetworkZone
    | exact keepsShell_clusterNetworkIPRange
    | exact keepsShell_validateCluster
    | exact keepsShell_validatePublicSSHKey
    | exact keepsShell_validatePrivateSSHKeyAndPassphrase
    | exact keepsShell_validateAllowedSSHNetworks
    | exact keepsShell_validateAllowedAPINetworks
    | exact keepsShell_validateK3sVersion
    | exact keepsShell_validateMasterLocation
    | exact keepsShell_validateExistingNetwork
    | apply keepsShell_bind
    | split
    | intro _

theorem keepsShell_k3sToken : KeepsShell k3sToken := by
  unfold k3sToken
  repeat' first
    | exact keepsShell_pure _
    | exact keepsShell_halt _
    | exact keepsShell_getCluster
    | exact keepsShell_modifyCluster _ (fun _ => ⟨rfl, rfl⟩)
    | exact keepsShell_randomHex _
    | exact keepsShell_firstMasterPublicIP
    | exact keepsShell_SSHCommand _ _
    | apply keepsShell_bind
    | split
    | intro _
    | dsimp only

theorem keepsShell_privateIP (server : Server) : KeepsShell (privateIP server) := by
  unfold privateIP
  repeat' first
    | exact keepsShell_pure _
    | exact keepsShell_halt _
    | exact keepsShell_GetServer _
    | apply keepsShell_bind
    | split
    | intro _

theorem keepsShell_firstMasterPrivateIP : KeepsShell firstMasterPrivateIP := by
  unfold firstMasterPrivateIP
  repeat' first
    | exact keepsShell_halt _
    | exact keepsShell_getCluster
    | exact keepsShell_privateIP _
    | apply keepsShell_bind
    | split
    | intro _

theorem keepsShell_workerScript : KeepsShell workerScript := by
  unfold workerScript
  repeat' first
    | exact keepsShell_pure _
    | exact keepsShell_k3sVersion
    | exact keepsShell_k3sToken
    | exact keepsShell_firstMasterPrivateIP
    | apply keepsShell_bind
    | intro _

theorem keepsShell_autoscalerCloudInit : KeepsShell autoscalerCloudInit := by
  unfold autoscalerCloudInit
  repeat' first
    | exact keepsShell_userData
    | exact keepsShell_workerScript
    | apply keepsShell_bind
    | intro _

theorem keepsShell_hetznerClusterAutoscalerData : KeepsShell hetznerClusterAutoscalerData := by
  unfold hetznerClusterAutoscalerData
  repeat' first
    | exact keepsShell_pure _
    | exact keepsShell_sshKey
    | exact keepsShell_network
    | exact keepsShell_firewall
    | exact keepsShell_autoscalerNodePoolArgs
    | exact keepsShell_clusterAutoscalerArgs
    | exact keepsShell_autoscalerCloudInit
    | apply keepsShell_bind
    | intro _

theorem keepsShell_checkKubectl : KeepsShell checkKubectl := by
  unfold checkKubectl
  repeat' first
    | exact keepsShell_pure _
    | exact keepsShell_getEnv
    | apply keepsShell_bind
    | split
    | intro _

theorem keepsShell_deployK3sStep (res : Node → CmdResult) (kubeconfigOk : Bool)
    (sched1 sched2 : List Nat) : KeepsShell (deployK3sStep res kubeconfigOk sched1 sched2) := by
  rw [keepsShell_iff]
  intro w
  unfold deployK3sStep
  split <;> exact applied_refl w

/-! ## C13: what each addon applies -/

theorem applied_keeps {α : Type} {m : M α} (h : KeepsShell m) (w : World) :
    Applied [] w (m w).2 :=
  (keepsShell_iff m).mp h w

theorem applied_step {α β : Type} {m : M α} {f : α → M β} (l1 l2 : List Payload) {w : World}
    {b : β} (h : ((m >>= f) w).1 = .ok b)
    (hm : ∀ a, (m w).1 = .ok a → Applied l1 w (m w).2)
    (hf : ∀ a, (m w).1 = .ok a → Applied l1 w (m w).2 → (f a (m w).2).1 = .ok b →
      Applied l2 (m w).2 (f a (m w).2).2) :
    Applied (l1 ++ l2) w ((m >>= f) w).2 := by
  obtain ⟨a, ha, he⟩ := bind_ok_inv m f w b h
  rw [he] at h ⊢
  exact applied_trans (hm a ha) (hf a ha (hm a ha) h)

theorem RunCommand_applied (command : Payload) (w : World) :
    Applied [command] w (RunCommand command w).2 :=
  ⟨rfl, rfl, rfl⟩

theorem runWithKubeconfig_applied (data : M Payload) (p : Payload) (hk : KeepsShell data)
    (hp : ∀ w r, (data w).1 = .ok r → r = p) (w : World) (e : Option Err)
    (h : (runWithKubeconfig data w).1 = .ok e) :
    Applied [p] w (runWithKubeconfig data w).2 := by
  unfold runWithKubeconfig at h ⊢
  refine applied_step [] [p] h (fun _ _ => applied_keeps hk w) fun command hc _ h1 => ?_
  refine applied_step [] [p] h1 (fun _ _ => applied_keeps keepsShell_kubeconfigPath _)
    fun _ _ _ _ => ?_
  rw [hp w command hc]
  exact RunCommand_applied p _

theorem run_applied (p : Payload) (w : World) (e : Option Err)
    (h : (runWithKubeconfig (pure p) w).1 = .ok e) :
    Applied [p] w (runWithKubeconfig (pure p) w).2 :=
  runWithKubeconfig_applied (pure p) p (keepsShell_pure p)
    (fun _ _ hr => (Outcome.ok.inj hr).symm) w e h

theorem deployHetznerCloudControllerManager_applied (w : World)
    (h : (deployHetznerCloudControllerManager w).1 = .ok none) :
    Applied [.ccmSecret, .ccmManifest] w (deployHetznerCloudControllerManager w).2 := by
  unfold deployHetznerCloudControllerManager at h ⊢
  refine applied_step [] _ h (fun _ _ => applied_keeps keepsShell_checkKubectl w)
    fun a _ _ h1 => ?_
  cases a with
  | some e => simp [pure_apply] at h1
  | none =>
    refine applied_step [.ccmSecret] [.ccmManifest] h1 (fun e he => run_applied _ _ e he)
      fun a _ _ h2 => ?_
    cases a with
    | some e => simp [pure_apply] at h2
    | none =>
      have h3 := applied_step [.ccmManifest] [] h2 (fun e he => run_applied _ _ e he)
        fun a _ _ _ => by
          cases a <;> exact applied_refl _
      simpa using h3

theorem deployK3sSystemUpgradeController_applied (w : World)
    (h : (deployK3sSystemUpgradeController w).1 = .ok none) :
    Applied [.upgradeController] w (deployK3sSystemUpgradeController w).2 := by
  unfold deployK3sSystemUpgradeController at h ⊢
  refine applied_step [] _ h (fun _ _ => applied_keeps keepsShell_checkKubectl w)
    fun a _ _ h1 => ?_
  cases a with
  | some e => simp [pure_apply] at h1
  | none =>
    have h3 := applied_step [.upgradeController] [] h1 (fun e he => run_applied _ _ e he)
      fun a _ _ _ => by
        cases a <;> exact applied_refl _
    simpa using h3

theorem deployHetznerClusterAutoscaler_applied (w : World)
    (h : (deployHetznerClusterAutoscaler w).1 = .ok none) :
    Applied [.autoscalerSecret, .autoscalerManifest] w (deployHetznerClusterAutoscaler w).2 := by
  unfold deployHetznerClusterAutoscaler at h ⊢
  refine applied_step [] _ h (fun _ _ => applied_keeps keepsShell_checkKubectl w)
    fun a _ _ h1 => ?_
  cases a with
  | some e => simp [pure_apply] at h1
  | none =>
    refine applied_step [.autoscalerSecret] [.autoscalerManifest] h1
      (fun e he => run_applied _ _ e he) fun a _ _ h2 => ?_
    cases a with
    | some e => simp [pure_apply] at h2
    | none =>
      have hdata : ∀ w r, (hetznerClusterAutoscalerData w).1 = .ok r → r = .autoscalerManifest := by
        intro w r hr
        unfold hetznerClusterAutoscalerData at hr
        obtain ⟨_, _, e1⟩ := bind_ok_inv _ _ _ _ hr
        rw [e1] at hr
        obtain ⟨_, _, e2⟩ := bind_ok_inv _ _ _ _ hr
        rw [e2] at hr
        obtain ⟨_, _, e3⟩ := bind_ok_inv _ _ _ _ hr
        rw [e3] at hr
        obtain ⟨_, _, e4⟩ := bind_ok_inv _ _ _ _ hr
        rw [e4] at hr
        obtain ⟨_, _, e5⟩ := bind_ok_inv _ _ _ _ hr
        rw [e5] at hr
        obtain ⟨_, _, e6⟩ := bind_ok_inv _ _ _ _ hr
        rw [e6] at hr
        exact (Outcome.ok.inj hr).symm
      have h3 := applied_step [.autoscalerManifest] [] h2
        (fun e he => runWithKubeconfig_applied _ _ keepsShell_hetznerClusterAutoscalerData
          hdata _ e he)
        fun a _ _ _ => by
          cases a <;> exact applied_refl _
      simpa using h3

/-! ## C13: what the storage driver applies -/

theorem deployHetznerCSIDriver_applied (w : World)
    (h : (deployHetznerCSIDriver w).1 = .ok none) :
    Applied ([.csiSecret, .csiDriverDelete, .csiDriver] ++
        if w.cluster.config.scheduleCSIControllerOnMaster then [.csiControllerUpdate] else [])
      w (deployHetznerCSIDriver w).2 := by
  unfold deployHetznerCSIDriver at h ⊢
  refine applied_step [] _ h (fun _ _ => applied_keeps keepsShell_checkKubectl w)
    fun a _ k0 h1 => ?_
  cases a with
  | some e => simp [pure_apply] at h1
  | none =>
    refine applied_step [.csiSecret] _ h1 (fun e he => run_applied _ _ e he) fun a _ k1 h2 => ?_
    cases a with
    | some e => simp [pure_apply] at h2
    | none =>
      refine applied_step [.csiDriverDelete] _ h2 (fun e he => run_applied _ _ e he)
        fun a _ k2 h3 => ?_
      cases a with
      | some e => simp [pure_apply] at h3
      | none =>
        refine applied_step [.csiDriver] _ h3 (fun e he => run_applied _ _ e he)
          fun a _ k3 h4 => ?_
        cases a with
        | some e => simp [pure_apply] at h4
        | none =>
          have hflag := k3.2.1.trans (k2.2.1.trans (k1.2.1.trans k0.2.1))
          rw [← hflag]
          generalize (runWithKubeconfig (pure Payload.csiDriver) _).2 = w4 at h4 ⊢
          dsimp only at h4 ⊢
          rw [bind_apply] at h4 ⊢
          simp only [getCluster] at h4 ⊢
          by_cases hs : w4.cluster.config.scheduleCSIControllerOnMaster = true
          · rw [if_pos hs] at h4 ⊢
            rw [if_pos hs]
            have h5 := applied_step [.csiControllerUpdate] [] h4
              (fun e he => run_applied _ _ e he)
              fun a _ _ _ => by
                cases a <;> exact applied_refl _
            simpa using h5
          · rw [if_neg hs] at h4 ⊢
            rw [if_neg hs]
            exact applied_refl _

/-! ## C13: the order of the addons -/

theorem applied_step_ok {α β : Type} {m : M α} {f : α → M β} (l1 l2 : List Payload)
    {w : World} {b : β} (h : ((m >>= f) w).1 = .ok b)
    (hm : ∀ a, (m w).1 = .ok a → (f a (m w).2).1 = .ok b → Applied l1 w (m w).2)
    (hf : ∀ a, (m w).1 = .ok a → Applied l1 w (m w).2 → (f a (m w).2).1 = .ok b →
      Applied l2 (m w).2 (f a (m w).2).2) :
    Applied (l1 ++ l2) w ((m >>= f) w).2 := by
  obtain ⟨a, ha, he⟩ := bind_ok_inv m f w b h
  rw [he] at h ⊢
  exact applied_trans (hm a ha h) (hf a ha (hm a ha h) h)

/-- C13 (as the code has it): when `CreateCluster` returns without an error, the
local shell has run, after what it had run before, exactly: the secret and the
manifest of the cloud-controller-manager, the secret of the storage driver, the
deletion and the application of its manifest, the scheduling patch iff
`schedule_csi_controller_on_master` is set, then the manifest of the upgrade
controller, and the secret and the manifest of the autoscaler iff an autoscaling
pool is configured. -/
theorem CreateCluster_addon_order (order probeOrder : List Nat) (res : Node → CmdResult)
    (kubeconfigOk : Bool) (sched1 sched2 : List Nat) (w : World)
    (h : (CreateCluster order probeOrder res kubeconfigOk sched1 sched2 w).1 = .ok none) :
    (CreateCluster order probeOrder res kubeconfigOk sched1 sched2 w).2.shellLog =
      w.shellLog ++
        ([.ccmSecret, .ccmManifest, .csiSecret, .csiDriverDelete, .csiDriver] ++
          (if w.cluster.config.scheduleCSIControllerOnMaster then [.csiControllerUpdate] else []) ++
          [.upgradeController] ++
          (if w.cluster.config.autoscalingNodePools.length > 0 then
            [.autoscalerSecret, .autoscalerManifest] else [])) := by
  have key : Applied
      ([] ++ ([] ++ ([] ++ ([.ccmSecret, .ccmManifest] ++
        (([.csiSecret, .csiDriverDelete, .csiDriver] ++
          if w.cluster.config.scheduleCSIControllerOnMaster then [.csiControllerUpdate] else []) ++
        ([.upgradeController] ++
          (if w.cluster.config.autoscalingNodePools.length > 0 then
            [.autoscalerSecret, .autoscalerManifest] else [])))))))
      w (CreateCluster order probeOrder res kubeconfigOk sched1 sched2 w).2 := by
    unfold CreateCluster at h ⊢
    refine applied_step [] _ h (fun _ _ => applied_keeps keepsShell_validateCreate w)
      fun a _ k0 h1 => ?_
    cases a with
    | some e => simp [pure_apply] at h1
    | none =>
    refine applied_step [] _ h1
      (fun _ _ => applied_keeps (keepsShell_createResources order probeOrder) _)
      fun a _ k1 h2 => ?_
    cases a with
    | some e => simp [pure_apply] at h2
    | none =>
    refine applied_step [] _ h2
      (fun _ _ => applied_keeps (keepsShell_deployK3sStep res kubeconfigOk sched1 sched2) _)
      fun a _ k2 h3 => ?_
    cases a with
    | some e => simp [pure_apply] at h3
    | none =>
    refine applied_step_ok [.ccmSecret, .ccmManifest] _ h3
      (fun a ha hb => ?_) fun a _ k3 h4 => ?_
    · cases a with
      | some e => simp [pure_apply] at hb
      | none => exact deployHetznerCloudControllerManager_applied _ ha
    cases a with
    | some e => simp [pure_apply] at h4
    | none =>
    have hflag := k3.2.1.trans (k2.2.1.trans (k1.2.1.trans k0.2.1))
    have hpools := k3.2.2.trans (k2.2.2.trans (k1.2.2.trans k0.2.2))
    rw [← hflag, ← hpools]
    generalize (deployHetznerCloudControllerManager _).2 = w4 at h4 ⊢
    refine applied_step_ok _ _ h4 (fun a ha hb => ?_) fun a _ k4 h5 => ?_
    · cases a with
      | some e => simp [pure_apply] at hb
      | none => exact deployHetznerCSIDriver_applied _ ha
    cases a with
    | some e => simp [pure_apply] at h5
    | none =>
    rw [← k4.2.2]
    generalize (deployHetznerCSIDriver w4).2 = w5 at h5 ⊢
    refine applied_step_ok _ _ h5 (fun a ha hb => ?_) fun a _ k5 h6 => ?_
    · cases a with
      | some e => simp [pure_apply] at hb
      | none => exact deployK3sSystemUpgradeController_applied _ ha
    cases a with
    | some e => simp [pure_apply] at h6
    | none =>
    rw [← k5.2.2]
    generalize (deployK3sSystemUpgradeController w5).2 = w6 at h6 ⊢
    dsimp only at h6 ⊢
    rw [bind_apply] at h6 ⊢
    simp only [getCluster] at h6 ⊢
    by_cases hp : w6.cluster.config.autoscalingNodePools.length > 0
    · rw [if_pos hp] at h6 ⊢
      rw [if_pos hp]
      have h7 := applied_step_ok [.autoscalerSecret, .autoscalerManifest] [] h6
        (fun a ha hb => by
          cases a with
          | some e => simp [pure_apply] at hb
          | none => exact deployHetznerClusterAutoscaler_applied _ ha)
        fun a _ _ _ => by
          cases a <;> exact applied_refl _
      simpa using h7
    · rw [if_neg hp] at h6 ⊢
      rw [if_neg hp]
      exact applied_refl _
  rw [key.1]
  simp only [List.nil_append, List.append_assoc, List.cons_append]

/-- C13, at two runs: one master with the storage controller scheduled on it and
no autoscaling pool; and one master with an autoscaling pool and no scheduling
patch. -/
theorem CreateCluster_addon_order_witness :
    ((CreateCluster [] [] (fun _ => .ok) true [] [] healthyCreate).1 = .ok none ∧
      (CreateCluster [] [] (fun _ => .ok) true [] [] healthyCreate).2.shellLog =
        [.ccmSecret, .ccmManifest, .csiSecret, .csiDriverDelete, .csiDriver,
          .csiControllerUpdate, .upgradeController]) ∧
    ((CreateCluster [] [] (fun _ => .ok) true [] [] healthyAutoscaled).1 = .ok none ∧
      (CreateCluster [] [] (fun _ => .ok) true [] [] healthyAutoscaled).2.shellLog =
        [.ccmSecret, .ccmManifest, .csiSecret, .csiDriverDelete, .csiDriver,
          .upgradeController, .autoscalerSecret, .autoscalerManifest]) :=
  have h1 : (CreateCluster [] [] (fun _ => .ok) true [] [] healthyCreate).1 = .ok none := by
    decide!
  have h2 : (CreateCluster [] [] (fun _ => .ok) true [] [] healthyAutoscaled).1 = .ok none := by
    decide!
  ⟨⟨h1, (CreateCluster_addon_order [] [] (fun _ => .ok) true [] [] healthyCreate h1).trans
      (by decide)⟩,
    ⟨h2, (CreateCluster_addon_order [] [] (fun _ => .ok) true [] [] healthyAutoscaled h2).trans
      (by decide)⟩⟩

/-- C13, the order the spec gives does not hold: on the healthy run the manifest
of the upgrade controller is applied last, after the storage driver, not third. -/
theorem CreateCluster_upgrade_controller_after_storage_driver :
    (CreateCluster [] [] (fun _ => .ok) true [] [] healthyCreate).1 = .ok none ∧
    (CreateCluster [] [] (fun _ => .ok) true [] [] healthyCreate).2.shellLog ≠
      [.ccmSecret, .ccmManifest, .upgradeController, .csiSecret, .csiDriverDelete, .csiDriver,
        .csiControllerUpdate] ∧
    ((CreateCluster [] [] (fun _ => .ok) true [] [] healthyCreate).2.shellLog)[2]? =
      some .csiSecret := by
  decide!

/-! ## C20: the format of the version -/

theorem char_in_range (c : Char) (lo hi : Nat) (h1 : lo ≤ c.toNat) (h2 : c.toNat ≤ hi) :
    ∃ n, lo ≤ n ∧ n ≤ hi ∧ c = Char.ofNat n :=
  ⟨c.toNat, h1, h2, (Char.ofNat_toNat c).symm⟩

theorem isDigit_bounds (c : Char) : c.isDigit = true ↔ 48 ≤ c.toNat ∧ c.toNat ≤ 57 := by
  simp only [Char.isDigit, Char.toNat, Bool.and_eq_true, decide_eq_true_eq, ge_iff_le,
    UInt32.le_def, BitVec.le_def]
  exact Iff.rfl

theorem isLower_bounds (c : Char) : c.isLower = true ↔ 97 ≤ c.toNat ∧ c.toNat ≤ 122 := by
  simp only [Char.isLower, Char.toNat, Bool.and_eq_true, decide_eq_true_eq, ge_iff_le,
    UInt32.le_def, BitVec.le_def]
  exact Iff.rfl

theorem isUpper_bounds (c : Char) : c.isUpper = true ↔ 65 ≤ c.toNat ∧ c.toNat ≤ 90 := by
  simp only [Char.isUpper, Char.toNat, Bool.and_eq_true, decide_eq_true_eq, ge_iff_le,
    UInt32.le_def, BitVec.le_def]
  exact Iff.rfl

theorem mem_digitChars (c : Char) : c ∈ digitChars ↔ c.isDigit = true := by
  constructor
  · intro h
    have hall : ∀ d ∈ digitChars, d.isDigit = true := by decide
    exact hall c h
  · intro h
    obtain ⟨h1, h2⟩ := (isDigit_bounds c).mp h
    obtain ⟨n, hn1, hn2, rfl⟩ := char_in_range c 48 57 h1 h2
    interval_cases n <;> decide

theorem mem_positiveDigitChars (c : Char) :
    c ∈ positiveDigitChars ↔ c.isDigit = true ∧ c ≠ '0' := by
  constructor
  · intro h
    have hall : ∀ d ∈ positiveDigitChars, d.isDigit = true ∧ d ≠ '0' := by decide
    exact hall c h
  · rintro ⟨h, h0⟩
    obtain ⟨h1, h2⟩ := (isDigit_bounds c).mp h
    obtain ⟨n, hn1, hn2, rfl⟩ := char_in_range c 48 57 h1 h2
    interval_cases n
    · exact absurd rfl h0
    all_goals decide

theorem mem_letterChars (c : Char) : c ∈ letterChars ↔ (c.isAlpha || c = '-') = true := by
  constructor
  · intro h
    have hall : ∀ d ∈ letterChars, (d.isAlpha || d = '-') = true := by decide
    exact hall c h
  · intro h
    simp only [Bool.or_eq_true, Char.isAlpha, decide_eq_true_eq] at h
    rcases h with (h | h) | h
    · obtain ⟨h1, h2⟩ := (isUpper_bounds c).mp h
      obtain ⟨n, hn1, hn2, rfl⟩ := char_in_range c 65 90 h1 h2
      interval_cases n <;> decide
    · obtain ⟨h1, h2⟩ := (isLower_bounds c).mp h
      obtain ⟨n, hn1, hn2, rfl⟩ := char_in_range c 97 122 h1 h2
      interval_cases n <;> decide
    · rw [h]
      decide

theorem mem_identChars (c : Char) : c ∈ identChars ↔ isIdentChar c = true := by
  unfold identChars isIdentChar
  rw [List.mem_append, mem_digitChars, mem_letterChars]
  cases c.isAlpha <;> cases c.isDigit <;> simp

theorem letter_not_digit (c : Char) (h : c ∈ letterChars) : c.isDigit = false := by
  have hall : ∀ d ∈ letterChars, d.isDigit = false := by decide
  exact hall c h

theorem identChar_cases (c : Char) (h : isIdentChar c = true) :
    c.isDigit = true ∨ c ∈ letterChars := by
  rcases List.mem_append.mp ((mem_identChars c).mpr h) with h1 | h1
  · exact Or.inl ((mem_digitChars c).mp h1)
  · exact Or.inr h1

theorem mem_oneOf (cs : List Char) (x : List Char) :
    x ∈ (oneOf cs).matches' ↔ ∃ c ∈ cs, x = [c] := by
  induction cs with
  | nil =>
    simp only [oneOf, List.foldr_nil, List.not_mem_nil, false_and, exists_false, iff_false]
    exact fun h => h
  | cons c cs ih =>
    have hstep : (oneOf (c :: cs)).matches' = ({[c]} : Language Char) + (oneOf cs).matches' := rfl
    rw [hstep, Language.mem_add, ih]
    constructor
    · rintro (h | ⟨d, hd, rfl⟩)
      · exact ⟨c, List.mem_cons_self _ _, h⟩
      · exact ⟨d, List.mem_cons_of_mem _ hd, rfl⟩
    · rintro ⟨d, hd, rfl⟩
      rcases List.mem_cons.mp hd with rfl | h
      · exact Or.inl rfl
      · exact Or.inr ⟨d, h, rfl⟩

theorem mem_star_oneOf (cs : List Char) (x : List Char) :
    x ∈ (RegularExpression.star (oneOf cs)).matches' ↔ ∀ c ∈ x, c ∈ cs := by
  rw [RegularExpression.matches'_star, Language.mem_kstar]
  constructor
  · rintro ⟨L, rfl, hL⟩ c hc
    obtain ⟨y, hy, hcy⟩ := List.mem_flatten.mp hc
    obtain ⟨d, hd, rfl⟩ := (mem_oneOf cs y).mp (hL y hy)
    rw [List.mem_singleton.mp hcy]
    exact hd
  · intro h
    refine ⟨x.map fun c => [c], ?_, ?_⟩
    · clear h
      induction x with
      | nil => rfl
      | cons a x ih => simp [← ih]
    · intro y hy
      obtain ⟨c, hc, rfl⟩ := List.mem_map.mp hy
      exact (mem_oneOf cs [c]).mpr ⟨c, h c hc, rfl⟩

theorem mem_comp (r q : RegularExpression Char) (x : List Char) :
    x ∈ (RegularExpression.comp r q).matches' ↔
      ∃ a, a ∈ r.matches' ∧ ∃ b, b ∈ q.matches' ∧ x = a ++ b := by
  have h : (RegularExpression.comp r q).matches' = r.matches' * q.matches' := rfl
  rw [h, Language.mem_mul]
  constructor
  · rintro ⟨a, ha, b, hb, rfl⟩
    exact ⟨a, ha, b, hb, rfl⟩
  · rintro ⟨a, ha, b, hb, rfl⟩
    exact ⟨a, ha, b, hb, rfl⟩

theorem mem_plus (r q : RegularExpression Char) (x : List Char) :
    x ∈ (RegularExpression.plus r q).matches' ↔ x ∈ r.matches' ∨ x ∈ q.matches' := by
  have h : (RegularExpression.plus r q).matches' = r.matches' + q.matches' := rfl
  rw [h, Language.mem_add]

theorem mem_char (c : Char) (x : List Char) :
    x ∈ (RegularExpression.char c).matches' ↔ x = [c] :=
  Iff.rfl

theorem mem_char_comp (c : Char) (q : RegularExpression Char) (x : List Char) :
    x ∈ (RegularExpression.comp (.char c) q).matches' ↔ ∃ b, b ∈ q.matches' ∧ x = c :: b := by
  rw [mem_comp]
  constructor
  · rintro ⟨a, ha, b, hb, rfl⟩
    rw [(mem_char c a).mp ha]
    exact ⟨b, hb, rfl⟩
  · rintro ⟨b, hb, rfl⟩
    exact ⟨[c], rfl, b, hb, rfl⟩

theorem mem_numericRegex (x : List Char) : x ∈ numericRegex.matches' ↔ IsNumeral x := by
  unfold numericRegex IsNumeral
  rw [mem_plus, mem_char, mem_comp]
  constructor
  · rintro (h | ⟨a, ha, b, hb, rfl⟩)
    · exact Or.inl h
    · obtain ⟨d, hd, rfl⟩ := (mem_oneOf _ a).mp ha
      have hd2 := (mem_positiveDigitChars d).mp hd
      exact Or.inr ⟨d, b, rfl, hd2.1, hd2.2, fun c hc =>
        (mem_digitChars c).mp ((mem_star_oneOf _ b).mp hb c hc)⟩
  · rintro (h | ⟨d, ds, rfl, h1, h2, h3⟩)
    · exact Or.inl h
    · exact Or.inr ⟨[d], (mem_oneOf _ _).mpr ⟨d, (mem_positiveDigitChars d).mpr ⟨h1, h2⟩, rfl⟩,
        ds, (mem_star_oneOf _ ds).mpr fun c hc => (mem_digitChars c).mpr (h3 c hc), rfl⟩

theorem mem_buildIdentRegex (x : List Char) : x ∈ buildIdentRegex.matches' ↔ IsBuildIdent x := by
  unfold buildIdentRegex IsBuildIdent
  rw [mem_comp]
  constructor
  · rintro ⟨a, ha, b, hb, rfl⟩
    obtain ⟨d, hd, rfl⟩ := (mem_oneOf _ a).mp ha
    refine ⟨by simp, fun c hc => ?_⟩
    rcases List.mem_cons.mp hc with rfl | h
    · exact (mem_identChars _).mp hd
    · exact (mem_identChars c).mp ((mem_star_oneOf _ b).mp hb c h)
  · rintro ⟨hne, hall⟩
    cases x with
    | nil => exact absurd rfl hne
    | cons d ds =>
      exact ⟨[d], (mem_oneOf _ _).mpr ⟨d, (mem_identChars d).mpr (hall d (List.mem_cons_self _ _)),
          rfl⟩,
        ds, (mem_star_oneOf _ ds).mpr fun c hc =>
          (mem_identChars c).mpr (hall c (List.mem_cons_of_mem _ hc)), rfl⟩

theorem isNumeral_digits (x : List Char) (h : IsNumeral x) :
    x ≠ [] ∧ ∀ c ∈ x, c.isDigit = true := by
  rcases h with rfl | ⟨d, ds, rfl, h1, _, h3⟩
  · exact ⟨by simp, by decide⟩
  · refine ⟨by simp, fun c hc => ?_⟩
    rcases List.mem_cons.mp hc with rfl | h
    · exact h1
    · exact h3 c h

theorem isIdentChar_of_isDigit (c : Char) (h : c.isDigit = true) : isIdentChar c = true := by
  unfold isIdentChar
  rw [h]
  simp

theorem split_first_nondigit : ∀ x : List Char, (¬ ∀ c ∈ x, c.isDigit = true) →
    ∃ a l b, x = a ++ l :: b ∧ (∀ c ∈ a, c.isDigit = true) ∧ l.isDigit = false
  | [], h => absurd (fun _ hc => absurd hc (List.not_mem_nil _)) h
  | d :: ds, h => by
    cases hd : d.isDigit with
    | false => exact ⟨[], d, ds, rfl, fun _ hc => absurd hc (List.not_mem_nil _), hd⟩
    | true =>
      have hds : ¬ ∀ c ∈ ds, c.isDigit = true := by
        intro hall
        apply h
        intro c hc
        rcases List.mem_cons.mp hc with rfl | hc
        · exact hd
        · exact hall c hc
      obtain ⟨a, l, b, rfl, ha, hl⟩ := split_first_nondigit ds hds
      refine ⟨d :: a, l, b, rfl, fun c hc => ?_, hl⟩
      rcases List.mem_cons.mp hc with rfl | hc
      · exact hd
      · exact ha c hc

theorem mem_prereleaseIdentRegex (x : List Char) :
    x ∈ prereleaseIdentRegex.matches' ↔ IsPrereleaseIdent x := by
  have hnum : x ∈ prereleaseIdentRegex.matches' ↔ x ∈ numericRegex.matches' ∨
      x ∈ (RegularExpression.comp (.star (oneOf digitChars))
        (.comp (oneOf letterChars) (.star (oneOf identChars)))).matches' := by
    unfold prereleaseIdentRegex numericRegex
    rw [mem_plus, mem_plus, mem_plus, or_assoc]
  rw [hnum, mem_numericRegex]
  constructor
  · rintro (h | h)
    · obtain ⟨hne, hd⟩ := isNumeral_digits x h
      exact ⟨hne, fun c hc => isIdentChar_of_isDigit c (hd c hc), fun _ => h⟩
    · obtain ⟨a, ha, y, hy, rfl⟩ := (mem_comp _ _ x).mp h
      obtain ⟨l, hl, b, hb, rfl⟩ := (mem_comp _ _ y).mp hy
      obtain ⟨c, hc, rfl⟩ := (mem_oneOf _ l).mp hl
      have hdig := (mem_star_oneOf _ a).mp ha
      have hid := (mem_star_oneOf _ b).mp hb
      refine ⟨by simp, fun d hd => ?_, fun hall => ?_⟩
      · rcases List.mem_append.mp hd with h1 | h1
        · exact isIdentChar_of_isDigit d ((mem_digitChars d).mp (hdig d h1))
        · rcases List.mem_append.mp h1 with h2 | h2
          · rw [List.mem_singleton.mp h2]
            exact (mem_identChars c).mp (List.mem_append_right _ hc)
          · exact (mem_identChars d).mp (hid d h2)
      · have h1 := hall c (by simp)
        rw [letter_not_digit c hc] at h1
        exact absurd h1 (by simp)
  · rintro ⟨hne, hid, hnum⟩
    by_cases hall : ∀ c ∈ x, c.isDigit = true
    · exact Or.inl (hnum hall)
    · obtain ⟨a, l, b, rfl, ha, hl⟩ := split_first_nondigit x hall
      refine Or.inr ((mem_comp _ _ _).mpr ⟨a, ?_, l :: b, ?_, rfl⟩)
      · exact (mem_star_oneOf _ a).mpr fun c hc => (mem_digitChars c).mpr (ha c hc)
      · refine (mem_comp _ _ _).mpr ⟨[l], ?_, b, ?_, rfl⟩
        · refine (mem_oneOf _ _).mpr ⟨l, ?_, rfl⟩
          rcases identChar_cases l (hid l (by simp)) with h1 | h1
          · rw [hl] at h1
            exact absurd h1 (by simp)
          · exact h1
        · exact (mem_star_oneOf _ b).mpr fun c hc =>
            (mem_identChars c).mpr (hid c (by simp [hc]))

theorem dotted_cons (i : List Char) (rest : List (List Char)) :
    dotted (i :: rest) = i ++ (rest.map fun j => '.' :: j).flatten := by
  unfold dotted
  induction rest generalizing i with
  | nil => simp [List.intercalate]
  | cons j rest ih =>
    have h := ih j
    simp only [List.intercalate, List.intersperse, List.flatten, List.map] at h ⊢
    rw [h]
    simp

theorem mem_star_dot (r : RegularExpression Char) (P : List Char → Prop)
    (h : ∀ y, y ∈ r.matches' ↔ P y) (x : List Char) :
    x ∈ (RegularExpression.star (.comp (.char '.') r)).matches' ↔
      ∃ rest : List (List Char), (∀ j ∈ rest, P j) ∧ x = (rest.map fun j => '.' :: j).flatten := by
  rw [RegularExpression.matches'_star, Language.mem_kstar]
  constructor
  · rintro ⟨L, rfl, hL⟩
    induction L with
    | nil => exact ⟨[], by simp, rfl⟩
    | cons z L ih =>
      obtain ⟨rest, hrest, he⟩ := ih fun y hy => hL y (List.mem_cons_of_mem _ hy)
      obtain ⟨b, hb, rfl⟩ := (mem_char_comp '.' r z).mp (hL z (List.mem_cons_self _ _))
      refine ⟨b :: rest, fun j hj => ?_, ?_⟩
      · rcases List.mem_cons.mp hj with rfl | hj
        · exact (h _).mp hb
        · exact hrest j hj
      · simp only [List.flatten_cons, List.map_cons, he]
  · rintro ⟨rest, hrest, rfl⟩
    refine ⟨rest.map fun j => '.' :: j, rfl, fun y hy => ?_⟩
    obtain ⟨j, hj, rfl⟩ := List.mem_map.mp hy
    exact (mem_char_comp '.' r _).mpr ⟨j, (h j).mpr (hrest j hj), rfl⟩

theorem mem_dotSeparated (r : RegularExpression Char) (P : List Char → Prop)
    (h : ∀ y, y ∈ r.matches' ↔ P y) (x : List Char) :
    x ∈ (dotSeparated r).matches' ↔
      ∃ ids : List (List Char), ids ≠ [] ∧ (∀ i ∈ ids, P i) ∧ x = dotted ids := by
  unfold dotSeparated
  rw [mem_comp]
  constructor
  · rintro ⟨a, ha, b, hb, rfl⟩
    obtain ⟨rest, hrest, rfl⟩ := (mem_star_dot r P h b).mp hb
    refine ⟨a :: rest, by simp, fun i hi => ?_, (dotted_cons a rest).symm⟩
    rcases List.mem_cons.mp hi with rfl | hi
    · exact (h _).mp ha
    · exact hrest i hi
  · rintro ⟨ids, hne, hall, rfl⟩
    cases ids with
    | nil => exact absurd rfl hne
    | cons i rest =>
      exact ⟨i, (h i).mpr (hall i (List.mem_cons_self _ _)), _,
        (mem_star_dot r P h _).mpr ⟨rest, fun j hj => hall j (List.mem_cons_of_mem _ hj), rfl⟩,
        dotted_cons i rest⟩

theorem mem_suffix (mark : Char) (r : RegularExpression Char) (P : List Char → Prop)
    (h : ∀ y, y ∈ r.matches' ↔ P y) (x : List Char) :
    x ∈ (optional (.comp (.char mark) (dotSeparated r))).matches' ↔
      ∃ o : Option (List (List Char)),
        (∀ ids, o = some ids → ids ≠ [] ∧ ∀ i ∈ ids, P i) ∧ x = suffixText mark o := by
  unfold optional
  rw [mem_plus, mem_char_comp]
  constructor
  · rintro (hx | ⟨b, hb, rfl⟩)
    · exact ⟨none, fun _ hn => absurd hn (by simp), hx⟩
    · obtain ⟨ids, hne, hall, rfl⟩ := (mem_dotSeparated r P h b).mp hb
      refine ⟨some ids, fun ids2 he => ?_, rfl⟩
      rw [← Option.some.inj he]
      exact ⟨hne, hall⟩
  · rintro ⟨o, ho, rfl⟩
    cases o with
    | none => exact Or.inl rfl
    | some ids =>
      obtain ⟨hne, hall⟩ := ho ids rfl
      exact Or.inr ⟨dotted ids, (mem_dotSeparated r P h _).mpr ⟨ids, hne, hall, rfl⟩, rfl⟩

theorem validateVersion_iff_mem (s : String) :
    validateVersion s = true ↔ s.data ∈ semverRegex.matches' := by
  unfold validateVersion
  exact RegularExpression.rmatch_iff_matches' semverRegex s.data

theorem mem_semverRegex (x : List Char) :
    x ∈ semverRegex.matches' ↔
      ∃ (major minor patch : List Char) (pre build : Option (List (List Char))),
        IsNumeral major ∧ IsNumeral minor ∧ IsNumeral patch ∧
        (∀ ids, pre = some ids → ids ≠ [] ∧ ∀ i ∈ ids, IsPrereleaseIdent i) ∧
        (∀ ids, build = some ids → ids ≠ [] ∧ ∀ i ∈ ids, IsBuildIdent i) ∧
        x = 'v' :: (major ++ '.' :: (minor ++ '.' :: (patch ++
          (suffixText '-' pre ++ suffixText '+' build)))) := by
  unfold semverRegex
  constructor
  · intro h
    obtain ⟨b1, h1, e1⟩ := (mem_char_comp 'v' _ x).mp h
    obtain ⟨major, hmaj, b2, h2, rfl⟩ := (mem_comp _ _ b1).mp h1
    obtain ⟨b3, h3, rfl⟩ := (mem_char_comp '.' _ b2).mp h2
    obtain ⟨minor, hmin, b4, h4, rfl⟩ := (mem_comp _ _ b3).mp h3
    obtain ⟨b5, h5, rfl⟩ := (mem_char_comp '.' _ b4).mp h4
    obtain ⟨patch, hpat, b6, h6, rfl⟩ := (mem_comp _ _ b5).mp h5
    obtain ⟨p, hp, q, hq, rfl⟩ := (mem_comp _ _ b6).mp h6
    obtain ⟨pre, hpre, rfl⟩ := (mem_suffix '-' _ _ mem_prereleaseIdentRegex p).mp hp
    obtain ⟨build, hbuild, rfl⟩ := (mem_suffix '+' _ _ mem_buildIdentRegex q).mp hq
    exact ⟨major, minor, patch, pre, build, (mem_numericRegex _).mp hmaj,
      (mem_numericRegex _).mp hmin, (mem_numericRegex _).mp hpat, hpre, hbuild, e1⟩
  · rintro ⟨major, minor, patch, pre, build, hmaj, hmin, hpat, hpre, hbuild, rfl⟩
    refine (mem_char_comp 'v' _ _).mpr ⟨_, ?_, rfl⟩
    refine (mem_comp _ _ _).mpr ⟨major, (mem_numericRegex _).mpr hmaj, _, ?_, rfl⟩
    refine (mem_char_comp '.' _ _).mpr ⟨_, ?_, rfl⟩
    refine (mem_comp _ _ _).mpr ⟨minor, (mem_numericRegex _).mpr hmin, _, ?_, rfl⟩
    refine (mem_char_comp '.' _ _).mpr ⟨_, ?_, rfl⟩
    refine (mem_comp _ _ _).mpr ⟨patch, (mem_numericRegex _).mpr hpat, _, ?_, rfl⟩
    exact (mem_comp _ _ _).mpr
      ⟨_, (mem_suffix '-' _ _ mem_prereleaseIdentRegex _).mpr ⟨pre, hpre, rfl⟩,
        _, (mem_suffix '+' _ _ mem_buildIdentRegex _).mpr ⟨build, hbuild, rfl⟩, rfl⟩

theorem Validate_of_bad_version (lib : ValidatorLib) (c : Config)
    (h : validateVersion c.k3sVersion = false) : (c.Validate lib).isSome = true := by
  have hf : c.fieldsValid lib = false := by
    unfold Config.fieldsValid
    rw [h]
    simp
  unfold Config.Validate
  rw [hf]
  rfl

/-- C20: `validateVersion` accepts exactly the texts of the form
`v<MAJOR>.<MINOR>.<PATCH>` with numeric components without leading zeros, an
optional `-prerelease` and an optional `+build` (each one or more dot-separated
identifiers); `Config.Validate` returns an error for every configuration whose
`k3s_version` is not of that form, whatever the other fields are; and a text that
does not start with `v` is not accepted. -/
theorem validateVersion_accepts_exactly_version_form :
    (∀ s : String, validateVersion s = true ↔ VersionForm s) ∧
    (∀ (lib : ValidatorLib) (c : Config), ¬ VersionForm c.k3sVersion →
      (c.Validate lib).isSome = true) ∧
    (∀ s : String, s.data.head? ≠ some 'v' → validateVersion s = false) := by
  have hiff : ∀ s : String, validateVersion s = true ↔ VersionForm s := fun s =>
    (validateVersion_iff_mem s).trans (mem_semverRegex s.data)
  refine ⟨hiff, fun lib c hc => ?_, fun s hs => ?_⟩
  · apply Validate_of_bad_version
    cases hv : validateVersion c.k3sVersion with
    | false => rfl
    | true => exact absurd ((hiff _).mp hv) hc
  · cases hv : validateVersion s with
    | false => rfl
    | true =>
      obtain ⟨_, _, _, _, _, _, _, _, _, _, he⟩ := (hiff s).mp hv
      rw [he] at hs
      exact absurd rfl hs

/-- C20, on the versions of `TestConfig_Validate`: `v1.24+k3s1` is not of the
form and the configuration with it is refused; `v1.24.3+k3s1` is of the form and
the same configuration with it is valid; without the `v` it is refused. -/
theorem validateVersion_accepts_exactly_version_form_witness :
    (¬ VersionForm "v1.24+k3s1" ∧
      ((minimalConfig "v1.24+k3s1").Validate demoValidator).isSome = true) ∧
    (VersionForm "v1.24.3+k3s1" ∧
      (minimalConfig "v1.24.3+k3s1").Validate demoValidator = none) ∧
    validateVersion "1.24.3+k3s1" = false :=
  have hnot : ¬ VersionForm "v1.24+k3s1" := fun h =>
    absurd ((validateVersion_accepts_exactly_version_form.1 "v1.24+k3s1").mpr h) (by decide)
  ⟨⟨hnot, validateVersion_accepts_exactly_version_form.2.1 demoValidator
      (minimalConfig "v1.24+k3s1") hnot⟩,
    ⟨(validateVersion_accepts_exactly_version_form.1 "v1.24.3+k3s1").mp (by decide), by decide⟩,
    validateVersion_accepts_exactly_version_form.2.2 "1.24.3+k3s1" (by decide)⟩

/-! ## The cached load balancer is kept -/

theorem keepsBalancer_iff {α : Type} (m : M α) :
    KeepsBalancer m ↔ ∀ w, (m w).2.cluster.loadBalancer = w.cluster.loadBalancer := by
  unfold KeepsBalancer
  exact Iff.rfl

theorem keepsBalancer_pure {α : Type} (a : α) : KeepsBalancer (pure a : M α) :=
  (keepsBalancer_iff _).mpr fun _ => rfl

theorem keepsBalancer_halt {α : Type} (x : Halt) : KeepsBalancer (halt x : M α) :=
  (keepsBalancer_iff _).mpr fun _ => rfl

theorem keepsBalancer_getCluster : KeepsBalancer getCluster :=
  (keepsBalancer_iff _).mpr fun _ => rfl

theorem keepsBalancer_getEnv : KeepsBalancer getEnv :=
  (keepsBalancer_iff _).mpr fun _ => rfl

theorem keepsBalancer_getProvider : KeepsBalancer getProvider :=
  (keepsBalancer_iff _).mpr fun _ => rfl

theorem keepsBalancer_modifyProvider (f : Provider → Provider) :
    KeepsBalancer (modifyProvider f) :=
  (keepsBalancer_iff _).mpr fun _ => rfl

theorem keepsBalancer_modifyCluster (f : Cluster → Cluster)
    (hf : ∀ c, (f c).loadBalancer = c.loadBalancer) :
    KeepsBalancer (modifyCluster f) :=
  (keepsBalancer_iff _).mpr fun w => hf w.cluster

theorem keepsBalancer_api (c : Call) : KeepsBalancer (api c) :=
  (keepsBalancer_iff _).mpr fun _ => rfl

theorem keepsBalancer_SSHCommand (address command : String) :
    KeepsBalancer (SSHCommand address command) :=
  (keepsBalancer_iff _).mpr fun _ => rfl

theorem keepsBalancer_bind {α β : Type} {m : M α} {f : α → M β}
    (hm : KeepsBalancer m) (hf : ∀ a, KeepsBalancer (f a)) : KeepsBalancer (m >>= f) := by
  rw [keepsBalancer_iff] at hm ⊢
  intro w
  have h1 := hm w
  rw [bind_apply]
  generalize m w = r at h1
  obtain ⟨o, w1⟩ := r
  cases o with
  | halt x => exact h1
  | ok a =>
    have h2 := (keepsBalancer_iff _).mp (hf a) w1
    exact h2.trans h1

theorem keepsBalancer_apiCall {α : Type} (c : Call) (k : M α) (hk : KeepsBalancer k) :
    KeepsBalancer (apiCall c k) := by
  unfold apiCall
  refine keepsBalancer_bind (keepsBalancer_api c) fun failed => ?_
  split
  · exact keepsBalancer_pure _
  · exact keepsBalancer_bind hk fun a => keepsBalancer_pure _

theorem keepsBalancer_forEach {α β : Type} (f : α → M β) (hf : ∀ a, KeepsBalancer (f a)) :
    ∀ l : List α, KeepsBalancer (forEach f l)
  | [] => by
    unfold forEach
    exact keepsBalancer_pure _
  | a :: l => by
    unfold forEach
    exact keepsBalancer_bind (hf a) fun b =>
      keepsBalancer_bind (keepsBalancer_forEach f hf l) fun bs => keepsBalancer_pure _

theorem keepsBalancer_retryDo (o : M (Option Err)) (ho : KeepsBalancer o) :
    ∀ n : Nat, KeepsBalancer (retryDo n o)
  | 0 => by
    unfold retryDo
    exact keepsBalancer_pure _
  | n + 1 => by
    unfold retryDo
    refine keepsBalancer_bind ho fun r => ?_
    split
    · exact keepsBalancer_pure _
    · exact keepsBalancer_retryDo o ho n

theorem keepsBalancer_serverGet (name : String) : KeepsBalancer (serverGet name) := by
  unfold serverGet
  refine keepsBalancer_apiCall _ _ ?_
  repeat' first
    | exact keepsBalancer_pure _
    | exact keepsBalancer_halt _
    | exact keepsBalancer_getCluster
    | exact keepsBalancer_getEnv
    | exact keepsBalancer_getProvider
    | exact keepsBalancer_modifyProvider _
    | exact keepsBalancer_modifyCluster _ (fun _ => rfl)
    | exact keepsBalancer_SSHCommand _ _
    | apply keepsBalancer_bind
    | split
    | intro _
    | dsimp only

theorem keepsBalancer_serverCreate (opts : ServerCreateOpts) : KeepsBalancer (serverCreate opts) := by
  unfold serverCreate
  refine keepsBalancer_apiCall _ _ ?_
  repeat' first
    | exact keepsBalancer_pure _
    | exact keepsBalancer_halt _
    | exact keepsBalancer_getCluster
    | exact keepsBalancer_getEnv
    | exact keepsBalancer_getProvider
    | exact keepsBalancer_modifyProvider _
    | exact keepsBalancer_modifyCluster _ (fun _ => rfl)
    | exact keepsBalancer_SSHCommand _ _
    | apply keepsBalancer_bind
    | split
    | intro _
    | dsimp only

theorem keepsBalancer_sshKeyGet (name : String) : KeepsBalancer (sshKeyGet name) := by
  unfold sshKeyGet
  refine keepsBalancer_apiCall _ _ ?_
  repeat' first
    | exact keepsBalancer_pure _
    | exact keepsBalancer_halt _
    | exact keepsBalancer_getCluster
    | exact keepsBalancer_getEnv
    | exact keepsBalancer_getProvider
    | exact keepsBalancer_modifyProvider _
    | exact keepsBalancer_modifyCluster _ (fun _ => rfl)
    | exact keepsBalancer_SSHCommand _ _
    | apply keepsBalancer_bind
    | split
    | intro _
    | dsimp only

theorem keepsBalancer_sshKeyCreate (name publicKey : String) : KeepsBalancer (sshKeyCreate name publicKey) := by
  unfold sshKeyCreate
  refine keepsBalancer_apiCall _ _ ?_
  repeat' first
    | exact keepsBalancer_pure _
    | exact keepsBalancer_halt _
    | exact keepsBalancer_getCluster
    | exact keepsBalancer_getEnv
    | exact keepsBalancer_getProvider
    | exact keepsBalancer_modifyProvider _
    | exact keepsBalancer_modifyCluster _ (fun _ => rfl)
    | exact keepsBalancer_SSHCommand _ _
    | apply keepsBalancer_bind
    | split
    | intro _
    | dsimp only

theorem keepsBalancer_networkGet (name : String) : KeepsBalancer (networkGet name) := by
  unfold networkGet
  refine keepsBalancer_apiCall _ _ ?_
  repeat' first
    | exact keepsBalancer_pure _
    | exact keepsBalancer_halt _
    | exact keepsBalancer_getCluster
    | exact keepsBalancer_getEnv
    | exact keepsBalancer_getProvider
    | exact keepsBalancer_modifyProvider _
    | exact keepsBalancer_modifyCluster _ (fun _ => rfl)
    | exact keepsBalancer_SSHCommand _ _
    | apply keepsBalancer_bind
    | split
    | intro _
    | dsimp only

theorem keepsBalancer_networkCreate (name : String) (ipRange : Option IPNet) : KeepsBalancer (networkCreate name ipRange) := by
  unfold networkCreate
  refine keepsBalancer_apiCall _ _ ?_
  repeat' first
    | exact keepsBalancer_pure _
    | exact keepsBalancer_halt _
    | exact keepsBalancer_getCluster
    | exact keepsBalancer_getEnv
    | exact keepsBalancer_getProvider
    | exact keepsBalancer_modifyProvider _
    | exact keepsBalancer_modifyCluster _ (fun _ => rfl)
    | exact keepsBalancer_SSHCommand _ _
    | apply keepsBalancer_bind
    | split
    | intro _
    | dsimp only

theorem keepsBalancer_networkAddSubnet (n : Network) (s : Subnet) : KeepsBalancer (networkAddSubnet n s) := by
  unfold networkAddSubnet
  refine keepsBalancer_apiCall _ _ ?_
  repeat' first
    | exact keepsBalancer_pure _
    | exact keepsBalancer_halt _
    | exact keepsBalancer_getCluster
    | exact keepsBalancer_getEnv
    | exact keepsBalancer_getProvider
    | exact keepsBalancer_modifyProvider _
    | exact keepsBalancer_modifyCluster _ (fun _ => rfl)
    | exact keepsBalancer_SSHCommand _ _
    | apply keepsBalancer_bind
    | split
    | intro _
    | dsimp only

theorem keepsBalancer_firewallGet (name : String) : KeepsBalancer (firewallGet name) := by
  unfold firewallGet
  refine keepsBalancer_apiCall _ _ ?_
  repeat' first
    | exact keepsBalancer_pure _
    | exact keepsBalancer_halt _
    | exact keepsBalancer_getCluster
    | exact keepsBalancer_getEnv
    | exact keepsBalancer_getProvider
    | exact keepsBalancer_modifyProvider _
    | exact keepsBalancer_modifyCluster _ (fun _ => rfl)
    | exact keepsBalancer_SSHCommand _ _
    | apply keepsBalancer_bind
    | split
    | intro _
    | dsimp only

theorem keepsBalancer_firewallCreate (name : String) (rules : List FirewallRule) : KeepsBalancer (firewallCreate name rules) := by
  unfold firewallCreate
  refine keepsBalancer_apiCall _ _ ?_
  repeat' first
    | exact keepsBalancer_pure _
    | exact keepsBalancer_halt _
    | exact keepsBalancer_getCluster
    | exact keepsBalancer_getEnv
    | exact keepsBalancer_getProvider
    | exact keepsBalancer_modifyProvider _
    | exact keepsBalancer_modifyCluster _ (fun _ => rfl)
    | exact keepsBalancer_SSHCommand _ _
    | apply keepsBalancer_bind
    | split
    | intro _
    | dsimp only

theorem keepsBalancer_firewallSetRules (fw : Firewall) (rules : List FirewallRule) : KeepsBalancer (firewallSetRules fw rules) := by
  unfold firewallSetRules
  refine keepsBalancer_apiCall _ _ ?_
  repeat' first
    | exact keepsBalancer_pure _
    | exact keepsBalancer_halt _
    | exact keepsBalancer_getCluster
    | exact keepsBalancer_getEnv
    | exact keepsBalancer_getProvider
    | exact keepsBalancer_modifyProvider _
    | exact keepsBalancer_modifyCluster _ (fun _ => rfl)
    | exact keepsBalancer_SSHCommand _ _
    | apply keepsBalancer_bind
    | split
    | intro _
    | dsimp only

theorem keepsBalancer_placementGroupGet (name : String) : KeepsBalancer (placementGroupGet name) := by
  unfold placementGroupGet
  refine keepsBalancer_apiCall _ _ ?_
  repeat' first
    | exact keepsBalancer_pure _
    | exact keepsBalancer_halt _
    | exact keepsBalancer_getCluster
    | exact keepsBalancer_getEnv
    | exact keepsBalancer_getProvider
    | exact keepsBalancer_modifyProvider _
    | exact keepsBalancer_modifyCluster _ (fun _ => rfl)
    | exact keepsBalancer_SSHCommand _ _
    | apply keepsBalancer_bind
    | split
    | intro _
    | dsimp only

theorem keepsBalancer_placementGroupCreate (name : String) : KeepsBalancer (placementGroupCreate name) := by
  unfold placementGroupCreate
  refine keepsBalancer_apiCall _ _ ?_
  repeat' first
    | exact keepsBalancer_pure _
    | exact keepsBalancer_halt _
    | exact keepsBalancer_getCluster
    | exact keepsBalancer_getEnv
    | exact keepsBalancer_getProvider
    | exact keepsBalancer_modifyProvider _
    | exact keepsBalancer_modifyCluster _ (fun _ => rfl)
    | exact keepsBalancer_SSHCommand _ _
    | apply keepsBalancer_bind
    | split
    | intro _
    | dsimp only

theorem keepsBalancer_locationGet (name : String) : KeepsBalancer (locationGet name) := by
  unfold locationGet
  refine keepsBalancer_apiCall _ _ ?_
  repeat' first
    | exact keepsBalancer_pure _
    | exact keepsBalancer_halt _
    | exact keepsBalancer_getCluster
    | exact keepsBalancer_getEnv
    | exact keepsBalancer_getProvider
    | exact keepsBalancer_modifyProvider _
    | exact keepsBalancer_modifyCluster _ (fun _ => rfl)
    | exact keepsBalancer_SSHCommand _ _
    | apply keepsBalancer_bind
    | split
    | intro _
    | dsimp only

theorem keepsBalancer_CreateServer (opts : ServerCreateOpts) : KeepsBalancer (CreateServer opts) := by
  unfold CreateServer
  repeat' first
    | exact keepsBalancer_pure _
    | exact keepsBalancer_halt _
    | exact keepsBalancer_getCluster
    | exact keepsBalancer_getEnv
    | exact keepsBalancer_getProvider
    | exact keepsBalancer_modifyProvider _
    | exact keepsBalancer_modifyCluster _ (fun _ => rfl)
    | exact keepsBalancer_SSHCommand _ _
    | exact keepsBalancer_serverGet _
    | exact keepsBalancer_serverCreate _
    | apply keepsBalancer_bind
    | split
    | intro _
    | dsimp only

theorem keepsBalancer_CreateSSHKey : KeepsBalancer CreateSSHKey := by
  unfold CreateSSHKey
  repeat' first
    | exact keepsBalancer_pure _
    | exact keepsBalancer_halt _
    | exact keepsBalancer_getCluster
    | exact keepsBalancer_getEnv
    | exact keepsBalancer_getProvider
    | exact keepsBalancer_modifyProvider _
    | exact keepsBalancer_modifyCluster _ (fun _ => rfl)
    | exact keepsBalancer_SSHCommand _ _
    | exact keepsBalancer_sshKeyGet _
    | exact keepsBalancer_sshKeyCreate _ _
    | apply keepsBalancer_bind
    | split
    | intro _
    | dsimp only

theorem keepsBalancer_addSubnet (n : Network) : KeepsBalancer (addSubnet n) := by
  unfold addSubnet
  repeat' first
    | exact keepsBalancer_pure _
    | exact keepsBalancer_halt _
    | exact keepsBalancer_getCluster
    | exact keepsBalancer_getEnv
    | exact keepsBalancer_getProvider
    | exact keepsBalancer_modifyProvider _
    | exact keepsBalancer_modifyCluster _ (fun _ => rfl)
    | exact keepsBalancer_SSHCommand _ _
    | exact keepsBalancer_networkAddSubnet _ _
    | apply keepsBalancer_bind
    | split
    | intro _
    | dsimp only

theorem keepsBalancer_CreateNetwork : KeepsBalancer CreateNetwork := by
  unfold CreateNetwork
  repeat' first
    | exact keepsBalancer_pure _
    | exact keepsBalancer_halt _
    | exact keepsBalancer_getCluster
    | exact keepsBalancer_getEnv
    | exact keepsBalancer_getProvider
    | exact keepsBalancer_modifyProvider _
    | exact keepsBalancer_modifyCluster _ (fun _ => rfl)
    | exact keepsBalancer_SSHCommand _ _
    | exact keepsBalancer_networkGet _
    | exact keepsBalancer_networkCreate _ _
    | exact keepsBalancer_addSubnet _
    | apply keepsBalancer_bind
    | split
    | intro _
    | dsimp only

theorem keepsBalancer_CreateFirewall : KeepsBalancer CreateFirewall := by
  unfold CreateFirewall
  repeat' first
    | exact keepsBalancer_pure _
    | exact keepsBalancer_halt _
    | exact keepsBalancer_getCluster
    | exact keepsBalancer_getEnv
    | exact keepsBalancer_getProvider
    | exact keepsBalancer_modifyProvider _
    | exact keepsBalancer_modifyCluster _ (fun _ => rfl)
    | exact keepsBalancer_SSHCommand _ _
    | exact keepsBalancer_firewallGet _
    | exact keepsBalancer_firewallCreate _ _
    | exact keepsBalancer_firewallSetRules _ _
    | apply keepsBalancer_bind
    | split
    | intro _
    | dsimp only

theorem keepsBalancer_CreatePlacementGroup (name : String) : KeepsBalancer (CreatePlacementGroup name) := by
  unfold CreatePlacementGroup
  repeat' first
    | exact keepsBalancer_pure _
    | exact keepsBalancer_halt _
    | exact keepsBalancer_getCluster
    | exact keepsBalancer_getEnv
    | exact keepsBalancer_getProvider
    | exact keepsBalancer_modifyProvider _
    | exact keepsBalancer_modifyCluster _ (fun _ => rfl)
    | exact keepsBalancer_SSHCommand _ _
    | exact keepsBalancer_placementGroupGet _
    | exact keepsBalancer_placementGroupCreate _
    | apply keepsBalancer_bind
    | split
    | intro _
    | dsimp only

theorem keepsBalancer_sshKey : KeepsBalancer sshKey := by
  unfold sshKey
  repeat' first
    | exact keepsBalancer_pure _
    | exact keepsBalancer_halt _
    | exact keepsBalancer_getCluster
    | exact keepsBalancer_getEnv
    | exact keepsBalancer_getProvider
    | exact keepsBalancer_modifyProvider _
    | exact keepsBalancer_modifyCluster _ (fun _ => rfl)
    | exact keepsBalancer_SSHCommand _ _
    | exact keepsBalancer_CreateSSHKey
    | apply keepsBalancer_bind
    | split
    | intro _
    | dsimp only

theorem keepsBalancer_network : KeepsBalancer network := by
  unfold network
  repeat' first
    | exact keepsBalancer_pure _
    | exact keepsBalancer_halt _
    | exact keepsBalancer_getCluster
    | exact keepsBalancer_getEnv
    | exact keepsBalancer_getProvider
    | exact keepsBalancer_modifyProvider _
    | exact keepsBalancer_modifyCluster _ (fun _ => rfl)
    | exact keepsBalancer_SSHCommand _ _
    | exact keepsBalancer_CreateNetwork
    | apply keepsBalancer_bind
    | split
    | intro _
    | dsimp only

theorem keepsBalancer_firewall : KeepsBalancer firewall := by
  unfold firewall
  repeat' first
    | exact keepsBalancer_pure _
    | exact keepsBalancer_halt _
    | exact keepsBalancer_getCluster
    | exact keepsBalancer_getEnv
    | exact keepsBalancer_getProvider
    | exact keepsBalancer_modifyProvider _
    | exact keepsBalancer_modifyCluster _ (fun _ => rfl)
    | exact keepsBalancer_SSHCommand _ _
    | exact keepsBalancer_CreateFirewall
    | apply keepsBalancer_bind
    | split
    | intro _
    | dsimp only

theorem keepsBalancer_placementGroup (name : String) : KeepsBalancer (placementGroup name) := by
  unfold placementGroup
  repeat' first
    | exact keepsBalancer_pure _
    | exact keepsBalancer_halt _
    | exact keepsBalancer_getCluster
    | exact keepsBalancer_getEnv
    | exact keepsBalancer_getProvider
    | exact keepsBalancer_modifyProvider _
    | exact keepsBalancer_modifyCluster _ (fun _ => rfl)
    | exact keepsBalancer_SSHCommand _ _
    | exact keepsBalancer_CreatePlacementGroup _
    | apply keepsBalancer_bind
    | split
    | intro _
    | dsimp only

theorem keepsBalancer_mustLocation (name : String) : KeepsBalancer (mustLocation name) := by
  unfold mustLocation
  repeat' first
    | exact keepsBalancer_pure _
    | exact keepsBalancer_halt _
    | exact keepsBalancer_getCluster
    | exact keepsBalancer_getEnv
    | exact keepsBalancer_getProvider
    | exact keepsBalancer_modifyProvider _
    | exact keepsBalancer_modifyCluster _ (fun _ => rfl)
    | exact keepsBalancer_SSHCommand _ _
    | exact keepsBalancer_locationGet _
    | apply keepsBalancer_bind
    | split
    | intro _
    | dsimp only

theorem keepsBalancer_masterLocation : KeepsBalancer masterLocation := by
  unfold masterLocation
  repeat' first
    | exact keepsBalancer_pure _
    | exact keepsBalancer_halt _
    | exact keepsBalancer_getCluster
    | exact keepsBalancer_getEnv
    | exact keepsBalancer_getProvider
    | exact keepsBalancer_modifyProvider _
    | exact keepsBalancer_modifyCluster _ (fun _ => rfl)
    | exact keepsBalancer_SSHCommand _ _
    | exact keepsBalancer_mustLocation _
    | apply keepsBalancer_bind
    | split
    | intro _
    | dsimp only

theorem keepsBalancer_userData : KeepsBalancer userData := by
  unfold userData
  repeat' first
    | exact keepsBalancer_pure _
    | exact keepsBalancer_halt _
    | exact keepsBalancer_getCluster
    | exact keepsBalancer_getEnv
    | exact keepsBalancer_getProvider
    | exact keepsBalancer_modifyProvider _
    | exact keepsBalancer_modifyCluster _ (fun _ => rfl)
    | exact keepsBalancer_SSHCommand _ _
    | apply keepsBalancer_bind
    | split
    | intro _
    | dsimp only

theorem keepsBalancer_masterDefinition (i : Nat) : KeepsBalancer (masterDefinition i) := by
  unfold masterDefinition
  repeat' first
    | exact keepsBalancer_pure _
    | exact keepsBalancer_halt _
    | exact keepsBalancer_getCluster
    | exact keepsBalancer_getEnv
    | exact keepsBalancer_getProvider
    | exact keepsBalancer_modifyProvider _
    | exact keepsBalancer_modifyCluster _ (fun _ => rfl)
    | exact keepsBalancer_SSHCommand _ _
    | exact keepsBalancer_sshKey
    | exact keepsBalancer_network
    | exact keepsBalancer_firewall
    | exact keepsBalancer_placementGroup _
    | exact keepsBalancer_masterLocation
    | exact keepsBalancer_userData
    | apply keepsBalancer_bind
    | split
    | intro _
    | dsimp only

theorem keepsBalancer_workerDefinition (pool : WorkerConfig) (i : Nat) : KeepsBalancer (workerDefinition pool i) := by
  unfold workerDefinition
  repeat' first
    | exact keepsBalancer_pure _
    | exact keepsBalancer_halt _
    | exact keepsBalancer_getCluster
    | exact keepsBalancer_getEnv
    | exact keepsBalancer_getProvider
    | exact keepsBalancer_modifyProvider _
    | exact keepsBalancer_modifyCluster _ (fun _ => rfl)
    | exact keepsBalancer_SSHCommand _ _
    | exact keepsBalancer_sshKey
    | exact keepsBalancer_network
    | exact keepsBalancer_firewall
    | exact keepsBalancer_placementGroup _
    | exact keepsBalancer_mustLocation _
    | exact keepsBalancer_userData
    | apply keepsBalancer_bind
    | split
    | intro _
    | dsimp only

theorem keepsBalancer_readyProbe (server : Server) : KeepsBalancer (readyProbe server) := by
  unfold readyProbe
  repeat' first
    | exact keepsBalancer_pure _
    | exact keepsBalancer_halt _
    | exact keepsBalancer_getCluster
    | exact keepsBalancer_getEnv
    | exact keepsBalancer_getProvider
    | exact keepsBalancer_modifyProvider _
    | exact keepsBalancer_modifyCluster _ (fun _ => rfl)
    | exact keepsBalancer_SSHCommand _ _
    | apply keepsBalancer_bind
    | split
    | intro _
    | dsimp only


theorem keepsBalancer_masterDefinitionsForCreate : KeepsBalancer masterDefinitionsForCreate := by
  unfold masterDefinitionsForCreate
  exact keepsBalancer_bind keepsBalancer_getCluster fun c =>
    keepsBalancer_forEach _ keepsBalancer_masterDefinition _

theorem keepsBalancer_workerNodePoolDefinitions (pool : WorkerConfig) :
    KeepsBalancer (workerNodePoolDefinitions pool) := by
  unfold workerNodePoolDefinitions
  repeat' first
    | exact keepsBalancer_pure _
    | exact keepsBalancer_halt _
    | exact keepsBalancer_masterLocation
    | exact keepsBalancer_forEach _ (keepsBalancer_workerDefinition _) _
    | apply keepsBalancer_bind
    | split
    | intro _

theorem keepsBalancer_serverConfigs : KeepsBalancer serverConfigs := by
  unfold serverConfigs
  repeat' first
    | exact keepsBalancer_pure _
    | exact keepsBalancer_getCluster
    | exact keepsBalancer_masterDefinitionsForCreate
    | exact keepsBalancer_forEach _ keepsBalancer_workerNodePoolDefinitions _
    | apply keepsBalancer_bind
    | intro _

theorem keepsBalancer_createAll : ∀ l : List ServerCreateOpts, KeepsBalancer (createAll l)
  | [] => by
    unfold createAll
    exact keepsBalancer_pure _
  | opts :: rest => by
    unfold createAll
    refine keepsBalancer_bind (keepsBalancer_CreateServer opts) fun r => ?_
    refine keepsBalancer_bind (keepsBalancer_createAll rest) fun p => ?_
    repeat' first
      | exact keepsBalancer_pure _
      | split

theorem keepsBalancer_waitForSSH (server : Server) : KeepsBalancer (waitForSSH server) := by
  unfold waitForSSH
  refine keepsBalancer_bind (keepsBalancer_retryDo _ (keepsBalancer_readyProbe server) 15) fun r => ?_
  split <;> exact keepsBalancer_pure _

theorem keepsBalancer_waitAll : ∀ l : List Server, KeepsBalancer (waitAll l)
  | [] => by
    unfold waitAll
    exact keepsBalancer_pure _
  | server :: rest => by
    unfold waitAll
    refine keepsBalancer_bind (keepsBalancer_waitForSSH server) fun r => ?_
    refine keepsBalancer_bind (keepsBalancer_waitAll rest) fun e => ?_
    split <;> exact keepsBalancer_pure _

theorem keepsBalancer_serverList : KeepsBalancer serverList := by
  unfold serverList
  refine keepsBalancer_apiCall _ _ ?_
  repeat' first
    | exact keepsBalancer_pure _
    | exact keepsBalancer_halt _
    | exact keepsBalancer_getCluster
    | exact keepsBalancer_getEnv
    | exact keepsBalancer_getProvider
    | exact keepsBalancer_modifyProvider _
    | exact keepsBalancer_modifyCluster _ (fun _ => rfl)
    | exact keepsBalancer_serverConfigs
    | exact keepsBalancer_createAll _
    | exact keepsBalancer_waitAll _
    | apply keepsBalancer_bind
    | split
    | intro _
    | dsimp only

theorem keepsBalancer_fetchServers : KeepsBalancer fetchServers := by
  unfold fetchServers
  repeat' first
    | exact keepsBalancer_pure _
    | exact keepsBalancer_halt _
    | exact keepsBalancer_getCluster
    | exact keepsBalancer_getEnv
    | exact keepsBalancer_getProvider
    | exact keepsBalancer_modifyProvider _
    | exact keepsBalancer_modifyCluster _ (fun _ => rfl)
    | exact keepsBalancer_serverList
    | exact keepsBalancer_serverConfigs
    | exact keepsBalancer_createAll _
    | exact keepsBalancer_waitAll _
    | apply keepsBalancer_bind
    | split
    | intro _
    | dsimp only

theorem keepsBalancer_GetAllServers : KeepsBalancer GetAllServers := by
  unfold GetAllServers
  repeat' first
    | exact keepsBalancer_pure _
    | exact keepsBalancer_halt _
    | exact keepsBalancer_getCluster
    | exact keepsBalancer_getEnv
    | exact keepsBalancer_getProvider
    | exact keepsBalancer_modifyProvider _
    | exact keepsBalancer_modifyCluster _ (fun _ => rfl)
    | exact keepsBalancer_serverList
    | exact keepsBalancer_fetchServers
    | exact keepsBalancer_serverConfigs
    | exact keepsBalancer_createAll _
    | exact keepsBalancer_waitAll _
    | apply keepsBalancer_bind
    | split
    | intro _
    | dsimp only

theorem keepsBalancer_allServers : KeepsBalancer allServers := by
  unfold allServers
  repeat' first
    | exact keepsBalancer_pure _
    | exact keepsBalancer_halt _
    | exact keepsBalancer_getCluster
    | exact keepsBalancer_getEnv
    | exact keepsBalancer_getProvider
    | exact keepsBalancer_modifyProvider _
    | exact keepsBalancer_modifyCluster _ (fun _ => rfl)
    | exact keepsBalancer_serverList
    | exact keepsBalancer_fetchServers
    | exact keepsBalancer_GetAllServers
    | exact keepsBalancer_serverConfigs
    | exact keepsBalancer_createAll _
    | exact keepsBalancer_waitAll _
    | apply keepsBalancer_bind
    | split
    | intro _
    | dsimp only

theorem keepsBalancer_masters : KeepsBalancer masters := by
  unfold masters
  repeat' first
    | exact keepsBalancer_pure _
    | exact keepsBalancer_halt _
    | exact keepsBalancer_getCluster
    | exact keepsBalancer_getEnv
    | exact keepsBalancer_getProvider
    | exact keepsBalancer_modifyProvider _
    | exact keepsBalancer_modifyCluster _ (fun _ => rfl)
    | exact keepsBalancer_serverList
    | exact keepsBalancer_fetchServers
    | exact keepsBalancer_GetAllServers
    | exact keepsBalancer_allServers
    | exact keepsBalancer_serverConfigs
    | exact keepsBalancer_createAll _
    | exact keepsBalancer_waitAll _
    | apply keepsBalancer_bind
    | split
    | intro _
    | dsimp only

theorem keepsBalancer_workers : KeepsBalancer workers := by
  unfold workers
  repeat' first
    | exact keepsBalancer_pure _
    | exact keepsBalancer_halt _
    | exact keepsBalancer_getCluster
    | exact keepsBalancer_getEnv
    | exact keepsBalancer_getProvider
    | exact keepsBalancer_modifyProvider _
    | exact keepsBalancer_modifyCluster _ (fun _ => rfl)
    | exact keepsBalancer_serverList
    | exact keepsBalancer_fetchServers
    | exact keepsBalancer_GetAllServers
    | exact keepsBalancer_allServers
    | exact keepsBalancer_masters
    | exact keepsBalancer_serverConfigs
    | exact keepsBalancer_createAll _
    | exact keepsBalancer_waitAll _
    | apply keepsBalancer_bind
    | split
    | intro _
    | dsimp only

theorem keepsBalancer_createServers (order probeOrder : List Nat) : KeepsBalancer (createServers order probeOrder) := by
  unfold createServers
  repeat' first
    | exact keepsBalancer_pure _
    | exact keepsBalancer_halt _
    | exact keepsBalancer_getCluster
    | exact keepsBalancer_getEnv
    | exact keepsBalancer_getProvider
    | exact keepsBalancer_modifyProvider _
    | exact keepsBalancer_modifyCluster _ (fun _ => rfl)
    | exact keepsBalancer_serverList
    | exact keepsBalancer_fetchServers
    | exact keepsBalancer_GetAllServers
    | exact keepsBalancer_allServers
    | exact keepsBalancer_masters
    | exact keepsBalancer_workers
    | exact keepsBalancer_serverConfigs
    | exact keepsBalancer_createAll _
    | exact keepsBalancer_waitAll _
    | apply keepsBalancer_bind
    | split
    | intro _
    | dsimp only

/-! ## C4: the address of the load balancer -/

/-- After `CreateLoadBalancer` has returned a balancer, the provider holds a
balancer of that name with the same id, and with the same public address when the
returned handle carries one; a later call against the same provider issues only the
lookup and returns that balancer of the provider. -/
theorem CreateLoadBalancer_found_again (w w2 : World) (net net2 : Network)
    (loc loc2 : Option Location) (lb0 : LoadBalancer)
    (h : (CreateLoadBalancer net loc w).1 = .ok (.ok lb0))
    (hp : w2.provider = (CreateLoadBalancer net loc w).2.provider)
    (he : w2.env = w.env) (hc : w2.cluster.config = w.cluster.config) :
    ∃ lb, CreateLoadBalancer net2 loc2 w2 =
        (.ok (.ok lb), { w2 with log := w2.log ++
          [⟨.get, .loadBalancer, w.cluster.config.clusterName ++ "-api"⟩] }) ∧
      lb.id = lb0.id ∧ lb.name = lb0.name ∧
      w2.provider.loadBalancers.find?
        (fun l => decide (l.name = w.cluster.config.clusterName ++ "-api")) = some lb ∧
      (lb0.publicIP.isSome = true → lb.publicIP = lb0.publicIP) := by
  rw [CreateLoadBalancer_apply] at h hp
  rw [CreateLoadBalancer_apply, he, hc]
  cases hget : w.env.apiFails ⟨.get, .loadBalancer, w.cluster.config.clusterName ++ "-api"⟩ with
  | true => simp [hget] at h
  | false =>
    simp only [hget, Bool.false_eq_true, if_false] at h hp ⊢
    cases hfind : w.provider.loadBalancers.find? fun l =>
        decide (l.name = w.cluster.config.clusterName ++ "-api") with
    | some lbf =>
      simp only [hfind, bind_apply, loadbalancerAddLabelSelector_apply] at h hp
      by_cases hany : LBTarget.labelSelector (masterSelector w.cluster.config.clusterName) ∈
          lbf.targets
      · simp only [hany, if_true, pure_apply, Outcome.ok.injEq, Except.ok.injEq] at h hp
        subst h
        refine ⟨lbf, ?_, rfl, rfl, ?_, fun _ => rfl⟩
        · rw [hp, hfind]
          simp [bind_apply, loadbalancerAddLabelSelector_apply, hc, hany, pure_apply]
        · rw [hp, hfind]
      · cases hadd : w.env.apiFails ⟨.addTarget, .loadBalancer, lbf.name⟩ with
        | true => simp [hany, hadd, pure_apply] at h
        | false =>
          simp only [hany, hadd, if_false, Bool.false_eq_true, pure_apply, Outcome.ok.injEq,
            Except.ok.injEq] at h hp
          subst h
          have hmap : (w.provider.loadBalancers.map fun l =>
                if l.id = lbf.id then
                  { l with targets := l.targets ++
                      [.labelSelector (masterSelector w.cluster.config.clusterName)] }
                else l).find? (fun l => decide (l.name = w.cluster.config.clusterName ++ "-api")) =
              some { lbf with targets := lbf.targets ++
                [.labelSelector (masterSelector w.cluster.config.clusterName)] } := by
            rw [find?_map_preserving _ _ _ w.provider.loadBalancers, hfind]
            · simp
            · intro a
              split <;> rfl
          refine ⟨{ lbf with targets := lbf.targets ++
            [.labelSelector (masterSelector w.cluster.config.clusterName)] }, ?_, rfl, rfl, ?_,
            fun _ => rfl⟩
          · rw [hp]
            simp only [hmap]
            simp [bind_apply, loadbalancerAddLabelSelector_apply, hc, pure_apply]
          · rw [hp]
            exact hmap
    | none =>
      simp only [hfind, bind_apply, loadBalancerCreate_apply] at h hp
      cases hcreate : w.env.apiFails
          ⟨.create, .loadBalancer, w.cluster.config.clusterName ++ "-api"⟩ with
      | true => simp [hcreate, pure_apply] at h
      | false =>
        simp only [hcreate, Bool.false_eq_true, if_false, bind_apply,
          loadbalancerAddLabelSelector_apply,
          List.mem_singleton, if_true, pure_apply, Outcome.ok.injEq, Except.ok.injEq] at h hp
        subst h
        refine ⟨{ id := w.provider.nextID, name := w.cluster.config.clusterName ++ "-api",
                  publicIP := some (w.env.addressOf w.provider.nextID),
                  targets := [.labelSelector (masterSelector w.cluster.config.clusterName)] },
          ?_, rfl, rfl, ?_, fun hsome => ?_⟩
        · rw [hp]
          simp [List.find?_append, hfind, bind_apply, loadbalancerAddLabelSelector_apply, hc,
            pure_apply]
        · rw [hp]
          simp [List.find?_append, hfind]
        · simp at hsome

theorem loadBalancer_refetch_found (wn w2 : World) (net : Network) (lb : LoadBalancer)
    (hcl : (CreateLoadBalancer net none wn).1 = .ok (.ok lb))
    (hp : w2.provider = (CreateLoadBalancer net none wn).2.provider)
    (he : w2.env = wn.env) (hcfg : w2.cluster.config = wn.cluster.config)
    (hcache : w2.cluster.loadBalancer = some lb) (hnet : w2.cluster.network = some net)
    (hip : ¬ lb.publicIP.isSome = true) :
    ∃ lb2, (loadBalancer w2).1 = .ok lb2 ∧ lb2.id = lb.id ∧ lb2.name = lb.name ∧
      w2.provider.loadBalancers.find?
        (fun l => decide (l.name = wn.cluster.config.clusterName ++ "-api")) = some lb2 ∧
      (loadBalancer w2).2.log =
        w2.log ++ [⟨.get, .loadBalancer, wn.cluster.config.clusterName ++ "-api"⟩] := by
  obtain ⟨lb2, hrun, hid, hname, hfind, -⟩ :=
    CreateLoadBalancer_found_again wn w2 net net none none lb hcl hp he hcfg
  refine ⟨lb2, ?_, hid, hname, hfind, ?_⟩
  · rw [loadBalancer_apply, hcache]
    simp only [Option.filter, hip, Bool.false_eq_true, if_false]
    rw [bind_apply, network_apply, hnet]
    simp only [bind_apply, hrun, modifyCluster, pure_apply]
  · rw [loadBalancer_apply, hcache]
    simp only [Option.filter, hip, Bool.false_eq_true, if_false]
    rw [bind_apply, network_apply, hnet]
    simp only [bind_apply, hrun, modifyCluster, pure_apply]

/-- After a successful `loadBalancer()` the handle is cached, and a second call
returns the cached handle itself when it carries a public address, and otherwise
the balancer the provider holds under that name, issuing at most the lookup.  When
the cache was empty before, the returned balancer has the id and the public address
of the balancer the provider holds under that name. -/
theorem loadBalancer_resolved (w : World) (lb0 : LoadBalancer)
    (h : (loadBalancer w).1 = .ok lb0) :
    (loadBalancer w).2.cluster.loadBalancer = some lb0 ∧
    ∃ lb calls, (loadBalancer (loadBalancer w).2).1 = .ok lb ∧
      lb.id = lb0.id ∧ lb.name = lb0.name ∧
      ((lb0.publicIP.isSome = true ∧ lb = lb0) ∨
        (lb0.publicIP.isSome = false ∧
          (loadBalancer w).2.provider.loadBalancers.find?
            (fun l => decide (l.name = w.cluster.config.clusterName ++ "-api")) = some lb)) ∧
      (w.cluster.loadBalancer = none →
        ∃ plb, (loadBalancer w).2.provider.loadBalancers.find?
            (fun l => decide (l.name = w.cluster.config.clusterName ++ "-api")) = some plb ∧
          plb.id = lb.id ∧ plb.publicIP = lb.publicIP) ∧
      (loadBalancer (loadBalancer w).2).2.log = (loadBalancer w).2.log ++ calls ∧
      ∀ c ∈ calls, c.op = .get := by
  cases hf : w.cluster.loadBalancer.filter fun lb => lb.publicIP.isSome with
  | some lb =>
    have hc : w.cluster.loadBalancer = some lb ∧ lb.publicIP.isSome = true := by
      cases hl : w.cluster.loadBalancer with
      | none => simp [hl, Option.filter] at hf
      | some x =>
        by_cases hx : x.publicIP.isSome = true
        · simp [hl, Option.filter, hx] at hf
          rw [← hf]
          exact ⟨rfl, hx⟩
        · simp [hl, Option.filter, hx] at hf
    have hrun := loadBalancer_cached w lb hc.1 hc.2
    rw [hrun] at h ⊢
    simp only [Outcome.ok.injEq] at h
    subst h
    refine ⟨hc.1, lb, [], ?_, rfl, rfl, Or.inl ⟨hc.2, rfl⟩, ?_, ?_, ?_⟩
    · rw [hrun]
    · intro hnone
      rw [hc.1] at hnone
      exact absurd hnone (by simp)
    · rw [hrun]
      simp
    · simp
  | none =>
    have hcfgn : (network w).2.cluster.config = w.cluster.config :=
      config_kept (emits_network (P := fun _ => True) (fun _ _ => trivial)) w
    rw [loadBalancer_apply w] at h ⊢
    simp only [hf] at h ⊢
    cases hn : (network w).1 with
    | halt x =>
      rw [bind_halt _ _ _ _ hn] at h
      simp at h
    | ok net =>
      rw [bind_ok _ _ _ _ hn] at h ⊢
      cases hcl : (CreateLoadBalancer net none (network w).2).1 with
      | halt x =>
        rw [bind_halt _ _ _ _ hcl] at h
        simp at h
      | ok r =>
        rw [bind_ok _ _ _ _ hcl] at h ⊢
        cases r with
        | error e => simp [halt] at h
        | ok lb =>
          simp only [bind_apply, modifyCluster, pure_apply, Outcome.ok.injEq] at h ⊢
          subst h
          refine ⟨rfl, ?_⟩
          have hnet : (CreateLoadBalancer net none (network w).2).2.cluster.network = some net := by
            rw [(keepsCluster_iff _).mp (keepsCluster_CreateLoadBalancer net none)]
            exact network_ok_cached w net hn
          have hsteps := (emits_iff _ _).mp
            (emits_CreateLoadBalancer (P := fun _ => True) net none (fun _ _ => trivial))
            (network w).2
          obtain ⟨lb2, hrun, hid, hname, hfind, hsame⟩ :=
            CreateLoadBalancer_found_again (network w).2
              { (CreateLoadBalancer net none (network w).2).2 with
                cluster := { (CreateLoadBalancer net none (network w).2).2.cluster with
                  loadBalancer := some lb } }
              net net none none lb hcl rfl hsteps.1 hsteps.2.1
          rw [hcfgn] at hfind
          by_cases hip : lb.publicIP.isSome = true
          · refine ⟨lb, [], ?_, rfl, rfl, Or.inl ⟨hip, rfl⟩, fun _ => ⟨lb2, hfind, hid, hsame hip⟩,
              ?_, ?_⟩
            · rw [loadBalancer_cached _ lb rfl hip]
            · rw [loadBalancer_cached _ lb rfl hip]
              simp
            · simp
          · obtain ⟨lb3, k1, k2, k3, k4, k5⟩ := loadBalancer_refetch_found (network w).2
              { (CreateLoadBalancer net none (network w).2).2 with
                cluster := { (CreateLoadBalancer net none (network w).2).2.cluster with
                  loadBalancer := some lb } }
              net lb hcl rfl hsteps.1 hsteps.2.1 rfl hnet hip
            rw [hcfgn] at k4
            exact ⟨lb3, _, k1, k2, k3, Or.inr ⟨by simpa using hip, k4⟩,
              fun _ => ⟨lb3, k4, rfl, rfl⟩, k5, by simp⟩

/-- C4: load balancer gating in the create workflow.  (1) `createResources` never
issues more than one load-balancer creation call.  (2) With one master it issues no
load-balancer call at all, and `apiServerIP` afterwards is `firstMasterPublicIP`:
the public IPv4 address of the first cached master, read without a provider call.
(3) With more than one master, when `createResources` succeeds the load balancer is
resolved: its handle `lb0` is cached.  `apiServerIP` afterwards returns the public
IPv4 address of the balancer `lb` that `loadBalancer()` returns then, which is the
cached handle itself when that carries an address, and otherwise the balancer the
provider holds under the name `<cluster>-api`, fetched again; it issues nothing but
a lookup.  When the run started without a cached balancer, that address is the
public address of the balancer the provider holds under the name `<cluster>-api`. -/
theorem createResources_load_balancer_gating (w : World) (order probeOrder : List Nat) :
    (∃ calls, (createResources order probeOrder w).2.log = w.log ++ calls ∧
      creations .loadBalancer calls ≤ 1) ∧
    (mastersSize w.cluster = 1 →
      (∃ calls, (createResources order probeOrder w).2.log = w.log ++ calls ∧
        ∀ c ∈ calls, c.kind ≠ .loadBalancer) ∧
      apiServerIP (createResources order probeOrder w).2 =
        firstMasterPublicIP (createResources order probeOrder w).2 ∧
      ∀ first rest,
        (createResources order probeOrder w).2.cluster.masterInstances = first :: rest →
        apiServerIP (createResources order probeOrder w).2 =
          (.ok (ipString first.publicIP), (createResources order probeOrder w).2)) ∧
    (mastersSize w.cluster > 1 → (createResources order probeOrder w).1 = .ok none →
      ∃ (lb0 lb : LoadBalancer) (calls : List Call),
        (createResources order probeOrder w).2.cluster.loadBalancer = some lb0 ∧
        (loadBalancer (createResources order probeOrder w).2).1 = .ok lb ∧
        (apiServerIP (createResources order probeOrder w).2).1 = .ok (ipString lb.publicIP) ∧
        lb.id = lb0.id ∧ lb.name = lb0.name ∧
        ((lb0.publicIP.isSome = true ∧ lb = lb0) ∨
          (lb0.publicIP.isSome = false ∧
            (createResources order probeOrder w).2.provider.loadBalancers.find?
              (fun l => decide (l.name = w.cluster.config.clusterName ++ "-api")) = some lb)) ∧
        (w.cluster.loadBalancer = none →
          ∃ plb, (createResources order probeOrder w).2.provider.loadBalancers.find?
              (fun l => decide (l.name = w.cluster.config.clusterName ++ "-api")) = some plb ∧
            plb.id = lb.id ∧
            (apiServerIP (createResources order probeOrder w).2).1 =
              .ok (ipString plb.publicIP)) ∧
        (apiServerIP (createResources order probeOrder w).2).2.log =
          (createResources order probeOrder w).2.log ++ calls ∧
        ∀ c ∈ calls, c.op = .get) := by
  refine ⟨(createsAtMost_iff _ _ _).mp (createsAtMost_createResources order probeOrder) w, ?_, ?_⟩
  · intro h1
    have hs := createResources_single_master w order probeOrder (by omega)
    have hcount : ¬ (createResources order probeOrder w).2.cluster.config.masters.instanceCount
        > 1 := by
      rw [hs.2.1]
      unfold mastersSize at h1
      omega
    have hapi := apiServerIP_single_master _ hcount
    refine ⟨?_, hapi, ?_⟩
    · obtain ⟨_, _, _, calls, hl, hp⟩ := hs
      exact ⟨calls, hl, fun c hc => (hp c hc).1⟩
    · intro first rest hm
      rw [hapi]
      simp [firstMasterPublicIP, bind_apply, getCluster, hm, pure_apply]
  · intro hgt hok
    have hs := (emits_iff _ _).mp
      (emits_createServers (P := fun _ => True) order probeOrder (fun _ _ => trivial)) w
    have hkeep := (keepsBalancer_iff _).mp (keepsBalancer_createServers order probeOrder) w
    unfold createResources at hok ⊢
    rw [bind_apply] at hok ⊢
    generalize createServers order probeOrder w = r at hs hok hkeep
    obtain ⟨o, w1⟩ := r
    cases o with
    | halt x => simp at hok
    | ok e =>
      cases e with
      | some e => simp [pure_apply] at hok
      | none =>
        have hc1 : mastersSize w1.cluster > 1 := by
          unfold mastersSize at hgt ⊢
          rw [hs.2.1]
          exact hgt
        have hname : w1.cluster.config.clusterName = w.cluster.config.clusterName := by
          rw [hs.2.1]
        simp only [bind_apply, getCluster, hc1, if_true] at hok ⊢
        cases hlb : (loadBalancer w1).1 with
        | halt x =>
          generalize loadBalancer w1 = r at hlb hok
          obtain ⟨o, w2⟩ := r
          simp only at hlb
          subst hlb
          simp at hok
        | ok lb0 =>
          obtain ⟨hcache, lb, calls, k1, k2, k3, kor, kfresh, k4, k5⟩ :=
            loadBalancer_resolved w1 lb0 hlb
          rw [hname] at kor kfresh
          have hs2 := (emits_iff _ _).mp
            (emits_loadBalancer (P := fun _ => True) (fun _ _ => trivial)) w1
          have hc2 : (loadBalancer w1).2.cluster.config.masters.instanceCount > 1 := by
            rw [hs2.2.1]
            exact hc1
          generalize loadBalancer w1 = r at hlb hcache k1 k4 hc2 kor kfresh
          obtain ⟨o, w2⟩ := r
          simp only at hlb
          subst hlb
          simp only [pure_apply] at hcache k1 k4 hc2 kor kfresh ⊢
          have hapi : (apiServerIP w2).1 = .ok (ipString lb.publicIP) := by
            simp only [apiServerIP, bind_apply, getCluster, hc2, if_true]
            generalize loadBalancer w2 = r2 at k1
            obtain ⟨o2, w3⟩ := r2
            simp only at k1
            subst k1
            rfl
          refine ⟨lb0, lb, calls, hcache, k1, hapi, k2, k3, kor, ?_, ?_, k5⟩
          · intro hnone
            obtain ⟨plb, p1, p2, p3⟩ := kfresh (hkeep.trans hnone)
            exact ⟨plb, p1, p2, by rw [hapi, p3]⟩
          · simp only [apiServerIP, bind_apply, getCluster, hc2, if_true]
            generalize loadBalancer w2 = r2 at k1 k4
            obtain ⟨o2, w3⟩ := r2
            simp only at k1
            subst k1
            exact k4

/-- C4, on a fresh single-master cluster (no load-balancer call) and on a fresh
three-master cluster: the balancer is resolved, and `apiServerIP` is the address
`192.0.2.8` that the provider holds for the balancer `demo-api`. -/
theorem createResources_load_balancer_gating_witness :
    (∃ calls, (createResources [] [] freshSingle).2.log = freshSingle.log ++ calls ∧
      ∀ c ∈ calls, c.kind ≠ .loadBalancer) ∧
    (∃ (lb0 lb : LoadBalancer) (calls : List Call),
      (createResources [2, 0] [1] freshTriple).2.cluster.loadBalancer = some lb0 ∧
      (loadBalancer (createResources [2, 0] [1] freshTriple).2).1 = .ok lb ∧
      (apiServerIP (createResources [2, 0] [1] freshTriple).2).1 = .ok (ipString lb.publicIP) ∧
      lb.id = lb0.id ∧ lb.name = lb0.name ∧
      ((lb0.publicIP.isSome = true ∧ lb = lb0) ∨
        (lb0.publicIP.isSome = false ∧
          (createResources [2, 0] [1] freshTriple).2.provider.loadBalancers.find?
            (fun l => decide (l.name = freshTriple.cluster.config.clusterName ++ "-api")) =
              some lb)) ∧
      (freshTriple.cluster.loadBalancer = none →
        ∃ plb, (createResources [2, 0] [1] freshTriple).2.provider.loadBalancers.find?
            (fun l => decide (l.name = freshTriple.cluster.config.clusterName ++ "-api")) =
              some plb ∧
          plb.id = lb.id ∧
          (apiServerIP (createResources [2, 0] [1] freshTriple).2).1 =
            .ok (ipString plb.publicIP)) ∧
      (apiServerIP (createResources [2, 0] [1] freshTriple).2).2.log =
        (createResources [2, 0] [1] freshTriple).2.log ++ calls ∧
      ∀ c ∈ calls, c.op = .get) ∧
    ((createResources [2, 0] [1] freshTriple).2.provider.loadBalancers.map
        (fun l => (l.name, l.publicIP)) = [("demo-api", some "192.0.2.8")] ∧
      (apiServerIP (createResources [2, 0] [1] freshTriple).2).1 = .ok "192.0.2.8") :=
  ⟨((createResources_load_balancer_gating freshSingle [] []).2.1 (by decide!)).1,
    (createResources_load_balancer_gating freshTriple [2, 0] [1]).2.2 (by decide!) (by decide!),
    by decide!⟩

end HetznerK3s
